import Mathlib

/-!
# pocketwatch: sentence parser, waypoint gesture recogniser and hand engine

A shallow embedding of `pocketwatch.GPS.H`, `pocketwatch.WaypointKeeper.H`,
`pocketwatch.Display.H` and `pocketwatch.Motor.H`.

* Characters are natural numbers (their byte value); `(byte)` casts and `uint8_t`
  stores are written with an explicit `% 256`, `unsigned long` arithmetic with an
  explicit `% 2^32`.
* The receive buffer `receivedData` is a list of bytes; a `const char*` into it is an
  index, and `NULL` is `none`.
* Floating point is not interpreted: the operations the decoders use (`atof`, `+`, `*`,
  `/`, the literals) are the fields of a `FloatOps` parameter, so every theorem holds for
  whatever arithmetic the target provides.
* The serial link is the list of bytes it delivers and the button is the level
  `digitalRead` returns; `GPS.feed` is one iteration of the receive loop.
* The EEPROM is its initial content together with the list of byte writes made so far,
  so that the number of commits can be read off the state.
-/

namespace pocketwatch

/-! ## Floating point, taken as a parameter -/

/-- The floating-point operations used by the sentence decoders. `F` carries both
`double` and `float` values; `toFloat` is the narrowing store into a `float` field. -/
structure FloatOps (F : Type) where
  /-- Literal `0.0` and `0.0f`. -/
  zero : F
  /-- Literal `-1.0` and `-1.0f`. -/
  negOne : F
  /-- Literal `60.0`. -/
  sixty : F
  /-- Value of `POCKETWATCH__GPS__DEGTORAD`. -/
  degToRad : F
  /-- Conversion of an `int` to `double`. -/
  ofNat : Nat → F
  add : F → F → F
  mul : F → F → F
  div : F → F → F
  /-- Narrowing of a `double` to `float`. -/
  toFloat : F → F
  /-- Library `atof`, applied to the characters of a C string (terminator excluded). -/
  atof : List Nat → F

/-! ## Data model -/

/-- Bit `POCKETWATCH__GPS__HASRMC`. -/
def HASRMC : Nat := 1

/-- Bit `POCKETWATCH__GPS__HASGGA`. -/
def HASGGA : Nat := 2

/-- Size `POCKETWATCH__GPS__MAXDATACHARS` of the receive buffer. -/
def MAXDATACHARS : Nat := 180

/-- One fix record, `struct GPSData`. -/
structure GPSData (F : Type) where
  yearSince2000 : Nat
  month : Nat
  day : Nat
  hour : Nat
  minute : Nat
  second : Nat
  latitude : F
  longitude : F
  groundSpeedKnots : F
  trackAngle : F
  altitudeMeters : F
  validFlags : Nat
deriving DecidableEq, Repr

/-- The constructor `GPSData::GPSData()`: every field zero. -/
def GPSData.empty {F : Type} (ops : FloatOps F) : GPSData F :=
  { yearSince2000 := 0, month := 0, day := 0, hour := 0, minute := 0, second := 0,
    latitude := ops.zero, longitude := ops.zero,
    groundSpeedKnots := ops.zero, trackAngle := ops.zero, altitudeMeters := ops.zero,
    validFlags := 0 }

/-- The parser state, `class GPS` (the serial link is the stream of bytes fed in). -/
structure GPS (F : Type) where
  lastReadTime : Nat
  receivedData : List Nat
  receivedDataCount : Nat
  activeGPSData : Nat
  gpsData0 : GPSData F
  gpsData1 : GPSData F
deriving DecidableEq, Repr

namespace GPS

variable {F : Type}

/-- Element `gpsData[i]` of the two-slot array. -/
def gpsData (g : GPS F) (i : Nat) : GPSData F :=
  if i = 0 then g.gpsData0 else g.gpsData1

/-- Assignment to `gpsData[i]`. -/
def setGpsData (g : GPS F) (i : Nat) (d : GPSData F) : GPS F :=
  if i = 0 then { g with gpsData0 := d } else { g with gpsData1 := d }

/-- The constructor `GPS::GPS`: count zero, slot 0 active, both records empty. The
array `receivedData` is not written by the constructor, so its content `buf` is
whatever the storage holds. -/
def new (ops : FloatOps F) (buf : List Nat) : GPS F :=
  { lastReadTime := 0, receivedData := buf, receivedDataCount := 0,
    activeGPSData := 0, gpsData0 := GPSData.empty ops, gpsData1 := GPSData.empty ops }

/-- Accessor `getGPSData`. -/
def getGPSData (g : GPS F) : GPSData F := g.gpsData g.activeGPSData

end GPS

/-! ## Character helpers -/

/-- Function `charToInt`: value of a hexadecimal digit, 0 for anything else. -/
def charToInt (c : Nat) : Nat :=
  if 48 ≤ c ∧ c ≤ 57 then (c - 48) % 256
  else if 65 ≤ c ∧ c ≤ 70 then (c - 65 + 10) % 256
  else if 97 ≤ c ∧ c ≤ 102 then (c - 97 + 10) % 256
  else 0

/-- Library `strchr` on the C string starting at index `i` of the buffer whose
remaining cells are the first argument: index of the first `c`, `none` when the
terminator comes first. -/
def strchrFrom : List Nat → Nat → Nat → Option Nat
  | [], _, _ => none
  | x :: xs, i, c =>
    if x = c then some i else if x = 0 then none else strchrFrom xs (i + 1) c

/-- Library `strchr(buf + p, c)`. -/
def strchr (buf : List Nat) (p c : Nat) : Option Nat :=
  strchrFrom (buf.drop p) p c

/-- The characters of the C string at `buf + p`, terminator excluded. -/
def cstr (buf : List Nat) (p : Nat) : List Nat :=
  (buf.drop p).takeWhile (fun x => x != 0)

/-- Library `strlen(buf + p)`. -/
def strlen (buf : List Nat) (p : Nat) : Nat := (cstr buf p).length

/-- Library `strncmp(s, t, n) == 0`: the first `n` characters agree, or the strings
agree up to a common terminator before that. -/
def strncmpEq : List Nat → List Nat → Nat → Bool
  | _, _, 0 => true
  | s, t, n + 1 =>
    if s.headD 0 != t.headD 0 then false
    else if s.headD 0 == 0 then true
    else strncmpEq s.tail t.tail n

/-- Function `advancePastComma`: the position just after the next comma, provided at
least `numCharsNeeded` characters follow it. -/
def advancePastComma (buf : List Nat) (p : Option Nat) (numCharsNeeded : Nat) :
    Option Nat :=
  match p with
  | none => none
  | some p =>
    match strchr buf p 44 with
    | none => none
    | some q => if strlen buf (q + 1) < numCharsNeeded then none else some (q + 1)

/-- Header literal `"$GPRMC,"`. -/
def hdrRMC : List Nat := [36, 71, 80, 82, 77, 67, 44]

/-- Header literal `"$GPGGA,"`. -/
def hdrGGA : List Nat := [36, 71, 80, 71, 71, 65, 44]

/-! ## The sentence parser -/

namespace GPS

variable {F : Type}

/-- Method `resetReceivedData`: count zero and every buffer cell cleared. -/
def resetReceivedData (g : GPS F) : GPS F :=
  { g with receivedDataCount := 0,
           receivedData := (List.range MAXDATACHARS).foldl (fun b i => b.set i 0)
             g.receivedData }

/-- Method `receivedDataIsComplete`, on the members `receivedData` and
`receivedDataCount` it reads: the buffer ends in `*xx\r\n`. -/
def receivedDataIsComplete (receivedData : List Nat) (receivedDataCount : Nat) : Bool :=
  decide (5 ≤ receivedDataCount) &&
  (receivedData.getD (receivedDataCount - 1) 0 == 10) &&
  (receivedData.getD (receivedDataCount - 5) 0 == 42)

/-- Local `endChar` of `receivedDataIsValid`, a `uint8_t`. -/
def endChar (receivedDataCount : Nat) : Nat := (receivedDataCount + 256 - 5) % 256

/-- The checksum loop of `receivedDataIsValid`: exclusive-or of the bytes at the
indices `i, i+1, ...` (as many as the first argument says) into the accumulator. -/
def checksumLoop (buf : List Nat) : Nat → Nat → Nat → Nat
  | 0, _, acc => acc
  | n + 1, i, acc => checksumLoop buf n (i + 1) ((acc ^^^ (buf.getD i 0 % 256)) % 256)

/-- Local `calcChecksum` of `receivedDataIsValid` after the loop
`for (i = 1; i < endChar; ++i)`. -/
def calcChecksum (receivedData : List Nat) (receivedDataCount : Nat) : Nat :=
  checksumLoop receivedData (endChar receivedDataCount - 1) 1 0

/-- Local `expectedChecksum` of `receivedDataIsValid`. -/
def expectedChecksum (receivedData : List Nat) (receivedDataCount : Nat) : Nat :=
  (charToInt (receivedData.getD (endChar receivedDataCount + 1) 0) * 16 +
   charToInt (receivedData.getD (endChar receivedDataCount + 2) 0)) % 256

/-- Method `receivedDataIsValid`, on the members `receivedData` and
`receivedDataCount` it reads: length, end marker, header and checksum. -/
def receivedDataIsValid (receivedData : List Nat) (receivedDataCount : Nat) : Bool :=
  if receivedDataCount < 12 ∨ receivedData.getD (endChar receivedDataCount) 0 ≠ 42 then false
  else if strncmpEq receivedData hdrRMC 7 = false ∧
          strncmpEq receivedData hdrGGA 7 = false then false
  else calcChecksum receivedData receivedDataCount ==
       expectedChecksum receivedData receivedDataCount

/-- The locals of `processRMCData` that live from one block of the method to the
next: the pointer `rest`, the flag `isActive`, and the record `data` being written. -/
structure DecodeState (F : Type) where
  rest : Option Nat
  isActive : Bool
  data : GPSData F

/-- Block of `processRMCData` reading the time `HHMMSS`. -/
def rmcTime (buf : List Nat) (st : DecodeState F) : DecodeState F :=
  let rest := advancePastComma buf st.rest 6
  match rest with
  | some r =>
    { st with rest := rest,
              data := { st.data with
                hour := (charToInt (buf.getD r 0) * 10 + charToInt (buf.getD (r + 1) 0)) % 256,
                minute := (charToInt (buf.getD (r + 2) 0) * 10 +
                           charToInt (buf.getD (r + 3) 0)) % 256,
                second := (charToInt (buf.getD (r + 4) 0) * 10 +
                           charToInt (buf.getD (r + 5) 0)) % 256 } }
  | none => { st with rest := rest, data := { st.data with hour := 0, minute := 0, second := 0 } }

/-- Block of `processRMCData` reading the status letter into `isActive`. -/
def rmcStatus (buf : List Nat) (st : DecodeState F) : DecodeState F :=
  let rest := advancePastComma buf st.rest 1
  match rest with
  | some r => { st with rest := rest, isActive := buf.getD r 0 == 65 }
  | none => { st with rest := rest, isActive := false }

/-- Block of `processRMCData` reading the latitude `LLMM.MMM`. -/
def rmcLatitude (ops : FloatOps F) (buf : List Nat) (st : DecodeState F) : DecodeState F :=
  let rest := advancePastComma buf st.rest 4
  match rest with
  | some r =>
    if st.isActive then
      let deg := ops.add
        (ops.ofNat (charToInt (buf.getD r 0) * 10 + charToInt (buf.getD (r + 1) 0)))
        (ops.div (ops.atof (cstr buf (r + 2))) ops.sixty)
      { st with rest := rest, data := { st.data with latitude := ops.mul deg ops.degToRad } }
    else { st with rest := rest }
  | none => { st with rest := rest, data := { st.data with latitude := ops.zero } }

/-- Block of `processRMCData` applying the hemisphere letter to the latitude. -/
def rmcLatitudeSign (ops : FloatOps F) (buf : List Nat) (st : DecodeState F) :
    DecodeState F :=
  let rest := advancePastComma buf st.rest 1
  match rest with
  | some r =>
    if buf.getD r 0 == 83 then
      { st with rest := rest,
                data := { st.data with latitude := ops.mul st.data.latitude ops.negOne } }
    else { st with rest := rest }
  | none => { st with rest := rest }

/-- Block of `processRMCData` reading the longitude `LLLMM.MMM`. -/
def rmcLongitude (ops : FloatOps F) (buf : List Nat) (st : DecodeState F) : DecodeState F :=
  let rest := advancePastComma buf st.rest 5
  match rest with
  | some r =>
    if st.isActive then
      let deg := ops.add
        (ops.ofNat (charToInt (buf.getD r 0) * 100 + charToInt (buf.getD (r + 1) 0) * 10 +
                    charToInt (buf.getD (r + 2) 0)))
        (ops.div (ops.atof (cstr buf (r + 3))) ops.sixty)
      { st with rest := rest, data := { st.data with longitude := ops.mul deg ops.degToRad } }
    else { st with rest := rest }
  | none => { st with rest := rest, data := { st.data with longitude := ops.zero } }

/-- Block of `processRMCData` applying the hemisphere letter to the longitude. -/
def rmcLongitudeSign (ops : FloatOps F) (buf : List Nat) (st : DecodeState F) :
    DecodeState F :=
  let rest := advancePastComma buf st.rest 1
  match rest with
  | some r =>
    if buf.getD r 0 == 87 then
      { st with rest := rest,
                data := { st.data with longitude := ops.mul st.data.longitude ops.negOne } }
    else { st with rest := rest }
  | none => { st with rest := rest }

/-- Block of `processRMCData` reading the ground speed. -/
def rmcSpeed (ops : FloatOps F) (buf : List Nat) (st : DecodeState F) : DecodeState F :=
  let rest := advancePastComma buf st.rest 2
  match rest with
  | some r =>
    { st with rest := rest,
              data := { st.data with groundSpeedKnots := ops.toFloat (ops.atof (cstr buf r)) } }
  | none => { st with rest := rest, data := { st.data with groundSpeedKnots := ops.zero } }

/-- Block of `processRMCData` reading the track angle. -/
def rmcTrack (ops : FloatOps F) (buf : List Nat) (st : DecodeState F) : DecodeState F :=
  let rest := advancePastComma buf st.rest 2
  match rest with
  | some r =>
    let track := ops.toFloat (ops.atof (cstr buf r))
    { st with rest := rest,
              data := { st.data with trackAngle := ops.toFloat (ops.mul track ops.degToRad) } }
  | none => { st with rest := rest, data := { st.data with trackAngle := ops.zero } }

/-- Block of `processRMCData` reading the date `DDMMYY`. -/
def rmcDate (buf : List Nat) (st : DecodeState F) : DecodeState F :=
  let rest := advancePastComma buf st.rest 6
  match rest with
  | some r =>
    { st with rest := rest,
              data := { st.data with
                day := (charToInt (buf.getD r 0) * 10 + charToInt (buf.getD (r + 1) 0)) % 256,
                month := (charToInt (buf.getD (r + 2) 0) * 10 +
                          charToInt (buf.getD (r + 3) 0)) % 256,
                yearSince2000 := (charToInt (buf.getD (r + 4) 0) * 10 +
                                  charToInt (buf.getD (r + 5) 0)) % 256 } }
  | none => { st with rest := rest }

/-- Method `processRMCData`, on the members `receivedData` and `receivedDataCount`
it reads and the record it writes; returns the buffer (with the terminator written)
and the record. The blocks of the method run in source order on the locals `rest`
(starting at `receivedData`), `isActive` and `data`. -/
def processRMCData (ops : FloatOps F) (buf0 : List Nat) (count : Nat) (data : GPSData F) :
    List Nat × GPSData F :=
  let buf := buf0.set (count - 2) 0
  let st : DecodeState F := { rest := some 0, isActive := false, data := data }
  let st := rmcTime buf st
  let st := rmcStatus buf st
  let st := rmcLatitude ops buf st
  let st := rmcLatitudeSign ops buf st
  let st := rmcLongitude ops buf st
  let st := rmcLongitudeSign ops buf st
  let st := rmcSpeed ops buf st
  let st := rmcTrack ops buf st
  let st := rmcDate buf st
  (buf, { st.data with validFlags := (st.data.validFlags ||| HASRMC) % 256 })

/-- The positional skips opening `processGGAData`: past the header, then past time,
latitude, direction, longitude, direction, fix quality, number of satellites and
dilution. -/
def ggaSkip (buf : List Nat) (st : DecodeState F) : DecodeState F :=
  let rest := advancePastComma buf st.rest 6 -- header
  let rest := advancePastComma buf rest 1 -- time
  let rest := advancePastComma buf rest 1 -- latitude
  let rest := advancePastComma buf rest 1 -- direction
  let rest := advancePastComma buf rest 1 -- longitude
  let rest := advancePastComma buf rest 1 -- direction
  let rest := advancePastComma buf rest 1 -- fix quality
  let rest := advancePastComma buf rest 1 -- number of satellites
  let rest := advancePastComma buf rest 1 -- dilution
  { st with rest := rest }

/-- Block of `processGGAData` reading the altitude. -/
def ggaAltitude (ops : FloatOps F) (buf : List Nat) (st : DecodeState F) : DecodeState F :=
  match st.rest with
  | some r =>
    { st with data := { st.data with altitudeMeters := ops.toFloat (ops.atof (cstr buf r)) } }
  | none => { st with data := { st.data with altitudeMeters := ops.zero } }

/-- Block of `processGGAData` checking the unit letter of the altitude. -/
def ggaUnits (ops : FloatOps F) (buf : List Nat) (st : DecodeState F) : DecodeState F :=
  let rest := advancePastComma buf st.rest 1
  match rest with
  | some r =>
    if buf.getD r 0 != 77 then
      { st with rest := rest, data := { st.data with altitudeMeters := ops.negOne } }
    else { st with rest := rest }
  | none => { st with rest := rest }

/-- Method `processGGAData`, on the members `receivedData` and `receivedDataCount`
it reads and the record it writes; returns the buffer (with the terminator written)
and the record. The blocks of the method run in source order on the locals `rest`
(starting at `receivedData`) and `data`; `isActive` is not used here. -/
def processGGAData (ops : FloatOps F) (buf0 : List Nat) (count : Nat) (data : GPSData F) :
    List Nat × GPSData F :=
  let buf := buf0.set (count - 2) 0
  let st : DecodeState F := { rest := some 0, isActive := false, data := data }
  let st := ggaSkip buf st
  let st := ggaAltitude ops buf st
  let st := ggaUnits ops buf st
  (buf, { st.data with validFlags := (st.data.validFlags ||| HASGGA) % 256 })

/-- Method `processGPSData(gpsData[slot])`: nothing for an invalid buffer, otherwise
the decoder chosen by the fourth character. -/
def processGPSData (ops : FloatOps F) (g : GPS F) (slot : Nat) : GPS F :=
  if receivedDataIsValid g.receivedData g.receivedDataCount = false then g
  else if g.receivedData.getD 3 0 = 82 then
    let r := processRMCData ops g.receivedData g.receivedDataCount (g.gpsData slot)
    ({ g with receivedData := r.1 }).setGpsData slot r.2
  else
    let r := processGGAData ops g.receivedData g.receivedDataCount (g.gpsData slot)
    ({ g with receivedData := r.1 }).setGpsData slot r.2

/-- Method `gpsDataIsComplete`: both flags set. -/
def gpsDataIsComplete (data : GPSData F) : Bool :=
  (data.validFlags &&& HASRMC != 0) && (data.validFlags &&& HASGGA != 0)

/-- Method `activateGPSData`: clear the flags of the active record, then make
`newActiveData` the active index. -/
def activateGPSData (g : GPS F) (newActiveData : Nat) : GPS F :=
  { (g.setGpsData g.activeGPSData { g.gpsData g.activeGPSData with validFlags := 0 })
      with activeGPSData := newActiveData }

/-- The statements of the `while` loop of `GPS::process` up to the completeness test:
store the byte read from the link and increment the count. -/
def store (g : GPS F) (c : Nat) : GPS F :=
  { g with receivedData := g.receivedData.set g.receivedDataCount c,
           receivedDataCount := (g.receivedDataCount + 1) % 256 }

/-- Local `inactiveGPSData` of `GPS::process`. -/
def inactiveGPSData (g : GPS F) : Nat := if g.activeGPSData = 0 then 1 else 0

/-- The body of `if (receivedDataIsComplete())` in `GPS::process`. -/
def complete (ops : FloatOps F) (g : GPS F) : GPS F :=
  let inactive := g.inactiveGPSData
  let g := g.processGPSData ops inactive
  let g := if gpsDataIsComplete (g.gpsData inactive) then g.activateGPSData inactive else g
  g.resetReceivedData

/-- The overflow guard closing the loop body of `GPS::process`:
`if (receivedDataCount >= MAXDATACHARS) receivedDataCount = 0`. -/
def overflowGuard (g : GPS F) : GPS F :=
  if MAXDATACHARS ≤ g.receivedDataCount then { g with receivedDataCount := 0 } else g

/-- One iteration of the `while` loop of `GPS::process`, for the byte `c` read from
the serial link. -/
def feed (ops : FloatOps F) (g : GPS F) (c : Nat) : GPS F :=
  let g := g.store c
  let g := if receivedDataIsComplete g.receivedData g.receivedDataCount then g.complete ops
           else g
  g.overflowGuard

/-- The record `processGPSData` leaves in the inactive slot once the byte `c` is
stored: the argument of `gpsDataIsComplete` in `GPS::process`. -/
def decoded (ops : FloatOps F) (g : GPS F) (c : Nat) : GPSData F :=
  ((g.store c).processGPSData ops g.inactiveGPSData).gpsData g.inactiveGPSData

/-- The `while` loop of `GPS::process` over the bytes available on the link. -/
def feedAll (ops : FloatOps F) (g : GPS F) (bytes : List Nat) : GPS F :=
  bytes.foldl (feed ops) g

/-- Method `GPS::process`, with the bytes the serial link has available. -/
def process (ops : FloatOps F) (g : GPS F) (currentTime : Nat) (bytes : List Nat) : GPS F :=
  feedAll ops { g with lastReadTime := currentTime } bytes

end GPS

/-! ## The waypoint gesture recogniser -/

/-- The byte-addressable EEPROM behind the global `EEPROM` object: the content
before any write together with the writes made so far, most recent first. A cell reads
as the value of the most recent write to it. -/
structure EEPROM where
  initial : Nat → Nat
  writes : List (Nat × Nat)

namespace EEPROM

/-- Library `EEPROM.read(address)`. -/
def read (e : EEPROM) (address : Nat) : Nat :=
  match e.writes.find? (fun w => w.1 == address) with
  | some w => w.2
  | none => e.initial address

/-- Library `EEPROM.write(address, value)`; the value is a `uint8_t`. -/
def write (e : EEPROM) (address value : Nat) : EEPROM :=
  { e with writes := (address, value % 256) :: e.writes }

end EEPROM

/-- Macro `DBL_SIZE`. -/
def DBL_SIZE : Nat := 8

/-- Macro `POCKETWATCH__WAYPOINTKEEPER__EEPROMSTART`. -/
def EEPROMSTART : Nat := 0

/-- Macro `POCKETWATCH__WAYPOINTKEEPER__FASTLAT`. -/
def FASTLAT : Nat := EEPROMSTART + DBL_SIZE * 0

/-- Macro `POCKETWATCH__WAYPOINTKEEPER__FASTLON`. -/
def FASTLON : Nat := EEPROMSTART + DBL_SIZE * 1

/-- Macro `POCKETWATCH__WAYPOINTKEEPER__SLOWLAT`. -/
def SLOWLAT : Nat := EEPROMSTART + DBL_SIZE * 2

/-- Macro `POCKETWATCH__WAYPOINTKEEPER__SLOWLON`. -/
def SLOWLON : Nat := EEPROMSTART + DBL_SIZE * 3

/-- Byte `((byte*)(&value))[i]` of a `double`. The recogniser only copies and stores
`double` values, so a value is identified with its 8-byte object representation, read
as a number with byte 0 least significant. -/
def valueByte (value i : Nat) : Nat := (value / 256 ^ i) % 256

/-- Difference `a - b` of two `time_t` (`unsigned long`, 32 bits) values. -/
def timeDiff (a b : Nat) : Nat := (a + (2 ^ 32 - b % 2 ^ 32)) % 2 ^ 32

/-- The recogniser state, `class WaypointKeeper`, together with the EEPROM it writes. -/
structure WaypointKeeper where
  pin : Nat
  storedLatitude : Nat
  storedLongitude : Nat
  minReleaseDuration : Nat
  maxReleaseDuration : Nat
  fastHoldDuration : Nat
  numFastHoldsNeeded : Nat
  slowHoldDuration : Nat
  numSlowHoldsNeeded : Nat
  numFastHoldsMade : Nat
  numSlowHoldsMade : Nat
  lastUpdateTime : Nat
  buttonWasPressed : Bool
  eeprom : EEPROM

namespace WaypointKeeper

/-- The constructor `WaypointKeeper::WaypointKeeper`, over the EEPROM as found. -/
def new (e : EEPROM) : WaypointKeeper :=
  { pin := 0, storedLatitude := 0, storedLongitude := 0,
    minReleaseDuration := 1, maxReleaseDuration := 1, fastHoldDuration := 1,
    numFastHoldsNeeded := 1, slowHoldDuration := 1, numSlowHoldsNeeded := 1,
    numFastHoldsMade := 0, numSlowHoldsMade := 0, lastUpdateTime := 0,
    buttonWasPressed := false, eeprom := e }

/-- Method `start`; `buttonHigh` is the result of `digitalRead(pin) == HIGH`. -/
def start (w : WaypointKeeper) (buttonPin startTime minReleaseDur maxReleaseDur fastHoldDur
    slowHoldDur numFastHolds numSlowHolds : Nat) (buttonHigh : Bool) : WaypointKeeper :=
  let w := { w with pin := buttonPin % 256,
                    minReleaseDuration := minReleaseDur,
                    maxReleaseDuration := maxReleaseDur,
                    fastHoldDuration := fastHoldDur,
                    slowHoldDuration := slowHoldDur,
                    numFastHoldsNeeded := numFastHolds,
                    numSlowHoldsNeeded := numSlowHolds,
                    buttonWasPressed := buttonHigh }
  if buttonHigh then { w with lastUpdateTime := startTime } else w

/-- Method `getVal`: the 8 bytes at `startAddress`, reinterpreted as a `double`. -/
def getVal (e : EEPROM) (startAddress : Nat) : Nat :=
  (List.range DBL_SIZE).foldl (fun v i => v + e.read (startAddress + i) * 256 ^ i) 0

/-- Method `setVal`: the 8 bytes of `value` written from `startAddress` on. -/
def setVal (e : EEPROM) (startAddress value : Nat) : EEPROM :=
  (List.range DBL_SIZE).foldl (fun e i => e.write (startAddress + i) (valueByte value i)) e

/-- Method `process`; `buttonIsPressedNow` is the result of
`digitalRead(pin) == HIGH`. -/
def process (w : WaypointKeeper) (buttonIsPressedNow : Bool) (currentTime lat lon : Nat) :
    WaypointKeeper :=
  let w :=
    if buttonIsPressedNow && w.buttonWasPressed then
      let pressedDuration := timeDiff currentTime w.lastUpdateTime
      if w.slowHoldDuration ≤ pressedDuration ∧
          w.numSlowHoldsNeeded ≤ w.numSlowHoldsMade + 1 ∧
          w.numFastHoldsMade = 0 then
        { w with eeprom := setVal (setVal w.eeprom SLOWLAT w.storedLatitude)
                             SLOWLON w.storedLongitude,
                 numSlowHoldsMade := 0 }
      else if w.fastHoldDuration ≤ pressedDuration ∧
          w.numFastHoldsNeeded ≤ w.numFastHoldsMade + 1 ∧
          w.numSlowHoldsMade = 0 then
        { w with eeprom := setVal (setVal w.eeprom FASTLAT w.storedLatitude)
                             FASTLON w.storedLongitude,
                 numFastHoldsMade := 0 }
      else w
    else if buttonIsPressedNow && !w.buttonWasPressed then
      -- the button has just been pressed
      let unpressedDuration := timeDiff currentTime w.lastUpdateTime
      let w :=
        if w.numFastHoldsMade = 0 ∧ w.numSlowHoldsMade = 0 then
          { w with storedLatitude := lat, storedLongitude := lon }
        else if unpressedDuration < w.minReleaseDuration ∨
            w.maxReleaseDuration < unpressedDuration then
          { w with numFastHoldsMade := 0, numSlowHoldsMade := 0 }
        else w
      { w with lastUpdateTime := currentTime }
    else if !buttonIsPressedNow && w.buttonWasPressed then
      -- the button has just been released
      let pressedDuration := timeDiff currentTime w.lastUpdateTime
      let w :=
        if w.slowHoldDuration ≤ pressedDuration ∧ w.numFastHoldsMade = 0 then
          { w with numSlowHoldsMade := (w.numSlowHoldsMade + 1) % 256, numFastHoldsMade := 0 }
        else if w.fastHoldDuration ≤ pressedDuration ∧ w.numSlowHoldsMade = 0 then
          { w with numFastHoldsMade := (w.numFastHoldsMade + 1) % 256, numSlowHoldsMade := 0 }
        else
          { w with numFastHoldsMade := 0, numSlowHoldsMade := 0 }
      { w with lastUpdateTime := currentTime }
    else w
  { w with buttonWasPressed := buttonIsPressedNow }

end WaypointKeeper

/-! ## The hand engine

The hand computations are given twice. Here they are taken over exact arithmetic in an
ordered field `K`, the arithmetic of the formulas of the specification, where rounding
plays no part; the math library functions and the constant `PI` are the fields of a
`MathOps` parameter. Further below, `normalize` and the travelling mode are given in the
binary floating point of the source. The two `while` loops of `normalize` run on fuel:
`none` means the fuel ran out before the loop ended. Debug output on `Serial` is left
out. -/

/-- The math library as used by `pocketwatch.Display.H`. -/
structure MathOps (K : Type) where
  /-- Constant `PI`. -/
  pi : K
  sin : K → K
  cos : K → K
  sqrt : K → K
  log10 : K → K
  atan2 : K → K → K

/-- Macro `POCKETWATCH__DISPLAY__NUMPOSITIONS` (`120.0f`). -/
def NUMPOSITIONS : Nat := 120

/-- Macro `EARTH__RADIUS`. -/
def EARTH__RADIUS : Nat := 6371000

/-- The sensor snapshot, `struct types::SensorData`. -/
structure SensorData (K : Type) where
  selection : Nat
  heading : K
  compassX : Int
  compassY : Int
  compassZ : Int
  yearSince2000 : Nat
  month : Nat
  day : Nat
  hour : Nat
  minute : Nat
  second : Nat
  latitude : K
  longitude : K
  groundSpeedKnots : K
  trackAngle : K
  altitudeMeters : K
  fastWaypointLatitude : K
  fastWaypointLongitude : K
  slowWaypointLatitude : K
  slowWaypointLongitude : K

/-- The three hand positions, `struct types::Hands`. -/
structure Hands where
  bigHand : Nat
  mediumHand : Nat
  smallHand : Nat
deriving DecidableEq, Repr

/-- The pins of the stepper coils, `struct types::MotorConfig`. -/
structure MotorConfig where
  pinA1 : Nat
  pinA2 : Nat
  pinB1 : Nat
  pinB2 : Nat
deriving DecidableEq, Repr

/-- The stepper sequencer, `class Motor`: the pins of the two coils, the step state,
and the level last written to each pin with `digitalWrite`. -/
structure Motor where
  coilA1 : Nat
  coilA2 : Nat
  coilB1 : Nat
  coilB2 : Nat
  state : Nat
  level : Nat → Bool

namespace Motor

/-- Library `digitalWrite(pin, level)`. -/
def digitalWrite (m : Motor) (pin : Nat) (high : Bool) : Motor :=
  { m with level := fun p => if p = pin then high else m.level p }

/-- Method `Coil::turnUp` on the coil with pins `pin1`, `pin2`. -/
def turnUp (m : Motor) (pin1 pin2 : Nat) : Motor :=
  (m.digitalWrite pin2 false).digitalWrite pin1 true

/-- Method `Coil::turnDown` on the coil with pins `pin1`, `pin2`. -/
def turnDown (m : Motor) (pin1 pin2 : Nat) : Motor :=
  (m.digitalWrite pin1 false).digitalWrite pin2 true

/-- Method `Coil::turnOff` on the coil with pins `pin1`, `pin2`. -/
def turnOff (m : Motor) (pin1 pin2 : Nat) : Motor :=
  (m.digitalWrite pin1 true).digitalWrite pin2 true

/-- Method `Motor::setState`. -/
def setState (m : Motor) (s : Nat) : Motor :=
  let m := { m with state := s % 256 }
  match m.state with
  | 0 => (m.turnOff m.coilA1 m.coilA2).turnUp m.coilB1 m.coilB2
  | 1 => (m.turnUp m.coilA1 m.coilA2).turnUp m.coilB1 m.coilB2
  | 2 => (m.turnUp m.coilA1 m.coilA2).turnOff m.coilB1 m.coilB2
  | 3 => (m.turnUp m.coilA1 m.coilA2).turnDown m.coilB1 m.coilB2
  | 4 => (m.turnOff m.coilA1 m.coilA2).turnDown m.coilB1 m.coilB2
  | 5 => (m.turnDown m.coilA1 m.coilA2).turnDown m.coilB1 m.coilB2
  | 6 => (m.turnDown m.coilA1 m.coilA2).turnOff m.coilB1 m.coilB2
  | 7 => (m.turnDown m.coilA1 m.coilA2).turnUp m.coilB1 m.coilB2
  | _ => (m.turnOff m.coilA1 m.coilA2).turnOff m.coilB1 m.coilB2

/-- Method `Motor::stepUp`. -/
def stepUp (m : Motor) : Motor := m.setState ((m.state + 1) &&& 7)

/-- Method `Motor::stepDown`; `state - 1` is computed in `int`. -/
def stepDown (m : Motor) : Motor :=
  m.setState (Int.toNat (((m.state : Int) - 1) % 8))

/-- Method `Motor::start`. -/
def start (m : Motor) (c : MotorConfig) : Motor :=
  ({ m with coilA1 := c.pinA1, coilA2 := c.pinA2, coilB1 := c.pinB1,
            coilB2 := c.pinB2 } : Motor).setState 0

end Motor

/-- Function `distance`: the circular distance of two dial positions. -/
def distance (pointA pointB : Nat) : Nat :=
  let big := max pointA pointB
  let small := min pointA pointB
  if big - small ≤ NUMPOSITIONS / 2 then (big - small) % 256
  else
    let small := (small + NUMPOSITIONS / 2) % 256
    let big := (big - (NUMPOSITIONS - NUMPOSITIONS / 2)) % 256
    (small + 256 - big) % 256

/-- The display driver state, `class Display`, together with the pixel buffer of the
global `strip` it writes. -/
structure Display where
  refreshDuration : Nat
  handMotionDuration : Nat
  numPositions : Nat
  prevUpdateTime : Nat
  prevMoveTime : Nat
  bigMotor : Motor
  strip : List Nat

namespace Display

variable {K : Type} [LinearOrderedField K] [FloorRing K]

/-- The conversion `(uint8_t)x` of a floating value: truncation, then the low byte. -/
def castUInt8 (x : K) : Nat := (Int.toNat ⌊x⌋) % 256

/-- The loop `while (value >= range) value -= range` of `normalize`. -/
def subtractLoop : Nat → K → K → Option K
  | 0, _, _ => none
  | fuel + 1, value, range =>
    if range ≤ value then subtractLoop fuel (value - range) range else some value

/-- The loop `while (value < 0.0f) value += range` of `normalize`. -/
def addLoop : Nat → K → K → Option K
  | 0, _, _ => none
  | fuel + 1, value, range =>
    if value < 0 then addLoop fuel (value + range) range else some value

/-- Method `normalize` over exact arithmetic: reduce `value` into `[0, range)`, then scale
to the dial. The method in `float` is `Display.Binary.normalize`. -/
def normalize (fuel : Nat) (value range : K) : Option Nat := do
  let value ← subtractLoop fuel value range
  let value ← addLoop fuel value range
  pure (castUInt8 (value * (NUMPOSITIONS : K) / range))

/-- The value `v mod r` of exact arithmetic: `v` less the largest multiple of `r` not
above it. -/
def reduce (v r : K) : K := v - r * (⌊v / r⌋ : K)

/-- The dial position `floor(120 * ((v mod r) / r))` of the value `v` on a scale of
range `r`. -/
def dialPosition (v r : K) : Nat :=
  Int.toNat ⌊(NUMPOSITIONS : K) * (reduce v r / r)⌋

/-- Method `getForwardDirection`. -/
def getForwardDirection (data : SensorData K) : K :=
  if data.groundSpeedKnots < 10 then data.heading else data.trackAngle

/-- Method `calculateTimeOfDay`. -/
def calculateTimeOfDay (fuel : Nat) (data : SensorData K) : Option Hands := do
  let second : K := (data.second : K)
  let minute : K := (data.minute : K) * 60 + second
  let hour : K := (((data.hour : Int) - 7 : Int) : K) * 3600 + minute
  let bigHand ← normalize fuel hour 43200
  let mediumHand ← normalize fuel minute 3600
  let smallHand ← normalize fuel second 60
  pure { bigHand := bigHand, mediumHand := mediumHand, smallHand := smallHand }

/-- Method `calculateNorth`. -/
def calculateNorth (ops : MathOps K) (fuel : Nat) (data : SensorData K) : Option Nat :=
  let angleToNorth : K := -1 * getForwardDirection data
  normalize fuel angleToNorth (2 * ops.pi)

/-- Method `calculateSpeed` over exact arithmetic. The method in `float` is
`Display.Binary.calculateSpeed`. -/
def calculateSpeed (ops : MathOps K) (fuel : Nat) (data : SensorData K) : Option Nat :=
  let groundSpeed : K := data.groundSpeedKnots * (18519984 / 10000000)
  let groundSpeed : K :=
    if 1000 < groundSpeed then groundSpeed / 14400 + 25 / 72
    else if 0 ≤ groundSpeed then
      let t : K := (-5 + ops.sqrt (25 + 2 * groundSpeed)) / 40
      (17 * t - 7 * t * t) / 24
    else 0
  let groundSpeed : K := groundSpeed - 25 / 100
  normalize fuel groundSpeed 1

/-- Method `calculateAltitude` over exact arithmetic. The method in `float` is
`Display.Binary.calculateAltitude`. -/
def calculateAltitude (fuel : Nat) (data : SensorData K) : Option Nat :=
  let altPercent : K := data.altitudeMeters / 15000
  let altPercent : K := if altPercent < 0 then altPercent / 4 else altPercent
  let altPercent : K := 1 / 3 - altPercent
  normalize fuel altPercent 1

/-- Method `metersToDistanceHand`. -/
def metersToDistanceHand (ops : MathOps K) (fuel : Nat) (meters : K) : Option Nat :=
  let distFraction : K := ops.log10 (max meters (317 / 100)) * (1 / 10) - 5 / 100
  let distFraction : K := if 7 / 10 < distFraction then 7 / 10 else distFraction
  let distFraction : K := distFraction * -1
  normalize fuel distFraction 1

/-- The `switch (waypoint)` of `calculateDistanceAndDirection`: the locals
`(toLat, toLong)` for the character `Fast` (70) or `Slow` (83). -/
def waypointTarget (data : SensorData K) (waypoint : Nat) : K × K :=
  if waypoint = 70 then (data.fastWaypointLatitude, data.fastWaypointLongitude)
  else if waypoint = 83 then (data.slowWaypointLatitude, data.slowWaypointLongitude)
  else (0, 0)

/-- Local `a` of `calculateDistanceAndDirection`: the haversine term. -/
def haversineA (ops : MathOps K) (data : SensorData K) (waypoint : Nat) : K :=
  let toLat := (waypointTarget data waypoint).1
  let toLong := (waypointTarget data waypoint).2
  let fromLat := data.latitude
  let fromLong := data.longitude
  ops.sin ((toLat - fromLat) / 2) * ops.sin ((toLat - fromLat) / 2) +
    ops.cos toLat * ops.cos fromLat * ops.sin ((toLong - fromLong) / 2) *
      ops.sin ((toLong - fromLong) / 2)

/-- Local `d` of `calculateDistanceAndDirection`: the great-circle distance in metres. -/
def haversineMeters (ops : MathOps K) (data : SensorData K) (waypoint : Nat) : K :=
  let a := haversineA ops data waypoint
  let c : K := 2 * ops.atan2 (ops.sqrt a) (ops.sqrt (1 - a))
  (EARTH__RADIUS : K) * c

/-- Local `b` of `calculateDistanceAndDirection` when it is passed to `normalize`: the
bearing to the waypoint less the forward direction. -/
def relativeBearing (ops : MathOps K) (data : SensorData K) (waypoint : Nat) : K :=
  let toLat := (waypointTarget data waypoint).1
  let toLong := (waypointTarget data waypoint).2
  let fromLat := data.latitude
  let fromLong := data.longitude
  let b : K := ops.atan2 (ops.sin (toLong - fromLong) * ops.cos toLat)
    (ops.cos fromLat * ops.sin toLat -
      ops.sin fromLat * ops.cos toLat * ops.cos (toLong - fromLong))
  b - getForwardDirection data

/-- Method `calculateDistanceAndDirection`; `waypoint` is the character `Fast` (70)
or `Slow` (83). Returns the outputs `(dist, dir)`. -/
def calculateDistanceAndDirection (ops : MathOps K) (fuel : Nat) (data : SensorData K)
    (waypoint : Nat) : Option (Nat × Nat) := do
  let dist ← metersToDistanceHand ops fuel (haversineMeters ops data waypoint)
  let dir ← normalize fuel (relativeBearing ops data waypoint) (2 * ops.pi)
  pure (dist, dir)

/-- Method `calculateTravelingData`. -/
def calculateTravelingData (ops : MathOps K) (fuel : Nat) (data : SensorData K) :
    Option Hands := do
  let bigHand ← calculateNorth ops fuel data
  let mediumHand ← calculateSpeed ops fuel data
  let smallHand ← calculateAltitude fuel data
  pure { bigHand := bigHand, mediumHand := mediumHand, smallHand := smallHand }

/-- Method `calculateWaypointReturnData`. -/
def calculateWaypointReturnData (ops : MathOps K) (fuel : Nat) (data : SensorData K) :
    Option Hands := do
  let bigHand ← calculateNorth ops fuel data
  let r ← calculateDistanceAndDirection ops fuel data 70
  pure { bigHand := bigHand, mediumHand := r.2, smallHand := r.1 }

/-- Method `calculateHomeReturnData`. -/
def calculateHomeReturnData (ops : MathOps K) (fuel : Nat) (data : SensorData K) :
    Option Hands := do
  let bigHand ← calculateNorth ops fuel data
  let r ← calculateDistanceAndDirection ops fuel data 83
  pure { bigHand := bigHand, mediumHand := r.2, smallHand := r.1 }

/-- The `switch (data.selection)` of `Display::process`; in the `default` case the
local `handPositions` keeps its indeterminate content `uninit`. -/
def computeHands (ops : MathOps K) (fuel : Nat) (data : SensorData K) (uninit : Hands) :
    Option Hands :=
  match data.selection with
  | 0 => calculateTimeOfDay fuel data
  | 1 => calculateTravelingData ops fuel data
  | 2 => calculateWaypointReturnData ops fuel data
  | 3 => calculateHomeReturnData ops fuel data
  | _ => some uninit

/-- Method `calculatePixelColor(pixel, handPosition)`: the intensity of one colour
channel of a ring pixel for one hand. -/
def calculatePixelColor (pixel handPosition : Nat) : Nat :=
  let dist := distance ((pixel * NUMPOSITIONS / 16) % 256) handPosition
  match dist with
  | 0 => 255
  | 1 => 213
  | 2 => 175
  | 3 => 142
  | 4 => 114
  | 5 => 89
  | 6 => 68
  | 7 => 50
  | 8 => 36
  | 9 => 25
  | 10 => 16
  | 11 => 10
  | 12 => 5
  | 13 => 2
  | 14 => 1
  | 15 => 1
  | _ => 0

/-- Library `strip.Color(r, g, b)`: the packed colour. -/
def Color (r g b : Nat) : Nat := (r % 256) * 65536 + (g % 256) * 256 + b % 256

/-- Method `calculatePixelColor(pixel, handPositions)`: the packed colour of a pixel. -/
def calculatePixelColors (pixel : Nat) (handPositions : Hands) : Nat :=
  Color (calculatePixelColor pixel handPositions.bigHand)
        (calculatePixelColor pixel handPositions.mediumHand)
        (calculatePixelColor pixel handPositions.smallHand)

/-- Method `setHands`: the 16 ring pixels, then the marker pixel 16. -/
def setHands (d : Display) (handPositions : Hands) : Display :=
  let strip := (List.range 16).foldl
    (fun s p => s.set (15 - p) (calculatePixelColors p handPositions)) d.strip
  { d with strip := strip.set 16 (Color 16 16 16) }

/-- The constructor `Display::Display`, with the motor and pixel buffer as found. -/
def new (m : Motor) (strip : List Nat) : Display :=
  { refreshDuration := 1, handMotionDuration := 1, numPositions := 4,
    prevUpdateTime := 0, prevMoveTime := 0, bigMotor := m, strip := strip }

/-- Method `Display::start`. -/
def start (d : Display) (startTime refreshDur handMotionDur nPositions : Nat)
    (bigMotorConfig : MotorConfig) : Display :=
  { d with prevUpdateTime := startTime, refreshDuration := refreshDur,
           handMotionDuration := handMotionDur, numPositions := nPositions % 256,
           bigMotor := d.bigMotor.start bigMotorConfig }

/-- Method `Display::process`. -/
def process (ops : MathOps K) (fuel : Nat) (d : Display) (currentTime : Nat)
    (data : SensorData K) (uninit : Hands) : Option Display := do
  let d ←
    if d.refreshDuration ≤ timeDiff currentTime d.prevUpdateTime then do
      let d := { d with prevUpdateTime := (d.prevUpdateTime + d.refreshDuration) % 2 ^ 32 }
      let handPositions ← computeHands ops fuel data uninit
      pure (setHands d handPositions)
    else pure d
  if d.handMotionDuration ≤ timeDiff currentTime d.prevMoveTime then
    pure { d with prevMoveTime := currentTime, bigMotor := d.bigMotor.stepUp }
  else pure d

end Display

/-! ## The hand engine in binary floating point

The source computes the hand positions in `float`, IEEE 754 binary32, and a few
intermediate values in `double`, binary64 (`DBL_SIZE` is 8). Below, a finite
floating-point number is its rational value, and an arithmetic operation is the exact
operation followed by rounding to the nearest representable number, a tie going to the
even significand. Infinities, NaN and the sign of zero are left out, so the operations
are those of the source as long as no result exceeds the largest finite number. -/

namespace IEEE

/-- The power `2 ^ e` for an integer exponent. -/
def pow2 (e : Int) : ℚ :=
  if 0 ≤ e then ((2 ^ e.toNat : Nat) : ℚ) else 1 / ((2 ^ (-e).toNat : Nat) : ℚ)

/-- The number of halvings that take `n` below 2, within `fuel` steps. -/
def log2Loop : Nat → Nat → Nat
  | 0, _ => 0
  | fuel + 1, n => if 2 ≤ n then log2Loop fuel (n / 2) + 1 else 0

/-- The binary logarithm of a natural number, rounded down. -/
def log2 (n : Nat) : Nat := log2Loop n n

/-- The binary exponent of a non-zero rational: the `e` with `2 ^ e ≤ |q| < 2 ^ (e + 1)`. -/
def exponent (q : ℚ) : Int :=
  let e : Int := (log2 q.num.natAbs : Int) - (log2 q.den : Int)
  if pow2 e ≤ |q| then e else e - 1

/-- Rounding to the nearest integer, a tie to the even one. -/
def roundHalfEven (q : ℚ) : Int :=
  let f := ⌊q⌋
  if q - f < 1 / 2 then f
  else if 1 / 2 < q - f then f + 1
  else if f % 2 = 0 then f else f + 1

/-- Rounding to the nearest number with a significand of `precision` bits and a
normal exponent of at least `emin`; below `2 ^ emin` the spacing stays that of the
subnormal numbers. -/
def round (precision : Nat) (emin : Int) (q : ℚ) : ℚ :=
  if q = 0 then 0
  else
    let quantum := pow2 (max (exponent q) emin - ((precision : Int) - 1))
    (roundHalfEven (q / quantum) : ℚ) * quantum

/-- Rounding to `float`: binary32, 24 significand bits, exponents from -126. -/
def float (q : ℚ) : ℚ := round 24 (-126) q

/-- Rounding to `double`: binary64, 53 significand bits, exponents from -1022. -/
def double (q : ℚ) : ℚ := round 53 (-1022) q

/-- Newton iteration for the integer square root of `n`, from a guess not below it. -/
def sqrtLoop (n : Nat) : Nat → Nat → Nat
  | 0, guess => guess
  | fuel + 1, guess =>
    let next := (guess + n / guess) / 2
    if next < guess then sqrtLoop n fuel next else guess

/-- The integer square root: the largest `s` with `s * s ≤ n`. -/
def isqrt (n : Nat) : Nat := if n ≤ 1 then n else sqrtLoop n n n

/-- Library `sqrt` on `double`, as IEEE 754 requires it: the square root rounded to the
nearest `double`. The root of a negative number (a NaN) is not modelled and given
as 0. -/
def sqrt (x : ℚ) : ℚ :=
  if x ≤ 0 then 0
  else
    let quantum := max (exponent x / 2) (-1022) - 52
    let scaled := x / pow2 (2 * quantum)
    let s := isqrt (Int.toNat ⌊scaled⌋)
    let mid : ℚ := ((s : ℚ) + 1 / 2) * ((s : ℚ) + 1 / 2)
    let n := if scaled < mid then s else if mid < scaled then s + 1
      else if s % 2 = 0 then s else s + 1
    (n : ℚ) * pow2 quantum

/-- Macro `PI` of `Arduino.h`, `3.1415926535897932384626433832795`, as a `double`. -/
def PI : ℚ := double (31415926535897932384626433832795 / 10 ^ 31)

end IEEE

namespace Display

namespace Binary

open pocketwatch.IEEE

/-- The loop `while (value >= range) value -= range` of `normalize`, in `float`. -/
def subtractLoop : Nat → ℚ → ℚ → Option ℚ
  | 0, _, _ => none
  | fuel + 1, value, range =>
    if range ≤ value then subtractLoop fuel (float (value - range)) range else some value

/-- The loop `while (value < 0.0f) value += range` of `normalize`, in `float`. -/
def addLoop : Nat → ℚ → ℚ → Option ℚ
  | 0, _, _ => none
  | fuel + 1, value, range =>
    if value < 0 then addLoop fuel (float (value + range)) range else some value

/-- Method `normalize` in `float`: the two loops, then
`(uint8_t)(value * 120.0f / range)`. -/
def normalize (fuel : Nat) (value range : ℚ) : Option Nat := do
  let value ← subtractLoop fuel value range
  let value ← addLoop fuel value range
  pure (castUInt8 (float (float (value * (NUMPOSITIONS : ℚ)) / range)))

/-- Method `getForwardDirection`. -/
def getForwardDirection (data : SensorData ℚ) : ℚ :=
  if data.groundSpeedKnots < 10 then data.heading else data.trackAngle

/-- Method `calculateNorth` in `float`; `pi` is the `double` value of the macro `PI`,
and `2 * PI` is converted to the `float` parameter of `normalize`. -/
def calculateNorth (pi : ℚ) (fuel : Nat) (data : SensorData ℚ) : Option Nat :=
  let angleToNorth : ℚ := float (-1 * getForwardDirection data)
  normalize fuel angleToNorth (float (double (2 * pi)))

/-- The speed curve of `calculateSpeed` in `float`: the value of the local
`groundSpeed` after the `if` chain, from its value in km/h. The argument of the
library `sqrt` is a `float`, its result a `double`, and `t` is computed in `double`
before the cast to `float`. -/
def speedCurve (sqrt : ℚ → ℚ) (groundSpeed : ℚ) : ℚ :=
  if 1000 < groundSpeed then float (float (groundSpeed / 14400) + float (25 / 72))
  else if 0 ≤ groundSpeed then
    let t : ℚ := float (double (double (-5 + sqrt (float (25 + float (2 * groundSpeed)))) / 40))
    float (float (float (17 * t) - float (float (7 * t) * t)) / 24)
  else 0

/-- Method `calculateSpeed` in `float`; `sqrt` is the library square root. -/
def calculateSpeed (sqrt : ℚ → ℚ) (fuel : Nat) (data : SensorData ℚ) : Option Nat :=
  let groundSpeed : ℚ := float (data.groundSpeedKnots * float (18519984 / 10000000))
  let groundSpeed : ℚ := speedCurve sqrt groundSpeed
  let groundSpeed : ℚ := float (groundSpeed - float (25 / 100))
  normalize fuel groundSpeed 1

/-- Method `calculateAltitude` in `float`. -/
def calculateAltitude (fuel : Nat) (data : SensorData ℚ) : Option Nat :=
  let altPercent : ℚ := float (data.altitudeMeters / 15000)
  let altPercent : ℚ := if altPercent < 0 then float (altPercent / 4) else altPercent
  let altPercent : ℚ := float (float (1 / 3) - altPercent)
  normalize fuel altPercent 1

/-- Method `calculateTravelingData` in `float`. -/
def calculateTravelingData (pi : ℚ) (sqrt : ℚ → ℚ) (fuel : Nat) (data : SensorData ℚ) :
    Option Hands := do
  let bigHand ← calculateNorth pi fuel data
  let mediumHand ← calculateSpeed sqrt fuel data
  let smallHand ← calculateAltitude fuel data
  pure { bigHand := bigHand, mediumHand := mediumHand, smallHand := smallHand }

end Binary

end Display

/-- Local `groundSpeed` of `calculateSpeed` after the `if` chain, as a function of the
converted ground speed: the dial fraction of the speed before the quarter-turn offset. -/
def Display.speedCurve {K : Type} [LinearOrderedField K] (ops : MathOps K) (groundSpeed : K) :
    K :=
  if 1000 < groundSpeed then groundSpeed / 14400 + 25 / 72
  else if 0 ≤ groundSpeed then
    let t : K := (-5 + ops.sqrt (25 + 2 * groundSpeed)) / 40
    (17 * t - 7 * t * t) / 24
  else 0

/-- Local `distFraction` of `metersToDistanceHand` after the clamp, before the change of
orientation. -/
def Display.distFraction {K : Type} [LinearOrderedField K] (ops : MathOps K) (meters : K) :
    K :=
  let distFraction : K := ops.log10 (max meters (317 / 100)) * (1 / 10) - 5 / 100
  if 7 / 10 < distFraction then 7 / 10 else distFraction

/-- The `switch (dist)` of `calculatePixelColor(pixel, handPosition)`: the intensity
for a circular distance. -/
def Display.pixelIntensity (dist : Nat) : Nat :=
  match dist with
  | 0 => 255
  | 1 => 213
  | 2 => 175
  | 3 => 142
  | 4 => 114
  | 5 => 89
  | 6 => 68
  | 7 => 50
  | 8 => 36
  | 9 => 25
  | 10 => 16
  | 11 => 10
  | 12 => 5
  | 13 => 2
  | 14 => 1
  | 15 => 1
  | _ => 0

/-- The condition of the slow commit in `WaypointKeeper::process`, for a call at
`currentTime` while the button is held. -/
def WaypointKeeper.slowCommitDue (w : WaypointKeeper) (currentTime : Nat) : Prop :=
  w.slowHoldDuration ≤ timeDiff currentTime w.lastUpdateTime ∧
    w.numSlowHoldsNeeded ≤ w.numSlowHoldsMade + 1 ∧ w.numFastHoldsMade = 0

instance (w : WaypointKeeper) (currentTime : Nat) : Decidable (w.slowCommitDue currentTime) :=
  inferInstanceAs (Decidable (_ ∧ _))

/-- The condition of the fast commit in `WaypointKeeper::process`, tested when the slow
commit is not due. -/
def WaypointKeeper.fastCommitDue (w : WaypointKeeper) (currentTime : Nat) : Prop :=
  w.fastHoldDuration ≤ timeDiff currentTime w.lastUpdateTime ∧
    w.numFastHoldsNeeded ≤ w.numFastHoldsMade + 1 ∧ w.numSlowHoldsMade = 0

instance (w : WaypointKeeper) (currentTime : Nat) : Decidable (w.fastCommitDue currentTime) :=
  inferInstanceAs (Decidable (_ ∧ _))

/-- The recogniser with its stored timestamp moved `k` ticks on. -/
def WaypointKeeper.shiftTime (k : Nat) (w : WaypointKeeper) : WaypointKeeper :=
  { w with lastUpdateTime := (w.lastUpdateTime + k) % 2 ^ 32 }

/-- The display driver with its two stored timestamps moved `k` ticks on. -/
def Display.shiftTime (k : Nat) (d : Display) : Display :=
  { d with prevUpdateTime := (d.prevUpdateTime + k) % 2 ^ 32,
           prevMoveTime := (d.prevMoveTime + k) % 2 ^ 32 }

/-! ## Sentences and gesture histories -/

/-- A byte list is one sentence for the parser: it fits the buffer, the completeness
test of `GPS::process` first succeeds at its last byte, and `receivedDataIsValid`
accepts it. -/
def isSentence (s : List Nat) : Bool :=
  decide (s.length ≤ MAXDATACHARS) &&
  (List.range s.length).all (fun k => !GPS.receivedDataIsComplete s k) &&
  GPS.receivedDataIsComplete s s.length &&
  GPS.receivedDataIsValid s s.length

/-- A valid `$GPRMC` sentence. -/
def isRMCSentence (s : List Nat) : Bool :=
  isSentence s && strncmpEq s hdrRMC 7

/-- A valid `$GPGGA` sentence. -/
def isGGASentence (s : List Nat) : Bool :=
  isSentence s && strncmpEq s hdrGGA 7

/-- The record `processRMCData` leaves when the buffer holds the sentence `s`. -/
def decodeRMC {F : Type} (ops : FloatOps F) (s : List Nat) (data : GPSData F) : GPSData F :=
  (GPS.processRMCData ops s s.length data).2

/-- The record `processGGAData` leaves when the buffer holds the sentence `s`. -/
def decodeGGA {F : Type} (ops : FloatOps F) (s : List Nat) (data : GPSData F) : GPSData F :=
  (GPS.processGGAData ops s s.length data).2

/-- The pointer `p` is `NULL` or stays within the cells `u`, in a buffer `u ++ 0 :: w`
whose first terminator written by the decoders follows `u`. -/
def Bounded (u : List Nat) (p : Option Nat) : Prop := ∀ x, p = some x → x ≤ u.length

/-- The blocks of `processRMCData` run in source order on a buffer, from the start of
the buffer: the locals of the method when it reaches its last statement. -/
def GPS.rmcBlocks {F : Type} (ops : FloatOps F) (buf : List Nat) (data : GPSData F) :
    GPS.DecodeState F :=
  GPS.rmcDate buf (GPS.rmcTrack ops buf (GPS.rmcSpeed ops buf (GPS.rmcLongitudeSign ops buf
    (GPS.rmcLongitude ops buf (GPS.rmcLatitudeSign ops buf (GPS.rmcLatitude ops buf
    (GPS.rmcStatus buf (GPS.rmcTime buf
      { rest := some 0, isActive := false, data := data }))))))))

/-- The blocks of `processGGAData` run in source order on a buffer. -/
def GPS.ggaBlocks {F : Type} (ops : FloatOps F) (buf : List Nat) (data : GPSData F) :
    GPS.DecodeState F :=
  GPS.ggaUnits ops buf (GPS.ggaAltitude ops buf (GPS.ggaSkip buf
    { rest := some 0, isActive := false, data := data }))

/-- The text that follows the first comma of a text. -/
def afterComma (l : List Nat) : List Nat := (l.dropWhile (fun x => x != 44)).drop 1

/-- The status letter of a position sentence: the character that follows its second
comma (0 when there is none). -/
def statusLetter (text : List Nat) : Nat := (afterComma (afterComma text)).headD 0

/-- A field of a sentence: it holds no comma and no terminator. -/
def isField (f : List Nat) : Prop := ∀ x ∈ f, x ≠ 44 ∧ x ≠ 0

/-- The characters of a text up to its first terminator. -/
def upToNul (t : List Nat) : List Nat := t.takeWhile (fun x => x != 0)

/-- The text made of the given fields, each followed by a comma, and then of `t`. -/
def fieldsThen (fs : List (List Nat)) (t : List Nat) : List Nat :=
  fs.foldr (fun f acc => f ++ 44 :: acc) t

/-- The pointer `rest` of a decoder after its first calls of `advancePastComma`, whose
second arguments are listed in `needs`. -/
def restAfter (buf : List Nat) (needs : List Nat) : Option Nat :=
  needs.foldl (fun p n => advancePastComma buf p n) (some 0)

/-- Both completeness flags of a record are set. -/
def GPSData.hasBoth {F : Type} (d : GPSData F) : Prop :=
  d.validFlags &&& HASRMC ≠ 0 ∧ d.validFlags &&& HASGGA ≠ 0

/-- The state invariant of the parser: the buffer has its declared size, the count is
a valid write index, the active record is the empty record or a complete one, and the
inactive record is not complete. -/
def GPS.Inv {F : Type} (ops : FloatOps F) (g : GPS F) : Prop :=
  g.receivedData.length = MAXDATACHARS ∧ g.receivedDataCount < MAXDATACHARS ∧
  (g.getGPSData = GPSData.empty ops ∨ g.getGPSData.hasBoth) ∧
  ¬ (g.gpsData g.inactiveGPSData).hasBoth

/-- The parser states reachable from a constructed parser by feeding bytes. -/
inductive GPS.Reachable {F : Type} (ops : FloatOps F) : GPS F → Prop
  | new (buf : List Nat) (h : buf.length = MAXDATACHARS) : GPS.Reachable ops (GPS.new ops buf)
  | feed (g : GPS F) (c : Nat) (h : GPS.Reachable ops g) : GPS.Reachable ops (g.feed ops c)

/-- One call of `WaypointKeeper::process`: the button level read and the arguments. -/
structure Call where
  pressed : Bool
  time : Nat
  lat : Nat
  lon : Nat
deriving DecidableEq, Repr

/-- The recogniser after a sequence of `process` calls. -/
def WaypointKeeper.run (w : WaypointKeeper) (calls : List Call) : WaypointKeeper :=
  calls.foldl (fun w c => w.process c.pressed c.time c.lat c.lon) w

/-- The recogniser states reachable from a constructed recogniser by calls of `start`
and `process`, with any button levels, times and positions. -/
inductive WaypointKeeper.Reachable : WaypointKeeper → Prop
  | new (e : EEPROM) : WaypointKeeper.Reachable (WaypointKeeper.new e)
  | start (w : WaypointKeeper) (buttonPin startTime minReleaseDur maxReleaseDur fastHoldDur
      slowHoldDur numFastHolds numSlowHolds : Nat) (buttonHigh : Bool)
      (h : WaypointKeeper.Reachable w) :
      WaypointKeeper.Reachable (w.start buttonPin startTime minReleaseDur maxReleaseDur
        fastHoldDur slowHoldDur numFastHolds numSlowHolds buttonHigh)
  | process (w : WaypointKeeper) (buttonIsPressedNow : Bool) (currentTime lat lon : Nat)
      (h : WaypointKeeper.Reachable w) :
      WaypointKeeper.Reachable (w.process buttonIsPressedNow currentTime lat lon)

/-- A `process` call made while the button is held: the ticks elapsed since the press
and the position passed. -/
structure Sample where
  elapsed : Nat
  lat : Nat
  lon : Nat
deriving DecidableEq, Repr

/-- One press-hold-release cycle of the button: the ticks between the previous edge
and the press, the position passed with the press, the calls made while the button is
held, the ticks between press and release, and the position passed with the release. -/
structure Hold where
  gap : Nat
  lat : Nat
  lon : Nat
  samples : List Sample
  duration : Nat
  releaseLat : Nat
  releaseLon : Nat
deriving DecidableEq, Repr

/-- The time of the press of a hold that follows an edge at time `t0`. -/
def Hold.pressTime (t0 : Nat) (h : Hold) : Nat := (t0 + h.gap) % 2 ^ 32

/-- The time of the release of a hold that follows an edge at time `t0`. -/
def Hold.releaseTime (t0 : Nat) (h : Hold) : Nat := (h.pressTime t0 + h.duration) % 2 ^ 32

/-- The `process` calls of one hold that follows an edge at time `t0`: the press, the
calls while held, the release. -/
def Hold.calls (t0 : Nat) (h : Hold) : List Call :=
  { pressed := true, time := h.pressTime t0, lat := h.lat, lon := h.lon } ::
    (h.samples.map (fun s =>
      ({ pressed := true, time := (h.pressTime t0 + s.elapsed) % 2 ^ 32,
         lat := s.lat, lon := s.lon } : Call)) ++
     [{ pressed := false, time := h.releaseTime t0,
        lat := h.releaseLat, lon := h.releaseLon }])

/-- The `process` calls of a sequence of holds, the first following an edge at `t0`. -/
def holdCalls : Nat → List Hold → List Call
  | _, [] => []
  | t0, h :: hs => h.calls t0 ++ holdCalls (h.releaseTime t0) hs

/-- A hold of the fast category: it lasts at least `fastHoldDuration` and less than
`slowHoldDuration`, and the calls while held come no later than the release. -/
def Hold.isFast (w : WaypointKeeper) (h : Hold) : Prop :=
  w.fastHoldDuration ≤ h.duration ∧ h.duration < w.slowHoldDuration ∧
  h.duration < 2 ^ 32 ∧ ∀ s ∈ h.samples, s.elapsed ≤ h.duration

/-- The release before a hold lies in the window
`[minReleaseDuration, maxReleaseDuration]`. -/
def Hold.gapOk (w : WaypointKeeper) (h : Hold) : Prop :=
  w.minReleaseDuration ≤ h.gap ∧ h.gap ≤ w.maxReleaseDuration ∧ h.gap < 2 ^ 32

/-- Some call made while the button is held comes at least `fastHoldDuration` after the
press. -/
def Hold.sampledPastFast (w : WaypointKeeper) (h : Hold) : Prop :=
  ∃ s ∈ h.samples, w.fastHoldDuration ≤ s.elapsed

/-! ## An exact interpretation of the arithmetic, for evaluating the model -/

/-- Value of a run of decimal digits. -/
def digitsValue (ds : List Nat) : Nat := ds.foldl (fun a d => 10 * a + (d - 48)) 0

/-- A decimal literal `[+-]ddd[.ddd]` read exactly; what follows the literal is ignored. -/
def atofExact (s : List Nat) : ℚ :=
  let isDigit := fun (c : Nat) => decide (48 ≤ c ∧ c ≤ 57)
  let body := if s.headD 0 == 45 || s.headD 0 == 43 then s.tail else s
  let ip := body.takeWhile isDigit
  let rest := body.dropWhile isDigit
  let fp := if rest.headD 0 == 46 then rest.tail.takeWhile isDigit else []
  let v : ℚ := (digitsValue ip : ℚ) + (digitsValue fp : ℚ) / (10 : ℚ) ^ fp.length
  if s.headD 0 == 45 then -v else v

/-- Exact rational arithmetic: no rounding, `atof` reads a decimal literal. -/
def exactOps : FloatOps ℚ :=
  { zero := 0, negOne := -1, sixty := 60,
    degToRad := 17453292519943296 / 1000000000000000000,
    ofNat := fun n => (n : ℚ), add := fun a b => a + b, mul := fun a b => a * b,
    div := fun a b => a / b, toFloat := fun a => a, atof := atofExact }

/-! ## Concrete inputs -/

/-- The bytes of `$GPRMC,123456*60\r\n`: a valid position sentence holding only the
time 12:34:56. -/
def shortRMC : List Nat :=
  [36, 71, 80, 82, 77, 67, 44, 49, 50, 51, 52, 53, 54, 42, 54, 48, 13, 10]

/-- The bytes of `$GPGGA,*7A\r\n`: a valid fix-quality sentence with no field. -/
def shortGGA : List Nat := [36, 71, 80, 71, 71, 65, 44, 42, 55, 65, 13, 10]

/-- The eight stray bytes `$GPRMC,C`: a sentence header and one byte that balances the
checksum of the header. -/
def strayHeader : List Nat := [36, 71, 80, 82, 77, 67, 44, 67]

/-- The three stray bytes `12,`, left over from a sentence whose start was missed. -/
def strayTail : List Nat := [49, 50, 44]

/-- The bytes of
`$GPRMC,123456.000,A,4807.038,N,01131.000,E,022.4,084.4,230394,,,A*68\r\n`. -/
def fullRMC : List Nat :=
  [36, 71, 80, 82, 77, 67, 44, 49, 50, 51, 52, 53, 54, 46, 48, 48, 48, 44, 65, 44, 52, 56,
   48, 55, 46, 48, 51, 56, 44, 78, 44, 48, 49, 49, 51, 49, 46, 48, 48, 48, 44, 69, 44, 48,
   50, 50, 46, 52, 44, 48, 56, 52, 46, 52, 44, 50, 51, 48, 51, 57, 52, 44, 44, 44, 65, 42,
   54, 56, 13, 10]

/-- The bytes of
`$GPGGA,123456.000,4807.038,N,01131.000,E,1,08,0.9,545.4,M,46.9,M,,*53\r\n`. -/
def fullGGA : List Nat :=
  [36, 71, 80, 71, 71, 65, 44, 49, 50, 51, 52, 53, 54, 46, 48, 48, 48, 44, 52, 56, 48, 55,
   46, 48, 51, 56, 44, 78, 44, 48, 49, 49, 51, 49, 46, 48, 48, 48, 44, 69, 44, 49, 44, 48,
   56, 44, 48, 46, 57, 44, 53, 52, 53, 46, 52, 44, 77, 44, 52, 54, 46, 57, 44, 77, 44, 44,
   42, 53, 51, 13, 10]

/-- The bytes of `$GPRMC,123519.000,V,,,,,0.00,0.00,230394,,,N*4F\r\n`: a valid
position sentence with status void and empty position fields. -/
def voidRMC : List Nat :=
  [36, 71, 80, 82, 77, 67, 44, 49, 50, 51, 53, 49, 57, 46, 48, 48, 48, 44, 86, 44, 44, 44,
   44, 44, 48, 46, 48, 48, 44, 48, 46, 48, 48, 44, 50, 51, 48, 51, 57, 52, 44, 44, 44, 78,
   42, 52, 70, 13, 10]

/-- A coarse rational stand-in for the math library, for evaluating the hand engine:
`PI` as 355/113, sine and cosine by their first Taylor terms, the square root by one
Newton step from 1, the logarithm and the arc tangent by rational fractions. -/
def coarseOps : MathOps ℚ :=
  { pi := 355 / 113,
    sin := fun x => x - x ^ 3 / 6,
    cos := fun x => 1 - x ^ 2 / 2,
    sqrt := fun x => (1 + x) / 2,
    log10 := fun x => (x - 1) / (x + 1),
    atan2 := fun y x => y / (1 + |x|) }

/-- A sensor snapshot in travelling mode: 19:34:56 on 23/03/94, heading 1/2 rad,
12 knots, 545 m. -/
def sampleData : SensorData ℚ :=
  { selection := 1, heading := 1 / 2, compassX := 0, compassY := 0, compassZ := 0,
    yearSince2000 := 94, month := 3, day := 23, hour := 19, minute := 34, second := 56,
    latitude := 84 / 100, longitude := 20 / 100, groundSpeedKnots := 12,
    trackAngle := 3 / 2, altitudeMeters := 545,
    fastWaypointLatitude := 84 / 100, fastWaypointLongitude := 21 / 100,
    slowWaypointLatitude := 83 / 100, slowWaypointLongitude := 20 / 100 }

/-- A sensor snapshot in travelling mode, at rest, at an altitude of
5000.00048828125 m, the `float` nearest to 5000.0005. -/
def overFiveKm : SensorData ℚ :=
  { selection := 1, heading := 0, compassX := 0, compassY := 0, compassZ := 0,
    yearSince2000 := 94, month := 3, day := 23, hour := 19, minute := 34, second := 56,
    latitude := 0, longitude := 0, groundSpeedKnots := 0,
    trackAngle := 0, altitudeMeters := 10240001 / 2048,
    fastWaypointLatitude := 0, fastWaypointLongitude := 0,
    slowWaypointLatitude := 0, slowWaypointLongitude := 0 }

/-- A sensor snapshot in travelling mode at 539.957275390625 knots, a `float` speed
that converts to 1000 + 2^-14 km/h; the `float` speed 2^-14 below it converts to
1000 - 2^-14 km/h. -/
def aboveKnee : SensorData ℚ :=
  { selection := 1, heading := 0, compassX := 0, compassY := 0, compassZ := 0,
    yearSince2000 := 94, month := 3, day := 23, hour := 19, minute := 34, second := 56,
    latitude := 0, longitude := 0, groundSpeedKnots := 2211665 / 4096,
    trackAngle := 0, altitudeMeters := 0,
    fastWaypointLatitude := 0, fastWaypointLongitude := 0,
    slowWaypointLatitude := 0, slowWaypointLongitude := 0 }

/-- A constructed parser over a zeroed buffer, with exact arithmetic. -/
def freshGPS : GPS ℚ := GPS.new exactOps (List.replicate MAXDATACHARS 0)

/-- An erased EEPROM: every cell reads 255 and nothing has been written. -/
def erasedEEPROM : EEPROM := { initial := fun _ => 255, writes := [] }

/-- A started recogniser on pin 2 with the button released: release window
`[50, 2000]`, fast holds from 500 ticks, slow holds from 5000 ticks, `n` fast holds and
one slow hold required. -/
def sampleKeeper (n : Nat) : WaypointKeeper :=
  (WaypointKeeper.new erasedEEPROM).start 2 0 50 2000 500 5000 n 1 false

/-- A recogniser with two fast holds required, held since tick 1700 in the second hold
of a fast sequence. -/
def heldSecondFast : WaypointKeeper :=
  (sampleKeeper 2).run
    [{ pressed := true, time := 1000, lat := 11, lon := 22 },
     { pressed := false, time := 1600, lat := 11, lon := 22 },
     { pressed := true, time := 1700, lat := 33, lon := 44 }]

/-- A recogniser with one slow hold required, held since tick 1000. -/
def heldFirstSlow : WaypointKeeper :=
  (sampleKeeper 2).run [{ pressed := true, time := 1000, lat := 11, lon := 22 }]

/-- A recogniser with two fast holds required, released at tick 1600 after one fast
hold from tick 1000 at position (11, 22). -/
def releasedAfterFast : WaypointKeeper :=
  (sampleKeeper 2).run
    [{ pressed := true, time := 1000, lat := 11, lon := 22 },
     { pressed := false, time := 1600, lat := 11, lon := 22 }]

/-- A hold of 600 ticks at position (11, 22), sampled 250 and 500 ticks in. -/
def holdA : Hold :=
  { gap := 1000, lat := 11, lon := 22,
    samples := [{ elapsed := 250, lat := 12, lon := 23 }, { elapsed := 500, lat := 13, lon := 24 }],
    duration := 600, releaseLat := 14, releaseLon := 25 }

/-- A hold of 520 ticks at position (33, 44), 100 ticks after the previous release,
sampled 510 ticks in. -/
def holdB : Hold :=
  { gap := 100, lat := 33, lon := 44,
    samples := [{ elapsed := 510, lat := 34, lon := 45 }],
    duration := 520, releaseLat := 35, releaseLon := 46 }

/-- A hold of 700 ticks at position (11, 22), sampled 500 and 600 ticks in. -/
def holdTwice : Hold :=
  { gap := 1000, lat := 11, lon := 22,
    samples := [{ elapsed := 500, lat := 12, lon := 23 }, { elapsed := 600, lat := 13, lon := 24 }],
    duration := 700, releaseLat := 14, releaseLon := 25 }

/-- A gesture history with two holds required: a hold at (11, 22) from 1000 to 1600; a
press at (33, 44) at 10000, outside the release window, held until 10600; a press at
(55, 66) at 10700, sampled at 11200. -/
def brokenSequence : List Call :=
  [{ pressed := true, time := 1000, lat := 11, lon := 22 },
   { pressed := false, time := 1600, lat := 11, lon := 22 },
   { pressed := true, time := 10000, lat := 33, lon := 44 },
   { pressed := false, time := 10600, lat := 33, lon := 44 },
   { pressed := true, time := 10700, lat := 55, lon := 66 },
   { pressed := true, time := 11200, lat := 55, lon := 66 }]

/-- A gesture history with two holds required: the completed gesture of `holdA` and
`holdB` captured at (11, 22), then a press at (77, 88) 100 ticks after the release,
sampled 500 ticks in. -/
def afterGesture : List Call :=
  holdCalls 0 [holdA, holdB] ++
  [{ pressed := true, time := 2320, lat := 77, lon := 88 },
   { pressed := true, time := 2820, lat := 78, lon := 89 }]

/-! # Theorems -/

/-! ## Buffer cells and the checksum loop -/

theorem getD_set_ne (buf : List Nat) (i j b : Nat) (h : i ≠ j) :
    (buf.set i b).getD j 0 = buf.getD j 0 := by
  simp [List.getD_eq_getElem?_getD, List.getElem?_set_ne h]

theorem getD_set_self (buf : List Nat) (i b : Nat) (h : i < buf.length) :
    (buf.set i b).getD i 0 = b := by
  simp [List.getD_eq_getElem?_getD, List.getElem?_set_self h]

theorem xor_byte_lt (a b : Nat) (ha : a < 256) (hb : b < 256) : a ^^^ b < 256 :=
  Nat.xor_lt_two_pow (n := 8) ha hb

theorem strncmpEq_hdrRMC (buf : List Nat) :
    strncmpEq buf hdrRMC 7 = true ↔ buf.take 7 = hdrRMC := by
  rcases buf with _ | ⟨a0, _ | ⟨a1, _ | ⟨a2, _ | ⟨a3, _ | ⟨a4, _ | ⟨a5, _ | ⟨a6, rest⟩⟩⟩⟩⟩⟩⟩ <;>
    simp [strncmpEq, hdrRMC] <;> omega

theorem strncmpEq_hdrGGA (buf : List Nat) :
    strncmpEq buf hdrGGA 7 = true ↔ buf.take 7 = hdrGGA := by
  rcases buf with _ | ⟨a0, _ | ⟨a1, _ | ⟨a2, _ | ⟨a3, _ | ⟨a4, _ | ⟨a5, _ | ⟨a6, rest⟩⟩⟩⟩⟩⟩⟩ <;>
    simp [strncmpEq, hdrGGA] <;> omega

/-! ## C strings in the receive buffer -/

theorem getD_append_left (s t : List Nat) (j : Nat) (h : j < s.length) :
    (s ++ t).getD j 0 = s.getD j 0 := by
  simp [List.getD_eq_getElem?_getD, List.getElem?_append_left h]

/-- A cell at or before the terminator of `u ++ 0 :: w` reads as in `u`. -/
theorem getD_trunc (u w : List Nat) (j : Nat) (h : j ≤ u.length) :
    (u ++ 0 :: w).getD j 0 = u.getD j 0 := by
  rcases Nat.lt_or_ge j u.length with hlt | hge
  · exact getD_append_left u _ j hlt
  · have hj : j = u.length := by omega
    subst hj
    rw [List.getD_eq_getElem?_getD, List.getD_eq_getElem?_getD,
      List.getElem?_append_right (Nat.le_refl _), List.getElem?_eq_none (Nat.le_refl _)]
    simp

theorem strchrFrom_trunc (l w : List Nat) (i c : Nat) (hc : c ≠ 0) :
    strchrFrom (l ++ 0 :: w) i c = strchrFrom l i c := by
  induction l generalizing i with
  | nil => simp [strchrFrom, hc.symm]
  | cons x xs ih =>
    show strchrFrom (x :: (xs ++ 0 :: w)) i c = strchrFrom (x :: xs) i c
    simp only [strchrFrom]
    rw [ih]

theorem strchrFrom_bound (l : List Nat) (i c q : Nat) (h : strchrFrom l i c = some q) :
    i ≤ q ∧ q < i + l.length := by
  induction l generalizing i with
  | nil => simp [strchrFrom] at h
  | cons x xs ih =>
    simp only [strchrFrom] at h
    split at h
    · simp at h; subst h; simp
    · split at h
      · simp at h
      · have := ih _ h
        simp only [List.length_cons]
        omega

theorem takeWhile_trunc (l w : List Nat) :
    (l ++ 0 :: w).takeWhile (fun x => x != 0) = l.takeWhile (fun x => x != 0) := by
  induction l with
  | nil => simp
  | cons x xs ih =>
    show (x :: (xs ++ 0 :: w)).takeWhile (fun x => x != 0) = _
    simp only [List.takeWhile_cons]
    rw [ih]

theorem cstr_trunc (u w : List Nat) (p : Nat) (h : p ≤ u.length) :
    cstr (u ++ 0 :: w) p = cstr u p := by
  unfold cstr
  rw [List.drop_append_of_le_length h, takeWhile_trunc]

theorem strlen_le (u : List Nat) (p : Nat) : p + strlen u p ≤ max p u.length := by
  unfold strlen cstr
  have h1 := (List.takeWhile_sublist (fun x => x != 0) (l := u.drop p)).length_le
  rw [List.length_drop] at h1
  omega

theorem advancePastComma_trunc (u w : List Nat) (p : Option Nat) (n : Nat)
    (hp : Bounded u p) :
    advancePastComma (u ++ 0 :: w) p n = advancePastComma u p n := by
  cases p with
  | none => rfl
  | some p =>
    have hp' : p ≤ u.length := hp p rfl
    simp only [advancePastComma, strchr]
    rw [List.drop_append_of_le_length hp', strchrFrom_trunc _ _ _ _ (by decide)]
    cases hq : strchrFrom (u.drop p) p 44 with
    | none => rfl
    | some q =>
      have hb := strchrFrom_bound _ _ _ _ hq
      rw [List.length_drop] at hb
      have hc := cstr_trunc u w (q + 1) (by omega)
      simp only [strlen, hc]

theorem advancePastComma_bound (u : List Nat) (p : Option Nat) (n r : Nat)
    (hp : Bounded u p) (h : advancePastComma u p n = some r) : r + n ≤ u.length := by
  cases p with
  | none => simp [advancePastComma] at h
  | some p =>
    have hp' : p ≤ u.length := hp p rfl
    simp only [advancePastComma, strchr] at h
    cases hq : strchrFrom (u.drop p) p 44 with
    | none => simp [hq] at h
    | some q =>
      have hb := strchrFrom_bound _ _ _ _ hq
      rw [List.length_drop] at hb
      simp only [hq] at h
      split at h
      · simp at h
      · simp at h
        subst h
        have := strlen_le u (q + 1)
        omega

theorem bounded_advancePastComma (u : List Nat) (p : Option Nat) (n : Nat)
    (hp : Bounded u p) : Bounded u (advancePastComma u p n) := by
  intro r hr
  have := advancePastComma_bound u p n r hp hr
  omega

theorem set_length_append (u r : List Nat) (x a : Nat) :
    (u ++ x :: r).set u.length a = u ++ a :: r := by
  induction u with
  | nil => rfl
  | cons y ys ih =>
    show (y :: (ys ++ x :: r)).set (ys.length + 1) a = y :: (ys ++ a :: r)
    rw [List.set_cons_succ, ih]

theorem split_last_two (s : List Nat) (h : 2 ≤ s.length) :
    ∃ u x y, s = u ++ [x, y] ∧ u.length = s.length - 2 := by
  refine ⟨s.take (s.length - 2), s.getD (s.length - 2) 0, s.getD (s.length - 1) 0, ?_, ?_⟩
  · apply List.ext_getElem?
    intro j
    by_cases hj : j < s.length - 2
    · rw [List.getElem?_append_left (by simp; omega), List.getElem?_take_of_lt hj]
    · rw [List.getElem?_append_right (by simp; omega)]
      simp only [List.length_take]
      have hm : min (s.length - 2) s.length = s.length - 2 := by omega
      rw [hm]
      by_cases h1 : j = s.length - 2
      · subst h1
        simp [List.getD_eq_getElem?_getD]
        have : s.length - 2 < s.length := by omega
        rw [List.getElem?_eq_getElem this]
        simp
      · by_cases h2 : j = s.length - 1
        · subst h2
          have e : s.length - 1 - (s.length - 2) = 1 := by omega
          rw [e]
          simp [List.getD_eq_getElem?_getD]
          have : s.length - 1 < s.length := by omega
          rw [List.getElem?_eq_getElem this]
          simp
        · have h3 : s.length ≤ j := by omega
          rw [List.getElem?_eq_none h3]
          have : 2 ≤ j - (s.length - 2) := by omega
          exact (List.getElem?_eq_none (by simpa using this)).symm
  · simp

theorem isSentence_unfold (s : List Nat) (h : isSentence s = true) :
    s.length ≤ MAXDATACHARS ∧ (∀ k, k < s.length → GPS.receivedDataIsComplete s k = false) ∧
    GPS.receivedDataIsComplete s s.length = true ∧ GPS.receivedDataIsValid s s.length = true := by
  simp only [isSentence, Bool.and_eq_true, decide_eq_true_eq, List.all_eq_true, List.mem_range,
    Bool.not_eq_true'] at h
  exact ⟨h.1.1.1, h.1.1.2, h.1.2, h.2⟩

namespace GPS

variable {F : Type}

theorem checksumLoop_lt (buf : List Nat) (n i acc : Nat) (h : acc < 256) :
    checksumLoop buf n i acc < 256 := by
  induction n generalizing i acc with
  | zero => simpa [checksumLoop] using h
  | succ n ih =>
    simp only [checksumLoop]
    exact ih _ _ (Nat.mod_lt _ (by norm_num))

/-- An extra byte folded into the accumulator comes out of the checksum loop unchanged. -/
theorem checksumLoop_xor (buf : List Nat) (n i acc d : Nat) (ha : acc < 256) (hd : d < 256) :
    checksumLoop buf n i (acc ^^^ d) = checksumLoop buf n i acc ^^^ d := by
  induction n generalizing i acc with
  | zero => simp [checksumLoop]
  | succ n ih =>
    simp only [checksumLoop]
    have hx : buf.getD i 0 % 256 < 256 := Nat.mod_lt _ (by norm_num)
    rw [Nat.mod_eq_of_lt (xor_byte_lt _ _ (xor_byte_lt _ _ ha hd) hx),
        Nat.mod_eq_of_lt (xor_byte_lt _ _ ha hx)]
    rw [Nat.xor_assoc, Nat.xor_comm d, ← Nat.xor_assoc]
    exact ih _ _ (xor_byte_lt _ _ ha hx)

/-- The checksum loop does not see a cell outside the range it runs over. -/
theorem checksumLoop_set_outside (buf : List Nat) (n i acc j b : Nat)
    (h : j < i ∨ i + n ≤ j) :
    checksumLoop (buf.set j b) n i acc = checksumLoop buf n i acc := by
  induction n generalizing i acc with
  | zero => simp [checksumLoop]
  | succ n ih =>
    simp only [checksumLoop]
    rw [getD_set_ne buf j i b (by omega)]
    exact ih _ _ (by omega)

/-- Replacing one byte inside the range changes the checksum by the exclusive-or of the
old and the new byte. -/
theorem checksumLoop_set_inside (buf : List Nat) (n i acc j b : Nat)
    (hj : i ≤ j ∧ j < i + n) (hlen : j < buf.length) (ha : acc < 256)
    (hold : buf.getD j 0 < 256) (hb : b < 256) :
    checksumLoop (buf.set j b) n i acc =
      checksumLoop buf n i acc ^^^ (buf.getD j 0 ^^^ b) := by
  induction n generalizing i acc with
  | zero => omega
  | succ n ih =>
    simp only [checksumLoop]
    by_cases hij : i = j
    · subst hij
      rw [getD_set_self buf i b hlen, checksumLoop_set_outside buf n (i + 1) _ i b (by omega)]
      rw [Nat.mod_eq_of_lt hb, Nat.mod_eq_of_lt hold,
          Nat.mod_eq_of_lt (xor_byte_lt _ _ ha hb), Nat.mod_eq_of_lt (xor_byte_lt _ _ ha hold)]
      rw [← checksumLoop_xor buf n (i + 1) _ _ (xor_byte_lt _ _ ha hold) (xor_byte_lt _ _ hold hb)]
      congr 1
      rw [Nat.xor_assoc, ← Nat.xor_assoc (buf.getD i 0), Nat.xor_self, Nat.zero_xor]
    · rw [getD_set_ne buf j i b (by omega)]
      exact ih _ _ (by omega) (Nat.mod_lt _ (by norm_num))

/-- What `receivedDataIsValid` has checked when it answers true. -/
theorem receivedDataIsValid_true (buf : List Nat) (count : Nat)
    (h : receivedDataIsValid buf count = true) :
    12 ≤ count ∧ buf.getD (endChar count) 0 = 42 ∧
    (strncmpEq buf hdrRMC 7 = true ∨ strncmpEq buf hdrGGA 7 = true) ∧
    calcChecksum buf count = expectedChecksum buf count := by
  unfold receivedDataIsValid at h
  split at h
  · exact absurd h (by simp)
  · rename_i h1
    split at h
    · exact absurd h (by simp)
    · rename_i h2
      refine ⟨by omega, by tauto, ?_, by simpa using h⟩
      by_cases h3 : strncmpEq buf hdrRMC 7 = true
      · exact Or.inl h3
      · right
        by_contra h4
        exact h2 ⟨by simpa using h3, by simpa using h4⟩

/-! ## The clearing loop and the two-slot array -/

theorem clearLoop_getElem? (buf : List Nat) (n j : Nat) :
    ((List.range n).foldl (fun b i => b.set i 0) buf)[j]? =
      if j < n ∧ j < buf.length then some 0 else buf[j]? := by
  induction n with
  | zero => simp
  | succ n ih =>
    rw [List.range_succ, List.foldl_append]
    simp only [List.foldl_cons, List.foldl_nil]
    rw [List.getElem?_set, ih]
    have hlen : ((List.range n).foldl (fun b i => b.set i 0) buf).length = buf.length := by
      clear ih
      induction n with
      | zero => simp
      | succ m ihm =>
        rw [List.range_succ, List.foldl_append]
        simpa using ihm
    rw [hlen]
    by_cases h1 : n = j
    · subst h1
      by_cases h2 : n < buf.length
      · simp [h2]
      · simp [h2]
        omega
    · by_cases h3 : j < n
      · have : j < n + 1 := by omega
        simp [h1, h3, this]
      · have : ¬ j < n + 1 := by omega
        simp [h1, h3, this]

theorem clearLoop_eq (buf : List Nat) (h : buf.length = MAXDATACHARS) :
    (List.range MAXDATACHARS).foldl (fun b i => b.set i 0) buf =
      List.replicate MAXDATACHARS 0 := by
  apply List.ext_getElem?
  intro j
  rw [clearLoop_getElem?, h]
  by_cases hj : j < MAXDATACHARS
  · simp [hj, List.getElem?_replicate]
  · simp [hj]
    have h1 : buf.length ≤ j := by omega
    have h2 : (List.replicate MAXDATACHARS 0).length ≤ j := by simp; omega
    rw [List.getElem?_eq_none h1, List.getElem?_eq_none h2]

theorem gpsData_setGpsData_same (g : GPS F) (i : Nat) (d : GPSData F) :
    (g.setGpsData i d).gpsData i = d := by
  unfold setGpsData gpsData
  split <;> simp_all

theorem gpsData_setGpsData_other (g : GPS F) (i j : Nat) (d : GPSData F)
    (h : ¬ (i = 0 ↔ j = 0)) : (g.setGpsData i d).gpsData j = g.gpsData j := by
  unfold setGpsData gpsData
  by_cases hi : i = 0 <;> by_cases hj : j = 0 <;> simp_all

theorem setGpsData_activeGPSData (g : GPS F) (i : Nat) (d : GPSData F) :
    (g.setGpsData i d).activeGPSData = g.activeGPSData := by
  unfold setGpsData; split <;> rfl

theorem setGpsData_receivedDataCount (g : GPS F) (i : Nat) (d : GPSData F) :
    (g.setGpsData i d).receivedDataCount = g.receivedDataCount := by
  unfold setGpsData; split <;> rfl

theorem setGpsData_receivedData (g : GPS F) (i : Nat) (d : GPSData F) :
    (g.setGpsData i d).receivedData = g.receivedData := by
  unfold setGpsData; split <;> rfl

theorem inactive_ne_active (g : GPS F) :
    ¬ (g.inactiveGPSData = 0 ↔ g.activeGPSData = 0) := by
  unfold inactiveGPSData; split <;> simp_all

theorem processRMCData_length (ops : FloatOps F) (buf : List Nat) (count : Nat)
    (d : GPSData F) : (processRMCData ops buf count d).1.length = buf.length := by
  simp [processRMCData]

theorem processGGAData_length (ops : FloatOps F) (buf : List Nat) (count : Nat)
    (d : GPSData F) : (processGGAData ops buf count d).1.length = buf.length := by
  simp [processGGAData]

theorem processGPSData_activeGPSData (ops : FloatOps F) (g : GPS F) (slot : Nat) :
    (g.processGPSData ops slot).activeGPSData = g.activeGPSData := by
  unfold processGPSData
  split
  · rfl
  · split <;> simp [setGpsData_activeGPSData]

theorem processGPSData_length (ops : FloatOps F) (g : GPS F) (slot : Nat) :
    (g.processGPSData ops slot).receivedData.length = g.receivedData.length := by
  unfold processGPSData
  split
  · rfl
  · split <;> simp [setGpsData_receivedData, processRMCData_length, processGGAData_length]

theorem processGPSData_other (ops : FloatOps F) (g : GPS F) (slot j : Nat)
    (h : ¬ (slot = 0 ↔ j = 0)) : (g.processGPSData ops slot).gpsData j = g.gpsData j := by
  unfold processGPSData
  split
  · rfl
  · split
    · rw [gpsData_setGpsData_other _ _ _ _ h]; rfl
    · rw [gpsData_setGpsData_other _ _ _ _ h]; rfl

theorem processGPSData_invalid (ops : FloatOps F) (g : GPS F) (slot : Nat)
    (h : receivedDataIsValid g.receivedData g.receivedDataCount = false) :
    g.processGPSData ops slot = g := by
  unfold processGPSData
  simp [h]


theorem gpsDataIsComplete_iff (d : GPSData F) :
    gpsDataIsComplete d = true ↔ d.hasBoth := by
  simp [gpsDataIsComplete, GPSData.hasBoth]

theorem resetReceivedData_gpsData (g : GPS F) (j : Nat) :
    g.resetReceivedData.gpsData j = g.gpsData j := by
  unfold resetReceivedData gpsData
  simp only

theorem resetReceivedData_activeGPSData (g : GPS F) :
    g.resetReceivedData.activeGPSData = g.activeGPSData := by
  unfold resetReceivedData
  simp only

theorem resetReceivedData_receivedDataCount (g : GPS F) :
    g.resetReceivedData.receivedDataCount = 0 := by
  unfold resetReceivedData
  simp only

theorem resetReceivedData_receivedData (g : GPS F)
    (h : g.receivedData.length = MAXDATACHARS) :
    g.resetReceivedData.receivedData = List.replicate MAXDATACHARS 0 := by
  unfold resetReceivedData
  simp only
  exact clearLoop_eq _ h

theorem store_gpsData (g : GPS F) (c j : Nat) : (g.store c).gpsData j = g.gpsData j := rfl

theorem store_inactiveGPSData (g : GPS F) (c : Nat) :
    (g.store c).inactiveGPSData = g.inactiveGPSData := rfl

theorem complete_publish (ops : FloatOps F) (g : GPS F)
    (h : gpsDataIsComplete ((g.processGPSData ops g.inactiveGPSData).gpsData
      g.inactiveGPSData) = true) :
    (g.complete ops).activeGPSData = g.inactiveGPSData ∧
    (g.complete ops).gpsData g.inactiveGPSData =
      (g.processGPSData ops g.inactiveGPSData).gpsData g.inactiveGPSData ∧
    (g.complete ops).gpsData g.activeGPSData =
      { g.gpsData g.activeGPSData with validFlags := 0 } := by
  have hne := inactive_ne_active g
  have hne2 : ¬ (g.activeGPSData = 0 ↔ g.inactiveGPSData = 0) := fun h => hne h.symm
  simp only [complete, h, if_true, resetReceivedData_gpsData, resetReceivedData_activeGPSData]
  refine ⟨by simp only [activateGPSData], ?_, ?_⟩
  · unfold activateGPSData
    show GPS.gpsData (setGpsData _ _ _) _ = _
    rw [processGPSData_activeGPSData, gpsData_setGpsData_other _ _ _ _ hne2]
  · unfold activateGPSData
    show GPS.gpsData (setGpsData _ _ _) _ = _
    rw [processGPSData_activeGPSData, gpsData_setGpsData_same,
      processGPSData_other _ _ _ _ hne]

theorem complete_keep (ops : FloatOps F) (g : GPS F)
    (h : gpsDataIsComplete ((g.processGPSData ops g.inactiveGPSData).gpsData
      g.inactiveGPSData) = false) :
    (g.complete ops).activeGPSData = g.activeGPSData ∧
    (g.complete ops).gpsData g.inactiveGPSData =
      (g.processGPSData ops g.inactiveGPSData).gpsData g.inactiveGPSData ∧
    (g.complete ops).gpsData g.activeGPSData = g.gpsData g.activeGPSData := by
  have hne := inactive_ne_active g
  simp only [complete, h, resetReceivedData_gpsData, resetReceivedData_activeGPSData]
  refine ⟨?_, ?_, ?_⟩
  · simp [processGPSData_activeGPSData]
  · simp
  · simp [processGPSData_other _ _ _ _ hne]

theorem complete_receivedDataCount (ops : FloatOps F) (g : GPS F) :
    (g.complete ops).receivedDataCount = 0 := by
  simp only [complete, resetReceivedData_receivedDataCount]

theorem activateGPSData_receivedData (g : GPS F) (n : Nat) :
    (g.activateGPSData n).receivedData = g.receivedData := by
  unfold activateGPSData
  show (setGpsData _ _ _).receivedData = _
  rw [setGpsData_receivedData]

theorem complete_receivedData (ops : FloatOps F) (g : GPS F)
    (h : g.receivedData.length = MAXDATACHARS) :
    (g.complete ops).receivedData = List.replicate MAXDATACHARS 0 := by
  simp only [complete]
  apply resetReceivedData_receivedData
  split
  · rw [activateGPSData_receivedData, processGPSData_length, h]
  · rw [processGPSData_length, h]

theorem feed_eq (ops : FloatOps F) (g : GPS F) (c : Nat) :
    g.feed ops c =
      overflowGuard (F := F) (if receivedDataIsComplete (g.store c).receivedData (g.store c).receivedDataCount
             then (g.store c).complete ops else g.store c) := rfl

theorem overflowGuard_gpsData (g : GPS F) (j : Nat) : (overflowGuard g).gpsData j = g.gpsData j := by
  unfold overflowGuard; split <;> rfl

theorem overflowGuard_activeGPSData (g : GPS F) : (overflowGuard g).activeGPSData = g.activeGPSData := by
  unfold overflowGuard; split <;> rfl

theorem overflowGuard_receivedData (g : GPS F) : (overflowGuard g).receivedData = g.receivedData := by
  unfold overflowGuard; split <;> rfl

theorem overflowGuard_receivedDataCount_lt (g : GPS F) :
    (overflowGuard g).receivedDataCount < MAXDATACHARS := by
  unfold overflowGuard; split
  · simp [MAXDATACHARS]
  · omega

/-! ## The state invariant -/

theorem gpsData_congr (g : GPS F) (i j : Nat) (h : i = 0 ↔ j = 0) :
    g.gpsData i = g.gpsData j := by
  unfold gpsData
  by_cases hi : i = 0 <;> by_cases hj : j = 0 <;> simp_all

theorem store_length (g : GPS F) (c : Nat) :
    (g.store c).receivedData.length = g.receivedData.length := by
  simp [store]

theorem store_last (g : GPS F) (c : Nat) (hlen : g.receivedData.length = MAXDATACHARS)
    (hcount : g.receivedDataCount < MAXDATACHARS) :
    (g.store c).receivedDataCount = g.receivedDataCount + 1 ∧
    (g.store c).receivedData.getD ((g.store c).receivedDataCount - 1) 0 = c := by
  have h1 : (g.receivedDataCount + 1) % 256 = g.receivedDataCount + 1 := by
    unfold MAXDATACHARS at hcount; omega
  refine ⟨h1, ?_⟩
  show (g.receivedData.set g.receivedDataCount c).getD ((g.receivedDataCount + 1) % 256 - 1) 0 = c
  rw [h1, Nat.add_sub_cancel]
  exact getD_set_self _ _ _ (by omega)

theorem not_hasBoth_clear (d : GPSData F) : ¬ ({ d with validFlags := 0 } : GPSData F).hasBoth := by
  simp [GPSData.hasBoth]

theorem inv_new (ops : FloatOps F) (buf : List Nat) (h : buf.length = MAXDATACHARS) :
    Inv ops (GPS.new ops buf) := by
  refine ⟨h, by simp [GPS.new, MAXDATACHARS], Or.inl rfl, ?_⟩
  simp [GPS.new, inactiveGPSData, gpsData, GPSData.hasBoth, GPSData.empty]

theorem inv_feed (ops : FloatOps F) (g : GPS F) (c : Nat) (h : Inv ops g) :
    Inv ops (g.feed ops c) := by
  obtain ⟨hlen, hcount, hact, hinact⟩ := h
  rw [feed_eq]
  by_cases hc : receivedDataIsComplete (g.store c).receivedData (g.store c).receivedDataCount = true
  · rw [if_pos hc]
    have hlen1 : (g.store c).receivedData.length = MAXDATACHARS := by rw [store_length, hlen]
    refine ⟨?_, overflowGuard_receivedDataCount_lt _, ?_, ?_⟩
    · rw [overflowGuard_receivedData, complete_receivedData _ _ hlen1]; simp
    · by_cases hd : gpsDataIsComplete (((g.store c).processGPSData ops
          (g.store c).inactiveGPSData).gpsData (g.store c).inactiveGPSData) = true
      · obtain ⟨h1, h2, h3⟩ := complete_publish ops (g.store c) hd
        right
        unfold getGPSData
        rw [overflowGuard_gpsData, overflowGuard_activeGPSData, h1, h2]
        exact (gpsDataIsComplete_iff _).mp hd
      · have hd2 : gpsDataIsComplete (((g.store c).processGPSData ops
          (g.store c).inactiveGPSData).gpsData (g.store c).inactiveGPSData) = false := by
          simpa using hd
        obtain ⟨h1, h2, h3⟩ := complete_keep ops (g.store c) hd2
        unfold getGPSData
        rw [overflowGuard_gpsData, overflowGuard_activeGPSData, h1, h3]
        exact hact
    · by_cases hd : gpsDataIsComplete (((g.store c).processGPSData ops
          (g.store c).inactiveGPSData).gpsData (g.store c).inactiveGPSData) = true
      · obtain ⟨h1, h2, h3⟩ := complete_publish ops (g.store c) hd
        rw [overflowGuard_gpsData]
        have hcls : ((overflowGuard ((g.store c).complete ops)).inactiveGPSData = 0 ↔
            (g.store c).activeGPSData = 0) := by
          have := inactive_ne_active (g.store c)
          unfold inactiveGPSData at this ⊢
          rw [overflowGuard_activeGPSData, h1]
          unfold inactiveGPSData
          split <;> simp_all
        rw [gpsData_congr _ _ _ hcls, h3]
        exact not_hasBoth_clear _
      · have hd2 : gpsDataIsComplete (((g.store c).processGPSData ops
          (g.store c).inactiveGPSData).gpsData (g.store c).inactiveGPSData) = false := by
          simpa using hd
        obtain ⟨h1, h2, h3⟩ := complete_keep ops (g.store c) hd2
        rw [overflowGuard_gpsData]
        have hcls : (overflowGuard ((g.store c).complete ops)).inactiveGPSData =
            (g.store c).inactiveGPSData := by
          unfold inactiveGPSData
          rw [overflowGuard_activeGPSData, h1]
        rw [hcls, h2]
        intro hb
        exact hd ((gpsDataIsComplete_iff _).mpr hb)
  · rw [if_neg hc]
    refine ⟨?_, overflowGuard_receivedDataCount_lt _, ?_, ?_⟩
    · rw [overflowGuard_receivedData, store_length, hlen]
    · unfold getGPSData
      rw [overflowGuard_gpsData, overflowGuard_activeGPSData]
      exact hact
    · rw [overflowGuard_gpsData]
      have : (overflowGuard (g.store c)).inactiveGPSData = g.inactiveGPSData := by
        unfold inactiveGPSData
        rw [overflowGuard_activeGPSData]
        rfl
      rw [this]
      exact hinact

theorem inv_of_reachable (ops : FloatOps F) (g : GPS F) (h : Reachable ops g) : Inv ops g := by
  induction h with
  | new buf h => exact inv_new ops buf h
  | feed g c _ ih => exact inv_feed ops g c ih

/-! ## One loop iteration -/

theorem reachable_feedAll (ops : FloatOps F) (g : GPS F) (bytes : List Nat)
    (h : Reachable ops g) : Reachable ops (g.feedAll ops bytes) := by
  induction bytes generalizing g with
  | nil => exact h
  | cons c cs ih => exact ih _ (Reachable.feed g c h)

theorem inactive_ne (g : GPS F) : g.inactiveGPSData ≠ g.activeGPSData := by
  unfold inactiveGPSData; split <;> omega

theorem feed_complete_cases (ops : FloatOps F) (g : GPS F) (c : Nat)
    (hcomp : receivedDataIsComplete (g.store c).receivedData (g.store c).receivedDataCount = true) :
    ((decoded ops g c).hasBoth ∧ (g.feed ops c).activeGPSData = g.inactiveGPSData ∧
      (g.feed ops c).gpsData g.inactiveGPSData = decoded ops g c ∧
      (g.feed ops c).gpsData g.activeGPSData = { g.gpsData g.activeGPSData with validFlags := 0 }) ∨
    (¬ (decoded ops g c).hasBoth ∧ (g.feed ops c).activeGPSData = g.activeGPSData ∧
      (g.feed ops c).gpsData g.inactiveGPSData = decoded ops g c ∧
      (g.feed ops c).gpsData g.activeGPSData = g.gpsData g.activeGPSData) := by
  rw [feed_eq, if_pos hcomp]
  simp only [overflowGuard_gpsData, overflowGuard_activeGPSData]
  by_cases hd : gpsDataIsComplete (decoded ops g c) = true
  · left
    obtain ⟨h1, h2, h3⟩ := complete_publish ops (g.store c) hd
    exact ⟨(gpsDataIsComplete_iff _).mp hd, h1, h2, h3⟩
  · right
    have hd2 : gpsDataIsComplete (decoded ops g c) = false := by simpa using hd
    obtain ⟨h1, h2, h3⟩ := complete_keep ops (g.store c) hd2
    exact ⟨fun hb => hd ((gpsDataIsComplete_iff _).mpr hb), h1, h2, h3⟩

theorem feed_incomplete (ops : FloatOps F) (g : GPS F) (c : Nat)
    (hcomp : receivedDataIsComplete (g.store c).receivedData (g.store c).receivedDataCount = false) :
    (g.feed ops c).activeGPSData = g.activeGPSData ∧
    (∀ j, (g.feed ops c).gpsData j = g.gpsData j) ∧
    (g.feed ops c).gpsData0 = g.gpsData0 ∧ (g.feed ops c).gpsData1 = g.gpsData1 := by
  rw [feed_eq, hcomp]
  simp only [Bool.false_eq_true, if_false, overflowGuard_gpsData, overflowGuard_activeGPSData]
  refine ⟨rfl, fun j => rfl, ?_, ?_⟩
  · unfold overflowGuard; split <;> rfl
  · unfold overflowGuard; split <;> rfl

theorem receivedDataIsComplete_true (buf : List Nat) (count : Nat)
    (h : receivedDataIsComplete buf count = true) :
    5 ≤ count ∧ buf.getD (count - 1) 0 = 10 ∧ buf.getD (count - 5) 0 = 42 := by
  simpa [receivedDataIsComplete, and_assoc] using h

/-- The ways a completed buffer fails `receivedDataIsValid`. -/
theorem receivedDataIsValid_false_iff (buf : List Nat) (count : Nat) (hcount : count < 256)
    (hcomp : receivedDataIsComplete buf count = true) :
    receivedDataIsValid buf count = false ↔
      (count < 12 ∨ (buf.take 7 ≠ hdrRMC ∧ buf.take 7 ≠ hdrGGA) ∨
        calcChecksum buf count ≠ expectedChecksum buf count) := by
  obtain ⟨h5, -, hstar⟩ := receivedDataIsComplete_true buf count hcomp
  have hend : endChar count = count - 5 := by unfold endChar; omega
  unfold receivedDataIsValid
  rw [hend]
  simp only [hstar, ne_eq, not_true_eq_false, or_false]
  by_cases h12 : count < 12
  · simp [h12]
  · by_cases hR : strncmpEq buf hdrRMC 7 = true
    · have hR2 := (strncmpEq_hdrRMC buf).mp hR
      simp [h12, hR, hR2]
    · by_cases hG : strncmpEq buf hdrGGA 7 = true
      · have hG2 := (strncmpEq_hdrGGA buf).mp hG
        simp [h12, hG, hG2]
      · have hR2 : buf.take 7 ≠ hdrRMC := fun h => hR ((strncmpEq_hdrRMC buf).mpr h)
        have hG2 : buf.take 7 ≠ hdrGGA := fun h => hG ((strncmpEq_hdrGGA buf).mpr h)
        simp [h12, hR, hG, hR2, hG2]

theorem overflowGuard_receivedDataCount_zero (g : GPS F) (h : g.receivedDataCount = 0) :
    (overflowGuard g).receivedDataCount = 0 := by
  unfold overflowGuard; split
  · rfl
  · exact h

theorem feed_no_newline (ops : FloatOps F) (g : GPS F) (c : Nat) (hinv : Inv ops g)
    (hc : c ≠ 10) :
    (g.feed ops c).gpsData0 = g.gpsData0 ∧ (g.feed ops c).gpsData1 = g.gpsData1 ∧
    (g.feed ops c).activeGPSData = g.activeGPSData := by
  obtain ⟨hlen, hcount, -, -⟩ := hinv
  obtain ⟨h1, h2⟩ := store_last g c hlen hcount
  have hcomp : receivedDataIsComplete (g.store c).receivedData
      (g.store c).receivedDataCount = false := by
    unfold receivedDataIsComplete
    rw [h2]
    simp [hc]
  obtain ⟨ha, -, h0, h1⟩ := feed_incomplete ops g c hcomp
  exact ⟨h0, h1, ha⟩

/-! ## The decoders read nothing behind the terminator -/

theorem rmcTime_trunc (u w : List Nat) (st : DecodeState F)
    (h : Bounded u st.rest) : rmcTime (u ++ 0 :: w) st = rmcTime u st := by
  unfold rmcTime
  simp only [advancePastComma_trunc u w _ _ h]
  cases hr : advancePastComma u st.rest 6 with
  | none => rfl
  | some r =>
    have hb := advancePastComma_bound u _ _ _ h hr
    simp (disch := omega) only [getD_trunc, cstr_trunc]

theorem rmcTime_rest (buf : List Nat) (st : DecodeState F) :
    (rmcTime buf st).rest = advancePastComma buf st.rest 6 := by
  unfold rmcTime
  cases advancePastComma buf st.rest 6 <;> rfl

theorem rmcTime_flags (buf : List Nat) (st : DecodeState F) :
    (rmcTime buf st).data.validFlags = st.data.validFlags := by
  unfold rmcTime
  cases advancePastComma buf st.rest 6 <;> rfl

theorem rmcStatus_trunc (u w : List Nat) (st : DecodeState F)
    (h : Bounded u st.rest) : rmcStatus (u ++ 0 :: w) st = rmcStatus u st := by
  unfold rmcStatus
  simp only [advancePastComma_trunc u w _ _ h]
  cases hr : advancePastComma u st.rest 1 with
  | none => rfl
  | some r =>
    have hb := advancePastComma_bound u _ _ _ h hr
    simp (disch := omega) only [getD_trunc, cstr_trunc]

theorem rmcStatus_rest (buf : List Nat) (st : DecodeState F) :
    (rmcStatus buf st).rest = advancePastComma buf st.rest 1 := by
  unfold rmcStatus
  cases advancePastComma buf st.rest 1 <;> rfl

theorem rmcStatus_flags (buf : List Nat) (st : DecodeState F) :
    (rmcStatus buf st).data.validFlags = st.data.validFlags := by
  unfold rmcStatus
  cases advancePastComma buf st.rest 1 <;> rfl

theorem rmcLatitude_trunc (ops : FloatOps F) (u w : List Nat) (st : DecodeState F)
    (h : Bounded u st.rest) : rmcLatitude ops (u ++ 0 :: w) st = rmcLatitude ops u st := by
  unfold rmcLatitude
  simp only [advancePastComma_trunc u w _ _ h]
  cases hr : advancePastComma u st.rest 4 with
  | none => rfl
  | some r =>
    have hb := advancePastComma_bound u _ _ _ h hr
    simp (disch := omega) only [getD_trunc, cstr_trunc]

theorem rmcLatitude_rest (ops : FloatOps F) (buf : List Nat) (st : DecodeState F) :
    (rmcLatitude ops buf st).rest = advancePastComma buf st.rest 4 := by
  unfold rmcLatitude
  cases advancePastComma buf st.rest 4 <;> cases st.isActive <;> rfl

theorem rmcLatitude_flags (ops : FloatOps F) (buf : List Nat) (st : DecodeState F) :
    (rmcLatitude ops buf st).data.validFlags = st.data.validFlags := by
  unfold rmcLatitude
  cases advancePastComma buf st.rest 4 <;> cases st.isActive <;> rfl

theorem rmcLatitudeSign_trunc (ops : FloatOps F) (u w : List Nat) (st : DecodeState F)
    (h : Bounded u st.rest) : rmcLatitudeSign ops (u ++ 0 :: w) st = rmcLatitudeSign ops u st := by
  unfold rmcLatitudeSign
  simp only [advancePastComma_trunc u w _ _ h]
  cases hr : advancePastComma u st.rest 1 with
  | none => rfl
  | some r =>
    have hb := advancePastComma_bound u _ _ _ h hr
    simp (disch := omega) only [getD_trunc, cstr_trunc]

theorem rmcLatitudeSign_rest (ops : FloatOps F) (buf : List Nat) (st : DecodeState F) :
    (rmcLatitudeSign ops buf st).rest = advancePastComma buf st.rest 1 := by
  unfold rmcLatitudeSign
  cases advancePastComma buf st.rest 1 with
  | none => rfl
  | some r => simp only []; split <;> rfl

theorem rmcLatitudeSign_flags (ops : FloatOps F) (buf : List Nat) (st : DecodeState F) :
    (rmcLatitudeSign ops buf st).data.validFlags = st.data.validFlags := by
  unfold rmcLatitudeSign
  cases advancePastComma buf st.rest 1 with
  | none => rfl
  | some r => simp only []; split <;> rfl

theorem rmcLongitude_trunc (ops : FloatOps F) (u w : List Nat) (st : DecodeState F)
    (h : Bounded u st.rest) : rmcLongitude ops (u ++ 0 :: w) st = rmcLongitude ops u st := by
  unfold rmcLongitude
  simp only [advancePastComma_trunc u w _ _ h]
  cases hr : advancePastComma u st.rest 5 with
  | none => rfl
  | some r =>
    have hb := advancePastComma_bound u _ _ _ h hr
    simp (disch := omega) only [getD_trunc, cstr_trunc]

theorem rmcLongitude_rest (ops : FloatOps F) (buf : List Nat) (st : DecodeState F) :
    (rmcLongitude ops buf st).rest = advancePastComma buf st.rest 5 := by
  unfold rmcLongitude
  cases advancePastComma buf st.rest 5 <;> cases st.isActive <;> rfl

theorem rmcLongitude_flags (ops : FloatOps F) (buf : List Nat) (st : DecodeState F) :
    (rmcLongitude ops buf st).data.validFlags = st.data.validFlags := by
  unfold rmcLongitude
  cases advancePastComma buf st.rest 5 <;> cases st.isActive <;> rfl

theorem rmcLongitudeSign_trunc (ops : FloatOps F) (u w : List Nat) (st : DecodeState F)
    (h : Bounded u st.rest) : rmcLongitudeSign ops (u ++ 0 :: w) st = rmcLongitudeSign ops u st := by
  unfold rmcLongitudeSign
  simp only [advancePastComma_trunc u w _ _ h]
  cases hr : advancePastComma u st.rest 1 with
  | none => rfl
  | some r =>
    have hb := advancePastComma_bound u _ _ _ h hr
    simp (disch := omega) only [getD_trunc, cstr_trunc]

theorem rmcLongitudeSign_rest (ops : FloatOps F) (buf : List Nat) (st : DecodeState F) :
    (rmcLongitudeSign ops buf st).rest = advancePastComma buf st.rest 1 := by
  unfold rmcLongitudeSign
  cases advancePastComma buf st.rest 1 with
  | none => rfl
  | some r => simp only []; split <;> rfl

theorem rmcLongitudeSign_flags (ops : FloatOps F) (buf : List Nat) (st : DecodeState F) :
    (rmcLongitudeSign ops buf st).data.validFlags = st.data.validFlags := by
  unfold rmcLongitudeSign
  cases advancePastComma buf st.rest 1 with
  | none => rfl
  | some r => simp only []; split <;> rfl

theorem rmcSpeed_trunc (ops : FloatOps F) (u w : List Nat) (st : DecodeState F)
    (h : Bounded u st.rest) : rmcSpeed ops (u ++ 0 :: w) st = rmcSpeed ops u st := by
  unfold rmcSpeed
  simp only [advancePastComma_trunc u w _ _ h]
  cases hr : advancePastComma u st.rest 2 with
  | none => rfl
  | some r =>
    have hb := advancePastComma_bound u _ _ _ h hr
    simp (disch := omega) only [getD_trunc, cstr_trunc]

theorem rmcSpeed_rest (ops : FloatOps F) (buf : List Nat) (st : DecodeState F) :
    (rmcSpeed ops buf st).rest = advancePastComma buf st.rest 2 := by
  unfold rmcSpeed
  cases advancePastComma buf st.rest 2 <;> rfl

theorem rmcSpeed_flags (ops : FloatOps F) (buf : List Nat) (st : DecodeState F) :
    (rmcSpeed ops buf st).data.validFlags = st.data.validFlags := by
  unfold rmcSpeed
  cases advancePastComma buf st.rest 2 <;> rfl

theorem rmcTrack_trunc (ops : FloatOps F) (u w : List Nat) (st : DecodeState F)
    (h : Bounded u st.rest) : rmcTrack ops (u ++ 0 :: w) st = rmcTrack ops u st := by
  unfold rmcTrack
  simp only [advancePastComma_trunc u w _ _ h]
  cases hr : advancePastComma u st.rest 2 with
  | none => rfl
  | some r =>
    have hb := advancePastComma_bound u _ _ _ h hr
    simp (disch := omega) only [getD_trunc, cstr_trunc]

theorem rmcTrack_rest (ops : FloatOps F) (buf : List Nat) (st : DecodeState F) :
    (rmcTrack ops buf st).rest = advancePastComma buf st.rest 2 := by
  unfold rmcTrack
  cases advancePastComma buf st.rest 2 <;> rfl

theorem rmcTrack_flags (ops : FloatOps F) (buf : List Nat) (st : DecodeState F) :
    (rmcTrack ops buf st).data.validFlags = st.data.validFlags := by
  unfold rmcTrack
  cases advancePastComma buf st.rest 2 <;> rfl

theorem rmcDate_trunc (u w : List Nat) (st : DecodeState F)
    (h : Bounded u st.rest) : rmcDate (u ++ 0 :: w) st = rmcDate u st := by
  unfold rmcDate
  simp only [advancePastComma_trunc u w _ _ h]
  cases hr : advancePastComma u st.rest 6 with
  | none => rfl
  | some r =>
    have hb := advancePastComma_bound u _ _ _ h hr
    simp (disch := omega) only [getD_trunc, cstr_trunc]

theorem rmcDate_rest (buf : List Nat) (st : DecodeState F) :
    (rmcDate buf st).rest = advancePastComma buf st.rest 6 := by
  unfold rmcDate
  cases advancePastComma buf st.rest 6 <;> rfl

theorem rmcDate_flags (buf : List Nat) (st : DecodeState F) :
    (rmcDate buf st).data.validFlags = st.data.validFlags := by
  unfold rmcDate
  cases advancePastComma buf st.rest 6 <;> rfl

theorem ggaUnits_trunc (ops : FloatOps F) (u w : List Nat) (st : DecodeState F)
    (h : Bounded u st.rest) : ggaUnits ops (u ++ 0 :: w) st = ggaUnits ops u st := by
  unfold ggaUnits
  simp only [advancePastComma_trunc u w _ _ h]
  cases hr : advancePastComma u st.rest 1 with
  | none => rfl
  | some r =>
    have hb := advancePastComma_bound u _ _ _ h hr
    simp (disch := omega) only [getD_trunc, cstr_trunc]

theorem ggaUnits_rest (ops : FloatOps F) (buf : List Nat) (st : DecodeState F) :
    (ggaUnits ops buf st).rest = advancePastComma buf st.rest 1 := by
  unfold ggaUnits
  cases advancePastComma buf st.rest 1 with
  | none => rfl
  | some r => simp only []; split <;> rfl

theorem ggaUnits_flags (ops : FloatOps F) (buf : List Nat) (st : DecodeState F) :
    (ggaUnits ops buf st).data.validFlags = st.data.validFlags := by
  unfold ggaUnits
  cases advancePastComma buf st.rest 1 with
  | none => rfl
  | some r => simp only []; split <;> rfl

theorem ggaSkip_trunc (u w : List Nat) (st : DecodeState F) (h : Bounded u st.rest) :
    ggaSkip (u ++ 0 :: w) st = ggaSkip u st ∧ Bounded u (ggaSkip u st).rest := by
  unfold ggaSkip
  have b1 := bounded_advancePastComma u _ 6 h
  have b2 := bounded_advancePastComma u _ 1 b1
  have b3 := bounded_advancePastComma u _ 1 b2
  have b4 := bounded_advancePastComma u _ 1 b3
  have b5 := bounded_advancePastComma u _ 1 b4
  have b6 := bounded_advancePastComma u _ 1 b5
  have b7 := bounded_advancePastComma u _ 1 b6
  have b8 := bounded_advancePastComma u _ 1 b7
  have b9 := bounded_advancePastComma u _ 1 b8
  refine ⟨?_, b9⟩
  simp only [advancePastComma_trunc u w _ _ h, advancePastComma_trunc u w _ _ b1,
    advancePastComma_trunc u w _ _ b2, advancePastComma_trunc u w _ _ b3,
    advancePastComma_trunc u w _ _ b4, advancePastComma_trunc u w _ _ b5,
    advancePastComma_trunc u w _ _ b6, advancePastComma_trunc u w _ _ b7,
    advancePastComma_trunc u w _ _ b8]

theorem ggaSkip_flags (buf : List Nat) (st : DecodeState F) :
    (ggaSkip buf st).data.validFlags = st.data.validFlags := rfl

theorem ggaAltitude_trunc (ops : FloatOps F) (u w : List Nat) (st : DecodeState F)
    (h : Bounded u st.rest) : ggaAltitude ops (u ++ 0 :: w) st = ggaAltitude ops u st := by
  unfold ggaAltitude
  cases hr : st.rest with
  | none => rfl
  | some r =>
    have hb := h r hr
    simp (disch := omega) only [cstr_trunc]

theorem ggaAltitude_rest (ops : FloatOps F) (buf : List Nat) (st : DecodeState F) :
    (ggaAltitude ops buf st).rest = st.rest := by
  unfold ggaAltitude
  cases st.rest <;> rfl

theorem ggaAltitude_flags (ops : FloatOps F) (buf : List Nat) (st : DecodeState F) :
    (ggaAltitude ops buf st).data.validFlags = st.data.validFlags := by
  unfold ggaAltitude
  cases st.rest <;> rfl

theorem rmcBlocks_trunc (ops : FloatOps F) (u w : List Nat) (st : DecodeState F)
    (h : Bounded u st.rest) :
    rmcDate (u ++ 0 :: w) (rmcTrack ops (u ++ 0 :: w) (rmcSpeed ops (u ++ 0 :: w)
      (rmcLongitudeSign ops (u ++ 0 :: w) (rmcLongitude ops (u ++ 0 :: w)
      (rmcLatitudeSign ops (u ++ 0 :: w) (rmcLatitude ops (u ++ 0 :: w)
      (rmcStatus (u ++ 0 :: w) (rmcTime (u ++ 0 :: w) st)))))))) =
    rmcDate u (rmcTrack ops u (rmcSpeed ops u (rmcLongitudeSign ops u (rmcLongitude ops u
      (rmcLatitudeSign ops u (rmcLatitude ops u (rmcStatus u (rmcTime u st)))))))) := by
  have b1 : Bounded u (rmcTime u st).rest := by
    rw [rmcTime_rest]; exact bounded_advancePastComma u _ _ h
  have b2 : Bounded u (rmcStatus u (rmcTime u st)).rest := by
    rw [rmcStatus_rest]; exact bounded_advancePastComma u _ _ b1
  have b3 := bounded_advancePastComma u _ 4 b2
  rw [← rmcLatitude_rest ops] at b3
  have b4 := bounded_advancePastComma u _ 1 b3
  rw [← rmcLatitudeSign_rest ops] at b4
  have b5 := bounded_advancePastComma u _ 5 b4
  rw [← rmcLongitude_rest ops] at b5
  have b6 := bounded_advancePastComma u _ 1 b5
  rw [← rmcLongitudeSign_rest ops] at b6
  have b7 := bounded_advancePastComma u _ 2 b6
  rw [← rmcSpeed_rest ops] at b7
  have b8 := bounded_advancePastComma u _ 2 b7
  rw [← rmcTrack_rest ops] at b8
  rw [rmcTime_trunc u w _ h, rmcStatus_trunc u w _ b1, rmcLatitude_trunc ops u w _ b2,
    rmcLatitudeSign_trunc ops u w _ b3, rmcLongitude_trunc ops u w _ b4,
    rmcLongitudeSign_trunc ops u w _ b5, rmcSpeed_trunc ops u w _ b6,
    rmcTrack_trunc ops u w _ b7, rmcDate_trunc u w _ b8]

theorem ggaBlocks_trunc (ops : FloatOps F) (u w : List Nat) (st : DecodeState F)
    (h : Bounded u st.rest) :
    ggaUnits ops (u ++ 0 :: w) (ggaAltitude ops (u ++ 0 :: w) (ggaSkip (u ++ 0 :: w) st)) =
    ggaUnits ops u (ggaAltitude ops u (ggaSkip u st)) := by
  obtain ⟨e1, b1⟩ := ggaSkip_trunc u w st h
  have b2 : Bounded u (ggaAltitude ops u (ggaSkip u st)).rest := by
    rw [ggaAltitude_rest]; exact b1
  rw [e1, ggaAltitude_trunc ops u w _ b1, ggaUnits_trunc ops u w _ b2]

/-- The record `processRMCData` leaves does not depend on the cells behind the sentence. -/
theorem processRMCData_append (ops : FloatOps F) (s t : List Nat) (d : GPSData F)
    (h : 2 ≤ s.length) :
    (processRMCData ops (s ++ t) s.length d).2 = decodeRMC ops s d := by
  obtain ⟨u, x, y, rfl, hu⟩ := split_last_two s h
  have hlen : (u ++ [x, y]).length - 2 = u.length := by simp
  have b0 : Bounded u (some 0) := fun z hz => by cases hz; omega
  unfold decodeRMC processRMCData
  simp only [hlen]
  have e1 : (u ++ [x, y] ++ t).set u.length 0 = u ++ 0 :: (y :: t) := by
    rw [List.append_assoc]; exact set_length_append u _ x 0
  have e2 : (u ++ [x, y]).set u.length 0 = u ++ 0 :: [y] := set_length_append u _ x 0
  rw [e1, e2, rmcBlocks_trunc ops u (y :: t) _ b0, rmcBlocks_trunc ops u [y] _ b0]

/-- The record `processGGAData` leaves does not depend on the cells behind the sentence. -/
theorem processGGAData_append (ops : FloatOps F) (s t : List Nat) (d : GPSData F)
    (h : 2 ≤ s.length) :
    (processGGAData ops (s ++ t) s.length d).2 = decodeGGA ops s d := by
  obtain ⟨u, x, y, rfl, hu⟩ := split_last_two s h
  have hlen : (u ++ [x, y]).length - 2 = u.length := by simp
  have b0 : Bounded u (some 0) := fun z hz => by cases hz; omega
  unfold decodeGGA processGGAData
  simp only [hlen]
  have e1 : (u ++ [x, y] ++ t).set u.length 0 = u ++ 0 :: (y :: t) := by
    rw [List.append_assoc]; exact set_length_append u _ x 0
  have e2 : (u ++ [x, y]).set u.length 0 = u ++ 0 :: [y] := set_length_append u _ x 0
  rw [e1, e2, ggaBlocks_trunc ops u (y :: t) _ b0, ggaBlocks_trunc ops u [y] _ b0]

theorem decodeRMC_flags (ops : FloatOps F) (s : List Nat) (d : GPSData F) :
    (decodeRMC ops s d).validFlags = (d.validFlags ||| HASRMC) % 256 := by
  unfold decodeRMC processRMCData
  simp only [rmcDate_flags, rmcTrack_flags, rmcSpeed_flags, rmcLongitudeSign_flags,
    rmcLongitude_flags, rmcLatitudeSign_flags, rmcLatitude_flags, rmcStatus_flags,
    rmcTime_flags]

theorem decodeGGA_flags (ops : FloatOps F) (s : List Nat) (d : GPSData F) :
    (decodeGGA ops s d).validFlags = (d.validFlags ||| HASGGA) % 256 := by
  unfold decodeGGA processGGAData
  simp only [ggaUnits_flags, ggaAltitude_flags, ggaSkip_flags]

/-! ## Feeding a whole sentence -/

theorem receivedDataIsComplete_append (s t : List Nat) (k : Nat) (hk : k ≤ s.length) :
    receivedDataIsComplete (s ++ t) k = receivedDataIsComplete s k := by
  unfold receivedDataIsComplete
  by_cases h5 : 5 ≤ k
  · rw [getD_append_left s t _ (by omega), getD_append_left s t _ (by omega)]
  · simp [h5]

theorem checksumLoop_append (s t : List Nat) (n i acc : Nat) (h : i + n ≤ s.length) :
    checksumLoop (s ++ t) n i acc = checksumLoop s n i acc := by
  induction n generalizing i acc with
  | zero => rfl
  | succ n ih =>
    simp only [checksumLoop]
    rw [getD_append_left s t i (by omega)]
    exact ih _ _ (by omega)

theorem receivedDataIsValid_append (s t : List Nat) (hlen : s.length < 256) :
    receivedDataIsValid (s ++ t) s.length = receivedDataIsValid s s.length := by
  by_cases h12 : s.length < 12
  · simp [receivedDataIsValid, h12]
  · have hend : endChar s.length = s.length - 5 := by unfold endChar; omega
    have hR : strncmpEq (s ++ t) hdrRMC 7 = strncmpEq s hdrRMC 7 := by
      rw [Bool.eq_iff_iff, strncmpEq_hdrRMC, strncmpEq_hdrRMC, List.take_append_of_le_length (by omega)]
    have hG : strncmpEq (s ++ t) hdrGGA 7 = strncmpEq s hdrGGA 7 := by
      rw [Bool.eq_iff_iff, strncmpEq_hdrGGA, strncmpEq_hdrGGA, List.take_append_of_le_length (by omega)]
    unfold receivedDataIsValid calcChecksum expectedChecksum
    rw [hR, hG, hend, getD_append_left s t _ (by omega), getD_append_left s t _ (by omega),
      getD_append_left s t _ (by omega), checksumLoop_append s t _ _ _ (by omega)]

theorem feedAll_append (ops : FloatOps F) (g : GPS F) (a b : List Nat) :
    g.feedAll ops (a ++ b) = (g.feedAll ops a).feedAll ops b := by
  simp [feedAll, List.foldl_append]

/-- Bytes that complete no sentence pile up in the buffer from index 0 on. -/
theorem feedAll_partial (ops : FloatOps F) (g : GPS F) (p : List Nat)
    (hlen : g.receivedData.length = MAXDATACHARS) (hcount : g.receivedDataCount = 0)
    (hp : p.length < MAXDATACHARS)
    (hnc : ∀ k, k ≤ p.length → receivedDataIsComplete p k = false) :
    g.feedAll ops p =
      { g with receivedData := p ++ g.receivedData.drop p.length,
               receivedDataCount := p.length } := by
  induction p using List.reverseRecOn with
  | nil =>
    cases g
    simp only at hcount
    subst hcount
    simp [feedAll]
  | append_singleton p c ih =>
    have hpl : p.length + 1 < MAXDATACHARS := by simpa using hp
    have hnc' : ∀ k, k ≤ p.length → receivedDataIsComplete p k = false := by
      intro k hk
      rw [← receivedDataIsComplete_append p [c] k hk]
      exact hnc k (by simp; omega)
    have ihp := ih (by omega) hnc'
    rw [feedAll_append, ihp]
    have hdrop : g.receivedData.drop p.length =
        g.receivedData.getD p.length 0 :: g.receivedData.drop (p.length + 1) := by
      have hlt : p.length < g.receivedData.length := by omega
      rw [List.getD_eq_getElem _ _ hlt]
      exact List.drop_eq_getElem_cons hlt
    have hmod : (p.length + 1) % 256 = p.length + 1 := by
      unfold MAXDATACHARS at hpl; omega
    have hstore : ({ g with receivedData := p ++ g.receivedData.drop p.length,
                            receivedDataCount := p.length } : GPS F).store c =
        { g with receivedData := (p ++ [c]) ++ g.receivedData.drop (p.length + 1),
                 receivedDataCount := p.length + 1 } := by
      simp only [store, hmod]
      rw [hdrop, set_length_append]
      simp
    have hcomp : receivedDataIsComplete ((p ++ [c]) ++ g.receivedData.drop (p.length + 1))
        (p.length + 1) = false := by
      rw [receivedDataIsComplete_append _ _ _ (by simp)]
      exact hnc _ (by simp)
    simp only [feedAll, List.foldl_cons, List.foldl_nil]
    rw [feed_eq, hstore]
    simp only [hcomp, Bool.false_eq_true, if_false]
    unfold overflowGuard
    simp only [List.length_append, List.length_singleton]
    rw [if_neg (by omega)]

theorem feedAll_sentence (ops : FloatOps F) (g : GPS F) (s : List Nat)
    (hlen : g.receivedData.length = MAXDATACHARS) (hcount : g.receivedDataCount = 0)
    (hs : isSentence s = true) :
    ∃ gp c, g.feedAll ops s = gp.feed ops c ∧
      receivedDataIsComplete (gp.store c).receivedData (gp.store c).receivedDataCount = true ∧
      gp.activeGPSData = g.activeGPSData ∧ gp.gpsData0 = g.gpsData0 ∧
      gp.gpsData1 = g.gpsData1 ∧
      decoded ops gp c =
        (if strncmpEq s hdrRMC 7 = true then decodeRMC ops s (g.gpsData g.inactiveGPSData)
         else decodeGGA ops s (g.gpsData g.inactiveGPSData)) ∧
      (gp.feed ops c).receivedDataCount = 0 ∧
      (gp.feed ops c).receivedData.length = MAXDATACHARS := by
  obtain ⟨hsl, hnc, hcomp, hvalid⟩ := isSentence_unfold s hs
  obtain ⟨h5, -, -⟩ := receivedDataIsComplete_true s _ hcomp
  rcases List.eq_nil_or_concat s with hnil | ⟨p, c, hpc⟩
  · subst hnil; simp at h5
  rw [List.concat_eq_append] at hpc
  subst hpc
  have hpl : p.length < MAXDATACHARS := by simp at hsl; omega
  have hncp : ∀ k, k ≤ p.length → receivedDataIsComplete p k = false := by
    intro k hk
    rw [← receivedDataIsComplete_append p [c] k hk]
    exact hnc k (by simp; omega)
  have hpart := feedAll_partial ops g p hlen hcount hpl hncp
  have hdrop : g.receivedData.drop p.length =
      g.receivedData.getD p.length 0 :: g.receivedData.drop (p.length + 1) := by
    have hlt : p.length < g.receivedData.length := by omega
    rw [List.getD_eq_getElem _ _ hlt]
    exact List.drop_eq_getElem_cons hlt
  have hmod : (p.length + 1) % 256 = p.length + 1 := by
    unfold MAXDATACHARS at hpl; omega
  have hstore : (g.feedAll ops p).store c =
      { g with receivedData := (p ++ [c]) ++ g.receivedData.drop (p.length + 1),
               receivedDataCount := (p ++ [c]).length } := by
    rw [hpart]
    simp only [store, hmod]
    rw [hdrop, set_length_append]
    simp
  have hcomp' : receivedDataIsComplete ((g.feedAll ops p).store c).receivedData
      ((g.feedAll ops p).store c).receivedDataCount = true := by
    rw [hstore]
    simp only
    rw [receivedDataIsComplete_append _ _ _ (Nat.le_refl _)]
    exact hcomp
  have hvalid' : receivedDataIsValid ((g.feedAll ops p).store c).receivedData
      ((g.feedAll ops p).store c).receivedDataCount = true := by
    rw [hstore]
    simp only
    rw [receivedDataIsValid_append _ _ (by unfold MAXDATACHARS at hsl; simp at hsl ⊢; omega)]
    exact hvalid
  obtain ⟨h12, -, hhdr, -⟩ := receivedDataIsValid_true _ _ hvalid
  have hinact : (g.feedAll ops p).inactiveGPSData = g.inactiveGPSData := by rw [hpart]; rfl
  have hrec : ((g.feedAll ops p).store c).gpsData g.inactiveGPSData =
      g.gpsData g.inactiveGPSData := by rw [hstore]; rfl
  have h3 : ((g.feedAll ops p).store c).receivedData.getD 3 0 = (p ++ [c]).getD 3 0 := by
    rw [hstore]
    exact getD_append_left _ _ _ (by omega)
  refine ⟨g.feedAll ops p, c, ?_, hcomp', by rw [hpart], by rw [hpart], by rw [hpart], ?_, ?_, ?_⟩
  · rw [feedAll_append]; rfl
  · unfold decoded
    rw [hinact]
    unfold processGPSData
    rw [hvalid', h3]
    simp only [Bool.true_eq_false, if_false]
    have hR3 : ∀ l : List Nat, l.take 7 = hdrRMC → l.getD 3 0 = 82 := by
      intro l hl
      have : (l.take 7).getD 3 0 = 82 := by rw [hl]; rfl
      simpa [List.getD_eq_getElem?_getD, List.getElem?_take] using this
    have hG3 : ∀ l : List Nat, l.take 7 = hdrGGA → l.getD 3 0 = 71 := by
      intro l hl
      have : (l.take 7).getD 3 0 = 71 := by rw [hl]; rfl
      simpa [List.getD_eq_getElem?_getD, List.getElem?_take] using this
    by_cases hR : strncmpEq (p ++ [c]) hdrRMC 7 = true
    · rw [if_pos hR, if_pos (hR3 _ ((strncmpEq_hdrRMC _).mp hR))]
      rw [gpsData_setGpsData_same, hrec, hstore]
      exact processRMCData_append ops _ _ _ (by omega)
    · have hG : strncmpEq (p ++ [c]) hdrGGA 7 = true := by
        rcases hhdr with h | h
        · exact absurd h hR
        · exact h
      have h71 := hG3 _ ((strncmpEq_hdrGGA _).mp hG)
      rw [if_neg hR, if_neg (by rw [h71]; decide)]
      rw [gpsData_setGpsData_same, hrec, hstore]
      exact processGGAData_append ops _ _ _ (by omega)
  · rw [feed_eq, if_pos hcomp']
    exact overflowGuard_receivedDataCount_zero _ (complete_receivedDataCount ops _)
  · rw [feed_eq, if_pos hcomp', overflowGuard_receivedData,
      complete_receivedData ops _ (by rw [store_length, hpart]; simp; omega)]
    simp

end GPS

/-! ## The gesture recogniser, call by call -/

theorem timeDiff_add (b e : Nat) : timeDiff ((b + e) % 2 ^ 32) b = e % 2 ^ 32 := by
  unfold timeDiff
  norm_num
  omega

namespace WaypointKeeper

theorem run_append (w : WaypointKeeper) (a b : List Call) :
    w.run (a ++ b) = (w.run a).run b := by
  simp [run, List.foldl_append]

theorem run_cons (w : WaypointKeeper) (c : Call) (cs : List Call) :
    w.run (c :: cs) = (w.process c.pressed c.time c.lat c.lon).run cs := rfl

theorem run_nil (w : WaypointKeeper) : w.run [] = w := rfl

/-- A call while held that meets neither commit condition changes nothing. -/
theorem process_held_idle (w : WaypointKeeper) (t lat lon : Nat)
    (hp : w.buttonWasPressed = true)
    (hslow : ¬ (w.slowHoldDuration ≤ timeDiff t w.lastUpdateTime ∧
      w.numSlowHoldsNeeded ≤ w.numSlowHoldsMade + 1 ∧ w.numFastHoldsMade = 0))
    (hfast : ¬ (w.fastHoldDuration ≤ timeDiff t w.lastUpdateTime ∧
      w.numFastHoldsNeeded ≤ w.numFastHoldsMade + 1 ∧ w.numSlowHoldsMade = 0)) :
    w.process true t lat lon = w := by
  cases w
  simp only at hp hslow hfast
  subst hp
  simp only [process, Bool.and_self, if_true]
  rw [if_neg hslow, if_neg hfast]

/-- A call while held that meets the fast commit condition only. -/
theorem process_held_fast (w : WaypointKeeper) (t lat lon : Nat)
    (hp : w.buttonWasPressed = true)
    (hslow : ¬ (w.slowHoldDuration ≤ timeDiff t w.lastUpdateTime ∧
      w.numSlowHoldsNeeded ≤ w.numSlowHoldsMade + 1 ∧ w.numFastHoldsMade = 0))
    (hfast : w.fastHoldDuration ≤ timeDiff t w.lastUpdateTime ∧
      w.numFastHoldsNeeded ≤ w.numFastHoldsMade + 1 ∧ w.numSlowHoldsMade = 0) :
    w.process true t lat lon =
      { w with eeprom := setVal (setVal w.eeprom FASTLAT w.storedLatitude)
                 FASTLON w.storedLongitude,
               numFastHoldsMade := 0 } := by
  cases w
  simp only at hp hslow hfast
  subst hp
  simp only [process, Bool.and_self, if_true]
  rw [if_neg hslow, if_pos hfast]

/-- A press with both counts zero captures the position. -/
theorem process_press_new (w : WaypointKeeper) (t lat lon : Nat)
    (hp : w.buttonWasPressed = false)
    (hf : w.numFastHoldsMade = 0) (hs : w.numSlowHoldsMade = 0) :
    w.process true t lat lon =
      { w with storedLatitude := lat, storedLongitude := lon, lastUpdateTime := t,
               buttonWasPressed := true } := by
  cases w
  simp only at hp hf hs
  subst hp hf hs
  simp [process]

/-- A press inside the release window, with a count running, only records the time. -/
theorem process_press_continue (w : WaypointKeeper) (t lat lon : Nat)
    (hp : w.buttonWasPressed = false)
    (hcount : ¬ (w.numFastHoldsMade = 0 ∧ w.numSlowHoldsMade = 0))
    (hgap : ¬ (timeDiff t w.lastUpdateTime < w.minReleaseDuration ∨
      w.maxReleaseDuration < timeDiff t w.lastUpdateTime)) :
    w.process true t lat lon = { w with lastUpdateTime := t, buttonWasPressed := true } := by
  cases w
  simp only at hp hcount hgap
  subst hp
  simp only [process, Bool.and_false, Bool.false_eq_true, if_false, Bool.not_false,
    Bool.and_self, if_true]
  rw [if_neg hcount, if_neg hgap]

/-- A release after a hold of the fast category counts one more fast hold. -/
theorem process_release_fast (w : WaypointKeeper) (t lat lon : Nat)
    (hp : w.buttonWasPressed = true)
    (hslow : ¬ (w.slowHoldDuration ≤ timeDiff t w.lastUpdateTime ∧ w.numFastHoldsMade = 0))
    (hfast : w.fastHoldDuration ≤ timeDiff t w.lastUpdateTime ∧ w.numSlowHoldsMade = 0) :
    w.process false t lat lon =
      { w with numFastHoldsMade := (w.numFastHoldsMade + 1) % 256, numSlowHoldsMade := 0,
               lastUpdateTime := t, buttonWasPressed := false } := by
  cases w
  simp only at hp hslow hfast
  subst hp
  simp only [process, Bool.false_and, Bool.false_eq_true, if_false, Bool.not_true,
    Bool.not_false, Bool.and_self, if_true]
  rw [if_neg hslow, if_pos hfast]

/-- The calls made while the button is held, after a press at time `tp`. -/
theorem heldCalls_idle (w : WaypointKeeper) (tp d : Nat) (samples : List Sample)
    (hp : w.buttonWasPressed = true) (hlast : w.lastUpdateTime = tp)
    (hk : w.numFastHoldsMade + 1 < w.numFastHoldsNeeded)
    (hd : d < w.slowHoldDuration) (hd32 : d < 2 ^ 32)
    (hsamples : ∀ s ∈ samples, s.elapsed ≤ d) :
    w.run (samples.map (fun s =>
      ({ pressed := true, time := (tp + s.elapsed) % 2 ^ 32, lat := s.lat, lon := s.lon } :
        Call))) = w := by
  induction samples with
  | nil => rfl
  | cons s ss ih =>
    have hse : s.elapsed ≤ d := hsamples s (List.mem_cons_self _ _)
    have htd : timeDiff ((tp + s.elapsed) % 2 ^ 32) w.lastUpdateTime = s.elapsed := by
      rw [hlast, timeDiff_add]; exact Nat.mod_eq_of_lt (by omega)
    rw [List.map_cons, run_cons]
    simp only
    rw [process_held_idle w _ _ _ hp (by rw [htd]; omega) (by rw [htd]; omega)]
    exact ih (fun x hx => hsamples x (List.mem_cons_of_mem _ hx))

/-- Once the counter is back at zero, and two or more holds are required, the calls
while held commit nothing more. -/
theorem heldCalls_after_commit (w : WaypointKeeper) (tp d : Nat) (samples : List Sample)
    (hp : w.buttonWasPressed = true) (hlast : w.lastUpdateTime = tp)
    (hf0 : w.numFastHoldsMade = 0) (hN : 2 ≤ w.numFastHoldsNeeded)
    (hd : d < w.slowHoldDuration) (hd32 : d < 2 ^ 32)
    (hsamples : ∀ s ∈ samples, s.elapsed ≤ d) :
    w.run (samples.map (fun s =>
      ({ pressed := true, time := (tp + s.elapsed) % 2 ^ 32, lat := s.lat, lon := s.lon } :
        Call))) = w :=
  heldCalls_idle w tp d samples hp hlast (by omega) hd hd32 hsamples

/-- In the hold that completes the sequence, the first call at least
`fastHoldDuration` after the press commits, and no later call commits again. -/
theorem heldCalls_commit (w : WaypointKeeper) (tp d : Nat) (samples : List Sample)
    (hp : w.buttonWasPressed = true) (hlast : w.lastUpdateTime = tp)
    (hs0 : w.numSlowHoldsMade = 0)
    (hk : w.numFastHoldsMade + 1 = w.numFastHoldsNeeded)
    (hN : 2 ≤ w.numFastHoldsNeeded)
    (hd : d < w.slowHoldDuration) (hd32 : d < 2 ^ 32)
    (hsamples : ∀ s ∈ samples, s.elapsed ≤ d)
    (hpast : ∃ s ∈ samples, w.fastHoldDuration ≤ s.elapsed) :
    w.run (samples.map (fun s =>
      ({ pressed := true, time := (tp + s.elapsed) % 2 ^ 32, lat := s.lat, lon := s.lon } :
        Call))) =
      { w with eeprom := setVal (setVal w.eeprom FASTLAT w.storedLatitude)
                 FASTLON w.storedLongitude,
               numFastHoldsMade := 0 } := by
  induction samples with
  | nil => obtain ⟨s, hs, -⟩ := hpast; simp at hs
  | cons s ss ih =>
    have hse : s.elapsed ≤ d := hsamples s (List.mem_cons_self _ _)
    have htd : timeDiff ((tp + s.elapsed) % 2 ^ 32) w.lastUpdateTime = s.elapsed := by
      rw [hlast, timeDiff_add]; exact Nat.mod_eq_of_lt (by omega)
    have hrest : ∀ x ∈ ss, x.elapsed ≤ d := fun x hx => hsamples x (List.mem_cons_of_mem _ hx)
    rw [List.map_cons, run_cons]
    simp only
    by_cases hf : w.fastHoldDuration ≤ s.elapsed
    · rw [process_held_fast w _ _ _ hp (by rw [htd]; omega) (by rw [htd]; omega)]
      exact heldCalls_after_commit _ tp d ss hp hlast rfl hN hd hd32 hrest
    · rw [process_held_idle w _ _ _ hp (by rw [htd]; omega) (by rw [htd]; omega)]
      apply ih hrest
      obtain ⟨x, hx, hxf⟩ := hpast
      rcases List.mem_cons.mp hx with rfl | hx'
      · exact absurd hxf hf
      · exact ⟨x, hx', hxf⟩

theorem releaseTime_diff (t0 : Nat) (h : Hold) (hd : h.duration < 2 ^ 32) :
    timeDiff (h.releaseTime t0) (h.pressTime t0) = h.duration := by
  unfold Hold.releaseTime
  rw [timeDiff_add]
  exact Nat.mod_eq_of_lt hd

theorem pressTime_diff (t0 : Nat) (h : Hold) (hg : h.gap < 2 ^ 32) :
    timeDiff (h.pressTime t0) t0 = h.gap := by
  unfold Hold.pressTime
  rw [timeDiff_add]
  exact Nat.mod_eq_of_lt hg

/-- The first hold of a sequence that needs more holds: the position is captured and
one fast hold is counted. -/
theorem hold_first (w : WaypointKeeper) (h : Hold)
    (hp : w.buttonWasPressed = false)
    (hf0 : w.numFastHoldsMade = 0) (hs0 : w.numSlowHoldsMade = 0)
    (hN : 2 ≤ w.numFastHoldsNeeded) (hfast : h.isFast w) :
    w.run (h.calls w.lastUpdateTime) =
      { w with storedLatitude := h.lat, storedLongitude := h.lon,
               numFastHoldsMade := 1, numSlowHoldsMade := 0,
               lastUpdateTime := h.releaseTime w.lastUpdateTime,
               buttonWasPressed := false } := by
  obtain ⟨hd1, hd2, hd32, hsamples⟩ := hfast
  unfold Hold.calls
  rw [run_cons, run_append]
  simp only
  rw [process_press_new w _ _ _ hp hf0 hs0]
  rw [heldCalls_idle _ (h.pressTime w.lastUpdateTime) h.duration h.samples ?_ ?_ ?_ ?_
    hd32 hsamples]
  rotate_left
  · rfl
  · rfl
  · simp only [hf0]; omega
  · exact hd2
  rw [run_cons, run_nil]
  simp only
  have htd := releaseTime_diff w.lastUpdateTime h hd32
  rw [process_release_fast _ _ _ _ ?_ ?_ ?_]
  rotate_left
  · rfl
  · simp only [htd]; omega
  · exact ⟨by simp only [htd]; exact hd1, hs0⟩
  simp only [hf0]

/-- A later hold of a sequence that needs more holds: one more fast hold is counted. -/
theorem hold_middle (w : WaypointKeeper) (h : Hold)
    (hp : w.buttonWasPressed = false)
    (hf : w.numFastHoldsMade ≠ 0) (hs0 : w.numSlowHoldsMade = 0)
    (hk : w.numFastHoldsMade + 1 < w.numFastHoldsNeeded)
    (hN : w.numFastHoldsNeeded < 256)
    (hfast : h.isFast w) (hgap : h.gapOk w) :
    w.run (h.calls w.lastUpdateTime) =
      { w with numFastHoldsMade := w.numFastHoldsMade + 1, numSlowHoldsMade := 0,
               lastUpdateTime := h.releaseTime w.lastUpdateTime,
               buttonWasPressed := false } := by
  obtain ⟨hd1, hd2, hd32, hsamples⟩ := hfast
  obtain ⟨hg1, hg2, hg32⟩ := hgap
  have hgd := pressTime_diff w.lastUpdateTime h hg32
  unfold Hold.calls
  rw [run_cons, run_append]
  simp only
  rw [process_press_continue w _ _ _ hp (fun hc => hf hc.1) (by rw [hgd]; omega)]
  rw [heldCalls_idle _ (h.pressTime w.lastUpdateTime) h.duration h.samples ?_ ?_ ?_ ?_
    hd32 hsamples]
  rotate_left
  · rfl
  · rfl
  · exact hk
  · exact hd2
  rw [run_cons, run_nil]
  simp only
  have htd := releaseTime_diff w.lastUpdateTime h hd32
  rw [process_release_fast _ _ _ _ ?_ ?_ ?_]
  rotate_left
  · rfl
  · simp only [htd]; omega
  · exact ⟨by simp only [htd]; exact hd1, hs0⟩
  simp only
  rw [Nat.mod_eq_of_lt (by omega)]

/-- The hold that completes the sequence: the captured position is committed to the
fast slot once; the release then counts the same hold again. -/
theorem hold_final (w : WaypointKeeper) (h : Hold)
    (hp : w.buttonWasPressed = false)
    (hs0 : w.numSlowHoldsMade = 0)
    (hk : w.numFastHoldsMade + 1 = w.numFastHoldsNeeded)
    (hN : 2 ≤ w.numFastHoldsNeeded)
    (hfast : h.isFast w) (hgap : h.gapOk w) (hpast : h.sampledPastFast w) :
    w.run (h.calls w.lastUpdateTime) =
      { w with eeprom := setVal (setVal w.eeprom FASTLAT w.storedLatitude)
                 FASTLON w.storedLongitude,
               numFastHoldsMade := 1, numSlowHoldsMade := 0,
               lastUpdateTime := h.releaseTime w.lastUpdateTime,
               buttonWasPressed := false } := by
  obtain ⟨hd1, hd2, hd32, hsamples⟩ := hfast
  obtain ⟨hg1, hg2, hg32⟩ := hgap
  have hgd := pressTime_diff w.lastUpdateTime h hg32
  unfold Hold.calls
  rw [run_cons, run_append]
  simp only
  rw [process_press_continue w _ _ _ hp (fun hc => by omega) (by rw [hgd]; omega)]
  rw [heldCalls_commit _ (h.pressTime w.lastUpdateTime) h.duration h.samples ?_ ?_ ?_ ?_
    ?_ ?_ hd32 hsamples ?_]
  rotate_left
  · rfl
  · rfl
  · exact hs0
  · exact hk
  · exact hN
  · exact hd2
  · exact hpast
  rw [run_cons, run_nil]
  simp only
  have htd := releaseTime_diff w.lastUpdateTime h hd32
  rw [process_release_fast _ _ _ _ ?_ ?_ ?_]
  rotate_left
  · rfl
  · simp only [htd]; omega
  · exact ⟨by simp only [htd]; exact hd1, hs0⟩
  rfl

/-- The holds after the first one: nothing is written until the hold that completes the
sequence, which commits the captured position once. -/
theorem holds_rest (hs : List Hold) (w : WaypointKeeper)
    (hp : w.buttonWasPressed = false)
    (hf : w.numFastHoldsMade ≠ 0) (hs0 : w.numSlowHoldsMade = 0)
    (hk : w.numFastHoldsMade + hs.length = w.numFastHoldsNeeded)
    (hN : w.numFastHoldsNeeded < 256)
    (hall : ∀ h ∈ hs, h.isFast w ∧ h.gapOk w)
    (hpast : ∃ h, hs.getLast? = some h ∧ h.sampledPastFast w) :
    (w.run (holdCalls w.lastUpdateTime hs)).eeprom =
      setVal (setVal w.eeprom FASTLAT w.storedLatitude) FASTLON w.storedLongitude := by
  induction hs generalizing w with
  | nil => obtain ⟨h, hh, -⟩ := hpast; simp at hh
  | cons h tl ih =>
    obtain ⟨hfast, hgap⟩ := hall h (List.mem_cons_self _ _)
    cases tl with
    | nil =>
      obtain ⟨l, hl, hlp⟩ := hpast
      simp only [List.getLast?_singleton, Option.some.injEq] at hl
      subst hl
      simp only [List.length_singleton] at hk
      simp only [holdCalls, List.append_nil]
      rw [hold_final w h hp hs0 hk (by omega) hfast hgap hlp]
    | cons h2 tl2 =>
      simp only [List.length_cons] at hk
      have hk1 : w.numFastHoldsMade + 1 < w.numFastHoldsNeeded := by omega
      rw [holdCalls, run_append, hold_middle w h hp hf hs0 hk1 hN hfast hgap]
      refine ih _ rfl ?_ rfl ?_ hN ?_ ?_
      · show w.numFastHoldsMade + 1 ≠ 0
        omega
      · show w.numFastHoldsMade + 1 + (h2 :: tl2).length = w.numFastHoldsNeeded
        simp only [List.length_cons]
        omega
      · intro x hx
        exact hall x (List.mem_cons_of_mem _ hx)
      · obtain ⟨l, hl, hlp⟩ := hpast
        exact ⟨l, by simpa using hl, hlp⟩

/-! ## Waypoint storage -/

theorem read_write (e : EEPROM) (a x b : Nat) :
    (e.write a x).read b = if a = b then x % 256 else e.read b := by
  unfold EEPROM.read EEPROM.write
  by_cases h : a = b
  · simp [List.find?_cons, h]
  · simp [List.find?_cons, h]

theorem setVal_eq (e : EEPROM) (a v : Nat) :
    setVal e a v =
      ((((((((e.write (a + 0) (valueByte v 0)).write (a + 1) (valueByte v 1)).write
        (a + 2) (valueByte v 2)).write (a + 3) (valueByte v 3)).write
        (a + 4) (valueByte v 4)).write (a + 5) (valueByte v 5)).write
        (a + 6) (valueByte v 6)).write (a + 7) (valueByte v 7)) := rfl

theorem valueByte_lt (v i : Nat) : valueByte v i < 256 := by
  unfold valueByte
  exact Nat.mod_lt _ (by norm_num)

/-- A cell of the span just written reads as the byte written to it. -/
theorem read_setVal_inside (e : EEPROM) (a v i : Nat) (hi : i < 8) :
    (setVal e a v).read (a + i) = valueByte v i := by
  rw [setVal_eq]
  have h := fun j => Nat.mod_eq_of_lt (valueByte_lt v j)
  interval_cases i <;> simp [read_write, h]

/-- A cell outside the span just written reads as before. -/
theorem read_setVal_outside (e : EEPROM) (a v b : Nat) (hb : b < a ∨ a + 8 ≤ b) :
    (setVal e a v).read b = e.read b := by
  rw [setVal_eq]
  have h0 : ¬ a + 0 = b := by omega
  have h1 : ¬ a + 1 = b := by omega
  have h2 : ¬ a + 2 = b := by omega
  have h3 : ¬ a + 3 = b := by omega
  have h4 : ¬ a + 4 = b := by omega
  have h5 : ¬ a + 5 = b := by omega
  have h6 : ¬ a + 6 = b := by omega
  have h7 : ¬ a + 7 = b := by omega
  rw [read_write, if_neg h7, read_write, if_neg h6, read_write, if_neg h5, read_write,
    if_neg h4, read_write, if_neg h3, read_write, if_neg h2, read_write, if_neg h1,
    read_write, if_neg h0]

theorem getVal_eq (e : EEPROM) (a : Nat) :
    getVal e a =
      e.read (a + 0) * 256 ^ 0 + e.read (a + 1) * 256 ^ 1 + e.read (a + 2) * 256 ^ 2 +
      e.read (a + 3) * 256 ^ 3 + e.read (a + 4) * 256 ^ 4 + e.read (a + 5) * 256 ^ 5 +
      e.read (a + 6) * 256 ^ 6 + e.read (a + 7) * 256 ^ 7 := by
  simp [getVal, DBL_SIZE, List.range_succ]

theorem getVal_setVal_same (e : EEPROM) (a v : Nat) :
    getVal (setVal e a v) a = v % 2 ^ 64 := by
  rw [getVal_eq]
  rw [read_setVal_inside e a v 0 (by norm_num), read_setVal_inside e a v 1 (by norm_num),
    read_setVal_inside e a v 2 (by norm_num), read_setVal_inside e a v 3 (by norm_num),
    read_setVal_inside e a v 4 (by norm_num), read_setVal_inside e a v 5 (by norm_num),
    read_setVal_inside e a v 6 (by norm_num), read_setVal_inside e a v 7 (by norm_num)]
  unfold valueByte
  norm_num
  omega

theorem getVal_setVal_other (e : EEPROM) (a b v : Nat) (h : a + 8 ≤ b ∨ b + 8 ≤ a) :
    getVal (setVal e a v) b = getVal e b := by
  rw [getVal_eq, getVal_eq]
  rw [read_setVal_outside e a v (b + 0) (by omega), read_setVal_outside e a v (b + 1) (by omega),
    read_setVal_outside e a v (b + 2) (by omega), read_setVal_outside e a v (b + 3) (by omega),
    read_setVal_outside e a v (b + 4) (by omega), read_setVal_outside e a v (b + 5) (by omega),
    read_setVal_outside e a v (b + 6) (by omega), read_setVal_outside e a v (b + 7) (by omega)]

end WaypointKeeper
/-! ## The normalisation of hand values -/

namespace Display

variable {K : Type} [LinearOrderedField K] [FloorRing K]

theorem reduce_eq_fract (v r : K) (hr : 0 < r) : reduce v r = r * Int.fract (v / r) := by
  unfold reduce Int.fract
  field_simp

theorem reduce_nonneg (v r : K) (hr : 0 < r) : 0 ≤ reduce v r := by
  rw [reduce_eq_fract v r hr]
  exact mul_nonneg hr.le (Int.fract_nonneg _)

theorem reduce_lt (v r : K) (hr : 0 < r) : reduce v r < r := by
  rw [reduce_eq_fract v r hr]
  calc r * Int.fract (v / r) < r * 1 := by
        exact mul_lt_mul_of_pos_left (Int.fract_lt_one _) hr
    _ = r := mul_one r

theorem reduce_of_mem (v r : K) (hr : 0 < r) (h0 : 0 ≤ v) (h1 : v < r) : reduce v r = v := by
  rw [reduce_eq_fract v r hr]
  have : Int.fract (v / r) = v / r := by
    rw [Int.fract_eq_self]
    exact ⟨div_nonneg h0 hr.le, (div_lt_one hr).mpr h1⟩
  rw [this]
  field_simp

theorem reduce_add_int_mul (v r : K) (k : Int) (hr : 0 < r) :
    reduce (v + (k : K) * r) r = reduce v r := by
  rw [reduce_eq_fract _ r hr, reduce_eq_fract _ r hr]
  have : (v + (k : K) * r) / r = v / r + (k : K) := by field_simp
  rw [this, Int.fract_add_int]

theorem reduce_sub (v r : K) (hr : 0 < r) : reduce (v - r) r = reduce v r := by
  have := reduce_add_int_mul v r (-1) hr
  simpa [sub_eq_add_neg] using this

theorem reduce_add (v r : K) (hr : 0 < r) : reduce (v + r) r = reduce v r := by
  have := reduce_add_int_mul v r 1 hr
  simpa using this

theorem subtractLoop_spec (n : Nat) (v r : K) (hr : 0 < r) (h0 : 0 ≤ v)
    (hn : v < r * (n : K)) : subtractLoop n v r = some (reduce v r) := by
  induction n generalizing v with
  | zero => simp at hn; exact absurd hn (not_lt.mpr h0)
  | succ n ih =>
    unfold subtractLoop
    by_cases h : r ≤ v
    · rw [if_pos h, ih (v - r) (sub_nonneg.mpr h), reduce_sub v r hr]
      push_cast at hn
      linarith
    · rw [if_neg h, reduce_of_mem v r hr h0 (not_le.mp h)]

omit [FloorRing K] in
theorem subtractLoop_small (n : Nat) (v r : K) (h : v < r) :
    subtractLoop (n + 1) v r = some v := by
  unfold subtractLoop
  rw [if_neg (not_le.mpr h)]

theorem addLoop_spec (n : Nat) (v r : K) (hr : 0 < r) (h1 : v < r)
    (hn : 0 ≤ v + r * (n : K)) : addLoop (n + 1) v r = some (reduce v r) := by
  induction n generalizing v with
  | zero =>
    unfold addLoop
    have h0 : 0 ≤ v := by simpa using hn
    rw [if_neg (not_lt.mpr h0), reduce_of_mem v r hr h0 h1]
  | succ n ih =>
    unfold addLoop
    by_cases h : v < 0
    · rw [if_pos h, ih (v + r) (by linarith), reduce_add v r hr]
      push_cast at hn
      linarith
    · rw [if_neg h, reduce_of_mem v r hr (not_lt.mp h) h1]

theorem dialPosition_lt (v r : K) (hr : 0 < r) : dialPosition v r < 120 := by
  unfold dialPosition
  have h0 := reduce_nonneg v r hr
  have h1 := reduce_lt v r hr
  have hq0 : 0 ≤ reduce v r / r := div_nonneg h0 hr.le
  have hq1 : reduce v r / r < 1 := (div_lt_one hr).mpr h1
  have hN : ((NUMPOSITIONS : Nat) : K) = 120 := by simp [NUMPOSITIONS]
  rw [hN]
  have hlt : ⌊(120 : K) * (reduce v r / r)⌋ < 120 := by
    rw [Int.floor_lt]
    push_cast
    linarith
  have hge : 0 ≤ ⌊(120 : K) * (reduce v r / r)⌋ := by
    rw [Int.le_floor]
    push_cast
    positivity
  omega

theorem castUInt8_dial (v r : K) (hr : 0 < r) :
    castUInt8 (reduce v r * (NUMPOSITIONS : K) / r) = dialPosition v r := by
  have h := dialPosition_lt v r hr
  unfold castUInt8
  have e : reduce v r * (NUMPOSITIONS : K) / r = (NUMPOSITIONS : K) * (reduce v r / r) := by
    ring
  rw [e]
  exact Nat.mod_eq_of_lt (by unfold dialPosition at h; omega)

/-- With enough fuel `normalize` returns the dial position of exact arithmetic. -/
theorem normalize_spec (fuel : Nat) (v r : K) (hr : 0 < r)
    (hfuel : |v| < r * ((fuel : K) - 1)) :
    normalize fuel v r = some (dialPosition v r) := by
  have hpos : (1 : K) < fuel := by
    by_contra hcon
    have : r * ((fuel : K) - 1) ≤ 0 := by
      apply mul_nonpos_of_nonneg_of_nonpos hr.le
      linarith [not_lt.mp hcon]
    linarith [abs_nonneg v]
  obtain ⟨n, rfl⟩ : ∃ n, fuel = n + 1 := by
    cases fuel with
    | zero => simp at hpos; linarith
    | succ n => exact ⟨n, rfl⟩
  push_cast at hfuel
  simp only [add_sub_cancel_right] at hfuel
  have hlo := neg_abs_le v
  have hhi := le_abs_self v
  unfold normalize
  by_cases h0 : 0 ≤ v
  · have h1 : subtractLoop (n + 1) v r = some (reduce v r) :=
      subtractLoop_spec (n + 1) v r hr h0 (by push_cast; linarith)
    have h2 : addLoop (n + 1) (reduce v r) r = some (reduce v r) := by
      have := addLoop_spec n (reduce v r) r hr (reduce_lt v r hr)
        (by have := reduce_nonneg v r hr; have : 0 ≤ r * (n : K) := by positivity
            linarith)
      rw [this, reduce_of_mem _ r hr (reduce_nonneg v r hr) (reduce_lt v r hr)]
    simp [h1, h2, castUInt8_dial v r hr]
  · have hneg : v < 0 := not_le.mp h0
    have h1 : subtractLoop (n + 1) v r = some v := subtractLoop_small n v r (by linarith)
    have h2 : addLoop (n + 1) v r = some (reduce v r) :=
      addLoop_spec n v r hr (by linarith) (by linarith)
    simp [h1, h2, castUInt8_dial v r hr]

theorem exists_fuel (v r : K) (hr : 0 < r) : ∃ N : Nat, |v| < r * ((N : K) - 1) := by
  obtain ⟨m, hm⟩ := exists_nat_gt (|v| / r)
  refine ⟨m + 1, ?_⟩
  push_cast
  simp only [add_sub_cancel_right]
  rw [div_lt_iff₀ hr] at hm
  linarith

omit [FloorRing K] in
theorem fuel_mono (v r : K) (hr : 0 < r) (N fuel : Nat) (h : |v| < r * ((N : K) - 1))
    (hle : N ≤ fuel) : |v| < r * ((fuel : K) - 1) := by
  have : (N : K) ≤ fuel := by exact_mod_cast hle
  have : r * ((N : K) - 1) ≤ r * ((fuel : K) - 1) := by
    apply mul_le_mul_of_nonneg_left _ hr.le
    linarith
  linarith

theorem dialPosition_add_int_mul (v r : K) (k : Int) (hr : 0 < r) :
    dialPosition (v + (k : K) * r) r = dialPosition v r := by
  unfold dialPosition
  rw [reduce_add_int_mul v r k hr]

/-- For a positive range, `normalize` ends once the fuel covers the loop iterations. -/
theorem normalize_some (v r : K) (hr : 0 < r) :
    ∃ N : Nat, ∀ fuel, N ≤ fuel → normalize fuel v r = some (dialPosition v r) := by
  obtain ⟨N, hN⟩ := exists_fuel v r hr
  exact ⟨N, fun fuel h => normalize_spec fuel v r hr (fuel_mono v r hr N fuel hN h)⟩

theorem normalize_hand (v r : K) (hr : 0 < r) :
    ∃ N : Nat, ∀ fuel, N ≤ fuel → ∃ x, normalize fuel v r = some x ∧ x < 120 := by
  obtain ⟨N, hN⟩ := normalize_some v r hr
  exact ⟨N, fun fuel h => ⟨_, hN fuel h, dialPosition_lt v r hr⟩⟩

theorem calculateNorth_hand (ops : MathOps K) (data : SensorData K) (hpi : 0 < ops.pi) :
    ∃ N : Nat, ∀ fuel, N ≤ fuel → ∃ x, calculateNorth ops fuel data = some x ∧ x < 120 := by
  unfold calculateNorth
  exact normalize_hand _ _ (by positivity)

theorem calculateSpeed_hand (ops : MathOps K) (data : SensorData K) :
    ∃ N : Nat, ∀ fuel, N ≤ fuel → ∃ x, calculateSpeed ops fuel data = some x ∧ x < 120 := by
  unfold calculateSpeed
  exact normalize_hand _ _ one_pos

theorem calculateAltitude_hand (data : SensorData K) :
    ∃ N : Nat, ∀ fuel, N ≤ fuel → ∃ x, calculateAltitude fuel data = some x ∧ x < 120 := by
  unfold calculateAltitude
  exact normalize_hand _ _ one_pos

theorem metersToDistanceHand_hand (ops : MathOps K) (meters : K) :
    ∃ N : Nat, ∀ fuel, N ≤ fuel →
      ∃ x, metersToDistanceHand ops fuel meters = some x ∧ x < 120 := by
  unfold metersToDistanceHand
  exact normalize_hand _ _ one_pos

/-- Three hands that each end within the dial, computed one after the other. -/
theorem hands_of_three (A B C : Nat → Option Nat)
    (hA : ∃ N : Nat, ∀ fuel, N ≤ fuel → ∃ x, A fuel = some x ∧ x < 120)
    (hB : ∃ N : Nat, ∀ fuel, N ≤ fuel → ∃ x, B fuel = some x ∧ x < 120)
    (hC : ∃ N : Nat, ∀ fuel, N ≤ fuel → ∃ x, C fuel = some x ∧ x < 120) :
    ∃ N : Nat, ∀ fuel, N ≤ fuel →
      ∃ a b c, A fuel = some a ∧ B fuel = some b ∧ C fuel = some c ∧
        a < 120 ∧ b < 120 ∧ c < 120 := by
  obtain ⟨NA, hA⟩ := hA
  obtain ⟨NB, hB⟩ := hB
  obtain ⟨NC, hC⟩ := hC
  refine ⟨NA + NB + NC, fun fuel h => ?_⟩
  obtain ⟨a, ha, ha'⟩ := hA fuel (by omega)
  obtain ⟨b, hb, hb'⟩ := hB fuel (by omega)
  obtain ⟨c, hc, hc'⟩ := hC fuel (by omega)
  exact ⟨a, b, c, ha, hb, hc, ha', hb', hc'⟩

theorem calculateTimeOfDay_hands (data : SensorData K) :
    ∃ N : Nat, ∀ fuel, N ≤ fuel →
      ∃ h : Hands, calculateTimeOfDay fuel data = some h ∧
        h.bigHand < 120 ∧ h.mediumHand < 120 ∧ h.smallHand < 120 := by
  obtain ⟨N, hN⟩ := hands_of_three
    (fun fuel => normalize fuel
      ((((data.hour : Int) - 7 : Int) : K) * 3600 + ((data.minute : K) * 60 + (data.second : K)))
      43200)
    (fun fuel => normalize fuel ((data.minute : K) * 60 + (data.second : K)) 3600)
    (fun fuel => normalize fuel (data.second : K) 60)
    (normalize_hand _ _ (by norm_num)) (normalize_hand _ _ (by norm_num))
    (normalize_hand _ _ (by norm_num))
  refine ⟨N, fun fuel h => ?_⟩
  obtain ⟨a, b, c, ha, hb, hc, ha', hb', hc'⟩ := hN fuel h
  refine ⟨⟨a, b, c⟩, ?_, ha', hb', hc'⟩
  unfold calculateTimeOfDay
  simp only [] at ha hb hc ⊢
  rw [ha, hb, hc]
  rfl

theorem calculateTravelingData_hands (ops : MathOps K) (data : SensorData K)
    (hpi : 0 < ops.pi) :
    ∃ N : Nat, ∀ fuel, N ≤ fuel →
      ∃ h : Hands, calculateTravelingData ops fuel data = some h ∧
        h.bigHand < 120 ∧ h.mediumHand < 120 ∧ h.smallHand < 120 := by
  obtain ⟨N, hN⟩ := hands_of_three
    (fun fuel => calculateNorth ops fuel data) (fun fuel => calculateSpeed ops fuel data)
    (fun fuel => calculateAltitude fuel data)
    (calculateNorth_hand ops data hpi) (calculateSpeed_hand ops data)
    (calculateAltitude_hand data)
  refine ⟨N, fun fuel h => ?_⟩
  obtain ⟨a, b, c, ha, hb, hc, ha', hb', hc'⟩ := hN fuel h
  refine ⟨⟨a, b, c⟩, ?_, ha', hb', hc'⟩
  unfold calculateTravelingData
  rw [ha, hb, hc]
  rfl

theorem waypointHands (ops : MathOps K) (data : SensorData K) (waypoint : Nat)
    (hpi : 0 < ops.pi) :
    ∃ N : Nat, ∀ fuel, N ≤ fuel →
      ∃ h : Hands,
        (do
          let bigHand ← calculateNorth ops fuel data
          let r ← calculateDistanceAndDirection ops fuel data waypoint
          pure ({ bigHand := bigHand, mediumHand := r.2, smallHand := r.1 } : Hands)) =
          some h ∧
        h.bigHand < 120 ∧ h.mediumHand < 120 ∧ h.smallHand < 120 := by
  obtain ⟨N, hN⟩ := hands_of_three
    (fun fuel => calculateNorth ops fuel data)
    (fun fuel => metersToDistanceHand ops fuel (haversineMeters ops data waypoint))
    (fun fuel => normalize fuel (relativeBearing ops data waypoint) (2 * ops.pi))
    (calculateNorth_hand ops data hpi) (metersToDistanceHand_hand ops _)
    (normalize_hand _ _ (by positivity))
  refine ⟨N, fun fuel h => ?_⟩
  obtain ⟨a, b, c, ha, hb, hc, ha', hb', hc'⟩ := hN fuel h
  refine ⟨⟨a, c, b⟩, ?_, ha', hc', hb'⟩
  unfold calculateDistanceAndDirection
  rw [ha, hb, hc]
  rfl

/-- In the modes 0 to 3 every hand position computed lies on the dial. -/
theorem computeHands_range (ops : MathOps K) (data : SensorData K) (uninit : Hands)
    (hpi : 0 < ops.pi) (hsel : data.selection ≤ 3) :
    ∃ N : Nat, ∀ fuel, N ≤ fuel →
      ∃ h : Hands, computeHands ops fuel data uninit = some h ∧
        h.bigHand < 120 ∧ h.mediumHand < 120 ∧ h.smallHand < 120 := by
  unfold computeHands
  have hcases : data.selection = 0 ∨ data.selection = 1 ∨ data.selection = 2 ∨
      data.selection = 3 := by omega
  rcases hcases with h | h | h | h <;> rw [h] <;> simp only []
  · exact calculateTimeOfDay_hands data
  · exact calculateTravelingData_hands ops data hpi
  · exact waypointHands ops data 70 hpi
  · exact waypointHands ops data 83 hpi

end Display

/-! ## Moving the tick counter -/

theorem timeDiff_shift (t l k : Nat) :
    timeDiff ((t + k) % 2 ^ 32) ((l + k) % 2 ^ 32) = timeDiff t l := by
  unfold timeDiff
  norm_num
  omega

namespace WaypointKeeper

theorem keeper_process_shift (w : WaypointKeeper) (k : Nat) (pressed : Bool)
    (t lat lon : Nat) :
    (w.shiftTime k).process pressed ((t + k) % 2 ^ 32) lat lon =
      (w.process pressed t lat lon).shiftTime k := by
  cases w with
  | mk pin sLat sLon minR maxR fastD nFast slowD nSlow fMade sMade last was eeprom =>
    simp only [shiftTime, process, timeDiff_shift]
    cases pressed <;> cases was <;> simp only [Bool.and_self, Bool.and_true, Bool.and_false,
      Bool.true_and, Bool.false_and, Bool.not_true, Bool.not_false, if_true, if_false,
      Bool.false_eq_true]
    all_goals (repeat' split) <;> rfl

end WaypointKeeper

namespace Display

variable {K : Type} [LinearOrderedField K] [FloorRing K]

theorem setHands_shiftTime (d : Display) (k : Nat) (h : Hands) :
    setHands (d.shiftTime k) h = (setHands d h).shiftTime k := by
  cases d
  simp only [setHands, shiftTime]

theorem add_shift (p r k : Nat) :
    ((p + k) % 2 ^ 32 + r) % 2 ^ 32 = ((p + r) % 2 ^ 32 + k) % 2 ^ 32 := by
  norm_num
  omega

theorem display_process_shift (ops : MathOps K) (fuel : Nat) (d : Display) (k t : Nat)
    (data : SensorData K) (uninit : Hands) :
    process ops fuel (d.shiftTime k) ((t + k) % 2 ^ 32) data uninit =
      (process ops fuel d t data uninit).map (shiftTime k) := by
  cases d with
  | mk refresh motion nPos prevU prevM motor strip =>
    simp only [process, shiftTime, timeDiff_shift]
    by_cases h1 : refresh ≤ timeDiff t prevU
    · simp only [if_pos h1]
      cases hh : computeHands ops fuel data uninit with
      | none => rfl
      | some hands =>
        simp only [Option.bind_eq_bind, Option.some_bind, Option.pure_def, bind_pure_comp,
          Option.map_eq_map, Option.map_some', setHands]
        by_cases h2 : motion ≤ timeDiff t prevM
        · simp only [timeDiff_shift, if_pos h2, Option.map_some', shiftTime, add_shift]
        · simp only [timeDiff_shift, if_neg h2, Option.map_some', shiftTime, add_shift]
    · simp only [if_neg h1, Option.pure_def, Option.bind_eq_bind, Option.some_bind]
      by_cases h2 : motion ≤ timeDiff t prevM
      · simp only [timeDiff_shift, if_pos h2, Option.map_some', shiftTime]
      · simp only [timeDiff_shift, if_neg h2, Option.map_some', shiftTime]

end Display
/-! ## Sentences as comma-separated fields -/

theorem strchrFrom_field (f t : List Nat) (i : Nat) (hf : isField f) :
    strchrFrom (f ++ 44 :: t) i 44 = some (i + f.length) := by
  induction f generalizing i with
  | nil => simp [strchrFrom]
  | cons x xs ih =>
    have hx := hf x (List.mem_cons_self _ _)
    show strchrFrom (x :: (xs ++ 44 :: t)) i 44 = _
    simp only [strchrFrom, if_neg hx.1, if_neg hx.2]
    rw [ih (i + 1) (fun y hy => hf y (List.mem_cons_of_mem _ hy))]
    simp only [List.length_cons]
    congr 1
    omega

theorem upToNul_field (f t : List Nat) (hf : isField f) :
    upToNul (f ++ 44 :: t) = f ++ 44 :: upToNul t := by
  unfold upToNul
  induction f with
  | nil => simp
  | cons x xs ih =>
    have hx := hf x (List.mem_cons_self _ _)
    show (x :: (xs ++ 44 :: t)).takeWhile _ = _
    rw [List.takeWhile_cons]
    simp only [bne_iff_ne, ne_eq, hx.2, not_false_eq_true, if_true, List.cons_append]
    rw [ih (fun y hy => hf y (List.mem_cons_of_mem _ hy))]

theorem upToNul_length_ge (f t : List Nat) (hf : ∀ x ∈ f, x ≠ 0) :
    f.length ≤ (upToNul (f ++ t)).length := by
  unfold upToNul
  induction f with
  | nil => simp
  | cons x xs ih =>
    have hx := hf x (List.mem_cons_self _ _)
    show _ ≤ ((x :: (xs ++ t)).takeWhile _).length
    rw [List.takeWhile_cons]
    simp only [bne_iff_ne, ne_eq, hx, not_false_eq_true, if_true, List.length_cons]
    have := ih (fun y hy => hf y (List.mem_cons_of_mem _ hy))
    omega

theorem getD_of_drop (u t : List Nat) (p j : Nat) (h : u.drop p = t) :
    u.getD (p + j) 0 = t.getD j 0 := by
  subst h
  simp [List.getD_eq_getElem?_getD, List.getElem?_drop]

theorem getD_of_drop_zero (u t : List Nat) (p : Nat) (h : u.drop p = t) :
    u.getD p 0 = t.getD 0 0 := getD_of_drop u t p 0 h

theorem cstr_of_drop (u t : List Nat) (p j : Nat) (h : u.drop p = t) :
    cstr u (p + j) = upToNul (t.drop j) := by
  subst h
  simp [cstr, upToNul, List.drop_drop, Nat.add_comm]

theorem cstr_of_drop_zero (u t : List Nat) (p : Nat) (h : u.drop p = t) :
    cstr u p = upToNul t := cstr_of_drop u t p 0 h

/-- From the start of a field, `advancePastComma` moves to the text after the comma
that ends the field, provided enough characters follow. -/
theorem advancePastComma_field (u f t : List Nat) (p n : Nat)
    (hdrop : u.drop p = f ++ 44 :: t) (hf : isField f) (hn : n ≤ (upToNul t).length) :
    advancePastComma u (some p) n = some (p + f.length + 1) ∧
    u.drop (p + f.length + 1) = t := by
  have hd : u.drop (p + f.length + 1) = t := by
    have : u.drop (p + f.length + 1) = (u.drop p).drop (f.length + 1) := by
      rw [List.drop_drop, Nat.add_assoc]
    rw [this, hdrop]
    simp
  refine ⟨?_, hd⟩
  simp only [advancePastComma, strchr, hdrop, strchrFrom_field f t p hf, strlen]
  have hlen : ¬ (cstr u (p + f.length + 1)).length < n := by
    rw [cstr_of_drop_zero u t _ hd]; omega
  rw [if_neg hlen]

theorem strchrFrom_afterComma (l : List Nat) (i j : Nat) (h : strchrFrom l i 44 = some j) :
    i ≤ j ∧ l.drop (j - i + 1) = afterComma l := by
  induction l generalizing i with
  | nil => simp [strchrFrom] at h
  | cons x xs ih =>
    unfold strchrFrom at h
    by_cases hx : x = 44
    · rw [if_pos hx] at h
      cases h
      subst hx
      simp [afterComma]
    · rw [if_neg hx] at h
      by_cases h0 : x = 0
      · rw [if_pos h0] at h; cases h
      · rw [if_neg h0] at h
        obtain ⟨hle, hd⟩ := ih (i + 1) h
        refine ⟨by omega, ?_⟩
        have e : j - i + 1 = (j - (i + 1) + 1) + 1 := by omega
        rw [e, List.drop_succ_cons, hd]
        simp [afterComma, List.dropWhile_cons, hx]

theorem advancePastComma_afterComma (u : List Nat) (p n q : Nat)
    (h : advancePastComma u (some p) n = some q) :
    u.drop q = afterComma (u.drop p) := by
  simp only [advancePastComma, strchr] at h
  cases hs : strchrFrom (u.drop p) p 44 with
  | none => rw [hs] at h; cases h
  | some j =>
    rw [hs] at h
    simp only at h
    split at h
    · cases h
    · cases h
      obtain ⟨hle, hd⟩ := strchrFrom_afterComma _ _ _ hs
      rw [← hd, List.drop_drop]
      congr 1
      omega

namespace GPS

variable {F : Type}

theorem decodeRMC_text (ops : FloatOps F) (u : List Nat) (a b : Nat) (d : GPSData F) :
    decodeRMC ops (u ++ [a, b]) d =
      { (rmcBlocks ops u d).data with
        validFlags := ((rmcBlocks ops u d).data.validFlags ||| HASRMC) % 256 } := by
  have hlen : (u ++ [a, b]).length - 2 = u.length := by simp
  have b0 : Bounded u (some 0) := fun z hz => by cases hz; omega
  unfold decodeRMC processRMCData rmcBlocks
  simp only [hlen]
  have e2 : (u ++ [a, b]).set u.length 0 = u ++ 0 :: [b] := set_length_append u _ a 0
  rw [e2, rmcBlocks_trunc ops u [b] _ b0]

theorem decodeGGA_text (ops : FloatOps F) (u : List Nat) (a b : Nat) (d : GPSData F) :
    decodeGGA ops (u ++ [a, b]) d =
      { (ggaBlocks ops u d).data with
        validFlags := ((ggaBlocks ops u d).data.validFlags ||| HASGGA) % 256 } := by
  have hlen : (u ++ [a, b]).length - 2 = u.length := by simp
  have b0 : Bounded u (some 0) := fun z hz => by cases hz; omega
  unfold decodeGGA processGGAData ggaBlocks
  simp only [hlen]
  have e2 : (u ++ [a, b]).set u.length 0 = u ++ 0 :: [b] := set_length_append u _ a 0
  rw [e2, ggaBlocks_trunc ops u [b] _ b0]

end GPS

namespace GPS

variable {F : Type}

/-! ## What each block of the position decoder leaves alone -/

theorem rmcTime_latitude (buf : List Nat) (st : DecodeState F) :
    (rmcTime buf st).data.latitude = st.data.latitude := by
  unfold rmcTime
  cases advancePastComma buf st.rest 6 <;> rfl

theorem rmcStatus_latitude (buf : List Nat) (st : DecodeState F) :
    (rmcStatus buf st).data.latitude = st.data.latitude := by
  unfold rmcStatus
  cases advancePastComma buf st.rest 1 <;> rfl

theorem rmcLongitude_latitude (ops : FloatOps F) (buf : List Nat) (st : DecodeState F) :
    (rmcLongitude ops buf st).data.latitude = st.data.latitude := by
  unfold rmcLongitude
  cases advancePastComma buf st.rest 5 with
  | none => rfl
  | some r => simp only []; split <;> rfl

theorem rmcLongitudeSign_latitude (ops : FloatOps F) (buf : List Nat) (st : DecodeState F) :
    (rmcLongitudeSign ops buf st).data.latitude = st.data.latitude := by
  unfold rmcLongitudeSign
  cases advancePastComma buf st.rest 1 with
  | none => rfl
  | some r => simp only []; split <;> rfl

theorem rmcSpeed_latitude (ops : FloatOps F) (buf : List Nat) (st : DecodeState F) :
    (rmcSpeed ops buf st).data.latitude = st.data.latitude := by
  unfold rmcSpeed
  cases advancePastComma buf st.rest 2 <;> rfl

theorem rmcTrack_latitude (ops : FloatOps F) (buf : List Nat) (st : DecodeState F) :
    (rmcTrack ops buf st).data.latitude = st.data.latitude := by
  unfold rmcTrack
  cases advancePastComma buf st.rest 2 <;> rfl

theorem rmcDate_latitude (buf : List Nat) (st : DecodeState F) :
    (rmcDate buf st).data.latitude = st.data.latitude := by
  unfold rmcDate
  cases advancePastComma buf st.rest 6 <;> rfl

theorem rmcTime_longitude (buf : List Nat) (st : DecodeState F) :
    (rmcTime buf st).data.longitude = st.data.longitude := by
  unfold rmcTime
  cases advancePastComma buf st.rest 6 <;> rfl

theorem rmcStatus_longitude (buf : List Nat) (st : DecodeState F) :
    (rmcStatus buf st).data.longitude = st.data.longitude := by
  unfold rmcStatus
  cases advancePastComma buf st.rest 1 <;> rfl

theorem rmcLatitude_longitude (ops : FloatOps F) (buf : List Nat) (st : DecodeState F) :
    (rmcLatitude ops buf st).data.longitude = st.data.longitude := by
  unfold rmcLatitude
  cases advancePastComma buf st.rest 4 with
  | none => rfl
  | some r => simp only []; split <;> rfl

theorem rmcLatitudeSign_longitude (ops : FloatOps F) (buf : List Nat) (st : DecodeState F) :
    (rmcLatitudeSign ops buf st).data.longitude = st.data.longitude := by
  unfold rmcLatitudeSign
  cases advancePastComma buf st.rest 1 with
  | none => rfl
  | some r => simp only []; split <;> rfl

theorem rmcSpeed_longitude (ops : FloatOps F) (buf : List Nat) (st : DecodeState F) :
    (rmcSpeed ops buf st).data.longitude = st.data.longitude := by
  unfold rmcSpeed
  cases advancePastComma buf st.rest 2 <;> rfl

theorem rmcTrack_longitude (ops : FloatOps F) (buf : List Nat) (st : DecodeState F) :
    (rmcTrack ops buf st).data.longitude = st.data.longitude := by
  unfold rmcTrack
  cases advancePastComma buf st.rest 2 <;> rfl

theorem rmcDate_longitude (buf : List Nat) (st : DecodeState F) :
    (rmcDate buf st).data.longitude = st.data.longitude := by
  unfold rmcDate
  cases advancePastComma buf st.rest 6 <;> rfl

theorem rmcTime_isActive (buf : List Nat) (st : DecodeState F) :
    (rmcTime buf st).isActive = st.isActive := by
  unfold rmcTime
  cases advancePastComma buf st.rest 6 <;> rfl

theorem rmcLatitude_isActive (ops : FloatOps F) (buf : List Nat) (st : DecodeState F) :
    (rmcLatitude ops buf st).isActive = st.isActive := by
  unfold rmcLatitude
  cases advancePastComma buf st.rest 4 with
  | none => rfl
  | some r => simp only []; split <;> rfl

theorem rmcLatitudeSign_isActive (ops : FloatOps F) (buf : List Nat) (st : DecodeState F) :
    (rmcLatitudeSign ops buf st).isActive = st.isActive := by
  unfold rmcLatitudeSign
  cases advancePastComma buf st.rest 1 with
  | none => rfl
  | some r => simp only []; split <;> rfl

theorem rmcLongitude_isActive (ops : FloatOps F) (buf : List Nat) (st : DecodeState F) :
    (rmcLongitude ops buf st).isActive = st.isActive := by
  unfold rmcLongitude
  cases advancePastComma buf st.rest 5 with
  | none => rfl
  | some r => simp only []; split <;> rfl

theorem rmcLongitudeSign_isActive (ops : FloatOps F) (buf : List Nat) (st : DecodeState F) :
    (rmcLongitudeSign ops buf st).isActive = st.isActive := by
  unfold rmcLongitudeSign
  cases advancePastComma buf st.rest 1 with
  | none => rfl
  | some r => simp only []; split <;> rfl

theorem rmcSpeed_isActive (ops : FloatOps F) (buf : List Nat) (st : DecodeState F) :
    (rmcSpeed ops buf st).isActive = st.isActive := by
  unfold rmcSpeed
  cases advancePastComma buf st.rest 2 <;> rfl

theorem rmcTrack_isActive (ops : FloatOps F) (buf : List Nat) (st : DecodeState F) :
    (rmcTrack ops buf st).isActive = st.isActive := by
  unfold rmcTrack
  cases advancePastComma buf st.rest 2 <;> rfl

theorem rmcDate_isActive (buf : List Nat) (st : DecodeState F) :
    (rmcDate buf st).isActive = st.isActive := by
  unfold rmcDate
  cases advancePastComma buf st.rest 6 <;> rfl

theorem rmcStatus_clock (buf : List Nat) (st : DecodeState F) :
    (rmcStatus buf st).data.hour = st.data.hour ∧
    (rmcStatus buf st).data.minute = st.data.minute ∧
    (rmcStatus buf st).data.second = st.data.second := by
  unfold rmcStatus
  cases advancePastComma buf st.rest 1 <;> exact ⟨rfl, rfl, rfl⟩

theorem rmcLatitude_clock (ops : FloatOps F) (buf : List Nat) (st : DecodeState F) :
    (rmcLatitude ops buf st).data.hour = st.data.hour ∧
    (rmcLatitude ops buf st).data.minute = st.data.minute ∧
    (rmcLatitude ops buf st).data.second = st.data.second := by
  unfold rmcLatitude
  cases advancePastComma buf st.rest 4 with
  | none => exact ⟨rfl, rfl, rfl⟩
  | some r => simp only []; split <;> exact ⟨rfl, rfl, rfl⟩

theorem rmcLatitudeSign_clock (ops : FloatOps F) (buf : List Nat) (st : DecodeState F) :
    (rmcLatitudeSign ops buf st).data.hour = st.data.hour ∧
    (rmcLatitudeSign ops buf st).data.minute = st.data.minute ∧
    (rmcLatitudeSign ops buf st).data.second = st.data.second := by
  unfold rmcLatitudeSign
  cases advancePastComma buf st.rest 1 with
  | none => exact ⟨rfl, rfl, rfl⟩
  | some r => simp only []; split <;> exact ⟨rfl, rfl, rfl⟩

theorem rmcLongitude_clock (ops : FloatOps F) (buf : List Nat) (st : DecodeState F) :
    (rmcLongitude ops buf st).data.hour = st.data.hour ∧
    (rmcLongitude ops buf st).data.minute = st.data.minute ∧
    (rmcLongitude ops buf st).data.second = st.data.second := by
  unfold rmcLongitude
  cases advancePastComma buf st.rest 5 with
  | none => exact ⟨rfl, rfl, rfl⟩
  | some r => simp only []; split <;> exact ⟨rfl, rfl, rfl⟩

theorem rmcLongitudeSign_clock (ops : FloatOps F) (buf : List Nat) (st : DecodeState F) :
    (rmcLongitudeSign ops buf st).data.hour = st.data.hour ∧
    (rmcLongitudeSign ops buf st).data.minute = st.data.minute ∧
    (rmcLongitudeSign ops buf st).data.second = st.data.second := by
  unfold rmcLongitudeSign
  cases advancePastComma buf st.rest 1 with
  | none => exact ⟨rfl, rfl, rfl⟩
  | some r => simp only []; split <;> exact ⟨rfl, rfl, rfl⟩

theorem rmcSpeed_clock (ops : FloatOps F) (buf : List Nat) (st : DecodeState F) :
    (rmcSpeed ops buf st).data.hour = st.data.hour ∧
    (rmcSpeed ops buf st).data.minute = st.data.minute ∧
    (rmcSpeed ops buf st).data.second = st.data.second := by
  unfold rmcSpeed
  cases advancePastComma buf st.rest 2 <;> exact ⟨rfl, rfl, rfl⟩

theorem rmcTrack_clock (ops : FloatOps F) (buf : List Nat) (st : DecodeState F) :
    (rmcTrack ops buf st).data.hour = st.data.hour ∧
    (rmcTrack ops buf st).data.minute = st.data.minute ∧
    (rmcTrack ops buf st).data.second = st.data.second := by
  unfold rmcTrack
  cases advancePastComma buf st.rest 2 <;> exact ⟨rfl, rfl, rfl⟩

theorem rmcDate_clock (buf : List Nat) (st : DecodeState F) :
    (rmcDate buf st).data.hour = st.data.hour ∧
    (rmcDate buf st).data.minute = st.data.minute ∧
    (rmcDate buf st).data.second = st.data.second := by
  unfold rmcDate
  cases advancePastComma buf st.rest 6 <;> exact ⟨rfl, rfl, rfl⟩

theorem rmcTime_calendar (buf : List Nat) (st : DecodeState F) :
    (rmcTime buf st).data.day = st.data.day ∧
    (rmcTime buf st).data.month = st.data.month ∧
    (rmcTime buf st).data.yearSince2000 = st.data.yearSince2000 := by
  unfold rmcTime
  cases advancePastComma buf st.rest 6 <;> exact ⟨rfl, rfl, rfl⟩

theorem rmcStatus_calendar (buf : List Nat) (st : DecodeState F) :
    (rmcStatus buf st).data.day = st.data.day ∧
    (rmcStatus buf st).data.month = st.data.month ∧
    (rmcStatus buf st).data.yearSince2000 = st.data.yearSince2000 := by
  unfold rmcStatus
  cases advancePastComma buf st.rest 1 <;> exact ⟨rfl, rfl, rfl⟩

theorem rmcLatitude_calendar (ops : FloatOps F) (buf : List Nat) (st : DecodeState F) :
    (rmcLatitude ops buf st).data.day = st.data.day ∧
    (rmcLatitude ops buf st).data.month = st.data.month ∧
    (rmcLatitude ops buf st).data.yearSince2000 = st.data.yearSince2000 := by
  unfold rmcLatitude
  cases advancePastComma buf st.rest 4 with
  | none => exact ⟨rfl, rfl, rfl⟩
  | some r => simp only []; split <;> exact ⟨rfl, rfl, rfl⟩

theorem rmcLatitudeSign_calendar (ops : FloatOps F) (buf : List Nat) (st : DecodeState F) :
    (rmcLatitudeSign ops buf st).data.day = st.data.day ∧
    (rmcLatitudeSign ops buf st).data.month = st.data.month ∧
    (rmcLatitudeSign ops buf st).data.yearSince2000 = st.data.yearSince2000 := by
  unfold rmcLatitudeSign
  cases advancePastComma buf st.rest 1 with
  | none => exact ⟨rfl, rfl, rfl⟩
  | some r => simp only []; split <;> exact ⟨rfl, rfl, rfl⟩

theorem rmcLongitude_calendar (ops : FloatOps F) (buf : List Nat) (st : DecodeState F) :
    (rmcLongitude ops buf st).data.day = st.data.day ∧
    (rmcLongitude ops buf st).data.month = st.data.month ∧
    (rmcLongitude ops buf st).data.yearSince2000 = st.data.yearSince2000 := by
  unfold rmcLongitude
  cases advancePastComma buf st.rest 5 with
  | none => exact ⟨rfl, rfl, rfl⟩
  | some r => simp only []; split <;> exact ⟨rfl, rfl, rfl⟩

theorem rmcLongitudeSign_calendar (ops : FloatOps F) (buf : List Nat) (st : DecodeState F) :
    (rmcLongitudeSign ops buf st).data.day = st.data.day ∧
    (rmcLongitudeSign ops buf st).data.month = st.data.month ∧
    (rmcLongitudeSign ops buf st).data.yearSince2000 = st.data.yearSince2000 := by
  unfold rmcLongitudeSign
  cases advancePastComma buf st.rest 1 with
  | none => exact ⟨rfl, rfl, rfl⟩
  | some r => simp only []; split <;> exact ⟨rfl, rfl, rfl⟩

theorem rmcSpeed_calendar (ops : FloatOps F) (buf : List Nat) (st : DecodeState F) :
    (rmcSpeed ops buf st).data.day = st.data.day ∧
    (rmcSpeed ops buf st).data.month = st.data.month ∧
    (rmcSpeed ops buf st).data.yearSince2000 = st.data.yearSince2000 := by
  unfold rmcSpeed
  cases advancePastComma buf st.rest 2 <;> exact ⟨rfl, rfl, rfl⟩

theorem rmcTrack_calendar (ops : FloatOps F) (buf : List Nat) (st : DecodeState F) :
    (rmcTrack ops buf st).data.day = st.data.day ∧
    (rmcTrack ops buf st).data.month = st.data.month ∧
    (rmcTrack ops buf st).data.yearSince2000 = st.data.yearSince2000 := by
  unfold rmcTrack
  cases advancePastComma buf st.rest 2 <;> exact ⟨rfl, rfl, rfl⟩

end GPS

theorem getD_eq_headD_drop (l : List Nat) (r : Nat) : l.getD r 0 = (l.drop r).headD 0 := by
  induction l generalizing r with
  | nil => simp
  | cons x xs ih =>
    cases r with
    | zero => rfl
    | succ r => simp [ih r]

namespace GPS

variable {F : Type}

/-- A status letter other than `A` leaves `isActive` false. -/
theorem rmcStatus_void (u : List Nat) (d : GPSData F) (h : statusLetter u ≠ 65) :
    (rmcStatus u (rmcTime u { rest := some 0, isActive := false, data := d })).isActive =
      false := by
  have hr := rmcTime_rest u ({ rest := some 0, isActive := false, data := d } : DecodeState F)
  unfold rmcStatus
  rw [hr]
  cases h1 : advancePastComma u (some 0) 6 with
  | none => rfl
  | some p1 =>
    cases h2 : advancePastComma u (some p1) 1 with
    | none => rfl
    | some p2 =>
      have e1 := advancePastComma_afterComma u 0 6 p1 h1
      have e2 := advancePastComma_afterComma u p1 1 p2 h2
      rw [e1, List.drop_zero] at e2
      have : u.getD p2 0 = statusLetter u := by
        rw [getD_eq_headD_drop, e2]; rfl
      simp only [this]
      simpa using h

/-- The two latitude blocks on a record whose sentence is not active. -/
theorem rmcLatitude_void (ops : FloatOps F) (u : List Nat) (st : DecodeState F)
    (h : st.isActive = false) :
    (rmcLatitudeSign ops u (rmcLatitude ops u st)).data.latitude =
      match advancePastComma u st.rest 4 with
      | none => ops.zero
      | some r =>
        match advancePastComma u (some r) 1 with
        | none => st.data.latitude
        | some q =>
          if u.getD q 0 = 83 then ops.mul st.data.latitude ops.negOne else st.data.latitude := by
  unfold rmcLatitudeSign
  rw [rmcLatitude_rest]
  unfold rmcLatitude
  cases h1 : advancePastComma u st.rest 4 with
  | none => rfl
  | some r =>
    simp only [h, Bool.false_eq_true, if_false]
    cases h2 : advancePastComma u (some r) 1 with
    | none => rfl
    | some q =>
      simp only [beq_iff_eq]
      split <;> rfl

/-- The two longitude blocks on a record whose sentence is not active. -/
theorem rmcLongitude_void (ops : FloatOps F) (u : List Nat) (st : DecodeState F)
    (h : st.isActive = false) :
    (rmcLongitudeSign ops u (rmcLongitude ops u st)).data.longitude =
      match advancePastComma u st.rest 5 with
      | none => ops.zero
      | some r =>
        match advancePastComma u (some r) 1 with
        | none => st.data.longitude
        | some q =>
          if u.getD q 0 = 87 then ops.mul st.data.longitude ops.negOne
          else st.data.longitude := by
  unfold rmcLongitudeSign
  rw [rmcLongitude_rest]
  unfold rmcLongitude
  cases h1 : advancePastComma u st.rest 5 with
  | none => rfl
  | some r =>
    simp only [h, Bool.false_eq_true, if_false]
    cases h2 : advancePastComma u (some r) 1 with
    | none => rfl
    | some q =>
      simp only [beq_iff_eq]
      split <;> rfl

end GPS

namespace GPS

variable {F : Type}

theorem inactive_of_active (g h : GPS F) (e : h.activeGPSData = g.activeGPSData) :
    h.inactiveGPSData = g.inactiveGPSData := by
  unfold inactiveGPSData; rw [e]

theorem gpsData_of_slots (g h : GPS F) (e0 : h.gpsData0 = g.gpsData0) (e1 : h.gpsData1 = g.gpsData1)
    (j : Nat) : h.gpsData j = g.gpsData j := by
  unfold gpsData; rw [e0, e1]

/-- A position sentence followed by a fix-quality sentence, arriving when the inactive
record has no flag set: the inactive record is decoded twice and published, the active
record is superseded. -/
theorem feedAll_pair (ops : FloatOps F) (g : GPS F) (s1 s2 : List Nat)
    (hlen : g.receivedData.length = MAXDATACHARS) (hcount : g.receivedDataCount = 0)
    (hflags : (g.gpsData g.inactiveGPSData).validFlags = 0)
    (h1 : isRMCSentence s1 = true) (h2 : isGGASentence s2 = true) :
    (g.feedAll ops (s1 ++ s2)).activeGPSData = g.inactiveGPSData ∧
    (g.feedAll ops (s1 ++ s2)).gpsData g.inactiveGPSData =
      decodeGGA ops s2 (decodeRMC ops s1 (g.gpsData g.inactiveGPSData)) ∧
    (g.feedAll ops (s1 ++ s2)).gpsData g.activeGPSData =
      { g.gpsData g.activeGPSData with validFlags := 0 } ∧
    (g.feedAll ops (s1 ++ s2)).receivedDataCount = 0 ∧
    (g.feedAll ops (s1 ++ s2)).receivedData.length = MAXDATACHARS := by
  simp only [isRMCSentence, isGGASentence, Bool.and_eq_true] at h1 h2
  obtain ⟨hs1, hR1⟩ := h1
  obtain ⟨hs2, hG2⟩ := h2
  have hR2 : ¬ strncmpEq s2 hdrRMC 7 = true := by
    intro h
    have e1 := (strncmpEq_hdrRMC s2).mp h
    have e2 := (strncmpEq_hdrGGA s2).mp hG2
    rw [e1] at e2
    exact absurd e2 (by decide)
  -- the first sentence
  obtain ⟨gp, c, hfeed, hcomp, hactive, hd0, hd1, hdec, hcnt, hlen1⟩ :=
    feedAll_sentence ops g s1 hlen hcount hs1
  rw [if_pos hR1] at hdec
  have hgpi : gp.inactiveGPSData = g.inactiveGPSData := inactive_of_active g gp hactive
  have hflags1 : (decoded ops gp c).validFlags = 1 := by
    rw [hdec, decodeRMC_flags, hflags]; simp [HASRMC]
  have hnb : ¬ (decoded ops gp c).hasBoth := by
    unfold GPSData.hasBoth
    rw [hflags1]
    decide
  rcases feed_complete_cases ops gp c hcomp with ⟨hb, -⟩ | ⟨-, ha1, hi1, hk1⟩
  · exact absurd hb hnb
  rw [hactive] at ha1 hk1
  rw [hgpi] at hi1
  rw [gpsData_of_slots g gp hd0 hd1] at hk1
  -- the second sentence
  obtain ⟨gq, c2, hfeed2, hcomp2, hactive2, hq0, hq1, hdec2, hcnt2, hlen2⟩ :=
    feedAll_sentence ops (gp.feed ops c) s2 hlen1 hcnt hs2
  rw [if_neg hR2] at hdec2
  have hinact1 : (gp.feed ops c).inactiveGPSData = g.inactiveGPSData :=
    inactive_of_active g _ ha1
  rw [hinact1, hi1, hdec] at hdec2
  have hgqa : gq.activeGPSData = g.activeGPSData := by rw [hactive2, ha1]
  have hgqi : gq.inactiveGPSData = g.inactiveGPSData := inactive_of_active g gq hgqa
  have hboth : (decoded ops gq c2).hasBoth := by
    unfold GPSData.hasBoth
    rw [hdec2, decodeGGA_flags, decodeRMC_flags, hflags]
    decide
  rcases feed_complete_cases ops gq c2 hcomp2 with ⟨-, ha2, hi2, hk2⟩ | ⟨hb, -⟩
  · rw [feedAll_append, hfeed, hfeed2]
    rw [hgqi] at ha2 hi2
    rw [hgqa, gpsData_of_slots _ gq hq0 hq1, hk1] at hk2
    exact ⟨ha2, by rw [hi2, hdec2], hk2, hcnt2, hlen2⟩
  · exact absurd hboth hb

end GPS

namespace GPS

variable {F : Type}

/-- Three fixes in a row from a constructed parser: the third fix is decoded into the
record of the first, whose flags alone were cleared when the second was published. -/
theorem feedAll_three_fixes (ops : FloatOps F) (buf r1 g1 r2 g2 r3 g3 : List Nat)
    (hbuf : buf.length = MAXDATACHARS)
    (hr1 : isRMCSentence r1 = true) (hg1 : isGGASentence g1 = true)
    (hr2 : isRMCSentence r2 = true) (hg2 : isGGASentence g2 = true)
    (hr3 : isRMCSentence r3 = true) (hg3 : isGGASentence g3 = true) :
    ((GPS.new ops buf).feedAll ops (r1 ++ g1 ++ (r2 ++ g2) ++ (r3 ++ g3))).getGPSData =
      decodeGGA ops g3 (decodeRMC ops r3
        { decodeGGA ops g1 (decodeRMC ops r1 (GPSData.empty ops)) with validFlags := 0 }) := by
  rw [feedAll_append ops _ (r1 ++ g1 ++ (r2 ++ g2)) (r3 ++ g3),
    feedAll_append ops _ (r1 ++ g1) (r2 ++ g2)]
  obtain ⟨a1, d1, k1, c1, l1⟩ :=
    feedAll_pair ops (GPS.new ops buf) r1 g1 hbuf rfl rfl hr1 hg1
  have i0 : (GPS.new ops buf).inactiveGPSData = 1 := rfl
  have i0a : (GPS.new ops buf).activeGPSData = 0 := rfl
  rw [i0] at a1 d1
  rw [i0a] at k1
  generalize (GPS.new ops buf).feedAll ops (r1 ++ g1) = G1 at a1 d1 k1 c1 l1 ⊢
  have i1 : G1.inactiveGPSData = 0 := by simp [inactiveGPSData, a1]
  obtain ⟨a2, d2, k2, c2, l2⟩ :=
    feedAll_pair ops G1 r2 g2 l1 c1 (by rw [i1, k1]) hr2 hg2
  rw [i1] at a2 d2
  rw [a1] at k2
  generalize G1.feedAll ops (r2 ++ g2) = G2 at a2 d2 k2 c2 l2 ⊢
  have i2 : G2.inactiveGPSData = 1 := by simp [inactiveGPSData, a2]
  obtain ⟨a3, d3, -, -, -⟩ :=
    feedAll_pair ops G2 r3 g3 l2 c2 (by rw [i2, k2]) hr3 hg3
  rw [i2] at a3 d3
  unfold getGPSData
  rw [a3, d3, k2, d1]
  rfl

end GPS

theorem charToInt_digit (n : Nat) (h : n ≤ 9) : charToInt (48 + n) = n := by
  unfold charToInt
  rw [if_pos (by omega)]
  omega

theorem upToNul_length_field (f t : List Nat) (hf : isField f) :
    (upToNul (f ++ 44 :: t)).length = f.length + 1 + (upToNul t).length := by
  rw [upToNul_field f t hf]
  simp only [List.length_append, List.length_cons]
  omega

theorem upToNul_cons (x : Nat) (t : List Nat) (hx : x ≠ 0) :
    upToNul (x :: t) = x :: upToNul t := by
  unfold upToNul
  rw [List.takeWhile_cons]
  simp [hx]

namespace GPS

variable {F : Type}

/-- The pointers of the first six blocks of `processRMCData` on a text that starts with
seven fields. -/
theorem rmc_pointers (u f0 f1 f2 f3 f4 f5 t1 t2 t3 t4 t5 t6 : List Nat)
    (h0 : u = f0 ++ 44 :: t1) (h1 : t1 = f1 ++ 44 :: t2) (h2 : t2 = f2 ++ 44 :: t3)
    (h3 : t3 = f3 ++ 44 :: t4) (h4 : t4 = f4 ++ 44 :: t5) (h5 : t5 = f5 ++ 44 :: t6)
    (c0 : isField f0) (c1 : isField f1) (c2 : isField f2) (c3 : isField f3)
    (c4 : isField f4) (c5 : isField f5)
    (n1 : 6 ≤ (upToNul t1).length) (n2 : 1 ≤ (upToNul t2).length)
    (n3 : 4 ≤ (upToNul t3).length) (n4 : 1 ≤ (upToNul t4).length)
    (n5 : 5 ≤ (upToNul t5).length) (n6 : 1 ≤ (upToNul t6).length) :
    ∃ p1 p2 p3 p4 p5 p6,
      advancePastComma u (some 0) 6 = some p1 ∧ u.drop p1 = t1 ∧
      advancePastComma u (some p1) 1 = some p2 ∧ u.drop p2 = t2 ∧
      advancePastComma u (some p2) 4 = some p3 ∧ u.drop p3 = t3 ∧
      advancePastComma u (some p3) 1 = some p4 ∧ u.drop p4 = t4 ∧
      advancePastComma u (some p4) 5 = some p5 ∧ u.drop p5 = t5 ∧
      advancePastComma u (some p5) 1 = some p6 ∧ u.drop p6 = t6 := by
  obtain ⟨a1, d1⟩ := advancePastComma_field u f0 t1 0 6 (by rw [List.drop_zero]; exact h0) c0 n1
  obtain ⟨a2, d2⟩ := advancePastComma_field u f1 t2 _ 1 (d1.trans h1) c1 n2
  obtain ⟨a3, d3⟩ := advancePastComma_field u f2 t3 _ 4 (d2.trans h2) c2 n3
  obtain ⟨a4, d4⟩ := advancePastComma_field u f3 t4 _ 1 (d3.trans h3) c3 n4
  obtain ⟨a5, d5⟩ := advancePastComma_field u f4 t5 _ 5 (d4.trans h4) c4 n5
  obtain ⟨a6, d6⟩ := advancePastComma_field u f5 t6 _ 1 (d5.trans h5) c5 n6
  exact ⟨_, _, _, _, _, _, a1, d1, a2, d2, a3, d3, a4, d4, a5, d5, a6, d6⟩

/-- The pointers of the last three blocks of `processRMCData`. -/
theorem rmc_pointers_tail (u f6 f7 f8 t6 t7 t8 t9 : List Nat) (p6 : Nat)
    (d6 : u.drop p6 = t6)
    (h6 : t6 = f6 ++ 44 :: t7) (h7 : t7 = f7 ++ 44 :: t8) (h8 : t8 = f8 ++ 44 :: t9)
    (c6 : isField f6) (c7 : isField f7) (c8 : isField f8)
    (n7 : 2 ≤ (upToNul t7).length) (n8 : 2 ≤ (upToNul t8).length)
    (n9 : 6 ≤ (upToNul t9).length) :
    ∃ p7 p8 p9,
      advancePastComma u (some p6) 2 = some p7 ∧ u.drop p7 = t7 ∧
      advancePastComma u (some p7) 2 = some p8 ∧ u.drop p8 = t8 ∧
      advancePastComma u (some p8) 6 = some p9 ∧ u.drop p9 = t9 := by
  obtain ⟨a7, d7⟩ := advancePastComma_field u f6 t7 _ 2 (d6.trans h6) c6 n7
  obtain ⟨a8, d8⟩ := advancePastComma_field u f7 t8 _ 2 (d7.trans h7) c7 n8
  obtain ⟨a9, d9⟩ := advancePastComma_field u f8 t9 _ 6 (d8.trans h8) c8 n9
  exact ⟨_, _, _, a7, d7, a8, d8, a9, d9⟩

/-- The record after the first six blocks of `processRMCData`, the pointers known. -/
theorem rmc_six_blocks (ops : FloatOps F) (u : List Nat) (d : GPSData F)
    (p1 p2 p3 p4 p5 p6 : Nat)
    (a1 : advancePastComma u (some 0) 6 = some p1)
    (a2 : advancePastComma u (some p1) 1 = some p2)
    (a3 : advancePastComma u (some p2) 4 = some p3)
    (a4 : advancePastComma u (some p3) 1 = some p4)
    (a5 : advancePastComma u (some p4) 5 = some p5)
    (a6 : advancePastComma u (some p5) 1 = some p6)
    (hA : u.getD p2 0 = 65) :
    rmcLongitudeSign ops u (rmcLongitude ops u (rmcLatitudeSign ops u (rmcLatitude ops u
      (rmcStatus u (rmcTime u { rest := some 0, isActive := false, data := d }))))) =
    { rest := some p6, isActive := true,
      data := { d with
        hour := (charToInt (u.getD p1 0) * 10 + charToInt (u.getD (p1 + 1) 0)) % 256,
        minute := (charToInt (u.getD (p1 + 2) 0) * 10 + charToInt (u.getD (p1 + 3) 0)) % 256,
        second := (charToInt (u.getD (p1 + 4) 0) * 10 + charToInt (u.getD (p1 + 5) 0)) % 256,
        latitude :=
          if u.getD p4 0 = 83 then
            ops.mul (ops.mul (ops.add
              (ops.ofNat (charToInt (u.getD p3 0) * 10 + charToInt (u.getD (p3 + 1) 0)))
              (ops.div (ops.atof (cstr u (p3 + 2))) ops.sixty)) ops.degToRad) ops.negOne
          else
            ops.mul (ops.add
              (ops.ofNat (charToInt (u.getD p3 0) * 10 + charToInt (u.getD (p3 + 1) 0)))
              (ops.div (ops.atof (cstr u (p3 + 2))) ops.sixty)) ops.degToRad,
        longitude :=
          if u.getD p6 0 = 87 then
            ops.mul (ops.mul (ops.add
              (ops.ofNat (charToInt (u.getD p5 0) * 100 + charToInt (u.getD (p5 + 1) 0) * 10 +
                charToInt (u.getD (p5 + 2) 0)))
              (ops.div (ops.atof (cstr u (p5 + 3))) ops.sixty)) ops.degToRad) ops.negOne
          else
            ops.mul (ops.add
              (ops.ofNat (charToInt (u.getD p5 0) * 100 + charToInt (u.getD (p5 + 1) 0) * 10 +
                charToInt (u.getD (p5 + 2) 0)))
              (ops.div (ops.atof (cstr u (p5 + 3))) ops.sixty)) ops.degToRad } } := by
  by_cases hS : u.getD p4 0 = 83 <;> by_cases hW : u.getD p6 0 = 87 <;>
    simp only [rmcTime, a1, rmcStatus, a2, hA, beq_self_eq_true, rmcLatitude, a3, if_true,
      rmcLatitudeSign, a4, rmcLongitude, a5, rmcLongitudeSign, a6, beq_iff_eq, hS, hW,
      if_false]

end GPS

theorem isField_cons (x : Nat) (f : List Nat) (h44 : x ≠ 44) (h0 : x ≠ 0) (hf : isField f) :
    isField (x :: f) := by
  intro y hy
  rcases List.mem_cons.mp hy with rfl | hy
  · exact ⟨h44, h0⟩
  · exact hf y hy

theorem isField_digit (n : Nat) (f : List Nat) (hf : isField f) : isField ((48 + n) :: f) :=
  isField_cons _ f (by omega) (by omega) hf

theorem isField_nil : isField [] := fun _ h => absurd h (List.not_mem_nil _)

theorem first_of_field (f t : List Nat) (c : Nat) (hc : c ≠ 44) :
    (f ++ 44 :: t).getD 0 0 = c ↔ f.head? = some c := by
  cases f with
  | nil => simp; omega
  | cons x xs => simp

namespace GPS

variable {F : Type}

theorem rmcTime_at (buf : List Nat) (st : DecodeState F) (r : Nat)
    (h : advancePastComma buf st.rest 6 = some r) :
    (rmcTime buf st).data.hour =
      (charToInt (buf.getD r 0) * 10 + charToInt (buf.getD (r + 1) 0)) % 256 ∧
    (rmcTime buf st).data.minute =
      (charToInt (buf.getD (r + 2) 0) * 10 + charToInt (buf.getD (r + 3) 0)) % 256 ∧
    (rmcTime buf st).data.second =
      (charToInt (buf.getD (r + 4) 0) * 10 + charToInt (buf.getD (r + 5) 0)) % 256 := by
  unfold rmcTime
  rw [h]
  exact ⟨rfl, rfl, rfl⟩

theorem rmcDate_at (buf : List Nat) (st : DecodeState F) (r : Nat)
    (h : advancePastComma buf st.rest 6 = some r) :
    (rmcDate buf st).data.day =
      (charToInt (buf.getD r 0) * 10 + charToInt (buf.getD (r + 1) 0)) % 256 ∧
    (rmcDate buf st).data.month =
      (charToInt (buf.getD (r + 2) 0) * 10 + charToInt (buf.getD (r + 3) 0)) % 256 ∧
    (rmcDate buf st).data.yearSince2000 =
      (charToInt (buf.getD (r + 4) 0) * 10 + charToInt (buf.getD (r + 5) 0)) % 256 := by
  unfold rmcDate
  rw [h]
  exact ⟨rfl, rfl, rfl⟩

theorem rmcDate_missing (buf : List Nat) (st : DecodeState F)
    (h : advancePastComma buf st.rest 6 = none) :
    (rmcDate buf st).data.day = st.data.day ∧ (rmcDate buf st).data.month = st.data.month ∧
    (rmcDate buf st).data.yearSince2000 = st.data.yearSince2000 := by
  unfold rmcDate
  rw [h]
  exact ⟨rfl, rfl, rfl⟩

end GPS

theorem advancePastComma_field_short (u f t : List Nat) (p n : Nat)
    (hdrop : u.drop p = f ++ 44 :: t) (hf : isField f) (hn : (upToNul t).length < n) :
    advancePastComma u (some p) n = none := by
  have hd : u.drop (p + f.length + 1) = t := by
    have : u.drop (p + f.length + 1) = (u.drop p).drop (f.length + 1) := by
      rw [List.drop_drop, Nat.add_assoc]
    rw [this, hdrop]
    simp
  simp only [advancePastComma, strchr, hdrop, strchrFrom_field f t p hf, strlen]
  have hlen : (cstr u (p + f.length + 1)).length < n := by
    rw [cstr_of_drop_zero u t _ hd]; exact hn
  rw [if_pos hlen]

theorem upToNul_length_pos (t : List Nat) : 1 ≤ (upToNul t).length ↔ t.headD 0 ≠ 0 := by
  cases t with
  | nil => simp [upToNul]
  | cons x xs =>
    by_cases hx : x = 0
    · subst hx; simp [upToNul]
    · rw [upToNul_cons x xs hx]; simp [hx]

namespace GPS

variable {F : Type}

theorem ggaAltitude_data (ops : FloatOps F) (buf : List Nat) (st : DecodeState F) :
    ∃ x, (ggaAltitude ops buf st).data = { st.data with altitudeMeters := x } := by
  unfold ggaAltitude
  cases st.rest with
  | none => exact ⟨_, rfl⟩
  | some r => exact ⟨_, rfl⟩

theorem ggaUnits_data (ops : FloatOps F) (buf : List Nat) (st : DecodeState F) :
    ∃ x, (ggaUnits ops buf st).data = { st.data with altitudeMeters := x } := by
  unfold ggaUnits
  cases advancePastComma buf st.rest 1 with
  | none => exact ⟨st.data.altitudeMeters, rfl⟩
  | some r =>
    simp only []
    split
    · exact ⟨_, rfl⟩
    · exact ⟨st.data.altitudeMeters, rfl⟩

/-- The decoder of the fix-quality sentence writes the altitude and the flags only. -/
theorem decodeGGA_frame (ops : FloatOps F) (s : List Nat) (d : GPSData F) :
    decodeGGA ops s d =
      { d with altitudeMeters := (decodeGGA ops s d).altitudeMeters,
               validFlags := (d.validFlags ||| HASGGA) % 256 } := by
  unfold decodeGGA processGGAData
  simp only []
  obtain ⟨x, hx⟩ := ggaUnits_data ops (s.set (s.length - 2) 0)
    (ggaAltitude ops (s.set (s.length - 2) 0) (ggaSkip (s.set (s.length - 2) 0)
      { rest := some 0, isActive := false, data := d }))
  obtain ⟨y, hy⟩ := ggaAltitude_data ops (s.set (s.length - 2) 0)
    (ggaSkip (s.set (s.length - 2) 0) { rest := some 0, isActive := false, data := d })
  rw [hx, hy]
  rfl

/-- The pointers of `processGGAData` on a text that starts with ten fields. -/
theorem gga_pointers (d : GPSData F) (u f0 f1 f2 f3 f4 f5 f6 f7 f8 t1 t2 t3 t4 t5 t6 t7 t8 t9 : List Nat)
    (h0 : u = f0 ++ 44 :: t1) (h1 : t1 = f1 ++ 44 :: t2) (h2 : t2 = f2 ++ 44 :: t3)
    (h3 : t3 = f3 ++ 44 :: t4) (h4 : t4 = f4 ++ 44 :: t5) (h5 : t5 = f5 ++ 44 :: t6)
    (h6 : t6 = f6 ++ 44 :: t7) (h7 : t7 = f7 ++ 44 :: t8) (h8 : t8 = f8 ++ 44 :: t9)
    (c0 : isField f0) (c1 : isField f1) (c2 : isField f2) (c3 : isField f3)
    (c4 : isField f4) (c5 : isField f5) (c6 : isField f6) (c7 : isField f7)
    (c8 : isField f8) (n9 : 1 ≤ (upToNul t9).length) :
    ∃ p9, (ggaSkip u ({ rest := some 0, isActive := false, data := d } : DecodeState F)).rest =
      some p9 ∧ u.drop p9 = t9 := by
  have l8 : (upToNul t8).length = f8.length + 1 + (upToNul t9).length := by
    rw [h8]; exact upToNul_length_field _ _ c8
  have l7 : (upToNul t7).length = f7.length + 1 + (upToNul t8).length := by
    rw [h7]; exact upToNul_length_field _ _ c7
  have l6 : (upToNul t6).length = f6.length + 1 + (upToNul t7).length := by
    rw [h6]; exact upToNul_length_field _ _ c6
  have l5 : (upToNul t5).length = f5.length + 1 + (upToNul t6).length := by
    rw [h5]; exact upToNul_length_field _ _ c5
  have l4 : (upToNul t4).length = f4.length + 1 + (upToNul t5).length := by
    rw [h4]; exact upToNul_length_field _ _ c4
  have l3 : (upToNul t3).length = f3.length + 1 + (upToNul t4).length := by
    rw [h3]; exact upToNul_length_field _ _ c3
  have l2 : (upToNul t2).length = f2.length + 1 + (upToNul t3).length := by
    rw [h2]; exact upToNul_length_field _ _ c2
  have l1 : (upToNul t1).length = f1.length + 1 + (upToNul t2).length := by
    rw [h1]; exact upToNul_length_field _ _ c1
  obtain ⟨a1, d1⟩ := advancePastComma_field u f0 t1 0 6 (by rw [List.drop_zero]; exact h0) c0
    (by omega)
  obtain ⟨a2, d2⟩ := advancePastComma_field u f1 t2 _ 1 (d1.trans h1) c1 (by omega)
  obtain ⟨a3, d3⟩ := advancePastComma_field u f2 t3 _ 1 (d2.trans h2) c2 (by omega)
  obtain ⟨a4, d4⟩ := advancePastComma_field u f3 t4 _ 1 (d3.trans h3) c3 (by omega)
  obtain ⟨a5, d5⟩ := advancePastComma_field u f4 t5 _ 1 (d4.trans h4) c4 (by omega)
  obtain ⟨a6, d6⟩ := advancePastComma_field u f5 t6 _ 1 (d5.trans h5) c5 (by omega)
  obtain ⟨a7, d7⟩ := advancePastComma_field u f6 t7 _ 1 (d6.trans h6) c6 (by omega)
  obtain ⟨a8, d8⟩ := advancePastComma_field u f7 t8 _ 1 (d7.trans h7) c7 (by omega)
  obtain ⟨a9, d9⟩ := advancePastComma_field u f8 t9 _ 1 (d8.trans h8) c8 n9
  refine ⟨_, ?_, d9⟩
  simp only [ggaSkip, a1, a2, a3, a4, a5, a6, a7, a8, a9]

end GPS

theorem or_mod_and_self (x k : Nat) (hk : k < 8) :
    ((x ||| 2 ^ k) % 256) &&& 2 ^ k = 2 ^ k := by
  apply Nat.eq_of_testBit_eq
  intro i
  have h256 : (256 : Nat) = 2 ^ 8 := by norm_num
  rw [h256, Nat.testBit_and, Nat.testBit_mod_two_pow, Nat.testBit_or, Nat.testBit_two_pow]
  by_cases hi : k = i
  · subst hi; simp [hk]
  · simp [hi]

theorem flags_set_HASRMC (x : Nat) : ((x ||| HASRMC) % 256) &&& HASRMC = HASRMC :=
  or_mod_and_self x 0 (by omega)

theorem flags_set_HASGGA (x : Nat) : ((x ||| HASGGA) % 256) &&& HASGGA = HASGGA :=
  or_mod_and_self x 1 (by omega)

theorem takeWhile_append_stop (p : Nat → Bool) (l r : List Nat) (x : Nat) (hx : p x = false) :
    (l ++ x :: r).takeWhile p = l.takeWhile p := by
  induction l with
  | nil => simp [List.takeWhile_cons, hx]
  | cons y ys ih =>
    simp only [List.cons_append, List.takeWhile_cons]
    split
    · rw [ih]
    · rfl

theorem dropWhile_append_stop (p : Nat → Bool) (l r : List Nat) (x : Nat) (hx : p x = false) :
    (l ++ x :: r).dropWhile p = l.dropWhile p ++ x :: r := by
  induction l with
  | nil => simp [List.dropWhile_cons, hx]
  | cons y ys ih =>
    simp only [List.cons_append, List.dropWhile_cons]
    split
    · rw [ih]
    · rfl

/-- A decimal literal is read up to the comma that ends its field. -/
theorem atofExact_field (m t : List Nat) (hm : isField m) :
    atofExact (m ++ 44 :: t) = atofExact m := by
  have hd : (fun (c : Nat) => decide (48 ≤ c ∧ c ≤ 57)) 44 = false := by decide
  cases m with
  | nil =>
    simp [atofExact, List.takeWhile_cons, List.dropWhile_cons, digitsValue]
  | cons x xs =>
    have hx := hm x (List.mem_cons_self _ _)
    unfold atofExact
    simp only [List.cons_append, List.headD_cons, List.tail_cons]
    by_cases hs : (x == 45 || x == 43) = true
    · simp only [hs, if_true]
      rw [takeWhile_append_stop _ xs t 44 hd, dropWhile_append_stop _ xs t 44 hd]
      cases hr : xs.dropWhile (fun (c : Nat) => decide (48 ≤ c ∧ c ≤ 57)) with
      | nil => simp
      | cons y ys =>
        simp only [List.cons_append, List.headD_cons, List.tail_cons]
        rw [takeWhile_append_stop _ ys t 44 hd]
    · simp only [hs, Bool.false_eq_true, if_false]
      have e1 := takeWhile_append_stop (fun (c : Nat) => decide (48 ≤ c ∧ c ≤ 57))
        (x :: xs) t 44 hd
      have e2 := dropWhile_append_stop (fun (c : Nat) => decide (48 ≤ c ∧ c ≤ 57))
        (x :: xs) t 44 hd
      simp only [List.cons_append] at e1 e2
      rw [e1, e2]
      cases hr : (x :: xs).dropWhile (fun (c : Nat) => decide (48 ≤ c ∧ c ≤ 57)) with
      | nil => simp
      | cons y ys =>
        simp only [List.cons_append, List.headD_cons, List.tail_cons]
        rw [takeWhile_append_stop _ ys t 44 hd]

theorem exactOps_atof_field (m t : List Nat) (hm : isField m) :
    exactOps.atof (m ++ 44 :: t) = exactOps.atof m := atofExact_field m t hm

namespace GPS

variable {F : Type}

/-- When `advancePastComma` yields `NULL` at the date, the decoder leaves day, month and
year as they were in the target record. -/
theorem decodeRMC_date_missing (ops : FloatOps F) (u : List Nat) (a b : Nat) (d : GPSData F)
    (h : restAfter u [6, 1, 4, 1, 5, 1, 2, 2, 6] = none) :
    (decodeRMC ops (u ++ [a, b]) d).day = d.day ∧
    (decodeRMC ops (u ++ [a, b]) d).month = d.month ∧
    (decodeRMC ops (u ++ [a, b]) d).yearSince2000 = d.yearSince2000 := by
  have hrest : advancePastComma u (rmcTrack ops u (rmcSpeed ops u (rmcLongitudeSign ops u
      (rmcLongitude ops u (rmcLatitudeSign ops u (rmcLatitude ops u (rmcStatus u (rmcTime u
        { rest := some 0, isActive := false, data := d })))))))).rest 6 = none := by
    rw [rmcTrack_rest, rmcSpeed_rest, rmcLongitudeSign_rest, rmcLongitude_rest,
      rmcLatitudeSign_rest, rmcLatitude_rest, rmcStatus_rest, rmcTime_rest]
    exact h
  obtain ⟨e1, e2, e3⟩ := rmcDate_missing u _ hrest
  rw [decodeRMC_text]
  refine ⟨?_, ?_, ?_⟩
  · show (rmcBlocks ops u d).data.day = _
    unfold rmcBlocks
    rw [e1, (rmcTrack_calendar _ _ _).1, (rmcSpeed_calendar _ _ _).1,
      (rmcLongitudeSign_calendar _ _ _).1, (rmcLongitude_calendar _ _ _).1,
      (rmcLatitudeSign_calendar _ _ _).1, (rmcLatitude_calendar _ _ _).1,
      (rmcStatus_calendar _ _).1, (rmcTime_calendar _ _).1]
  · show (rmcBlocks ops u d).data.month = _
    unfold rmcBlocks
    rw [e2, (rmcTrack_calendar _ _ _).2.1, (rmcSpeed_calendar _ _ _).2.1,
      (rmcLongitudeSign_calendar _ _ _).2.1, (rmcLongitude_calendar _ _ _).2.1,
      (rmcLatitudeSign_calendar _ _ _).2.1, (rmcLatitude_calendar _ _ _).2.1,
      (rmcStatus_calendar _ _).2.1, (rmcTime_calendar _ _).2.1]
  · show (rmcBlocks ops u d).data.yearSince2000 = _
    unfold rmcBlocks
    rw [e3, (rmcTrack_calendar _ _ _).2.2, (rmcSpeed_calendar _ _ _).2.2,
      (rmcLongitudeSign_calendar _ _ _).2.2, (rmcLongitude_calendar _ _ _).2.2,
      (rmcLatitudeSign_calendar _ _ _).2.2, (rmcLatitude_calendar _ _ _).2.2,
      (rmcStatus_calendar _ _).2.2, (rmcTime_calendar _ _).2.2]

end GPS

namespace Motor

theorem digitalWrite_state (m : Motor) (pin : Nat) (high : Bool) :
    (m.digitalWrite pin high).state = m.state := rfl

end Motor

namespace Display

variable {K : Type} [LinearOrderedField K] [FloorRing K]

theorem calculateSpeed_eq (ops : MathOps K) (fuel : Nat) (data : SensorData K) :
    calculateSpeed ops fuel data =
      normalize fuel (speedCurve ops (data.groundSpeedKnots * (18519984 / 10000000)) - 25 / 100)
        1 := rfl

theorem metersToDistanceHand_eq (ops : MathOps K) (fuel : Nat) (meters : K) :
    metersToDistanceHand ops fuel meters = normalize fuel (distFraction ops meters * -1) 1 :=
  rfl

theorem calculatePixelColor_eq (pixel handPosition : Nat) :
    calculatePixelColor pixel handPosition =
      pixelIntensity (distance ((pixel * NUMPOSITIONS / 16) % 256) handPosition) := rfl

end Display

namespace WaypointKeeper

/-- The EEPROM after a `process` call, by the branch taken. -/
theorem process_eeprom (w : WaypointKeeper) (pressed : Bool) (t lat lon : Nat) :
    (w.process pressed t lat lon).eeprom =
      if pressed = true ∧ w.buttonWasPressed = true then
        if w.slowCommitDue t then
          setVal (setVal w.eeprom SLOWLAT w.storedLatitude) SLOWLON w.storedLongitude
        else if w.fastCommitDue t then
          setVal (setVal w.eeprom FASTLAT w.storedLatitude) FASTLON w.storedLongitude
        else w.eeprom
      else w.eeprom := by
  cases w with
  | mk pin sLat sLon minR maxR fastD nFast slowD nSlow fMade sMade last was eeprom =>
    unfold slowCommitDue fastCommitDue
    cases pressed <;> cases was <;>
      simp only [process, Bool.and_self, Bool.and_true, Bool.and_false, Bool.true_and,
        Bool.false_and, Bool.not_true, Bool.not_false, if_true, if_false, Bool.false_eq_true,
        and_self, and_true, and_false, true_and, false_and]
    · split <;> (try split) <;> rfl
    · split <;> (try split) <;> rfl
    · split <;> (try split) <;> rfl

/-- A call while the button is held, both counters at zero: whatever is committed, the
recogniser is unchanged apart from the EEPROM. -/
theorem process_held_zero (w : WaypointKeeper) (t lat lon : Nat)
    (hp : w.buttonWasPressed = true) (hf : w.numFastHoldsMade = 0)
    (hs : w.numSlowHoldsMade = 0) :
    ∃ e, w.process true t lat lon = { w with eeprom := e } := by
  cases w with
  | mk pin sLat sLon minR maxR fastD nFast slowD nSlow fMade sMade last was eeprom =>
    simp only at hp hf hs
    subst hp hf hs
    simp only [process, Bool.and_self, if_true]
    split
    · exact ⟨_, rfl⟩
    · split <;> exact ⟨_, rfl⟩

/-- Calls while the button is held, both counters at zero. -/
theorem run_held_zero (w : WaypointKeeper) (calls : List Call)
    (hcalls : ∀ c ∈ calls, c.pressed = true)
    (hp : w.buttonWasPressed = true) (hf : w.numFastHoldsMade = 0)
    (hs : w.numSlowHoldsMade = 0) :
    ∃ e, w.run calls = { w with eeprom := e } := by
  induction calls generalizing w with
  | nil => exact ⟨w.eeprom, rfl⟩
  | cons c cs ih =>
    have hc : c.pressed = true := hcalls c (List.mem_cons_self _ _)
    rw [run_cons, hc]
    obtain ⟨e, he⟩ := process_held_zero w c.time c.lat c.lon hp hf hs
    rw [he]
    obtain ⟨e2, he2⟩ := ih { w with eeprom := e }
      (fun x hx => hcalls x (List.mem_cons_of_mem _ hx)) hp hf hs
    exact ⟨e2, he2⟩

/-- After a commit both counters are zero and the rest of the recogniser, the EEPROM
apart, is as before. -/
theorem process_commit_zero (w : WaypointKeeper) (t lat lon : Nat)
    (hp : w.buttonWasPressed = true)
    (h : w.slowCommitDue t ∨ w.fastCommitDue t) :
    ∃ e, w.process true t lat lon =
      { w with eeprom := e, numFastHoldsMade := 0, numSlowHoldsMade := 0 } := by
  cases w with
  | mk pin sLat sLon minR maxR fastD nFast slowD nSlow fMade sMade last was eeprom =>
    unfold slowCommitDue fastCommitDue at h
    simp only at hp h
    subst hp
    simp only [process, Bool.and_self, if_true]
    by_cases h1 : slowD ≤ timeDiff t last ∧ nSlow ≤ sMade + 1 ∧ fMade = 0
    · rw [if_pos h1]
      obtain ⟨-, -, h0⟩ := h1
      subst h0
      exact ⟨_, rfl⟩
    · rw [if_neg h1]
      have h2 := h.resolve_left h1
      rw [if_pos h2]
      obtain ⟨-, -, h0⟩ := h2
      subst h0
      exact ⟨_, rfl⟩

/-- The counters after the release that follows a commit in the same hold. -/
theorem release_after_commit_counts (w : WaypointKeeper) (t lat lon : Nat) (mid : List Call)
    (tr latr lonr : Nat) (hp : w.buttonWasPressed = true)
    (h : w.slowCommitDue t ∨ w.fastCommitDue t)
    (hmid : ∀ c ∈ mid, c.pressed = true) :
    (slowHoldDuration w ≤ timeDiff tr w.lastUpdateTime →
      ((((w.process true t lat lon).run mid).process false tr latr lonr).numSlowHoldsMade = 1 ∧
       (((w.process true t lat lon).run mid).process false tr latr lonr).numFastHoldsMade = 0)) ∧
    (fastHoldDuration w ≤ timeDiff tr w.lastUpdateTime →
      timeDiff tr w.lastUpdateTime < slowHoldDuration w →
      ((((w.process true t lat lon).run mid).process false tr latr lonr).numFastHoldsMade = 1 ∧
       (((w.process true t lat lon).run mid).process false tr latr lonr).numSlowHoldsMade = 0)) := by
  obtain ⟨e, he⟩ := process_commit_zero w t lat lon hp h
  rw [he]
  obtain ⟨e2, he2⟩ := run_held_zero
    { w with eeprom := e, numFastHoldsMade := 0, numSlowHoldsMade := 0 } mid hmid hp rfl rfl
  rw [he2]
  cases w with
  | mk pin sLat sLon minR maxR fastD nFast slowD nSlow fMade sMade last was eeprom =>
    simp only at hp
    subst hp
    simp only [process, Bool.false_and, Bool.false_eq_true, if_false, Bool.not_true,
      Bool.not_false, Bool.and_self, if_true, and_true]
    constructor
    · intro hs
      rw [if_pos hs]
      exact ⟨rfl, rfl⟩
    · intro hf hns
      rw [if_neg (by omega), if_pos hf]
      exact ⟨rfl, rfl⟩

end WaypointKeeper

namespace Display

theorem pixelIntensity_far (dist : Nat) (h : 16 ≤ dist) : pixelIntensity dist = 0 := by
  obtain ⟨n, rfl⟩ := Nat.exists_eq_add_of_le h
  rw [Nat.add_comm]
  rfl

theorem pixelIntensity_antitone (a b : Nat) (h : a ≤ b) :
    pixelIntensity b ≤ pixelIntensity a := by
  by_cases hb : 16 ≤ b
  · rw [pixelIntensity_far b hb]; exact Nat.zero_le _
  · have ha : a < 16 := by omega
    have hb2 : b < 16 := by omega
    interval_cases a <;> interval_cases b <;> first | omega | decide

theorem pixelIntensity_strict (a b : Nat) (h : a < b) (hb : b ≤ 16)
    (hne : ¬ (a = 14 ∧ b = 15)) : pixelIntensity b < pixelIntensity a := by
  have ha : a < 16 := by omega
  interval_cases a <;> interval_cases b <;> first | omega | decide

variable {K : Type} [LinearOrderedField K] [FloorRing K]

/-- The floor of a quotient of integers is their integer quotient. -/
theorem floor_int_div_nat (n : Int) (d : Nat) : ⌊(n : K) / (d : K)⌋ = n / (d : Int) := by
  rw [← Rat.floor_intCast_div_natCast n d, ← @Rat.floor_cast K _ _ ((n : ℚ) / (d : ℚ))]
  push_cast
  rfl

/-- The value `v mod r` of integers, in the field. -/
theorem reduce_int (v : Int) (r : Nat) :
    reduce (v : K) (r : K) = ((v % (r : Int) : Int) : K) := by
  unfold reduce
  rw [floor_int_div_nat, Int.emod_def]
  push_cast
  rfl

/-- The dial position of an integer value on an integer range. -/
theorem dialPosition_int (v : Int) (r : Nat) :
    dialPosition (v : K) (r : K) = Int.toNat (120 * (v % (r : Int)) / (r : Int)) := by
  unfold dialPosition
  rw [reduce_int]
  have e : ((NUMPOSITIONS : Nat) : K) * (((v % (r : Int) : Int) : K) / (r : K)) =
      ((120 * (v % (r : Int)) : Int) : K) / (r : K) := by
    simp only [NUMPOSITIONS]
    push_cast
    ring
  rw [e, floor_int_div_nat]

/-- The loops of `normalize` end within `fuel` rounds on an integer value of size
below `(fuel - 1)` ranges. -/
theorem normalize_int (fuel : Nat) (v : Int) (r : Nat) (hr : 0 < r)
    (hfuel : |v| < (r : Int) * ((fuel : Int) - 1)) :
    normalize fuel (v : K) (r : K) = some (Int.toNat (120 * (v % (r : Int)) / (r : Int))) := by
  rw [← @dialPosition_int K _ _ v r]
  apply normalize_spec
  · exact_mod_cast hr
  · have : ((|v| : Int) : K) < (((r : Int) * ((fuel : Int) - 1) : Int) : K) := by
      exact_mod_cast hfuel
    push_cast at this
    exact this

end Display

namespace Display

variable {K : Type} [LinearOrderedField K] [FloorRing K]

/-- The three hands of the clock mode, for a time of day. -/
theorem calculateTimeOfDay_eq (fuel : Nat) (data : SensorData K) (hfuel : 3 ≤ fuel)
    (hh : data.hour ≤ 23) (hm : data.minute ≤ 59) (hs : data.second ≤ 59) :
    calculateTimeOfDay fuel data =
      some { bigHand := Int.toNat (((((data.hour : Int) - 7) * 3600 + 60 * (data.minute : Int) +
                (data.second : Int)) % 43200) / 360),
             mediumHand := (60 * data.minute + data.second) / 30,
             smallHand := 2 * data.second } := by
  have hf : (2 : Int) ≤ (fuel : Int) - 1 := by omega
  have e1 : (((data.hour : Int) - 7 : Int) : K) * 3600 +
      ((data.minute : K) * 60 + (data.second : K)) =
      (((((data.hour : Int) - 7) * 3600 + 60 * (data.minute : Int) + (data.second : Int) : Int)) :
        K) := by
    push_cast; ring
  have e2 : (data.minute : K) * 60 + (data.second : K) =
      (((60 * (data.minute : Int) + (data.second : Int) : Int)) : K) := by
    push_cast; ring
  have e3 : (data.second : K) = (((data.second : Int)) : K) := by push_cast; rfl
  have r1 : (43200 : K) = ((43200 : Nat) : K) := by push_cast; rfl
  have r2 : (3600 : K) = ((3600 : Nat) : K) := by push_cast; rfl
  have r3 : (60 : K) = ((60 : Nat) : K) := by push_cast; rfl
  have n1 := @normalize_int K _ _ fuel
    (((data.hour : Int) - 7) * 3600 + 60 * (data.minute : Int) + (data.second : Int)) 43200
    (by norm_num) (by rw [abs_lt]; constructor <;> push_cast <;> nlinarith)
  have n2 := @normalize_int K _ _ fuel (60 * (data.minute : Int) + (data.second : Int)) 3600
    (by norm_num) (by rw [abs_lt]; constructor <;> push_cast <;> nlinarith)
  have n3 := @normalize_int K _ _ fuel (data.second : Int) 60
    (by norm_num) (by rw [abs_lt]; constructor <;> push_cast <;> nlinarith)
  unfold calculateTimeOfDay
  simp only []
  rw [e1, e2, e3, r1, r2, r3, n1, n2, n3]
  simp only [Option.bind_eq_bind, Option.some_bind, Option.pure_def, Option.some.injEq,
    Hands.mk.injEq]
  refine ⟨?_, ?_, ?_⟩
  · congr 1
    push_cast
    omega
  · push_cast
    omega
  · push_cast
    omega

end Display

namespace Display

variable {K : Type} [LinearOrderedField K] [FloorRing K]

/-- On the range 1, a value already in `[0, 1)` is scaled as it is. -/
theorem normalize_unit (fuel : Nat) (x : K) (hfuel : 2 ≤ fuel) (h0 : 0 ≤ x) (h1 : x < 1) :
    normalize fuel x 1 = some (Int.toNat ⌊120 * x⌋) := by
  have hf : (1 : K) ≤ (fuel : K) - 1 := by
    have : (2 : K) ≤ (fuel : K) := by exact_mod_cast hfuel
    linarith
  rw [normalize_spec fuel x 1 one_pos (by rw [abs_of_nonneg h0]; linarith)]
  unfold dialPosition
  rw [reduce_of_mem x 1 one_pos h0 h1]
  simp [NUMPOSITIONS]

/-- The altitude hand for an altitude from 0 m to 5000 m. -/
theorem calculateAltitude_up (fuel : Nat) (data : SensorData K) (hfuel : 2 ≤ fuel)
    (h0 : 0 ≤ data.altitudeMeters) (h1 : data.altitudeMeters ≤ 5000) :
    calculateAltitude fuel data = some (Int.toNat ⌊40 - data.altitudeMeters / 125⌋) := by
  unfold calculateAltitude
  simp only []
  have hn : ¬ data.altitudeMeters / 15000 < 0 := not_lt.mpr (div_nonneg h0 (by norm_num))
  rw [if_neg hn, normalize_unit fuel _ hfuel (by linarith) (by linarith)]
  congr 3
  ring

/-- The altitude hand for an altitude from -10000 m to 0 m. -/
theorem calculateAltitude_down (fuel : Nat) (data : SensorData K) (hfuel : 2 ≤ fuel)
    (h0 : -10000 ≤ data.altitudeMeters) (h1 : data.altitudeMeters < 0) :
    calculateAltitude fuel data = some (Int.toNat ⌊40 - data.altitudeMeters / 500⌋) := by
  unfold calculateAltitude
  simp only []
  have hn : data.altitudeMeters / 15000 < 0 := div_neg_of_neg_of_pos h1 (by norm_num)
  rw [if_pos hn, normalize_unit fuel _ hfuel (by linarith) (by linarith)]
  congr 3
  ring

end Display

namespace Display

/-- With the real square root, the speed curve is continuous at the knee. -/
theorem speedCurve_continuousAt (ops : MathOps ℝ) (hsqrt : ∀ x, ops.sqrt x = Real.sqrt x) :
    ContinuousAt (speedCurve ops) 1000 := by
  have hg : Continuous (fun x : ℝ =>
      if x ≤ 1000 then
        (17 * ((-5 + Real.sqrt (25 + 2 * x)) / 40) -
          7 * ((-5 + Real.sqrt (25 + 2 * x)) / 40) * ((-5 + Real.sqrt (25 + 2 * x)) / 40)) / 24
      else x / 14400 + 25 / 72) := by
    apply Continuous.if_le
    · fun_prop
    · fun_prop
    · exact continuous_id
    · exact continuous_const
    · intro x hx
      subst hx
      have h45 : Real.sqrt (25 + 2 * 1000) = 45 := by
        rw [show (25 + 2 * 1000 : ℝ) = 45 ^ 2 by norm_num]
        exact Real.sqrt_sq (by norm_num)
      rw [h45]
      norm_num
  refine hg.continuousAt.congr ?_
  have hpos : ∀ᶠ x : ℝ in nhds 1000, 0 < x := lt_mem_nhds (by norm_num)
  filter_upwards [hpos] with x hx
  unfold speedCurve
  by_cases h : x ≤ 1000
  · rw [if_pos h, if_neg (not_lt.mpr h), if_pos hx.le, hsqrt]
  · rw [if_neg h, if_pos (not_le.mp h)]

theorem speedCurve_knee {K : Type} [LinearOrderedField K] (ops : MathOps K) (hsqrt : ops.sqrt (25 + 2 * 1000) = 45) :
    speedCurve ops 1000 = 5 / 12 := by
  unfold speedCurve
  rw [if_neg (lt_irrefl _), if_pos (by norm_num)]
  simp only [hsqrt]
  norm_num

end Display

/-- The decimal logarithm of 3.17 lies just above one half. -/
theorem logb_floor_distance :
    1 / 2 < Real.logb 10 (317 / 100) ∧ Real.logb 10 (317 / 100) ≤ 7 / 12 := by
  constructor
  · rw [Real.lt_logb_iff_rpow_lt (by norm_num) (by norm_num)]
    rw [← Real.sqrt_eq_rpow, Real.sqrt_lt' (by norm_num)]
    norm_num
  · rw [Real.logb_le_iff_le_rpow (by norm_num) (by norm_num)]
    by_contra hcon
    push_neg at hcon
    have h0 : (0 : ℝ) ≤ (10 : ℝ) ^ (7 / 12 : ℝ) := Real.rpow_nonneg (by norm_num) _
    have h1 : ((10 : ℝ) ^ (7 / 12 : ℝ)) ^ 12 < ((317 : ℝ) / 100) ^ 12 :=
      pow_lt_pow_left₀ hcon h0 (by norm_num)
    have h2 : ((10 : ℝ) ^ (7 / 12 : ℝ)) ^ 12 = (10 : ℝ) ^ 7 := by
      rw [← Real.rpow_natCast, ← Real.rpow_mul (by norm_num)]
      norm_num
    rw [h2] at h1
    norm_num at h1

namespace Display

/-- On the range 1, a value in `[-1, 0)` is moved up one turn and scaled. -/
theorem normalize_neg_unit {K : Type} [LinearOrderedField K] [FloorRing K] (fuel : Nat) (f : K)
    (hfuel : 3 ≤ fuel) (h0 : 0 < f) (h1 : f ≤ 1) :
    normalize fuel (-f) 1 = some (Int.toNat ⌊120 * (1 - f)⌋) := by
  have hf : (2 : K) ≤ (fuel : K) - 1 := by
    have : (3 : K) ≤ (fuel : K) := by exact_mod_cast hfuel
    linarith
  rw [normalize_spec fuel (-f) 1 one_pos (by rw [abs_neg, abs_of_pos h0]; linarith)]
  unfold dialPosition
  have e : reduce (-f) 1 = 1 - f := by
    have := reduce_add (-f) 1 one_pos
    rw [← this, reduce_of_mem (-f + 1) 1 one_pos (by linarith) (by linarith)]
    ring
  rw [e]
  simp [NUMPOSITIONS]

end Display

namespace Display

variable {K : Type} [LinearOrderedField K] [FloorRing K]

omit [FloorRing K] in
/-- At the waypoint itself the haversine term vanishes. -/
theorem haversineA_same (ops : MathOps K) (data : SensorData K) (waypoint : Nat)
    (hsin : ops.sin 0 = 0)
    (hsame : waypointTarget data waypoint = (data.latitude, data.longitude)) :
    haversineA ops data waypoint = 0 := by
  unfold haversineA
  simp only [hsame, sub_self, zero_div, hsin, mul_zero, add_zero]

omit [FloorRing K] in
/-- At the waypoint itself the distance is zero. -/
theorem haversineMeters_same (ops : MathOps K) (data : SensorData K) (waypoint : Nat)
    (hsin : ops.sin 0 = 0) (hsqrt0 : ops.sqrt 0 = 0) (hsqrt1 : ops.sqrt 1 = 1)
    (hatan : ops.atan2 0 1 = 0)
    (hsame : waypointTarget data waypoint = (data.latitude, data.longitude)) :
    haversineMeters ops data waypoint = 0 := by
  unfold haversineMeters
  simp only [haversineA_same ops data waypoint hsin hsame, hsqrt0, sub_zero, hsqrt1, hatan,
    mul_zero]

/-- The distance hand for a distance fraction between 0 and 1/120 of a turn. -/
theorem metersToDistanceHand_least (ops : MathOps K) (fuel : Nat) (hfuel : 3 ≤ fuel) (m : K)
    (h0 : 1 / 2 < ops.log10 (max m (317 / 100)))
    (h1 : ops.log10 (max m (317 / 100)) ≤ 7 / 12) :
    metersToDistanceHand ops fuel m = some 119 := by
  rw [metersToDistanceHand_eq]
  unfold distFraction
  simp only []
  rw [if_neg (by linarith)]
  have e : (ops.log10 (max m (317 / 100)) * (1 / 10) - 5 / 100) * -1 =
      -(ops.log10 (max m (317 / 100)) * (1 / 10) - 5 / 100) := by ring
  rw [e, normalize_neg_unit fuel _ hfuel (by linarith) (by linarith)]
  congr 1
  have hfl : ⌊120 * (1 - (ops.log10 (max m (317 / 100)) * (1 / 10) - 5 / 100))⌋ = 119 := by
    rw [Int.floor_eq_iff]
    constructor
    · push_cast; linarith
    · push_cast; linarith
  rw [hfl]
  rfl

end Display

set_option maxRecDepth 1000000


/-! ## Reachable gesture states -/

namespace WaypointKeeper

theorem reachable_run (w : WaypointKeeper) (calls : List Call) (h : Reachable w) :
    Reachable (w.run calls) := by
  induction calls generalizing w with
  | nil => exact h
  | cons c cs ih =>
    rw [run_cons]
    exact ih _ (Reachable.process w c.pressed c.time c.lat c.lon h)

theorem start_counts (w : WaypointKeeper) (a b c d e f g h : Nat) (l : Bool) :
    (w.start a b c d e f g h l).numFastHoldsMade = w.numFastHoldsMade ∧
    (w.start a b c d e f g h l).numSlowHoldsMade = w.numSlowHoldsMade := by
  unfold start
  cases l <;> exact ⟨rfl, rfl⟩

theorem process_counts (w : WaypointKeeper) (pressed : Bool) (t lat lon : Nat)
    (h : w.numFastHoldsMade = 0 ∨ w.numSlowHoldsMade = 0) :
    (w.process pressed t lat lon).numFastHoldsMade = 0 ∨
    (w.process pressed t lat lon).numSlowHoldsMade = 0 := by
  cases w with
  | mk pin sLat sLon minR maxR fastD fastN slowD slowN fastM slowM last was e =>
    simp only at h
    cases pressed <;> cases was <;> simp only [process, Bool.and_true, Bool.and_false,
      Bool.true_and, Bool.false_and, Bool.not_true, Bool.not_false, if_true, if_false,
      Bool.false_eq_true]
    · exact h
    · split
      · exact Or.inl rfl
      · split
        · exact Or.inr rfl
        · exact Or.inl rfl
    · split
      · exact h
      · split
        · exact Or.inl rfl
        · exact h
    · split
      · exact Or.inr rfl
      · split
        · exact Or.inl rfl
        · exact h

end WaypointKeeper

/-! ## Bright pixels -/

namespace Display

theorem pixelIntensity_bright (dist : Nat) : 114 ≤ pixelIntensity dist ↔ dist ≤ 4 := by
  by_cases hd : 16 ≤ dist
  · rw [pixelIntensity_far dist hd]; omega
  · have : dist < 16 := by omega
    interval_cases dist <;> decide

end Display

/-! ## Stray bytes in front of a sentence -/

theorem getD_append_tail (s t : List Nat) (j : Nat) (h : s.length ≤ j) :
    (s ++ t).getD j 0 = t.getD (j - s.length) 0 := by
  simp [List.getD_eq_getElem?_getD, List.getElem?_append_right h]

namespace GPS

variable {F : Type}

/-- A completed buffer that fails `receivedDataIsValid` is dropped. -/
theorem feed_invalid (ops : FloatOps F) (g : GPS F) (c : Nat) (hinv : Inv ops g)
    (hcomp : receivedDataIsComplete (g.store c).receivedData
      (g.store c).receivedDataCount = true)
    (hbad : receivedDataIsValid (g.store c).receivedData (g.store c).receivedDataCount = false) :
    (g.feed ops c).gpsData0 = g.gpsData0 ∧ (g.feed ops c).gpsData1 = g.gpsData1 ∧
    (g.feed ops c).activeGPSData = g.activeGPSData ∧
    (g.feed ops c).receivedDataCount = 0 := by
  obtain ⟨hlen, hcount, hact, hinact⟩ := hinv
  have hdec : decoded ops g c = g.gpsData g.inactiveGPSData := by
    unfold decoded
    rw [processGPSData_invalid ops _ _ hbad]
    rfl
  rcases feed_complete_cases ops g c hcomp with ⟨hb, h1, h2, h3⟩ | ⟨hb, h1, h2, h3⟩
  · rw [hdec] at hb
    exact absurd hb hinact
  · rw [hdec] at h2
    have hcnt : (g.feed ops c).receivedDataCount = 0 := by
      rw [feed_eq, if_pos hcomp]
      exact overflowGuard_receivedDataCount_zero _ (complete_receivedDataCount ops _)
    refine ⟨?_, ?_, h1, hcnt⟩
    · by_cases ha : g.activeGPSData = 0
      · have : g.inactiveGPSData = 1 := by simp [inactiveGPSData, ha]
        rw [ha] at h3
        simpa [gpsData] using h3
      · have : g.inactiveGPSData = 0 := by simp [inactiveGPSData, ha]
        rw [this] at h2
        simpa [gpsData] using h2
    · by_cases ha : g.activeGPSData = 0
      · have : g.inactiveGPSData = 1 := by simp [inactiveGPSData, ha]
        rw [this] at h2
        simpa [gpsData] using h2
      · simpa [gpsData, ha] using h3

/-- Bytes that complete a buffer only with their last byte, and whose text fails
`receivedDataIsValid`, leave the records as they were. -/
theorem feedAll_invalid_frame (ops : FloatOps F) (g : GPS F) (l : List Nat)
    (hreach : Reachable ops g) (hcount : g.receivedDataCount = 0)
    (hl : l.length ≤ MAXDATACHARS)
    (hnc : ∀ k, k < l.length → receivedDataIsComplete l k = false)
    (hcomp : receivedDataIsComplete l l.length = true)
    (hbad : receivedDataIsValid l l.length = false) :
    (g.feedAll ops l).gpsData0 = g.gpsData0 ∧ (g.feedAll ops l).gpsData1 = g.gpsData1 ∧
    (g.feedAll ops l).activeGPSData = g.activeGPSData ∧
    (g.feedAll ops l).receivedDataCount = 0 := by
  have hlen := (inv_of_reachable ops g hreach).1
  obtain ⟨h5, -, -⟩ := receivedDataIsComplete_true l _ hcomp
  rcases List.eq_nil_or_concat l with hnil | ⟨p, c, hpc⟩
  · subst hnil; simp at h5
  rw [List.concat_eq_append] at hpc
  subst hpc
  have hpl : p.length < MAXDATACHARS := by simp at hl; omega
  have hncp : ∀ k, k ≤ p.length → receivedDataIsComplete p k = false := by
    intro k hk
    rw [← receivedDataIsComplete_append p [c] k hk]
    exact hnc k (by simp; omega)
  have hpart := feedAll_partial ops g p hlen hcount hpl hncp
  have hdrop : g.receivedData.drop p.length =
      g.receivedData.getD p.length 0 :: g.receivedData.drop (p.length + 1) := by
    have hlt : p.length < g.receivedData.length := by omega
    rw [List.getD_eq_getElem _ _ hlt]
    exact List.drop_eq_getElem_cons hlt
  have hmod : (p.length + 1) % 256 = p.length + 1 := by
    unfold MAXDATACHARS at hpl; omega
  have hstore : (g.feedAll ops p).store c =
      { g with receivedData := (p ++ [c]) ++ g.receivedData.drop (p.length + 1),
               receivedDataCount := (p ++ [c]).length } := by
    rw [hpart]
    simp only [store, hmod]
    rw [hdrop, set_length_append]
    simp
  have hcomp' : receivedDataIsComplete ((g.feedAll ops p).store c).receivedData
      ((g.feedAll ops p).store c).receivedDataCount = true := by
    rw [hstore]
    simp only
    rw [receivedDataIsComplete_append _ _ _ (Nat.le_refl _)]
    exact hcomp
  have hbad' : receivedDataIsValid ((g.feedAll ops p).store c).receivedData
      ((g.feedAll ops p).store c).receivedDataCount = false := by
    rw [hstore]
    simp only
    rw [receivedDataIsValid_append _ _ (by unfold MAXDATACHARS at hl; simp at hl ⊢; omega)]
    exact hbad
  have hinvp := inv_of_reachable ops _ (reachable_feedAll ops g p hreach)
  obtain ⟨e0, e1, ea, ec⟩ := feed_invalid ops (g.feedAll ops p) c hinvp hcomp' hbad'
  rw [feedAll_append]
  have hone : (g.feedAll ops p).feedAll ops [c] = (g.feedAll ops p).feed ops c := rfl
  rw [hone, e0, e1, ea, ec, hpart]
  exact ⟨rfl, rfl, rfl, rfl⟩

/-- Stray bytes without a newline in front of a sentence: the buffer completes with the
last byte of the sentence and not before. -/
theorem stray_frame (p s : List Nat) (hnl : ∀ c ∈ p, c ≠ 10) (hs : isSentence s = true) :
    (∀ k, k < (p ++ s).length → receivedDataIsComplete (p ++ s) k = false) ∧
    receivedDataIsComplete (p ++ s) (p ++ s).length = true := by
  obtain ⟨hsl, hnc, hcomp, hvalid⟩ := isSentence_unfold s hs
  obtain ⟨h12, -, hhdr, -⟩ := receivedDataIsValid_true _ _ hvalid
  obtain ⟨-, hlast, hstar⟩ := receivedDataIsComplete_true s _ hcomp
  have hhead : ∀ j, j < 4 → s.getD j 0 ≠ 10 := by
    intro j hj
    have hT : ∀ hdr : List Nat, s.take 7 = hdr → s.getD j 0 = hdr.getD j 0 := by
      intro hdr h
      rw [← h]
      simp [List.getD_eq_getElem?_getD, List.getElem?_take, show j < 7 by omega]
    rcases hhdr with h | h
    · rw [hT _ ((strncmpEq_hdrRMC s).mp h)]
      interval_cases j <;> decide
    · rw [hT _ ((strncmpEq_hdrGGA s).mp h)]
      interval_cases j <;> decide
  refine ⟨?_, ?_⟩
  · intro k hk
    rw [List.length_append] at hk
    by_contra hc
    have hc' : receivedDataIsComplete (p ++ s) k = true := by simpa using hc
    obtain ⟨k5, k10, k42⟩ := receivedDataIsComplete_true _ _ hc'
    by_cases hkp : k ≤ p.length
    · rw [getD_append_left p s _ (by omega)] at k10
      have hmem : p.getD (k - 1) 0 ∈ p := by
        rw [List.getD_eq_getElem _ _ (by omega)]
        exact List.getElem_mem _
      exact hnl _ hmem k10
    · rw [getD_append_tail p s _ (by omega)] at k10
      by_cases hj : k - p.length < 5
      · exact hhead _ (by omega) k10
      · rw [getD_append_tail p s _ (by omega)] at k42
        have hsj := hnc (k - p.length) (by omega)
        have : receivedDataIsComplete s (k - p.length) = true := by
          simp only [receivedDataIsComplete, Bool.and_eq_true, decide_eq_true_eq, beq_iff_eq]
          refine ⟨⟨by omega, ?_⟩, ?_⟩
          · rw [← k10]; congr 1; omega
          · rw [← k42]; congr 1; omega
        rw [this] at hsj
        exact absurd hsj (by simp)
  · simp only [receivedDataIsComplete, Bool.and_eq_true, decide_eq_true_eq, beq_iff_eq,
      List.length_append]
    refine ⟨⟨by omega, ?_⟩, ?_⟩
    · rw [getD_append_tail p s _ (by omega), ← hlast]; congr 1; omega
    · rw [getD_append_tail p s _ (by omega), ← hstar]; congr 1; omega

/-- Text whose first byte is not `$` fails `receivedDataIsValid`. -/
theorem receivedDataIsValid_head (l : List Nat) (count : Nat) (h : l.head? ≠ some 36) :
    receivedDataIsValid l count = false := by
  have hR : strncmpEq l hdrRMC 7 = false := by
    rw [Bool.eq_false_iff, Ne, strncmpEq_hdrRMC]
    intro e
    apply h
    cases l with
    | nil => simp [hdrRMC] at e
    | cons a t => simp [hdrRMC] at e; simp [e.1]
  have hG : strncmpEq l hdrGGA 7 = false := by
    rw [Bool.eq_false_iff, Ne, strncmpEq_hdrGGA]
    intro e
    apply h
    cases l with
    | nil => simp [hdrGGA] at e
    | cons a t => simp [hdrGGA] at e; simp [e.1]
  unfold receivedDataIsValid
  simp [hR, hG]

end GPS

set_option maxRecDepth 1000000


/-! ## Binary floating point -/

namespace IEEE

theorem pow2_eq_zpow (e : Int) : pow2 e = (2 : ℚ) ^ e := by
  unfold pow2
  split
  · rename_i h
    obtain ⟨n, rfl⟩ := Int.eq_ofNat_of_zero_le h
    simp
  · rename_i h
    have h' : 0 ≤ -e := by omega
    obtain ⟨n, hn⟩ := Int.eq_ofNat_of_zero_le h'
    have he : e = -(n : Int) := by omega
    subst he
    simp

theorem pow2_pos (e : Int) : 0 < pow2 e := by
  rw [pow2_eq_zpow]; positivity

theorem log2Loop_spec (fuel n : Nat) (hn : 1 ≤ n) (hf : n < 2 ^ fuel) :
    2 ^ log2Loop fuel n ≤ n ∧ n < 2 ^ (log2Loop fuel n + 1) := by
  induction fuel generalizing n with
  | zero => simp at hf; omega
  | succ k ih =>
    rw [log2Loop]
    split
    · rename_i h2
      have hdiv : n / 2 < 2 ^ k := by
        rw [Nat.div_lt_iff_lt_mul (by norm_num)]
        rw [pow_succ] at hf
        exact hf
      obtain ⟨i1, i2⟩ := ih (n / 2) (by omega) hdiv
      constructor
      · rw [pow_succ]
        have := Nat.div_mul_le_self n 2
        nlinarith
      · rw [pow_succ]
        have := Nat.lt_div_mul_add (a := n) (b := 2) (by norm_num)
        omega
    · simp; omega

theorem log2_spec (n : Nat) (hn : 1 ≤ n) : 2 ^ log2 n ≤ n ∧ n < 2 ^ (log2 n + 1) :=
  log2Loop_spec n n hn (Nat.lt_two_pow n)

/-- The exponent of a non-zero rational brackets its magnitude. -/
theorem exponent_spec (q : ℚ) (hq : q ≠ 0) :
    (2 : ℚ) ^ exponent q ≤ |q| ∧ |q| < (2 : ℚ) ^ (exponent q + 1) := by
  have hnum : 1 ≤ q.num.natAbs := by
    have : q.num ≠ 0 := Rat.num_ne_zero.mpr hq
    omega
  have hden : 1 ≤ q.den := q.den_pos
  obtain ⟨a1, a2⟩ := log2_spec _ hnum
  obtain ⟨b1, b2⟩ := log2_spec _ hden
  have habs : |q| = (q.num.natAbs : ℚ) / (q.den : ℚ) := by
    conv_lhs => rw [← Rat.num_div_den q]
    rw [abs_div, Nat.abs_cast, Nat.cast_natAbs, Int.cast_abs]
  have hdpos : (0 : ℚ) < (q.den : ℚ) := by exact_mod_cast q.den_pos
  have A1 : (2 : ℚ) ^ (log2 q.num.natAbs) ≤ (q.num.natAbs : ℚ) := by exact_mod_cast a1
  have A2 : (q.num.natAbs : ℚ) < (2 : ℚ) ^ (log2 q.num.natAbs + 1) := by exact_mod_cast a2
  have B1 : (2 : ℚ) ^ (log2 q.den) ≤ (q.den : ℚ) := by exact_mod_cast b1
  have B2 : (q.den : ℚ) < (2 : ℚ) ^ (log2 q.den + 1) := by exact_mod_cast b2
  -- bounds on the quotient
  have hlow : (2 : ℚ) ^ ((log2 q.num.natAbs : Int) - (log2 q.den : Int) - 1) ≤ |q| := by
    rw [habs, le_div_iff₀ hdpos]
    have : (2 : ℚ) ^ ((log2 q.num.natAbs : Int) - (log2 q.den : Int) - 1) *
        (2 : ℚ) ^ (log2 q.den + 1) = (2 : ℚ) ^ (log2 q.num.natAbs) := by
      rw [← zpow_natCast (2 : ℚ) (log2 q.den + 1), ← zpow_add₀ (by norm_num),
        ← zpow_natCast (2 : ℚ) (log2 q.num.natAbs)]
      congr 1
      push_cast
      ring
    calc (2 : ℚ) ^ ((log2 q.num.natAbs : Int) - (log2 q.den : Int) - 1) * (q.den : ℚ)
        ≤ (2 : ℚ) ^ ((log2 q.num.natAbs : Int) - (log2 q.den : Int) - 1) *
            (2 : ℚ) ^ (log2 q.den + 1) := by
          apply mul_le_mul_of_nonneg_left B2.le
          positivity
      _ = (2 : ℚ) ^ (log2 q.num.natAbs) := this
      _ ≤ _ := A1
  have hhigh : |q| < (2 : ℚ) ^ ((log2 q.num.natAbs : Int) - (log2 q.den : Int) + 1) := by
    rw [habs, div_lt_iff₀ hdpos]
    have : (2 : ℚ) ^ ((log2 q.num.natAbs : Int) - (log2 q.den : Int) + 1) *
        (2 : ℚ) ^ (log2 q.den) = (2 : ℚ) ^ (log2 q.num.natAbs + 1) := by
      rw [← zpow_natCast (2 : ℚ) (log2 q.den), ← zpow_add₀ (by norm_num),
        ← zpow_natCast (2 : ℚ) (log2 q.num.natAbs + 1)]
      congr 1
      push_cast
      ring
    calc (q.num.natAbs : ℚ) < (2 : ℚ) ^ (log2 q.num.natAbs + 1) := A2
      _ = (2 : ℚ) ^ ((log2 q.num.natAbs : Int) - (log2 q.den : Int) + 1) *
            (2 : ℚ) ^ (log2 q.den) := this.symm
      _ ≤ _ := by
          apply mul_le_mul_of_nonneg_left B1
          positivity
  unfold exponent
  simp only
  split
  · rename_i h
    rw [pow2_eq_zpow] at h
    exact ⟨h, hhigh⟩
  · rename_i h
    rw [pow2_eq_zpow, not_le] at h
    refine ⟨hlow, ?_⟩
    rw [sub_add_cancel]
    exact h

/-- The exponent is determined by the bracket. -/
theorem exponent_eq (q : ℚ) (e : Int) (h1 : (2 : ℚ) ^ e ≤ |q|) (h2 : |q| < (2 : ℚ) ^ (e + 1)) :
    exponent q = e := by
  have hq : q ≠ 0 := by
    intro h
    rw [h, abs_zero] at h1
    exact absurd h1 (not_le.mpr (by positivity))
  obtain ⟨s1, s2⟩ := exponent_spec q hq
  have l1 : (2 : ℚ) ^ e < (2 : ℚ) ^ (exponent q + 1) := lt_of_le_of_lt h1 s2
  have l2 : (2 : ℚ) ^ exponent q < (2 : ℚ) ^ (e + 1) := lt_of_le_of_lt s1 h2
  rw [zpow_lt_zpow_iff_right₀ (by norm_num)] at l1 l2
  omega

/-- The result of rounding is a multiple of the spacing at the exponent. -/
theorem round_grid (precision : Nat) (emin : Int) (q : ℚ) (e : Int)
    (h1 : (2 : ℚ) ^ e ≤ |q|) (h2 : |q| < (2 : ℚ) ^ (e + 1)) :
    ∃ k : Int, round precision emin q = (k : ℚ) * (2 : ℚ) ^ (max e emin - ((precision : Int) - 1)) := by
  have hq : q ≠ 0 := by
    intro h
    rw [h, abs_zero] at h1
    exact absurd h1 (not_le.mpr (by positivity))
  unfold round
  rw [if_neg hq]
  simp only
  rw [exponent_eq q e h1 h2, pow2_eq_zpow]
  exact ⟨_, rfl⟩

/-- Between 1000 and 1000 + 2^-14 there is no `float`. -/
theorem float_above_thousand (x : ℚ) (h1 : 1000 < x) (h2 : x < 1000 + 1 / 16384) :
    float x ≠ x := by
  intro hx
  have hpos : 0 < x := by linarith
  obtain ⟨k, hk⟩ := round_grid 24 (-126) x 9 (by rw [abs_of_pos hpos]; norm_num; linarith)
    (by rw [abs_of_pos hpos]; norm_num; linarith)
  unfold float at hx
  rw [hx] at hk
  have hk' : x = (k : ℚ) / 16384 := by
    rw [hk]
    norm_num
    ring
  rw [hk'] at h1 h2
  have h3 : (16384000 : ℚ) < (k : ℚ) := by
    rw [lt_div_iff₀ (by norm_num)] at h1
    linarith
  have h4 : (k : ℚ) < 16384001 := by
    rw [div_lt_iff₀ (by norm_num)] at h2
    linarith
  have h5 : (16384000 : Int) < k := by exact_mod_cast h3
  have h6 : k < (16384001 : Int) := by exact_mod_cast h4
  omega

end IEEE

/-! ## The hand engine in binary floating point -/

namespace Display

namespace Binary

open pocketwatch.IEEE

/-- A value already in `[0, range)` passes both loops of `normalize` untouched. -/
theorem normalize_ready (n : Nat) (value range : ℚ) (h1 : ¬ range ≤ value)
    (h2 : ¬ value < 0) :
    normalize (n + 1) value range =
      some (castUInt8 (float (float (value * (NUMPOSITIONS : ℚ)) / range))) := by
  simp only [normalize, subtractLoop, addLoop, if_neg h1, if_neg h2, Option.bind_eq_bind,
    Option.some_bind, Option.pure_def]

/-- A negative value that one addition of `range` lifts to zero or above. -/
theorem normalize_lifted (n : Nat) (value range : ℚ) (h1 : ¬ range ≤ value)
    (h2 : value < 0) (h3 : ¬ float (value + range) < 0) :
    normalize (n + 2) value range =
      some (castUInt8 (float (float (float (value + range) * (NUMPOSITIONS : ℚ)) / range))) := by
  simp only [normalize, subtractLoop, addLoop, if_neg h1, if_pos h2, if_neg h3,
    Option.bind_eq_bind, Option.some_bind, Option.pure_def]

/-- A value that the subtraction of `range` does not change never leaves the first
loop. -/
theorem subtractLoop_stuck (value range : ℚ) (h : range ≤ value)
    (hfix : float (value - range) = value) (fuel : Nat) :
    subtractLoop fuel value range = none := by
  induction fuel with
  | zero => rfl
  | succ n ih => rw [subtractLoop, if_pos h, hfix, ih]

theorem normalize_stuck (value range : ℚ) (h : range ≤ value)
    (hfix : float (value - range) = value) (fuel : Nat) :
    normalize fuel value range = none := by
  simp only [normalize, subtractLoop_stuck value range h hfix fuel, Option.bind_eq_bind,
    Option.none_bind]

theorem calculateSpeed_curve (sqrt : ℚ → ℚ) (fuel : Nat) (data : SensorData ℚ) :
    calculateSpeed sqrt fuel data =
      normalize fuel (float (speedCurve sqrt
        (float (data.groundSpeedKnots * float (18519984 / 10000000))) - float (25 / 100))) 1 :=
  rfl

/-- The linear piece of the speed curve uses no square root. -/
theorem speedCurve_linear (sqrt : ℚ → ℚ) (groundSpeed : ℚ) (h : 1000 < groundSpeed) :
    speedCurve sqrt groundSpeed = float (float (groundSpeed / 14400) + float (25 / 72)) := by
  rw [speedCurve, if_pos h]

/-- The Bezier piece of the speed curve at 1000 km/h, for a square root exact at 2025. -/
theorem speedCurve_knee_float (sqrt : ℚ → ℚ) (hroot : sqrt 2025 = 45) :
    speedCurve sqrt 1000 = 13981013 / 33554432 := by
  have e1 : float (25 + float (2 * 1000)) = 2025 := by decide!
  have e2 : float (double (double (-5 + 45) / 40)) = 1 := by decide!
  have e3 : float (float (float (17 * 1) - float (float (7 * 1) * 1)) / 24) =
      13981013 / 33554432 := by decide!
  rw [speedCurve, if_neg (lt_irrefl _), if_pos (by norm_num)]
  simp only [e1, hroot, e2, e3]

end Binary

end Display

/-! ## Stray bytes that pass for a sentence -/

theorem isSentence_of_frame (l : List Nat) (hl : l.length ≤ MAXDATACHARS)
    (hnc : ∀ k, k < l.length → GPS.receivedDataIsComplete l k = false)
    (hcomp : GPS.receivedDataIsComplete l l.length = true)
    (hvalid : GPS.receivedDataIsValid l l.length = true) : isSentence l = true := by
  simp only [isSentence, Bool.and_eq_true, decide_eq_true_eq, List.all_eq_true, List.mem_range,
    Bool.not_eq_true']
  exact ⟨⟨⟨hl, hnc⟩, hcomp⟩, hvalid⟩

namespace GPS

variable {F : Type}

/-- A sentence fed at a sentence boundary is decoded into the inactive record, which is
published if it then has both flags. -/
theorem feedAll_sentence_rule (ops : FloatOps F) (g : GPS F) (l : List Nat)
    (hlen : g.receivedData.length = MAXDATACHARS) (hcount : g.receivedDataCount = 0)
    (hl : isSentence l = true) :
    ∃ d : GPSData F,
      d = (if strncmpEq l hdrRMC 7 = true then decodeRMC ops l (g.gpsData g.inactiveGPSData)
           else decodeGGA ops l (g.gpsData g.inactiveGPSData)) ∧
      (g.feedAll ops l).gpsData g.inactiveGPSData = d ∧
      (d.hasBoth → (g.feedAll ops l).activeGPSData = g.inactiveGPSData ∧
        (g.feedAll ops l).gpsData g.activeGPSData =
          { g.gpsData g.activeGPSData with validFlags := 0 }) ∧
      (¬ d.hasBoth → (g.feedAll ops l).activeGPSData = g.activeGPSData ∧
        (g.feedAll ops l).gpsData g.activeGPSData = g.gpsData g.activeGPSData) ∧
      (g.feedAll ops l).receivedDataCount = 0 := by
  obtain ⟨gp, c, hfeed, hcomp, ha, h0, h1, hdec, hcnt, -⟩ := feedAll_sentence ops g l hlen hcount hl
  have hin : gp.inactiveGPSData = g.inactiveGPSData := inactive_of_active g gp ha
  have hrec : ∀ j, gp.gpsData j = g.gpsData j := gpsData_of_slots g gp h0 h1
  refine ⟨_, rfl, ?_⟩
  rw [hfeed, ← hdec]
  rcases feed_complete_cases ops gp c hcomp with ⟨hb, e1, e2, e3⟩ | ⟨hb, e1, e2, e3⟩
  · rw [hin] at e1 e2
    rw [ha, hrec] at e3
    exact ⟨e2, fun _ => ⟨e1, e3⟩, fun hn => absurd hb hn, hcnt⟩
  · rw [hin] at e2
    rw [ha] at e1
    rw [ha, hrec] at e3
    exact ⟨e2, fun h => absurd h hb, fun _ => ⟨e1, e3⟩, hcnt⟩

/-- Text made of stray bytes and a sentence passes `receivedDataIsValid` only if the
stray bytes begin with a whole header. -/
theorem stray_header (p s : List Nat) (hp : p ≠ []) (hs : isSentence s = true)
    (hvalid : receivedDataIsValid (p ++ s) (p ++ s).length = true) :
    7 ≤ p.length ∧ (p.take 7 = hdrRMC ∨ p.take 7 = hdrGGA) := by
  obtain ⟨-, -, -, hsv⟩ := isSentence_unfold s hs
  obtain ⟨h12, -, hshdr, -⟩ := receivedDataIsValid_true _ _ hsv
  obtain ⟨-, -, hhdr, -⟩ := receivedDataIsValid_true _ _ hvalid
  have hs0 : s.getD 0 0 = 36 := by
    have hT : ∀ hdr : List Nat, s.take 7 = hdr → s.getD 0 0 = hdr.getD 0 0 := by
      intro hdr h
      rw [← h]
      simp [List.getD_eq_getElem?_getD, List.getElem?_take]
    rcases hshdr with h | h
    · rw [hT _ ((strncmpEq_hdrRMC s).mp h)]; rfl
    · rw [hT _ ((strncmpEq_hdrGGA s).mp h)]; rfl
  have hplen : 1 ≤ p.length := by
    cases p with
    | nil => exact absurd rfl hp
    | cons a t => simp
  have h7 : 7 ≤ p.length := by
    by_contra hlt
    have hlt' : p.length < 7 := by omega
    have hat : (p ++ s).getD p.length 0 = 36 := by
      rw [getD_append_tail p s _ (Nat.le_refl _), Nat.sub_self, hs0]
    have hT : ∀ hdr : List Nat, (p ++ s).take 7 = hdr →
        (p ++ s).getD p.length 0 = hdr.getD p.length 0 := by
      intro hdr h
      rw [← h]
      simp [List.getD_eq_getElem?_getD, List.getElem?_take, hlt']
    have key : ∀ hdr : List Nat, (hdr = hdrRMC ∨ hdr = hdrGGA) → ∀ j, 1 ≤ j → j < 7 →
        hdr.getD j 0 ≠ 36 := by
      intro hdr hh j hj1 hj7
      rcases hh with rfl | rfl <;> interval_cases j <;> decide
    rcases hhdr with h | h
    · have := hT _ ((strncmpEq_hdrRMC _).mp h)
      rw [hat] at this
      exact key hdrRMC (Or.inl rfl) p.length hplen hlt' this.symm
    · have := hT _ ((strncmpEq_hdrGGA _).mp h)
      rw [hat] at this
      exact key hdrGGA (Or.inr rfl) p.length hplen hlt' this.symm
  refine ⟨h7, ?_⟩
  have htake : (p ++ s).take 7 = p.take 7 := List.take_append_of_le_length h7
  rcases hhdr with h | h
  · left; rw [← htake]; exact (strncmpEq_hdrRMC _).mp h
  · right; rw [← htake]; exact (strncmpEq_hdrGGA _).mp h

theorem strncmpEq_append (p s : List Nat) (h7 : 7 ≤ p.length) :
    strncmpEq (p ++ s) hdrRMC 7 = strncmpEq p hdrRMC 7 := by
  rw [Bool.eq_iff_iff, strncmpEq_hdrRMC, strncmpEq_hdrRMC, List.take_append_of_le_length h7]

end GPS

/-! ## The hand engine over exact arithmetic -/

namespace Display

variable {K : Type} [LinearOrderedField K] [FloorRing K]

/-- Over exact arithmetic, for every value `v` and every range `r > 0`, `normalize v r`
ends and returns `floor (120 * ((v mod r) / r))`, a position below 120; and in every
mode 0 to 3 the three hand positions computed are below 120 (for a positive constant
`PI`). In the arithmetic of the source this is lost to rounding. -/
theorem normalize_in_range (ops : MathOps K) (v r : K) (data : SensorData K)
    (uninit : Hands) (hr : 0 < r) (hpi : 0 < ops.pi) (hsel : data.selection ≤ 3) :
    (∃ N : Nat, ∀ fuel, N ≤ fuel → normalize fuel v r = some (dialPosition v r)) ∧
    dialPosition v r = ⌊(120 : K) * ((v - r * (⌊v / r⌋ : K)) / r)⌋.toNat ∧
    dialPosition v r < 120 ∧
    ∃ N : Nat, ∀ fuel, N ≤ fuel →
      ∃ h : Hands, computeHands ops fuel data uninit = some h ∧
        h.bigHand < 120 ∧ h.mediumHand < 120 ∧ h.smallHand < 120 := by
  refine ⟨normalize_some v r hr, ?_, dialPosition_lt v r hr,
    computeHands_range ops data uninit hpi hsel⟩
  unfold dialPosition reduce
  simp [NUMPOSITIONS]

end Display

set_option maxRecDepth 1000000


namespace IEEE

/-- Rounding to an integer moves a number by at most one half. -/
theorem roundHalfEven_near (q : ℚ) : |(roundHalfEven q : ℚ) - q| ≤ 1 / 2 := by
  have h0 : (⌊q⌋ : ℚ) ≤ q := Int.floor_le q
  have h1 : q < (⌊q⌋ : ℚ) + 1 := Int.lt_floor_add_one q
  unfold roundHalfEven
  simp only
  split
  · rename_i h
    rw [abs_le]
    constructor <;> linarith
  · split
    · rename_i h
      push_cast
      rw [abs_le]
      constructor <;> linarith
    · rename_i ha hb
      have he : q - (⌊q⌋ : ℚ) = 1 / 2 := le_antisymm (not_lt.mp hb) (not_lt.mp ha)
      split
      · rw [abs_le]
        constructor <;> linarith
      · push_cast
        rw [abs_le]
        constructor <;> linarith

/-- On a tie the rounding to an integer gives the even neighbour. -/
theorem roundHalfEven_tie (q : ℚ) (h : q - (⌊q⌋ : ℚ) = 1 / 2) : roundHalfEven q % 2 = 0 := by
  unfold roundHalfEven
  simp only
  rw [if_neg (by rw [h]; exact lt_irrefl _), if_neg (by rw [h]; exact lt_irrefl _)]
  split
  · assumption
  · omega

/-- The result of `round` is at most half a spacing away from its argument. -/
theorem round_near (precision : Nat) (emin : Int) (q : ℚ) :
    |round precision emin q - q| ≤
      (2 : ℚ) ^ (max (exponent q) emin - ((precision : Int) - 1)) / 2 := by
  unfold round
  split
  · rename_i h
    rw [h]
    simp
    positivity
  · simp only
    rw [pow2_eq_zpow]
    have hpos : (0 : ℚ) < (2 : ℚ) ^ (max (exponent q) emin - ((precision : Int) - 1)) := by
      positivity
    have hn := roundHalfEven_near
      (q / (2 : ℚ) ^ (max (exponent q) emin - ((precision : Int) - 1)))
    have e : (roundHalfEven (q / (2 : ℚ) ^ (max (exponent q) emin - ((precision : Int) - 1))) : ℚ) *
          (2 : ℚ) ^ (max (exponent q) emin - ((precision : Int) - 1)) - q =
        ((roundHalfEven (q / (2 : ℚ) ^ (max (exponent q) emin - ((precision : Int) - 1))) : ℚ) -
          q / (2 : ℚ) ^ (max (exponent q) emin - ((precision : Int) - 1))) *
          (2 : ℚ) ^ (max (exponent q) emin - ((precision : Int) - 1)) := by
      field_simp
    rw [e, abs_mul, abs_of_pos hpos]
    calc _ ≤ 1 / 2 * (2 : ℚ) ^ (max (exponent q) emin - ((precision : Int) - 1)) :=
          mul_le_mul_of_nonneg_right hn hpos.le
      _ = _ := by ring

end IEEE

/-! ## The claims -/

set_option maxRecDepth 1000000

namespace GPS

variable {F : Type}

/-- Claim C1. If `receivedDataIsValid` accepts a buffer of `count` bytes, then replacing
the byte at any index `i` strictly between the leading `$` (index 0) and the `*` (index
`count - 5`) by a different byte gives a buffer that `receivedDataIsValid` rejects. This
holds for every accepted buffer, completed ones in particular. -/
theorem checksum_detects_byte_change (buf : List Nat) (count i b : Nat)
    (hcount : count < 256) (hlen : count ≤ buf.length)
    (hvalid : receivedDataIsValid buf count = true)
    (hi0 : 0 < i) (hi1 : i < count - 5)
    (hold : buf.getD i 0 < 256) (hb : b < 256) (hne : b ≠ buf.getD i 0) :
    receivedDataIsValid (buf.set i b) count = false := by
  obtain ⟨h12, hstar, -, hsum⟩ := receivedDataIsValid_true buf count hvalid
  have hend : endChar count = count - 5 := by unfold endChar; omega
  have hcalc : calcChecksum (buf.set i b) count =
      calcChecksum buf count ^^^ (buf.getD i 0 ^^^ b) := by
    unfold calcChecksum
    exact checksumLoop_set_inside buf _ 1 0 i b (by omega) (by omega) (by norm_num) hold hb
  have hexp : expectedChecksum (buf.set i b) count = expectedChecksum buf count := by
    unfold expectedChecksum
    rw [getD_set_ne buf i _ b (by omega), getD_set_ne buf i _ b (by omega)]
  have hx : buf.getD i 0 ^^^ b ≠ 0 := by
    intro h0
    exact hne (Nat.xor_eq_zero.mp h0).symm
  have hneq : calcChecksum (buf.set i b) count ≠ expectedChecksum (buf.set i b) count := by
    rw [hcalc, hexp, ← hsum]
    intro h
    apply hx
    have h0 : calcChecksum buf count ^^^ (buf.getD i 0 ^^^ b) = calcChecksum buf count ^^^ 0 := by
      simpa using h
    exact Nat.xor_right_inj.mp h0
  unfold receivedDataIsValid
  split
  · rfl
  · split
    · rfl
    · simpa using hneq

/-- Claim C2. From a constructed parser (count 0, both records empty, active index 0,
whatever the buffer array holds), feeding a valid `$GPRMC` sentence immediately followed
by a valid `$GPGGA` sentence ends with active index 1 and an active record that has
both flags set and equals the GGA decode applied to the RMC decode of the empty record. -/
theorem rmc_then_gga_published (ops : FloatOps F) (buf s1 s2 : List Nat)
    (hbuf : buf.length = MAXDATACHARS)
    (h1 : isRMCSentence s1 = true) (h2 : isGGASentence s2 = true) :
    ((GPS.new ops buf).feedAll ops (s1 ++ s2)).activeGPSData = 1 ∧
    ((GPS.new ops buf).feedAll ops (s1 ++ s2)).getGPSData.hasBoth ∧
    ((GPS.new ops buf).feedAll ops (s1 ++ s2)).getGPSData =
      decodeGGA ops s2 (decodeRMC ops s1 (GPSData.empty ops)) := by
  simp only [isRMCSentence, isGGASentence, Bool.and_eq_true] at h1 h2
  obtain ⟨hs1, hR1⟩ := h1
  obtain ⟨hs2, hG2⟩ := h2
  have hR2 : ¬ strncmpEq s2 hdrRMC 7 = true := by
    intro h
    have e1 := (strncmpEq_hdrRMC s2).mp h
    have e2 := (strncmpEq_hdrGGA s2).mp hG2
    rw [e1] at e2
    exact absurd e2 (by decide)
  -- the first sentence
  obtain ⟨gp, c, hfeed, hcomp, hactive, hd0, hd1, hdec, hcnt, hlen⟩ :=
    feedAll_sentence ops (GPS.new ops buf) s1 hbuf rfl hs1
  rw [if_pos hR1] at hdec
  have hgpa : gp.activeGPSData = 0 := hactive
  have hgpi : gp.inactiveGPSData = 1 := by simp [inactiveGPSData, hgpa]
  have hdec1 : decoded ops gp c = decodeRMC ops s1 (GPSData.empty ops) := hdec
  have hflags1 : (decoded ops gp c).validFlags = 1 := by
    rw [hdec1, decodeRMC_flags]; simp [GPSData.empty, HASRMC]
  have hnb : ¬ (decoded ops gp c).hasBoth := by
    unfold GPSData.hasBoth
    rw [hflags1]
    decide
  rcases feed_complete_cases ops gp c hcomp with ⟨hb, -⟩ | ⟨-, ha1, hi1, -⟩
  · exact absurd hb hnb
  rw [hgpa] at ha1
  rw [hgpi] at hi1
  -- the second sentence
  obtain ⟨gq, c2, hfeed2, hcomp2, hactive2, -, -, hdec2, -, -⟩ :=
    feedAll_sentence ops (gp.feed ops c) s2 hlen hcnt hs2
  rw [if_neg hR2] at hdec2
  have hinact1 : (gp.feed ops c).inactiveGPSData = 1 := by simp [inactiveGPSData, ha1]
  rw [hinact1, hi1, hdec1] at hdec2
  have hgqa : gq.activeGPSData = 0 := by rw [hactive2, ha1]
  have hgqi : gq.inactiveGPSData = 1 := by simp [inactiveGPSData, hgqa]
  have hflags2 : (decoded ops gq c2).validFlags = 3 := by
    rw [hdec2, decodeGGA_flags, decodeRMC_flags]; simp [GPSData.empty, HASRMC, HASGGA]
  have hboth : (decoded ops gq c2).hasBoth := by
    unfold GPSData.hasBoth
    rw [hflags2]
    decide
  rcases feed_complete_cases ops gq c2 hcomp2 with ⟨-, ha2, hi2, -⟩ | ⟨hb, -⟩
  · rw [feedAll_append, hfeed, hfeed2]
    rw [hgqi] at ha2 hi2
    refine ⟨ha2, ?_, ?_⟩
    · unfold getGPSData; rw [ha2, hi2]; exact hboth
    · unfold getGPSData; rw [ha2, hi2]; exact hdec2
  · exact absurd hboth hb

/-- Claim C3. In every reachable parser state the record returned by `getGPSData` is
the empty initial record or has both `HASRMC` and `HASGGA` set, and the inactive record
does not have both flags set. -/
theorem getGPSData_never_partial (ops : FloatOps F) (g : GPS F) (h : Reachable ops g) :
    (g.getGPSData = GPSData.empty ops ∨ g.getGPSData.hasBoth) ∧
    ¬ (g.gpsData g.inactiveGPSData).hasBoth :=
  let hinv := inv_of_reachable ops g h
  ⟨hinv.2.2.1, hinv.2.2.2⟩

/-- Claim C4. When a byte completes a sentence, the active index changes if and only if
the inactive record, after decoding, has both flags set; in that case the new active
index is the formerly inactive one, the active record is the decoded record and the
formerly active record has `validFlags = 0`; otherwise the active index is unchanged. -/
theorem publish_rule (ops : FloatOps F) (g : GPS F) (c : Nat)
    (hcomp : receivedDataIsComplete (g.store c).receivedData
      (g.store c).receivedDataCount = true) :
    ((g.feed ops c).activeGPSData ≠ g.activeGPSData ↔ (decoded ops g c).hasBoth) ∧
    ((decoded ops g c).hasBoth →
      (g.feed ops c).activeGPSData = g.inactiveGPSData ∧
      (g.feed ops c).getGPSData = decoded ops g c ∧
      ((g.feed ops c).gpsData g.activeGPSData).validFlags = 0) ∧
    (¬ (decoded ops g c).hasBoth → (g.feed ops c).activeGPSData = g.activeGPSData) := by
  have hne := inactive_ne g
  rcases feed_complete_cases ops g c hcomp with ⟨hb, h1, h2, h3⟩ | ⟨hb, h1, h2, h3⟩
  · refine ⟨⟨fun _ => hb, fun _ => by rw [h1]; exact hne⟩, fun _ => ⟨h1, ?_, ?_⟩,
      fun hn => absurd hb hn⟩
    · unfold getGPSData; rw [h1, h2]
    · rw [h3]
  · refine ⟨⟨fun h => absurd h1 h, fun h => absurd h hb⟩, fun h => absurd h hb, fun _ => h1⟩

/-- Claim C5. Feeding a byte leaves the active record alone: if the active index does
not change the active record is identical before and after; `processGPSData`, called on
the inactive slot, does not change the record in the active slot; and in every case the
record in the formerly active slot differs from before at most in `validFlags`. -/
theorem active_record_untouched (ops : FloatOps F) (g : GPS F) (c : Nat) :
    ((g.feed ops c).activeGPSData = g.activeGPSData →
      (g.feed ops c).gpsData g.activeGPSData = g.gpsData g.activeGPSData) ∧
    ((g.store c).processGPSData ops g.inactiveGPSData).gpsData g.activeGPSData =
      g.gpsData g.activeGPSData ∧
    (g.feed ops c).gpsData g.activeGPSData =
      { g.gpsData g.activeGPSData with
        validFlags := ((g.feed ops c).gpsData g.activeGPSData).validFlags } := by
  have hne := inactive_ne g
  refine ⟨?_, ?_, ?_⟩
  · intro hsame
    by_cases hcomp : receivedDataIsComplete (g.store c).receivedData
        (g.store c).receivedDataCount = true
    · rcases feed_complete_cases ops g c hcomp with ⟨hb, h1, h2, h3⟩ | ⟨hb, h1, h2, h3⟩
      · rw [h1] at hsame; exact absurd hsame hne
      · exact h3
    · exact (feed_incomplete ops g c (by simpa using hcomp)).2.1 _
  · rw [processGPSData_other _ _ _ _ (inactive_ne_active g)]
    rfl
  · by_cases hcomp : receivedDataIsComplete (g.store c).receivedData
        (g.store c).receivedDataCount = true
    · rcases feed_complete_cases ops g c hcomp with ⟨hb, h1, h2, h3⟩ | ⟨hb, h1, h2, h3⟩
      · rw [h3]
      · rw [h3]
    · rw [(feed_incomplete ops g c (by simpa using hcomp)).2.1 _]

/-- Claim C6, amended. Whenever feeding a byte changes the active index, the superseded
record keeps every time, date, position, speed, track and altitude value it had, and
only its `validFlags` become 0. -/
theorem superseded_record_flags_cleared (ops : FloatOps F) (g : GPS F) (c : Nat)
    (hflip : (g.feed ops c).activeGPSData ≠ g.activeGPSData) :
    (g.feed ops c).gpsData g.activeGPSData =
      { g.gpsData g.activeGPSData with validFlags := 0 } := by
  by_cases hcomp : receivedDataIsComplete (g.store c).receivedData
      (g.store c).receivedDataCount = true
  · rcases feed_complete_cases ops g c hcomp with ⟨hb, h1, h2, h3⟩ | ⟨hb, h1, h2, h3⟩
    · exact h3
    · exact absurd h1 hflip
  · exact absurd (feed_incomplete ops g c (by simpa using hcomp)).1 hflip

/-- Claim C7. For a completed buffer in a reachable state, `receivedDataIsValid` fails
exactly when the count is below 12, or the first 7 characters are neither `$GPRMC,` nor
`$GPGGA,`, or the computed checksum differs from the two hex digits after `*`; and
whenever it fails, both fix records and the active index are unchanged, the count is 0
and every buffer cell is cleared. -/
theorem invalid_sentence_dropped (ops : FloatOps F) (g : GPS F) (c : Nat)
    (hreach : Reachable ops g)
    (hcomp : receivedDataIsComplete (g.store c).receivedData
      (g.store c).receivedDataCount = true) :
    (receivedDataIsValid (g.store c).receivedData (g.store c).receivedDataCount = false ↔
      ((g.store c).receivedDataCount < 12 ∨
       ((g.store c).receivedData.take 7 ≠ hdrRMC ∧ (g.store c).receivedData.take 7 ≠ hdrGGA) ∨
       calcChecksum (g.store c).receivedData (g.store c).receivedDataCount ≠
         expectedChecksum (g.store c).receivedData (g.store c).receivedDataCount)) ∧
    (receivedDataIsValid (g.store c).receivedData (g.store c).receivedDataCount = false →
      (g.feed ops c).gpsData0 = g.gpsData0 ∧ (g.feed ops c).gpsData1 = g.gpsData1 ∧
      (g.feed ops c).activeGPSData = g.activeGPSData ∧
      (g.feed ops c).receivedDataCount = 0 ∧
      (g.feed ops c).receivedData = List.replicate MAXDATACHARS 0) := by
  obtain ⟨hlen, hcount, hact, hinact⟩ := inv_of_reachable ops g hreach
  have hc1 := (store_last g c hlen hcount).1
  refine ⟨receivedDataIsValid_false_iff _ _ (by unfold MAXDATACHARS at hcount; omega) hcomp, ?_⟩
  intro hinv
  have hdec : decoded ops g c = g.gpsData g.inactiveGPSData := by
    unfold decoded
    rw [processGPSData_invalid ops _ _ hinv]
    rfl
  rcases feed_complete_cases ops g c hcomp with ⟨hb, h1, h2, h3⟩ | ⟨hb, h1, h2, h3⟩
  · rw [hdec] at hb
    exact absurd hb hinact
  · rw [hdec] at h2
    have hcnt : (g.feed ops c).receivedDataCount = 0 := by
      rw [feed_eq, if_pos hcomp]
      exact overflowGuard_receivedDataCount_zero _ (complete_receivedDataCount ops _)
    have hbuf : (g.feed ops c).receivedData = List.replicate MAXDATACHARS 0 := by
      rw [feed_eq, if_pos hcomp, overflowGuard_receivedData]
      exact complete_receivedData ops _ (by rw [store_length, hlen])
    refine ⟨?_, ?_, h1, hcnt, hbuf⟩
    · by_cases ha : g.activeGPSData = 0
      · have : g.inactiveGPSData = 1 := by simp [inactiveGPSData, ha]
        rw [ha] at h3
        simpa [gpsData] using h3
      · have : g.inactiveGPSData = 0 := by simp [inactiveGPSData, ha]
        rw [this] at h2
        simpa [gpsData] using h2
    · by_cases ha : g.activeGPSData = 0
      · have : g.inactiveGPSData = 1 := by simp [inactiveGPSData, ha]
        rw [this] at h2
        simpa [gpsData] using h2
      · simpa [gpsData, ha] using h3

/-- Claim C8. Feeding any byte stream without a newline byte from a reachable state
publishes nothing (both fix records and the active index are unchanged), and before
every buffer write the write index `receivedDataCount` is below 180 and inside the
buffer. -/
theorem no_newline_no_publish (ops : FloatOps F) (g : GPS F) (bytes : List Nat)
    (hreach : Reachable ops g) (hnl : ∀ c ∈ bytes, c ≠ 10) :
    (g.feedAll ops bytes).gpsData0 = g.gpsData0 ∧
    (g.feedAll ops bytes).gpsData1 = g.gpsData1 ∧
    (g.feedAll ops bytes).activeGPSData = g.activeGPSData ∧
    ∀ k, k ≤ bytes.length →
      (g.feedAll ops (bytes.take k)).receivedDataCount < MAXDATACHARS ∧
      (g.feedAll ops (bytes.take k)).receivedDataCount <
        (g.feedAll ops (bytes.take k)).receivedData.length := by
  refine ⟨?_, ?_, ?_, ?_⟩
  on_goal 4 =>
    intro k _
    have hi := inv_of_reachable ops _ (reachable_feedAll ops g (bytes.take k) hreach)
    exact ⟨hi.2.1, by rw [hi.1]; exact hi.2.1⟩
  all_goals
    have hinv := inv_of_reachable ops g hreach
    clear hreach
    induction bytes generalizing g with
    | nil => rfl
    | cons c cs ih =>
      have hc : c ≠ 10 := hnl c (List.mem_cons_self _ _)
      have hstep := feed_no_newline ops g c hinv hc
      have := ih (g.feed ops c) (fun x hx => hnl x (List.mem_cons_of_mem _ hx))
        (inv_feed ops g c hinv)
      simp only [feedAll, List.foldl_cons] at this ⊢
      rw [this]
      first | exact hstep.1 | exact hstep.2.1 | exact hstep.2.2

end GPS

namespace WaypointKeeper

/-- Claim C9, amended to two or more required holds. Starting with the button released
and both counts zero, `numFastHoldsNeeded` holds (at least 2), each lasting at least
`fastHoldDuration` and less than `slowHoldDuration`, every release gap after the first
hold inside `[minReleaseDuration, maxReleaseDuration]`, and the last hold sampled at
least `fastHoldDuration` after its press, leave the EEPROM with exactly one more commit:
the fast slot written once with the position passed at the first press, and the slow
slot not written. -/
theorem fast_gesture_commits_once (w : WaypointKeeper) (first : Hold) (rest : List Hold)
    (last : Hold)
    (hN : 2 ≤ w.numFastHoldsNeeded) (hN8 : w.numFastHoldsNeeded < 256)
    (hlen : (first :: rest).length = w.numFastHoldsNeeded)
    (hp : w.buttonWasPressed = false)
    (hf0 : w.numFastHoldsMade = 0) (hs0 : w.numSlowHoldsMade = 0)
    (hfast : ∀ h ∈ first :: rest, h.isFast w)
    (hgap : ∀ h ∈ rest, h.gapOk w)
    (hlast : (first :: rest).getLast? = some last) (hpast : last.sampledPastFast w) :
    (w.run (holdCalls w.lastUpdateTime (first :: rest))).eeprom =
      setVal (setVal w.eeprom FASTLAT first.lat) FASTLON first.lon := by
  simp only [List.length_cons] at hlen
  have hrest : rest ≠ [] := by
    intro h
    subst h
    simp at hlen
    omega
  rw [holdCalls, run_append,
    hold_first w first hp hf0 hs0 hN (hfast first (List.mem_cons_self _ _))]
  refine holds_rest rest _ rfl ?_ rfl ?_ hN8 ?_ ?_
  · show (1 : Nat) ≠ 0
    omega
  · show 1 + rest.length = w.numFastHoldsNeeded
    omega
  · intro x hx
    exact ⟨hfast x (List.mem_cons_of_mem _ hx), hgap x hx⟩
  · refine ⟨last, ?_, hpast⟩
    cases rest with
    | nil => exact absurd rfl hrest
    | cons r rs => rwa [List.getLast?_cons_cons] at hlast

end WaypointKeeper

namespace WaypointKeeper

/-- Claim C11. For every 8-byte value `v` and every start address, the four slot offsets
in particular, `getVal` right after `setVal` at the same address returns exactly `v`,
and each of the 8 cells of the slot reads as the corresponding byte of `v`, whatever the
EEPROM held before. -/
theorem getVal_after_setVal (e : EEPROM) (offset v : Nat) (hv : v < 2 ^ 64) :
    getVal (setVal e offset v) offset = v ∧
    ∀ i, i < DBL_SIZE → (setVal e offset v).read (offset + i) = valueByte v i :=
  ⟨by rw [getVal_setVal_same, Nat.mod_eq_of_lt hv],
   fun i hi => read_setVal_inside e offset v i hi⟩

/-- Claim C12. The four slots start at 0, 8, 16 and 24. Writing one of them with
`setVal` changes no cell outside its 8-byte span, and the values `getVal` reads back from
the other three slots are unchanged. -/
theorem setVal_other_slots (e : EEPROM) (v s t : Nat)
    (hs : s ∈ [FASTLAT, FASTLON, SLOWLAT, SLOWLON])
    (ht : t ∈ [FASTLAT, FASTLON, SLOWLAT, SLOWLON]) (hne : s ≠ t) :
    [FASTLAT, FASTLON, SLOWLAT, SLOWLON] = [0, 8, 16, 24] ∧
    (∀ b, b < s ∨ s + DBL_SIZE ≤ b → (setVal e s v).read b = e.read b) ∧
    getVal (setVal e s v) t = getVal e t := by
  refine ⟨rfl, fun b hb => read_setVal_outside e s v b hb, ?_⟩
  apply getVal_setVal_other
  simp only [FASTLAT, FASTLON, SLOWLAT, SLOWLON, EEPROMSTART, DBL_SIZE, List.mem_cons,
    List.mem_singleton, List.not_mem_nil, or_false] at hs ht
  omega

end WaypointKeeper

namespace Display

variable {K : Type} [LinearOrderedField K] [FloorRing K]

/-- Claim C13. Over exact arithmetic, for every value `v`, every range `r > 0` and every
integer `k`, `normalize (v + k * r) r` and `normalize v r` both end (once the fuel covers
the loop iterations) and return the same position. -/
theorem normalize_add_multiple (v r : K) (k : Int) (hr : 0 < r) :
    ∃ N : Nat, ∀ fuel, N ≤ fuel →
      normalize fuel (v + (k : K) * r) r = normalize fuel v r ∧
      normalize fuel v r = some (dialPosition v r) := by
  obtain ⟨N1, h1⟩ := normalize_some v r hr
  obtain ⟨N2, h2⟩ := normalize_some (v + (k : K) * r) r hr
  refine ⟨max N1 N2, fun fuel hf => ?_⟩
  rw [h1 fuel (le_trans (le_max_left _ _) hf), h2 fuel (le_trans (le_max_right _ _) hf),
    dialPosition_add_int_mul v r k hr]
  exact ⟨rfl, rfl⟩

/-- Claim C14. In the `float` arithmetic of the source `normalize` does not keep to
`[0, 120)`. For the value `-1e-10f` and the range 1 the second loop adds the range once
and the sum rounds to 1, the range itself, so the result is 120, where the formula
`floor (120 * ((v mod r) / r))` gives 119. The same happens in the travelling mode for an
altitude of 5000.0005 m: the small hand is 120. For the value `3e7f` and the range 1 the
subtraction does not change the value, and `normalize` returns for no amount of fuel. -/
theorem normalize_reaches_full_scale :
    (∀ n, Binary.normalize (n + 2) (IEEE.float (-1 / 10000000000)) 1 = some 120) ∧
    dialPosition (IEEE.float (-1 / 10000000000)) 1 = 119 ∧
    overFiveKm.altitudeMeters = IEEE.float (50000005 / 10000) ∧
    (∀ n, Binary.calculateAltitude (n + 2) overFiveKm = some 120) ∧
    (∀ n, Binary.calculateTravelingData IEEE.PI IEEE.sqrt (n + 2) overFiveKm =
      some { bigHand := 0, mediumHand := 90, smallHand := 120 }) ∧
    (∀ fuel, Binary.normalize fuel 30000000 1 = none) := by
  have hnorth : ∀ n, Binary.calculateNorth IEEE.PI (n + 2) overFiveKm = some 0 := by
    intro n
    show Binary.normalize (n + 1 + 1) _ _ = _
    rw [Binary.normalize_ready (n + 1) _ _ (by decide!) (by decide!)]
    decide!
  have hspeed : ∀ n, Binary.calculateSpeed IEEE.sqrt (n + 2) overFiveKm = some 90 := by
    intro n
    rw [Binary.calculateSpeed_curve,
      Binary.normalize_lifted n _ _ (by decide!) (by decide!) (by decide!)]
    decide!
  have halt : ∀ n, Binary.calculateAltitude (n + 2) overFiveKm = some 120 := by
    intro n
    show Binary.normalize (n + 2) _ _ = _
    rw [Binary.normalize_lifted n _ _ (by decide!) (by decide!) (by decide!)]
    decide!
  refine ⟨fun n => ?_, by decide!, by decide!, halt, fun n => ?_,
    Binary.normalize_stuck _ _ (by decide!) (by decide!)⟩
  · rw [Binary.normalize_lifted n _ _ (by decide!) (by decide!) (by decide!)]
    decide!
  · simp only [Binary.calculateTravelingData, hnorth, hspeed, halt, Option.bind_eq_bind,
      Option.some_bind, Option.pure_def]

end Display

namespace GPS

variable {F : Type}

/-- Claim C15, amended. For a position sentence (text `u` followed by the two closing
bytes) whose status letter is not `A`, `processRMCData` decodes no position: the latitude
afterwards is zero when the latitude field is missing (`advancePastComma` yields `NULL`
at the latitude), and otherwise it is the latitude the target record held before the
decode, multiplied by -1 when the hemisphere letter is `S`; likewise for the longitude,
with hemisphere letter `W`. -/
theorem void_sentence_position (ops : FloatOps F) (u : List Nat) (a b : Nat) (d : GPSData F)
    (hvoid : statusLetter u ≠ 65) :
    (decodeRMC ops (u ++ [a, b]) d).latitude =
      (match restAfter u [6, 1, 4], restAfter u [6, 1, 4, 1] with
       | none, _ => ops.zero
       | some _, none => d.latitude
       | some _, some q =>
         if u.getD q 0 = 83 then ops.mul d.latitude ops.negOne else d.latitude) ∧
    (decodeRMC ops (u ++ [a, b]) d).longitude =
      (match restAfter u [6, 1, 4, 1, 5], restAfter u [6, 1, 4, 1, 5, 1] with
       | none, _ => ops.zero
       | some _, none => d.longitude
       | some _, some q =>
         if u.getD q 0 = 87 then ops.mul d.longitude ops.negOne else d.longitude) := by
  have hs := rmcStatus_void u d hvoid
  have hs2 : (rmcLatitudeSign ops u (rmcLatitude ops u (rmcStatus u (rmcTime u
      { rest := some 0, isActive := false, data := d })))).isActive = false := by
    rw [rmcLatitudeSign_isActive, rmcLatitude_isActive]; exact hs
  rw [decodeRMC_text]
  unfold rmcBlocks
  constructor
  · show (rmcDate _ _).data.latitude = _
    rw [rmcDate_latitude, rmcTrack_latitude, rmcSpeed_latitude, rmcLongitudeSign_latitude,
      rmcLongitude_latitude, rmcLatitude_void ops u _ hs, rmcStatus_rest, rmcTime_rest,
      rmcStatus_latitude, rmcTime_latitude]
    simp only [restAfter, List.foldl]
    cases advancePastComma u (advancePastComma u (advancePastComma u (some 0) 6) 1) 4 with
    | none => rfl
    | some r => cases h2 : advancePastComma u (some r) 1 <;> simp only [h2]
  · show (rmcDate _ _).data.longitude = _
    rw [rmcDate_longitude, rmcTrack_longitude, rmcSpeed_longitude,
      rmcLongitude_void ops u _ hs2, rmcLatitudeSign_rest, rmcLatitude_rest, rmcStatus_rest,
      rmcTime_rest, rmcLatitudeSign_longitude, rmcLatitude_longitude, rmcStatus_longitude,
      rmcTime_longitude]
    simp only [restAfter, List.foldl]
    cases advancePastComma u (advancePastComma u (advancePastComma u (advancePastComma u
      (advancePastComma u (some 0) 6) 1) 4) 1) 5 with
    | none => rfl
    | some r => cases h2 : advancePastComma u (some r) 1 <;> simp only [h2]

/-- Claim C17. For a position sentence with status `A` whose latitude field is two digits
`d1 d2` followed by the text `M` and whose longitude field is three digits `e1 e2 e3`
followed by the text `L`, the decoded latitude is `(10 * d1 + d2 + atof M / 60)` times
the degrees-to-radians factor, multiplied by -1 exactly when the hemisphere field begins
with `S`; the decoded longitude is `(100 * e1 + 10 * e2 + e3 + atof L / 60)` times the
factor, multiplied by -1 exactly when its hemisphere field begins with `W`. Here `atof`
reads a number up to the comma closing its field. -/
theorem active_sentence_position (ops : FloatOps F) (d : GPSData F)
    (hatof : ∀ m t : List Nat, isField m → ops.atof (m ++ 44 :: t) = ops.atof m)
    (f1 s2 M f4 L f6 t : List Nat) (d1 d2 e1 e2 e3 a b : Nat)
    (hd1 : d1 ≤ 9) (hd2 : d2 ≤ 9) (he1 : e1 ≤ 9) (he2 : e2 ≤ 9) (he3 : e3 ≤ 9)
    (c1 : isField f1) (c2 : isField s2) (cM : isField M) (c4 : isField f4)
    (cL : isField L) (c6 : isField f6) :
    (decodeRMC ops (hdrRMC ++ fieldsThen [f1, 65 :: s2, (48 + d1) :: (48 + d2) :: M, f4,
        (48 + e1) :: (48 + e2) :: (48 + e3) :: L, f6] t ++ [a, b]) d).latitude =
      (if f4.head? = some 83 then
        ops.mul (ops.mul (ops.add (ops.ofNat (10 * d1 + d2))
          (ops.div (ops.atof M) ops.sixty)) ops.degToRad) ops.negOne
       else
        ops.mul (ops.add (ops.ofNat (10 * d1 + d2))
          (ops.div (ops.atof M) ops.sixty)) ops.degToRad) ∧
    (decodeRMC ops (hdrRMC ++ fieldsThen [f1, 65 :: s2, (48 + d1) :: (48 + d2) :: M, f4,
        (48 + e1) :: (48 + e2) :: (48 + e3) :: L, f6] t ++ [a, b]) d).longitude =
      (if f6.head? = some 87 then
        ops.mul (ops.mul (ops.add (ops.ofNat (100 * e1 + 10 * e2 + e3))
          (ops.div (ops.atof L) ops.sixty)) ops.degToRad) ops.negOne
       else
        ops.mul (ops.add (ops.ofNat (100 * e1 + 10 * e2 + e3))
          (ops.div (ops.atof L) ops.sixty)) ops.degToRad) := by
  have cs : isField (65 :: s2) := isField_cons _ _ (by omega) (by omega) c2
  have cm : isField ((48 + d1) :: (48 + d2) :: M) := isField_digit _ _ (isField_digit _ _ cM)
  have cl : isField ((48 + e1) :: (48 + e2) :: (48 + e3) :: L) :=
    isField_digit _ _ (isField_digit _ _ (isField_digit _ _ cL))
  have c0 : isField [36, 71, 80, 82, 77, 67] := by unfold isField; decide
  obtain ⟨t6, h6⟩ : ∃ x, x = f6 ++ 44 :: t := ⟨_, rfl⟩
  obtain ⟨t5, h5⟩ : ∃ x, x = (48 + e1) :: (48 + e2) :: (48 + e3) :: L ++ 44 :: t6 := ⟨_, rfl⟩
  obtain ⟨t4, h4⟩ : ∃ x, x = f4 ++ 44 :: t5 := ⟨_, rfl⟩
  obtain ⟨t3, h3⟩ : ∃ x, x = (48 + d1) :: (48 + d2) :: M ++ 44 :: t4 := ⟨_, rfl⟩
  obtain ⟨t2, h2⟩ : ∃ x, x = 65 :: s2 ++ 44 :: t3 := ⟨_, rfl⟩
  obtain ⟨t1, h1⟩ : ∃ x, x = f1 ++ 44 :: t2 := ⟨_, rfl⟩
  have hu : hdrRMC ++ fieldsThen [f1, 65 :: s2, (48 + d1) :: (48 + d2) :: M, f4,
      (48 + e1) :: (48 + e2) :: (48 + e3) :: L, f6] t = [36, 71, 80, 82, 77, 67] ++ 44 :: t1 := by
    rw [h1, h2, h3, h4, h5, h6]; rfl
  obtain ⟨u, hu1⟩ : ∃ x, x = [36, 71, 80, 82, 77, 67] ++ 44 :: t1 := ⟨_, rfl⟩
  rw [hu, ← hu1]
  have l6 : (upToNul t6).length = f6.length + 1 + (upToNul t).length := by
    rw [h6]; exact upToNul_length_field _ _ c6
  have l5 : (upToNul t5).length = L.length + 3 + 1 + (upToNul t6).length := by
    rw [h5]; exact upToNul_length_field _ _ cl
  have l4 : (upToNul t4).length = f4.length + 1 + (upToNul t5).length := by
    rw [h4]; exact upToNul_length_field _ _ c4
  have l3 : (upToNul t3).length = M.length + 2 + 1 + (upToNul t4).length := by
    rw [h3]; exact upToNul_length_field _ _ cm
  have l2 : (upToNul t2).length = s2.length + 1 + 1 + (upToNul t3).length := by
    rw [h2]; exact upToNul_length_field _ _ cs
  have l1 : (upToNul t1).length = f1.length + 1 + (upToNul t2).length := by
    rw [h1]; exact upToNul_length_field _ _ c1
  obtain ⟨p1, p2, p3, p4, p5, p6, a1, r1, a2, r2, a3, r3, a4, r4, a5, r5, a6, r6⟩ :=
    rmc_pointers u [36, 71, 80, 82, 77, 67] f1 (65 :: s2) ((48 + d1) :: (48 + d2) :: M) f4
      ((48 + e1) :: (48 + e2) :: (48 + e3) :: L) t1 t2 t3 t4 t5 t6 hu1 h1 h2 h3 h4 h5
      c0 c1 cs cm c4 cl (by omega) (by omega) (by omega) (by omega) (by omega) (by omega)
  have hA : u.getD p2 0 = 65 := by rw [getD_of_drop_zero _ _ _ r2, h2]; rfl
  have six := rmc_six_blocks ops _ d p1 p2 p3 p4 p5 p6 a1 a2 a3 a4 a5 a6 hA
  have g30 : u.getD p3 0 = 48 + d1 := by rw [getD_of_drop_zero _ _ _ r3, h3]; rfl
  have g31 : u.getD (p3 + 1) 0 = 48 + d2 := by rw [getD_of_drop _ _ _ 1 r3, h3]; rfl
  have g3c : ops.atof (cstr u (p3 + 2)) = ops.atof M := by
    rw [cstr_of_drop _ _ _ 2 r3, h3]
    show ops.atof (upToNul (M ++ 44 :: t4)) = _
    rw [upToNul_field M _ cM, hatof M _ cM]
  have g4 : u.getD p4 0 = 83 ↔ f4.head? = some 83 := by
    rw [getD_of_drop_zero _ _ _ r4, h4]; exact first_of_field f4 _ 83 (by omega)
  have g50 : u.getD p5 0 = 48 + e1 := by rw [getD_of_drop_zero _ _ _ r5, h5]; rfl
  have g51 : u.getD (p5 + 1) 0 = 48 + e2 := by rw [getD_of_drop _ _ _ 1 r5, h5]; rfl
  have g52 : u.getD (p5 + 2) 0 = 48 + e3 := by rw [getD_of_drop _ _ _ 2 r5, h5]; rfl
  have g5c : ops.atof (cstr u (p5 + 3)) = ops.atof L := by
    rw [cstr_of_drop _ _ _ 3 r5, h5]
    show ops.atof (upToNul (L ++ 44 :: t6)) = _
    rw [upToNul_field L _ cL, hatof L _ cL]
  have g6 : u.getD p6 0 = 87 ↔ f6.head? = some 87 := by
    rw [getD_of_drop_zero _ _ _ r6, h6]; exact first_of_field f6 _ 87 (by omega)
  rw [decodeRMC_text]
  unfold rmcBlocks
  constructor
  · show (rmcDate _ _).data.latitude = _
    rw [rmcDate_latitude, rmcTrack_latitude, rmcSpeed_latitude, six]
    simp only [g30, g31, g3c, g4, charToInt_digit d1 hd1, charToInt_digit d2 hd2,
      Nat.mul_comm d1 10]
  · show (rmcDate _ _).data.longitude = _
    rw [rmcDate_longitude, rmcTrack_longitude, rmcSpeed_longitude, six]
    simp only [g50, g51, g52, g5c, g6, charToInt_digit e1 he1, charToInt_digit e2 he2,
      charToInt_digit e3 he3, Nat.mul_comm e1 100, Nat.mul_comm e2 10]

/-- Claim C18. For a position sentence whose time field starts with the six digits
`H1 H2 M1 M2 S1 S2` and whose ninth field starts with the six digits `D1 D2 N1 N2 Y1 Y2`,
`processRMCData` sets hour, minute, second, day, month and yearSince2000 to the values
of the corresponding digit pairs. -/
theorem time_and_date_decoded (ops : FloatOps F) (d : GPSData F)
    (r1 f2 f3 f4 f5 f6 f7 f8 e : List Nat)
    (H1 H2 M1 M2 S1 S2 D1 D2 N1 N2 Y1 Y2 a b : Nat)
    (hH1 : H1 ≤ 9) (hH2 : H2 ≤ 9) (hM1 : M1 ≤ 9) (hM2 : M2 ≤ 9) (hS1 : S1 ≤ 9) (hS2 : S2 ≤ 9)
    (hD1 : D1 ≤ 9) (hD2 : D2 ≤ 9) (hN1 : N1 ≤ 9) (hN2 : N2 ≤ 9) (hY1 : Y1 ≤ 9) (hY2 : Y2 ≤ 9)
    (c1 : isField r1) (c2 : isField f2) (c3 : isField f3) (c4 : isField f4)
    (c5 : isField f5) (c6 : isField f6) (c7 : isField f7) (c8 : isField f8) :
    (decodeRMC ops (hdrRMC ++ fieldsThen
        [(48 + H1) :: (48 + H2) :: (48 + M1) :: (48 + M2) :: (48 + S1) :: (48 + S2) :: r1,
         f2, f3, f4, f5, f6, f7, f8]
        ((48 + D1) :: (48 + D2) :: (48 + N1) :: (48 + N2) :: (48 + Y1) :: (48 + Y2) :: e)
        ++ [a, b]) d).hour = 10 * H1 + H2 ∧
    (decodeRMC ops (hdrRMC ++ fieldsThen
        [(48 + H1) :: (48 + H2) :: (48 + M1) :: (48 + M2) :: (48 + S1) :: (48 + S2) :: r1,
         f2, f3, f4, f5, f6, f7, f8]
        ((48 + D1) :: (48 + D2) :: (48 + N1) :: (48 + N2) :: (48 + Y1) :: (48 + Y2) :: e)
        ++ [a, b]) d).minute = 10 * M1 + M2 ∧
    (decodeRMC ops (hdrRMC ++ fieldsThen
        [(48 + H1) :: (48 + H2) :: (48 + M1) :: (48 + M2) :: (48 + S1) :: (48 + S2) :: r1,
         f2, f3, f4, f5, f6, f7, f8]
        ((48 + D1) :: (48 + D2) :: (48 + N1) :: (48 + N2) :: (48 + Y1) :: (48 + Y2) :: e)
        ++ [a, b]) d).second = 10 * S1 + S2 ∧
    (decodeRMC ops (hdrRMC ++ fieldsThen
        [(48 + H1) :: (48 + H2) :: (48 + M1) :: (48 + M2) :: (48 + S1) :: (48 + S2) :: r1,
         f2, f3, f4, f5, f6, f7, f8]
        ((48 + D1) :: (48 + D2) :: (48 + N1) :: (48 + N2) :: (48 + Y1) :: (48 + Y2) :: e)
        ++ [a, b]) d).day = 10 * D1 + D2 ∧
    (decodeRMC ops (hdrRMC ++ fieldsThen
        [(48 + H1) :: (48 + H2) :: (48 + M1) :: (48 + M2) :: (48 + S1) :: (48 + S2) :: r1,
         f2, f3, f4, f5, f6, f7, f8]
        ((48 + D1) :: (48 + D2) :: (48 + N1) :: (48 + N2) :: (48 + Y1) :: (48 + Y2) :: e)
        ++ [a, b]) d).month = 10 * N1 + N2 ∧
    (decodeRMC ops (hdrRMC ++ fieldsThen
        [(48 + H1) :: (48 + H2) :: (48 + M1) :: (48 + M2) :: (48 + S1) :: (48 + S2) :: r1,
         f2, f3, f4, f5, f6, f7, f8]
        ((48 + D1) :: (48 + D2) :: (48 + N1) :: (48 + N2) :: (48 + Y1) :: (48 + Y2) :: e)
        ++ [a, b]) d).yearSince2000 = 10 * Y1 + Y2 := by
  have cf : isField ((48 + H1) :: (48 + H2) :: (48 + M1) :: (48 + M2) :: (48 + S1) ::
      (48 + S2) :: r1) :=
    isField_digit _ _ (isField_digit _ _ (isField_digit _ _ (isField_digit _ _
      (isField_digit _ _ (isField_digit _ _ c1)))))
  have c0 : isField [36, 71, 80, 82, 77, 67] := by unfold isField; decide
  obtain ⟨t9, h9⟩ : ∃ x, x = (48 + D1) :: (48 + D2) :: (48 + N1) :: (48 + N2) :: (48 + Y1) ::
      (48 + Y2) :: e := ⟨_, rfl⟩
  obtain ⟨t8, h8⟩ : ∃ x, x = f8 ++ 44 :: t9 := ⟨_, rfl⟩
  obtain ⟨t7, h7⟩ : ∃ x, x = f7 ++ 44 :: t8 := ⟨_, rfl⟩
  obtain ⟨t6, h6⟩ : ∃ x, x = f6 ++ 44 :: t7 := ⟨_, rfl⟩
  obtain ⟨t5, h5⟩ : ∃ x, x = f5 ++ 44 :: t6 := ⟨_, rfl⟩
  obtain ⟨t4, h4⟩ : ∃ x, x = f4 ++ 44 :: t5 := ⟨_, rfl⟩
  obtain ⟨t3, h3⟩ : ∃ x, x = f3 ++ 44 :: t4 := ⟨_, rfl⟩
  obtain ⟨t2, h2⟩ : ∃ x, x = f2 ++ 44 :: t3 := ⟨_, rfl⟩
  obtain ⟨t1, h1⟩ : ∃ x, x = (48 + H1) :: (48 + H2) :: (48 + M1) :: (48 + M2) :: (48 + S1) ::
      (48 + S2) :: r1 ++ 44 :: t2 := ⟨_, rfl⟩
  have hu : hdrRMC ++ fieldsThen
      [(48 + H1) :: (48 + H2) :: (48 + M1) :: (48 + M2) :: (48 + S1) :: (48 + S2) :: r1,
       f2, f3, f4, f5, f6, f7, f8]
      ((48 + D1) :: (48 + D2) :: (48 + N1) :: (48 + N2) :: (48 + Y1) :: (48 + Y2) :: e) =
      [36, 71, 80, 82, 77, 67] ++ 44 :: t1 := by
    rw [h1, h2, h3, h4, h5, h6, h7, h8, h9]; rfl
  obtain ⟨u, hu1⟩ : ∃ x, x = [36, 71, 80, 82, 77, 67] ++ 44 :: t1 := ⟨_, rfl⟩
  rw [hu, ← hu1]
  have l9 : 6 ≤ (upToNul t9).length := by
    rw [h9]
    exact upToNul_length_ge [48 + D1, 48 + D2, 48 + N1, 48 + N2, 48 + Y1, 48 + Y2] e
      (by intro x hx; simp only [List.mem_cons, List.mem_singleton, List.not_mem_nil,
            or_false] at hx; omega)
  have l8 : (upToNul t8).length = f8.length + 1 + (upToNul t9).length := by
    rw [h8]; exact upToNul_length_field _ _ c8
  have l7 : (upToNul t7).length = f7.length + 1 + (upToNul t8).length := by
    rw [h7]; exact upToNul_length_field _ _ c7
  have l6 : (upToNul t6).length = f6.length + 1 + (upToNul t7).length := by
    rw [h6]; exact upToNul_length_field _ _ c6
  have l5 : (upToNul t5).length = f5.length + 1 + (upToNul t6).length := by
    rw [h5]; exact upToNul_length_field _ _ c5
  have l4 : (upToNul t4).length = f4.length + 1 + (upToNul t5).length := by
    rw [h4]; exact upToNul_length_field _ _ c4
  have l3 : (upToNul t3).length = f3.length + 1 + (upToNul t4).length := by
    rw [h3]; exact upToNul_length_field _ _ c3
  have l2 : (upToNul t2).length = f2.length + 1 + (upToNul t3).length := by
    rw [h2]; exact upToNul_length_field _ _ c2
  have l1 : (upToNul t1).length = r1.length + 6 + 1 + (upToNul t2).length := by
    rw [h1]; exact upToNul_length_field _ _ cf
  obtain ⟨p1, p2, p3, p4, p5, p6, a1, q1, a2, q2, a3, q3, a4, q4, a5, q5, a6, q6⟩ :=
    rmc_pointers u [36, 71, 80, 82, 77, 67] _ f2 f3 f4 f5 t1 t2 t3 t4 t5 t6 hu1 h1 h2 h3 h4 h5
      c0 cf c2 c3 c4 c5 (by omega) (by omega) (by omega) (by omega) (by omega) (by omega)
  obtain ⟨p7, p8, p9, a7, q7, a8, q8, a9, q9⟩ :=
    rmc_pointers_tail u f6 f7 f8 t6 t7 t8 t9 p6 q6 h6 h7 h8 c6 c7 c8
      (by omega) (by omega) (by omega)
  have g10 : u.getD p1 0 = 48 + H1 := by rw [getD_of_drop_zero _ _ _ q1, h1]; rfl
  have g11 : u.getD (p1 + 1) 0 = 48 + H2 := by rw [getD_of_drop _ _ _ 1 q1, h1]; rfl
  have g12 : u.getD (p1 + 2) 0 = 48 + M1 := by rw [getD_of_drop _ _ _ 2 q1, h1]; rfl
  have g13 : u.getD (p1 + 3) 0 = 48 + M2 := by rw [getD_of_drop _ _ _ 3 q1, h1]; rfl
  have g14 : u.getD (p1 + 4) 0 = 48 + S1 := by rw [getD_of_drop _ _ _ 4 q1, h1]; rfl
  have g15 : u.getD (p1 + 5) 0 = 48 + S2 := by rw [getD_of_drop _ _ _ 5 q1, h1]; rfl
  have g90 : u.getD p9 0 = 48 + D1 := by rw [getD_of_drop_zero _ _ _ q9, h9]; rfl
  have g91 : u.getD (p9 + 1) 0 = 48 + D2 := by rw [getD_of_drop _ _ _ 1 q9, h9]; rfl
  have g92 : u.getD (p9 + 2) 0 = 48 + N1 := by rw [getD_of_drop _ _ _ 2 q9, h9]; rfl
  have g93 : u.getD (p9 + 3) 0 = 48 + N2 := by rw [getD_of_drop _ _ _ 3 q9, h9]; rfl
  have g94 : u.getD (p9 + 4) 0 = 48 + Y1 := by rw [getD_of_drop _ _ _ 4 q9, h9]; rfl
  have g95 : u.getD (p9 + 5) 0 = 48 + Y2 := by rw [getD_of_drop _ _ _ 5 q9, h9]; rfl
  have pair : ∀ x y : Nat, x ≤ 9 → y ≤ 9 →
      (charToInt (48 + x) * 10 + charToInt (48 + y)) % 256 = 10 * x + y := by
    intro x y hx hy
    rw [charToInt_digit x hx, charToInt_digit y hy]
    omega
  obtain ⟨eh, em, es⟩ := rmcTime_at u
    ({ rest := some 0, isActive := false, data := d } : DecodeState F) p1 a1
  rw [g10, g11, pair H1 H2 hH1 hH2] at eh
  rw [g12, g13, pair M1 M2 hM1 hM2] at em
  rw [g14, g15, pair S1 S2 hS1 hS2] at es
  have hrest : (rmcTrack ops u (rmcSpeed ops u (rmcLongitudeSign ops u (rmcLongitude ops u
      (rmcLatitudeSign ops u (rmcLatitude ops u (rmcStatus u (rmcTime u
        { rest := some 0, isActive := false, data := d })))))))).rest = some p8 := by
    rw [rmcTrack_rest, rmcSpeed_rest, rmcLongitudeSign_rest, rmcLongitude_rest,
      rmcLatitudeSign_rest, rmcLatitude_rest, rmcStatus_rest, rmcTime_rest]
    simp only [a1, a2, a3, a4, a5, a6, a7, a8]
  obtain ⟨ed, en, ey⟩ := rmcDate_at u _ p9 (by rw [hrest]; exact a9)
  rw [g90, g91, pair D1 D2 hD1 hD2] at ed
  rw [g92, g93, pair N1 N2 hN1 hN2] at en
  rw [g94, g95, pair Y1 Y2 hY1 hY2] at ey
  rw [decodeRMC_text]
  refine ⟨?_, ?_, ?_, ed, en, ey⟩
  · show (rmcBlocks ops u d).data.hour = _
    unfold rmcBlocks
    rw [(rmcDate_clock _ _).1, (rmcTrack_clock _ _ _).1, (rmcSpeed_clock _ _ _).1,
      (rmcLongitudeSign_clock _ _ _).1, (rmcLongitude_clock _ _ _).1,
      (rmcLatitudeSign_clock _ _ _).1, (rmcLatitude_clock _ _ _).1, (rmcStatus_clock _ _).1, eh]
  · show (rmcBlocks ops u d).data.minute = _
    unfold rmcBlocks
    rw [(rmcDate_clock _ _).2.1, (rmcTrack_clock _ _ _).2.1, (rmcSpeed_clock _ _ _).2.1,
      (rmcLongitudeSign_clock _ _ _).2.1, (rmcLongitude_clock _ _ _).2.1,
      (rmcLatitudeSign_clock _ _ _).2.1, (rmcLatitude_clock _ _ _).2.1,
      (rmcStatus_clock _ _).2.1, em]
  · show (rmcBlocks ops u d).data.second = _
    unfold rmcBlocks
    rw [(rmcDate_clock _ _).2.2, (rmcTrack_clock _ _ _).2.2, (rmcSpeed_clock _ _ _).2.2,
      (rmcLongitudeSign_clock _ _ _).2.2, (rmcLongitude_clock _ _ _).2.2,
      (rmcLatitudeSign_clock _ _ _).2.2, (rmcLatitude_clock _ _ _).2.2,
      (rmcStatus_clock _ _).2.2, es]

/-- Claim C19. For a fix-quality sentence with nine fields after the header, the ninth
closed by a comma, `processGGAData` changes only `altitudeMeters` and `validFlags`: the
altitude becomes the value `atof` reads from the ninth field, replaced by -1 when a
character other than `M` follows the comma of that field, and `HASGGA` is set in the
flags. For every buffer content the decoder leaves the other ten fields as they were. -/
theorem fix_quality_decoded (ops : FloatOps F) (d : GPSData F)
    (hatof : ∀ m t : List Nat, isField m → ops.atof (m ++ 44 :: t) = ops.atof m)
    (f1 f2 f3 f4 f5 f6 f7 f8 A t : List Nat) (a b : Nat)
    (c1 : isField f1) (c2 : isField f2) (c3 : isField f3) (c4 : isField f4)
    (c5 : isField f5) (c6 : isField f6) (c7 : isField f7) (c8 : isField f8)
    (cA : isField A) :
    decodeGGA ops (hdrGGA ++ fieldsThen [f1, f2, f3, f4, f5, f6, f7, f8, A] t ++ [a, b]) d =
      { d with
        altitudeMeters :=
          if t.headD 0 = 0 ∨ t.headD 0 = 77 then ops.toFloat (ops.atof A) else ops.negOne,
        validFlags := (d.validFlags ||| HASGGA) % 256 } ∧
    (decodeGGA ops (hdrGGA ++ fieldsThen [f1, f2, f3, f4, f5, f6, f7, f8, A] t ++ [a, b])
      d).validFlags &&& HASGGA = HASGGA ∧
    ∀ s : List Nat, decodeGGA ops s d =
      { d with altitudeMeters := (decodeGGA ops s d).altitudeMeters,
               validFlags := (d.validFlags ||| HASGGA) % 256 } := by
  have c0 : isField [36, 71, 80, 71, 71, 65] := by unfold isField; decide
  obtain ⟨t9, h9⟩ : ∃ x, x = A ++ 44 :: t := ⟨_, rfl⟩
  obtain ⟨t8, h8⟩ : ∃ x, x = f8 ++ 44 :: t9 := ⟨_, rfl⟩
  obtain ⟨t7, h7⟩ : ∃ x, x = f7 ++ 44 :: t8 := ⟨_, rfl⟩
  obtain ⟨t6, h6⟩ : ∃ x, x = f6 ++ 44 :: t7 := ⟨_, rfl⟩
  obtain ⟨t5, h5⟩ : ∃ x, x = f5 ++ 44 :: t6 := ⟨_, rfl⟩
  obtain ⟨t4, h4⟩ : ∃ x, x = f4 ++ 44 :: t5 := ⟨_, rfl⟩
  obtain ⟨t3, h3⟩ : ∃ x, x = f3 ++ 44 :: t4 := ⟨_, rfl⟩
  obtain ⟨t2, h2⟩ : ∃ x, x = f2 ++ 44 :: t3 := ⟨_, rfl⟩
  obtain ⟨t1, h1⟩ : ∃ x, x = f1 ++ 44 :: t2 := ⟨_, rfl⟩
  have hu : hdrGGA ++ fieldsThen [f1, f2, f3, f4, f5, f6, f7, f8, A] t =
      [36, 71, 80, 71, 71, 65] ++ 44 :: t1 := by
    rw [h1, h2, h3, h4, h5, h6, h7, h8, h9]; rfl
  obtain ⟨u, hu1⟩ : ∃ x, x = [36, 71, 80, 71, 71, 65] ++ 44 :: t1 := ⟨_, rfl⟩
  rw [hu, ← hu1]
  have l9 : 1 ≤ (upToNul t9).length := by
    rw [h9, upToNul_length_field _ _ cA]; omega
  obtain ⟨p9, hp9, r9⟩ := gga_pointers d u _ f1 f2 f3 f4 f5 f6 f7 f8 t1 t2 t3 t4 t5 t6 t7 t8 t9
    hu1 h1 h2 h3 h4 h5 h6 h7 h8 c0 c1 c2 c3 c4 c5 c6 c7 c8 l9
  have halt : ops.atof (cstr u p9) = ops.atof A := by
    rw [cstr_of_drop_zero _ _ _ r9, h9, upToNul_field A _ cA, hatof A _ cA]
  have key : (ggaBlocks ops u d).data.altitudeMeters =
      if t.headD 0 = 0 ∨ t.headD 0 = 77 then ops.toFloat (ops.atof A) else ops.negOne := by
    unfold ggaBlocks ggaUnits
    rw [ggaAltitude_rest, hp9]
    unfold ggaAltitude
    rw [hp9]
    simp only [halt]
    by_cases h0 : t.headD 0 = 0
    · have hs : (upToNul t).length < 1 := by
        have := (upToNul_length_pos t).not.mpr (not_not.mpr h0)
        omega
      rw [advancePastComma_field_short u A t p9 1 (r9.trans h9) cA hs]
      simp only [h0, true_or, if_true]
    · have hs : 1 ≤ (upToNul t).length := (upToNul_length_pos t).mpr h0
      obtain ⟨a10, r10⟩ := advancePastComma_field u A t p9 1 (r9.trans h9) cA hs
      rw [a10]
      have g : u.getD (p9 + A.length + 1) 0 = t.headD 0 := by
        rw [getD_eq_headD_drop, r10]
      simp only [g, bne_iff_ne, ne_eq, h0, false_or]
      by_cases hM : t.headD 0 = 77
      · simp only [hM, not_true_eq_false, if_false, if_true]
      · simp only [hM, not_false_eq_true, if_true, if_false]
  have e := decodeGGA_frame ops (u ++ [a, b]) d
  have ealt : (decodeGGA ops (u ++ [a, b]) d).altitudeMeters =
      (ggaBlocks ops u d).data.altitudeMeters := by
    rw [decodeGGA_text]
  rw [ealt, key] at e
  refine ⟨e, ?_, fun s => decodeGGA_frame ops s d⟩
  rw [decodeGGA_flags]
  exact flags_set_HASGGA _

end GPS

/-- Claim C20. Adding an offset `k` modulo 2^32 to the current time and to every stored
timestamp does not change what `WaypointKeeper::process` and `Display::process` do: the
resulting states (EEPROM, counts, captured position, motor, ring) are the same, with the
new stored timestamps shifted by `k`. -/
theorem tick_shift_invariant {K : Type} [LinearOrderedField K] [FloorRing K] (k : Nat) :
    (∀ (w : WaypointKeeper) (pressed : Bool) (t lat lon : Nat),
      (w.shiftTime k).process pressed ((t + k) % 2 ^ 32) lat lon =
        (w.process pressed t lat lon).shiftTime k) ∧
    (∀ (ops : MathOps K) (fuel : Nat) (d : Display) (t : Nat) (data : SensorData K)
        (uninit : Hands),
      Display.process ops fuel (d.shiftTime k) ((t + k) % 2 ^ 32) data uninit =
        (Display.process ops fuel d t data uninit).map (Display.shiftTime k)) :=
  ⟨fun w pressed t lat lon => WaypointKeeper.keeper_process_shift w k pressed t lat lon,
   fun ops fuel d t data uninit => Display.display_process_shift ops fuel d k t data uninit⟩

namespace Display

variable {K : Type} [LinearOrderedField K] [FloorRing K]

/-- Claim C22. Over exact real arithmetic the speed curve of `calculateSpeed` has no jump
at the knee: at a converted speed of exactly 1000 the Bezier piece gives 5/12, the linear
piece used above 1000 tends to 1000/14400 + 25/72 = 5/12, the curve is continuous at
1000, and the medium hand for the curve value 5/12 is position 20. In the `float`
arithmetic of the source the Bezier piece at `1000.0f` and the linear piece at the next
`float` above it both evaluate to 13981013/2^25, just below 5/12: the curve does not
jump at the piece boundary, and the medium hand on both sides of it is position 19. The
library square root is assumed to be the real one over the reals and exact at 2025 in
`double`. -/
theorem speed_knee_continuous (ops : MathOps ℝ) (sqrt : ℚ → ℚ)
    (hsqrt : ∀ x, ops.sqrt x = Real.sqrt x) (hroot : sqrt 2025 = 45) :
    speedCurve ops 1000 = 5 / 12 ∧
    (∀ gs : ℝ, 1000 < gs → speedCurve ops gs = gs / 14400 + 25 / 72) ∧
    ((1000 : ℝ) / 14400 + 25 / 72 = 5 / 12) ∧
    ContinuousAt (speedCurve ops) 1000 ∧
    (∀ n, normalize (n + 2) (speedCurve ops 1000 - 25 / 100) 1 = some 20) ∧
    Binary.speedCurve sqrt 1000 = 13981013 / 33554432 ∧
    Binary.speedCurve sqrt (1000 + 1 / 16384) = 13981013 / 33554432 ∧
    IEEE.float (1000 + 1 / 16384) = 1000 + 1 / 16384 ∧
    (∀ x : ℚ, 1000 < x → x < 1000 + 1 / 16384 → IEEE.float x ≠ x) ∧
    (13981013 / 33554432 : ℚ) < 5 / 12 ∧
    (∀ n, Binary.normalize (n + 2)
      (IEEE.float (Binary.speedCurve sqrt 1000 - IEEE.float (25 / 100))) 1 = some 19) ∧
    (∀ n, Binary.normalize (n + 2)
      (IEEE.float (Binary.speedCurve sqrt (1000 + 1 / 16384) - IEEE.float (25 / 100))) 1 =
        some 19) := by
  have h45 : ops.sqrt (25 + 2 * 1000) = 45 := by
    rw [hsqrt, show (25 + 2 * 1000 : ℝ) = 45 ^ 2 by norm_num]
    exact Real.sqrt_sq (by norm_num)
  have hk := speedCurve_knee ops h45
  have hb := Binary.speedCurve_knee_float sqrt hroot
  have hl : Binary.speedCurve sqrt (1000 + 1 / 16384) = 13981013 / 33554432 := by
    rw [Binary.speedCurve_linear sqrt _ (by norm_num)]
    decide!
  have h19 : ∀ n, Binary.normalize (n + 2)
      (IEEE.float (13981013 / 33554432 - IEEE.float (25 / 100))) 1 = some 19 := by
    intro n
    rw [Binary.normalize_ready (n + 1) _ _ (by decide!) (by decide!)]
    decide!
  refine ⟨hk, ?_, by norm_num, speedCurve_continuousAt ops hsqrt, ?_, hb, hl, by decide!,
    IEEE.float_above_thousand, by norm_num, ?_, ?_⟩
  · intro gs hgs
    unfold speedCurve
    rw [if_pos hgs]
  · intro n
    rw [hk, normalize_unit (n + 2) _ (by omega) (by norm_num) (by norm_num)]
    norm_num
    rfl
  · rw [hb]; exact h19
  · rw [hl]; exact h19

/-- Claim C23. When the selected waypoint has the latitude and longitude of the current
position, the haversine term `a` is 0, the distance is 0 and the distance hand is
`metersToDistanceHand(0)` = 119, the position just counter-clockwise of noon (and not
36, the clamped value). The library is assumed to give `sin 0 = 0`, `sqrt 0 = 0`,
`sqrt 1 = 1`, `atan2(0, 1) = 0` and the real decimal logarithm of 3.17. -/
theorem same_point_distance_hand (ops : MathOps ℝ) (data : SensorData ℝ) (waypoint : Nat)
    (hsin : ops.sin 0 = 0) (hsqrt0 : ops.sqrt 0 = 0) (hsqrt1 : ops.sqrt 1 = 1)
    (hatan : ops.atan2 0 1 = 0)
    (hlog : ops.log10 (317 / 100) = Real.logb 10 (317 / 100)) (hpi : 0 < ops.pi)
    (hsame : waypointTarget data waypoint = (data.latitude, data.longitude)) :
    haversineA ops data waypoint = 0 ∧ haversineMeters ops data waypoint = 0 ∧
    (∀ fuel, 3 ≤ fuel → metersToDistanceHand ops fuel 0 = some 119) ∧
    ∃ N : Nat, ∀ fuel, N ≤ fuel →
      ∃ dir, calculateDistanceAndDirection ops fuel data waypoint = some (119, dir) := by
  have hmax : max (0 : ℝ) (317 / 100) = 317 / 100 := max_eq_right (by norm_num)
  have hm := haversineMeters_same ops data waypoint hsin hsqrt0 hsqrt1 hatan hsame
  have h119 : ∀ fuel, 3 ≤ fuel → metersToDistanceHand ops fuel 0 = some 119 := by
    intro fuel hfuel
    apply metersToDistanceHand_least ops fuel hfuel
    · rw [hmax, hlog]; exact logb_floor_distance.1
    · rw [hmax, hlog]; exact logb_floor_distance.2
  refine ⟨haversineA_same ops data waypoint hsin hsame, hm, h119, ?_⟩
  obtain ⟨N, hN⟩ := normalize_some (relativeBearing ops data waypoint) (2 * ops.pi)
    (by positivity)
  refine ⟨max N 3, fun fuel hf =>
    ⟨dialPosition (relativeBearing ops data waypoint) (2 * ops.pi), ?_⟩⟩
  unfold calculateDistanceAndDirection
  rw [hm, h119 fuel (le_trans (le_max_right _ _) hf),
    hN fuel (le_trans (le_max_left _ _) hf)]
  rfl

/-- Claim C26. As the comments of `calculateAltitude` state, altitude 0 m gives hand
position 40 (4:00), altitude 5000 m gives position 0 (12:00) and altitude -10000 m gives
position 60 (6:00). -/
theorem altitude_endpoints (fuel : Nat) (data : SensorData K) (hfuel : 2 ≤ fuel)
    (h : data.altitudeMeters = 0 ∨ data.altitudeMeters = 5000 ∨
      data.altitudeMeters = -10000) :
    calculateAltitude fuel data =
      some (if data.altitudeMeters = 0 then 40
            else if data.altitudeMeters = 5000 then 0 else 60) := by
  rcases h with h | h | h
  · rw [calculateAltitude_up fuel _ hfuel (by rw [h]) (by rw [h]; norm_num), h]
    norm_num
    rfl
  · rw [calculateAltitude_up fuel _ hfuel (by rw [h]; norm_num) (by rw [h]), h]
    norm_num
  · rw [calculateAltitude_down fuel _ hfuel (by rw [h]) (by rw [h]; norm_num), h]
    norm_num
    rfl

/-- Claim C27. In clock mode, for an hour up to 23 and minute and second up to 59,
`calculateTimeOfDay` gives smallHand = 2 * second, mediumHand =
floor((60 * minute + second) / 30) and bigHand =
floor((((hour - 7) * 3600 + 60 * minute + second) mod 43200) / 360); the big hand is the
same twelve hours later, and 07:00:00 gives the hands (0, 0, 0). -/
theorem clock_hands (fuel : Nat) (data : SensorData K) (hfuel : 3 ≤ fuel)
    (hh : data.hour ≤ 23) (hm : data.minute ≤ 59) (hs : data.second ≤ 59) :
    calculateTimeOfDay fuel data =
      some { bigHand := Int.toNat (((((data.hour : Int) - 7) * 3600 +
                60 * (data.minute : Int) + (data.second : Int)) % 43200) / 360),
             mediumHand := (60 * data.minute + data.second) / 30,
             smallHand := 2 * data.second } ∧
    (data.hour ≤ 11 →
      (calculateTimeOfDay fuel { data with hour := data.hour + 12 }).map Hands.bigHand =
        (calculateTimeOfDay fuel data).map Hands.bigHand) ∧
    (data.hour = 7 → data.minute = 0 → data.second = 0 →
      calculateTimeOfDay fuel data = some { bigHand := 0, mediumHand := 0, smallHand := 0 }) := by
  have e := calculateTimeOfDay_eq fuel data hfuel hh hm hs
  refine ⟨e, ?_, ?_⟩
  · intro h11
    have e2 := calculateTimeOfDay_eq fuel { data with hour := data.hour + 12 } hfuel
      (by show data.hour + 12 ≤ 23; omega) hm hs
    rw [e, e2]
    simp only [Option.map_some', Option.some.injEq]
    congr 1
    push_cast
    omega
  · intro h7 h0 h0s
    rw [e, h7, h0, h0s]
    rfl

/-- Claim C28, amended. The intensity `calculatePixelColor` gives a ring pixel for one
hand depends only on the circular distance between the pixel and the hand: it is 255 at
distance 0, 0 at every distance from 16 on, and never larger at a larger distance; it is
strictly smaller at a larger distance up to 16, except that the distances 14 and 15 both
give 1. -/
theorem pixel_intensity_decreasing (a b : Nat) (hab : a ≤ b) :
    (∀ pixel handPosition, calculatePixelColor pixel handPosition =
      pixelIntensity (distance ((pixel * NUMPOSITIONS / 16) % 256) handPosition)) ∧
    pixelIntensity 0 = 255 ∧ (16 ≤ b → pixelIntensity b = 0) ∧
    pixelIntensity b ≤ pixelIntensity a ∧
    (a < b → b ≤ 16 → ¬ (a = 14 ∧ b = 15) → pixelIntensity b < pixelIntensity a) ∧
    pixelIntensity 14 = 1 ∧ pixelIntensity 15 = 1 :=
  ⟨calculatePixelColor_eq, rfl, pixelIntensity_far b, pixelIntensity_antitone a b hab,
   pixelIntensity_strict a b, rfl, rfl⟩

end Display

namespace WaypointKeeper

/-- Claim C29. A commit made while the button is held leaves both hold counters at 0.
The release of that same hold, after any further calls while held, then counts the hold
again: after a fast commit, a release less than `slowHoldDuration` after the press
leaves fastCount = 1 and slowCount = 0; after a slow commit the release leaves
slowCount = 1 and fastCount = 0. The release comes no earlier after the press than the
committing call. -/
theorem release_after_commit (w : WaypointKeeper) (t lat lon : Nat) (mid : List Call)
    (tr latr lonr : Nat) (hp : w.buttonWasPressed = true)
    (hmid : ∀ c ∈ mid, c.pressed = true)
    (hlater : timeDiff t w.lastUpdateTime ≤ timeDiff tr w.lastUpdateTime) :
    (w.slowCommitDue t ∨ w.fastCommitDue t →
      (w.process true t lat lon).numFastHoldsMade = 0 ∧
      (w.process true t lat lon).numSlowHoldsMade = 0) ∧
    (¬ w.slowCommitDue t → w.fastCommitDue t →
      timeDiff tr w.lastUpdateTime < w.slowHoldDuration →
      (((w.process true t lat lon).run mid).process false tr latr lonr).numFastHoldsMade = 1 ∧
      (((w.process true t lat lon).run mid).process false tr latr lonr).numSlowHoldsMade = 0) ∧
    (w.slowCommitDue t →
      (((w.process true t lat lon).run mid).process false tr latr lonr).numSlowHoldsMade = 1 ∧
      (((w.process true t lat lon).run mid).process false tr latr lonr).numFastHoldsMade = 0) := by
  refine ⟨?_, ?_, ?_⟩
  · intro h
    obtain ⟨e, he⟩ := process_commit_zero w t lat lon hp h
    rw [he]
    exact ⟨rfl, rfl⟩
  · intro _ hf hshort
    exact (release_after_commit_counts w t lat lon mid tr latr lonr hp (Or.inr hf) hmid).2
      (le_trans hf.1 hlater) hshort
  · intro hs
    exact (release_after_commit_counts w t lat lon mid tr latr lonr hp (Or.inl hs) hmid).1
      (le_trans hs.1 hlater)

/-- Claim C30. `WaypointKeeper::process` writes the EEPROM only in a call where the
button is pressed now and was pressed at the previous call, and then only when a commit
is due: a slow commit writes the stored position to the slow slots and a fast commit to
the fast slots. A slow commit changes no cell outside the bytes 16 to 31 and leaves the
values of the fast slots as they were; a fast commit changes no cell outside the bytes
0 to 15 and leaves the values of the slow slots as they were. -/
theorem eeprom_written_on_commit_only (w : WaypointKeeper) (pressed : Bool)
    (t lat lon : Nat) :
    (w.process pressed t lat lon).eeprom =
      (if pressed = true ∧ w.buttonWasPressed = true then
        if w.slowCommitDue t then
          setVal (setVal w.eeprom SLOWLAT w.storedLatitude) SLOWLON w.storedLongitude
        else if w.fastCommitDue t then
          setVal (setVal w.eeprom FASTLAT w.storedLatitude) FASTLON w.storedLongitude
        else w.eeprom
      else w.eeprom) ∧
    (∀ (e : EEPROM) (x y b : Nat), b < 16 ∨ 32 ≤ b →
      (setVal (setVal e SLOWLAT x) SLOWLON y).read b = e.read b) ∧
    (∀ (e : EEPROM) (x y : Nat),
      getVal (setVal (setVal e SLOWLAT x) SLOWLON y) FASTLAT = getVal e FASTLAT ∧
      getVal (setVal (setVal e SLOWLAT x) SLOWLON y) FASTLON = getVal e FASTLON) ∧
    (∀ (e : EEPROM) (x y b : Nat), 16 ≤ b →
      (setVal (setVal e FASTLAT x) FASTLON y).read b = e.read b) ∧
    (∀ (e : EEPROM) (x y : Nat),
      getVal (setVal (setVal e FASTLAT x) FASTLON y) SLOWLAT = getVal e SLOWLAT ∧
      getVal (setVal (setVal e FASTLAT x) FASTLON y) SLOWLON = getVal e SLOWLON) := by
  refine ⟨process_eeprom w pressed t lat lon, ?_, ?_, ?_, ?_⟩
  · intro e x y b hb
    rw [read_setVal_outside _ SLOWLON y b (by simp only [SLOWLON, EEPROMSTART, DBL_SIZE]; omega),
      read_setVal_outside _ SLOWLAT x b (by simp only [SLOWLAT, EEPROMSTART, DBL_SIZE]; omega)]
  · intro e x y
    constructor
    · rw [getVal_setVal_other _ SLOWLON FASTLAT y (by decide),
        getVal_setVal_other _ SLOWLAT FASTLAT x (by decide)]
    · rw [getVal_setVal_other _ SLOWLON FASTLON y (by decide),
        getVal_setVal_other _ SLOWLAT FASTLON x (by decide)]
  · intro e x y b hb
    rw [read_setVal_outside _ FASTLON y b (by simp only [FASTLON, EEPROMSTART, DBL_SIZE]; omega),
      read_setVal_outside _ FASTLAT x b (by simp only [FASTLAT, EEPROMSTART, DBL_SIZE]; omega)]
  · intro e x y
    constructor
    · rw [getVal_setVal_other _ FASTLON SLOWLAT y (by decide),
        getVal_setVal_other _ FASTLAT SLOWLAT x (by decide)]
    · rw [getVal_setVal_other _ FASTLON SLOWLON y (by decide),
        getVal_setVal_other _ FASTLAT SLOWLON x (by decide)]

end WaypointKeeper

namespace WaypointKeeper

/-- Claim C31. A call of `process` with the button pressed now and released at the
previous call, with gap = `currentTime - lastUpdateTime`: if both hold counts are 0 the
stored position becomes the position passed and the counts stay 0; else if the gap is
below `minReleaseDuration` or above `maxReleaseDuration` both counts become 0 and the
stored position is unchanged; otherwise counts and stored position are unchanged. In all
three cases `lastUpdateTime` becomes `currentTime`, `buttonWasPressed` becomes true and
the EEPROM is unchanged. -/
theorem rising_edge_cases (w : WaypointKeeper) (t lat lon : Nat)
    (hrel : w.buttonWasPressed = false) :
    (w.numFastHoldsMade = 0 ∧ w.numSlowHoldsMade = 0 →
      (w.process true t lat lon).storedLatitude = lat ∧
      (w.process true t lat lon).storedLongitude = lon ∧
      (w.process true t lat lon).numFastHoldsMade = 0 ∧
      (w.process true t lat lon).numSlowHoldsMade = 0) ∧
    (¬ (w.numFastHoldsMade = 0 ∧ w.numSlowHoldsMade = 0) →
      (timeDiff t w.lastUpdateTime < w.minReleaseDuration ∨
        w.maxReleaseDuration < timeDiff t w.lastUpdateTime) →
      (w.process true t lat lon).numFastHoldsMade = 0 ∧
      (w.process true t lat lon).numSlowHoldsMade = 0 ∧
      (w.process true t lat lon).storedLatitude = w.storedLatitude ∧
      (w.process true t lat lon).storedLongitude = w.storedLongitude) ∧
    (¬ (w.numFastHoldsMade = 0 ∧ w.numSlowHoldsMade = 0) →
      ¬ (timeDiff t w.lastUpdateTime < w.minReleaseDuration ∨
        w.maxReleaseDuration < timeDiff t w.lastUpdateTime) →
      (w.process true t lat lon).numFastHoldsMade = w.numFastHoldsMade ∧
      (w.process true t lat lon).numSlowHoldsMade = w.numSlowHoldsMade ∧
      (w.process true t lat lon).storedLatitude = w.storedLatitude ∧
      (w.process true t lat lon).storedLongitude = w.storedLongitude) ∧
    (w.process true t lat lon).lastUpdateTime = t ∧
    (w.process true t lat lon).buttonWasPressed = true ∧
    (w.process true t lat lon).eeprom = w.eeprom := by
  cases w with
  | mk pin sLat sLon minR maxR fastD fastN slowD slowN fastM slowM last was e =>
    simp only at hrel
    subst hrel
    simp only [process, Bool.and_true, Bool.and_false, Bool.true_and, Bool.false_and,
      Bool.not_true, Bool.not_false, if_true, if_false, Bool.false_eq_true]
    refine ⟨?_, ?_, ?_, ?_, ?_, ?_⟩
    · intro h0
      rw [if_pos h0]
      exact ⟨rfl, rfl, h0.1, h0.2⟩
    · intro h0 hgap
      rw [if_neg h0, if_pos hgap]
      exact ⟨rfl, rfl, rfl, rfl⟩
    · intro h0 hgap
      rw [if_neg h0, if_neg hgap]
      exact ⟨rfl, rfl, rfl, rfl⟩
    · trivial
    · trivial
    · split
      · rfl
      · split <;> rfl

/-- Claim C32. A call of `process` with the button released now and pressed at the
previous call, with elapsed = `currentTime - lastUpdateTime`: if elapsed is at least
`slowHoldDuration` and fastCount = 0, slowCount is incremented (as a `uint8_t`, so by one
below 255) and fastCount is 0; else if elapsed is at least `fastHoldDuration` and
slowCount = 0, fastCount is incremented and slowCount is 0; otherwise both counts become
0. In every case `lastUpdateTime` becomes `currentTime`, `buttonWasPressed` becomes
false, and the stored position and the EEPROM are unchanged. -/
theorem falling_edge_cases (w : WaypointKeeper) (t lat lon : Nat)
    (hp : w.buttonWasPressed = true) :
    (w.slowHoldDuration ≤ timeDiff t w.lastUpdateTime ∧ w.numFastHoldsMade = 0 →
      (w.process false t lat lon).numSlowHoldsMade = (w.numSlowHoldsMade + 1) % 256 ∧
      (w.numSlowHoldsMade < 255 →
        (w.process false t lat lon).numSlowHoldsMade = w.numSlowHoldsMade + 1) ∧
      (w.process false t lat lon).numFastHoldsMade = 0) ∧
    (¬ (w.slowHoldDuration ≤ timeDiff t w.lastUpdateTime ∧ w.numFastHoldsMade = 0) →
      w.fastHoldDuration ≤ timeDiff t w.lastUpdateTime ∧ w.numSlowHoldsMade = 0 →
      (w.process false t lat lon).numFastHoldsMade = (w.numFastHoldsMade + 1) % 256 ∧
      (w.numFastHoldsMade < 255 →
        (w.process false t lat lon).numFastHoldsMade = w.numFastHoldsMade + 1) ∧
      (w.process false t lat lon).numSlowHoldsMade = 0) ∧
    (¬ (w.slowHoldDuration ≤ timeDiff t w.lastUpdateTime ∧ w.numFastHoldsMade = 0) →
      ¬ (w.fastHoldDuration ≤ timeDiff t w.lastUpdateTime ∧ w.numSlowHoldsMade = 0) →
      (w.process false t lat lon).numFastHoldsMade = 0 ∧
      (w.process false t lat lon).numSlowHoldsMade = 0) ∧
    (w.process false t lat lon).lastUpdateTime = t ∧
    (w.process false t lat lon).buttonWasPressed = false ∧
    (w.process false t lat lon).storedLatitude = w.storedLatitude ∧
    (w.process false t lat lon).storedLongitude = w.storedLongitude ∧
    (w.process false t lat lon).eeprom = w.eeprom := by
  cases w with
  | mk pin sLat sLon minR maxR fastD fastN slowD slowN fastM slowM last was e =>
    simp only at hp
    subst hp
    simp only [process, Bool.and_true, Bool.and_false, Bool.true_and, Bool.false_and,
      Bool.not_true, Bool.not_false, if_true, if_false, Bool.false_eq_true]
    refine ⟨?_, ?_, ?_, ?_, ?_, ?_, ?_, ?_⟩
    · intro hs
      rw [if_pos hs]
      exact ⟨rfl, fun hlt => Nat.mod_eq_of_lt (by omega), rfl⟩
    · intro hs hf
      rw [if_neg hs, if_pos hf]
      exact ⟨rfl, fun hlt => Nat.mod_eq_of_lt (by omega), rfl⟩
    · intro hs hf
      rw [if_neg hs, if_neg hf]
      exact ⟨rfl, rfl⟩
    · trivial
    · trivial
    · split
      · rfl
      · split <;> rfl
    · split
      · rfl
      · split <;> rfl
    · split
      · rfl
      · split <;> rfl

/-- Claim C33. A call of `process` with the button pressed now and at the previous
call, with elapsed = `currentTime - lastUpdateTime`: when elapsed is at least
`slowHoldDuration`, slowCount + 1 is at least `numSlowHoldsNeeded` and fastCount = 0, the
stored position is written to the slow slots and slowCount set to 0; otherwise, when
elapsed is at least `fastHoldDuration`, fastCount + 1 is at least `numFastHoldsNeeded`
and slowCount = 0, it is written to the fast slots and fastCount set to 0; otherwise the
EEPROM and both counts are unchanged. `lastUpdateTime` and the stored position are
unchanged in all cases. -/
theorem held_call_cases (w : WaypointKeeper) (t lat lon : Nat)
    (hp : w.buttonWasPressed = true) :
    (w.slowCommitDue t ↔
      (w.slowHoldDuration ≤ timeDiff t w.lastUpdateTime ∧
        w.numSlowHoldsNeeded ≤ w.numSlowHoldsMade + 1 ∧ w.numFastHoldsMade = 0)) ∧
    (w.fastCommitDue t ↔
      (w.fastHoldDuration ≤ timeDiff t w.lastUpdateTime ∧
        w.numFastHoldsNeeded ≤ w.numFastHoldsMade + 1 ∧ w.numSlowHoldsMade = 0)) ∧
    (w.slowCommitDue t →
      (w.process true t lat lon).eeprom =
        setVal (setVal w.eeprom SLOWLAT w.storedLatitude) SLOWLON w.storedLongitude ∧
      (w.process true t lat lon).numSlowHoldsMade = 0 ∧
      (w.process true t lat lon).numFastHoldsMade = w.numFastHoldsMade) ∧
    (¬ w.slowCommitDue t → w.fastCommitDue t →
      (w.process true t lat lon).eeprom =
        setVal (setVal w.eeprom FASTLAT w.storedLatitude) FASTLON w.storedLongitude ∧
      (w.process true t lat lon).numFastHoldsMade = 0 ∧
      (w.process true t lat lon).numSlowHoldsMade = w.numSlowHoldsMade) ∧
    (¬ w.slowCommitDue t → ¬ w.fastCommitDue t →
      (w.process true t lat lon).eeprom = w.eeprom ∧
      (w.process true t lat lon).numFastHoldsMade = w.numFastHoldsMade ∧
      (w.process true t lat lon).numSlowHoldsMade = w.numSlowHoldsMade) ∧
    (w.process true t lat lon).lastUpdateTime = w.lastUpdateTime ∧
    (w.process true t lat lon).storedLatitude = w.storedLatitude ∧
    (w.process true t lat lon).storedLongitude = w.storedLongitude ∧
    (w.process true t lat lon).buttonWasPressed = true := by
  cases w with
  | mk pin sLat sLon minR maxR fastD fastN slowD slowN fastM slowM last was e =>
    simp only at hp
    subst hp
    simp only [process, slowCommitDue, fastCommitDue, Bool.and_true, Bool.and_false,
      Bool.true_and, Bool.false_and, Bool.not_true, Bool.not_false, if_true, if_false,
      Bool.false_eq_true]
    refine ⟨trivial, trivial, ?_, ?_, ?_, ?_, ?_, ?_, ?_⟩
    · intro hs
      rw [if_pos hs]
      exact ⟨rfl, rfl, rfl⟩
    · intro hs hf
      rw [if_neg hs, if_pos hf]
      exact ⟨rfl, rfl, rfl⟩
    · intro hs hf
      rw [if_neg hs, if_neg hf]
      exact ⟨rfl, rfl, rfl⟩
    · split
      · rfl
      · split <;> rfl
    · split
      · rfl
      · split <;> rfl
    · split
      · rfl
      · split <;> rfl
    · trivial

/-- Claim C34. In every recogniser state reachable from the constructed state by calls
of `start` and `process`, with any button levels, times and positions, at most one of
fastCount and slowCount is non-zero. -/
theorem one_count_nonzero (w : WaypointKeeper) (h : Reachable w) :
    w.numFastHoldsMade = 0 ∨ w.numSlowHoldsMade = 0 := by
  induction h with
  | new e => exact Or.inl rfl
  | start w a b c d e f g h l _ ih =>
    obtain ⟨h1, h2⟩ := start_counts w a b c d e f g h l
    rw [h1, h2]
    exact ih
  | process w pressed t lat lon _ ih => exact process_counts w pressed t lat lon ih

end WaypointKeeper

namespace GPS

variable {F : Type}

/-- Claim C35. Stray bytes without a newline, fed at a sentence boundary, stay in the
buffer from index 0 on, and with a valid sentence that follows within the 180 characters
the buffer is complete at the last byte of the sentence and not before; its text, stray
bytes and sentence together, is checked as one sentence, the header at index 0. When
that text fails `receivedDataIsValid`, as it does whenever the first stray byte is not
`$`, the sentence is dropped: both fix records and the active index stay as they were
and the count returns to 0. The text passes `receivedDataIsValid` only if the first seven
stray bytes are `$GPRMC,` or `$GPGGA,`; the whole text is then decoded as one sentence of
that type into the inactive record, which is published if it then has both flags. -/
theorem stray_bytes_drop_sentence (ops : FloatOps F) (g : GPS F) (p s : List Nat)
    (hreach : Reachable ops g) (hcount : g.receivedDataCount = 0)
    (hp : p ≠ []) (hnl : ∀ c ∈ p, c ≠ 10) (hs : isSentence s = true)
    (hfit : p.length + s.length ≤ MAXDATACHARS) :
    (g.feedAll ops p).receivedDataCount = p.length ∧
    (g.feedAll ops p).receivedData.take p.length = p ∧
    (∀ k, k < (p ++ s).length → receivedDataIsComplete (p ++ s) k = false) ∧
    receivedDataIsComplete (p ++ s) (p ++ s).length = true ∧
    (receivedDataIsValid (p ++ s) (p ++ s).length = false →
      ((g.feedAll ops p).feedAll ops s).gpsData0 = (g.feedAll ops p).gpsData0 ∧
      ((g.feedAll ops p).feedAll ops s).gpsData1 = (g.feedAll ops p).gpsData1 ∧
      ((g.feedAll ops p).feedAll ops s).activeGPSData = (g.feedAll ops p).activeGPSData ∧
      ((g.feedAll ops p).feedAll ops s).receivedDataCount = 0) ∧
    (p.head? ≠ some 36 → receivedDataIsValid (p ++ s) (p ++ s).length = false) ∧
    (receivedDataIsValid (p ++ s) (p ++ s).length = true →
      (p.take 7 = hdrRMC ∨ p.take 7 = hdrGGA) ∧
      ∃ d : GPSData F,
        d = (if strncmpEq p hdrRMC 7 = true then
              decodeRMC ops (p ++ s)
                ((g.feedAll ops p).gpsData (g.feedAll ops p).inactiveGPSData)
             else
              decodeGGA ops (p ++ s)
                ((g.feedAll ops p).gpsData (g.feedAll ops p).inactiveGPSData)) ∧
        ((g.feedAll ops p).feedAll ops s).gpsData (g.feedAll ops p).inactiveGPSData = d ∧
        (d.hasBoth →
          ((g.feedAll ops p).feedAll ops s).activeGPSData =
            (g.feedAll ops p).inactiveGPSData ∧
          ((g.feedAll ops p).feedAll ops s).gpsData (g.feedAll ops p).activeGPSData =
            { (g.feedAll ops p).gpsData (g.feedAll ops p).activeGPSData with
              validFlags := 0 }) ∧
        (¬ d.hasBoth →
          ((g.feedAll ops p).feedAll ops s).activeGPSData =
            (g.feedAll ops p).activeGPSData ∧
          ((g.feedAll ops p).feedAll ops s).gpsData (g.feedAll ops p).activeGPSData =
            (g.feedAll ops p).gpsData (g.feedAll ops p).activeGPSData) ∧
        ((g.feedAll ops p).feedAll ops s).receivedDataCount = 0) := by
  obtain ⟨hnc, hcomp⟩ := stray_frame p s hnl hs
  have hlen := (inv_of_reachable ops g hreach).1
  obtain ⟨hsl, -, hcomps, -⟩ := isSentence_unfold s hs
  obtain ⟨h5, -, -⟩ := receivedDataIsComplete_true s _ hcomps
  have hncp : ∀ k, k ≤ p.length → receivedDataIsComplete p k = false := by
    intro k hk
    rw [← receivedDataIsComplete_append p s k hk]
    exact hnc k (by rw [List.length_append]; omega)
  have hpart := feedAll_partial ops g p hlen hcount (by omega) hncp
  have hact : (g.feedAll ops p).activeGPSData = g.activeGPSData := by rw [hpart]
  have hin : (g.feedAll ops p).inactiveGPSData = g.inactiveGPSData :=
    inactive_of_active g _ hact
  have hrec : ∀ j, (g.feedAll ops p).gpsData j = g.gpsData j :=
    gpsData_of_slots g _ (by rw [hpart]) (by rw [hpart])
  refine ⟨by rw [hpart], by rw [hpart]; simp, hnc, hcomp, ?_, ?_, ?_⟩
  · intro hbad
    obtain ⟨e0, e1, ea, ec⟩ := feedAll_invalid_frame ops g (p ++ s) hreach hcount
      (by rw [List.length_append]; exact hfit) hnc hcomp hbad
    rw [← feedAll_append, e0, e1, ea, ec, hpart]
    exact ⟨rfl, rfl, rfl, rfl⟩
  · intro hh
    apply receivedDataIsValid_head
    cases p with
    | nil => exact absurd rfl hp
    | cons a t => simpa using hh
  · intro hvalid
    obtain ⟨h7, hhdr⟩ := stray_header p s hp hs hvalid
    have hsent := isSentence_of_frame (p ++ s) (by rw [List.length_append]; exact hfit)
      hnc hcomp hvalid
    obtain ⟨d, hd, r1, r2, r3, r4⟩ := feedAll_sentence_rule ops g (p ++ s) hlen hcount hsent
    rw [strncmpEq_append p s h7] at hd
    refine ⟨hhdr, d, ?_, ?_, ?_, ?_, ?_⟩
    · rw [hin, hrec]; exact hd
    · rw [← feedAll_append, hin]; exact r1
    · rw [← feedAll_append, hin, hact, hrec]; exact r2
    · rw [← feedAll_append, hact, hrec]; exact r3
    · rw [← feedAll_append]; exact r4

end GPS

namespace Display

/-- Claim C36. For every hand position below 120 one of the 16 ring pixels has an
intensity of at least 114 for that hand. An intensity of at least 114 is the same as a
circular distance of at most 4 between the pixel and the hand, and the dial position of
pixel `p` is the floor of 7.5 * p. -/
theorem ring_never_dark (h : Nat) (hh : h < NUMPOSITIONS) :
    (∃ p, p < 16 ∧ 114 ≤ calculatePixelColor p h ∧
      distance (p * NUMPOSITIONS / 16 % 256) h ≤ 4) ∧
    (∀ p, 114 ≤ calculatePixelColor p h ↔ distance (p * NUMPOSITIONS / 16 % 256) h ≤ 4) ∧
    (∀ p, p < 16 → ((p * NUMPOSITIONS / 16 % 256 : Nat) : ℤ) = ⌊(7.5 : ℚ) * p⌋) := by
  refine ⟨?_, fun p => ?_, ?_⟩
  · have key : ∀ h, h < NUMPOSITIONS → ∃ p, p < 16 ∧ 114 ≤ calculatePixelColor p h ∧
        distance (p * NUMPOSITIONS / 16 % 256) h ≤ 4 := by decide
    exact key h hh
  · rw [calculatePixelColor_eq]
    exact pixelIntensity_bright _
  · intro p hp
    interval_cases p <;> norm_num [NUMPOSITIONS]

/-- Claim C37. For dial positions a, b below 120, `distance a b` is the smaller of
|a - b| and 120 - |a - b|; so `distance a b = distance b a`, `distance a a = 0` and
`distance a b` is at most 60. -/
theorem distance_circular (a b : Nat) (ha : a < NUMPOSITIONS) (hb : b < NUMPOSITIONS) :
    ((distance a b : Nat) : ℤ) = min |(a : ℤ) - b| (120 - |(a : ℤ) - b|) ∧
    distance a b = distance b a ∧ distance a a = 0 ∧ distance a b ≤ 60 := by
  have hd : ∀ x y : Nat, x < 120 → y < 120 →
      ((distance x y : Nat) : ℤ) = min |(x : ℤ) - y| (120 - |(x : ℤ) - y|) := by
    intro x y hx hy
    simp only [distance, NUMPOSITIONS]
    rcases abs_cases ((x : ℤ) - y) with ⟨h1, h2⟩ | ⟨h1, h2⟩ <;> rw [h1] <;> split <;> omega
  unfold NUMPOSITIONS at ha hb
  have h1 := hd a b ha hb
  have h2 := hd b a hb ha
  have h3 := hd a a ha ha
  refine ⟨h1, ?_, ?_, ?_⟩
  · rcases abs_cases ((a : ℤ) - b) with ⟨e1, _⟩ | ⟨e1, _⟩ <;>
      rcases abs_cases ((b : ℤ) - a) with ⟨e2, _⟩ | ⟨e2, _⟩ <;> rw [e1] at h1 <;>
      rw [e2] at h2 <;> omega
  · simp at h3; omega
  · rcases abs_cases ((a : ℤ) - b) with ⟨e1, _⟩ | ⟨e1, _⟩ <;> rw [e1] at h1 <;> omega

end Display

/-! ## The claims on concrete inputs -/

/-- Claim C1 on `$GPRMC,123456*60`: changing the first time digit `1` to `2` makes the
accepted sentence rejected. -/
theorem checksum_detects_byte_change_witness :
    GPS.receivedDataIsValid shortRMC 18 = true ∧
    GPS.receivedDataIsValid (shortRMC.set 7 50) 18 = false :=
  ⟨by decide,
   GPS.checksum_detects_byte_change shortRMC 18 7 50 (by decide) (by decide) (by decide)
     (by decide) (by decide) (by decide) (by decide) (by decide)⟩

/-- Claim C2 on a full position sentence followed by a full fix-quality sentence. -/
theorem rmc_then_gga_published_witness :
    isRMCSentence fullRMC = true ∧ isGGASentence fullGGA = true ∧
    (freshGPS.feedAll exactOps (fullRMC ++ fullGGA)).activeGPSData = 1 ∧
    (freshGPS.feedAll exactOps (fullRMC ++ fullGGA)).getGPSData.hasBoth ∧
    (freshGPS.feedAll exactOps (fullRMC ++ fullGGA)).getGPSData =
      decodeGGA exactOps fullGGA (decodeRMC exactOps fullRMC (GPSData.empty exactOps)) :=
  ⟨by decide, by decide,
   GPS.rmc_then_gga_published exactOps (List.replicate MAXDATACHARS 0) fullRMC fullGGA
     (by decide) (by decide) (by decide)⟩

/-- Claim C3 in the state reached by one position and one fix-quality sentence. -/
theorem getGPSData_never_partial_witness :
    GPS.Reachable exactOps (freshGPS.feedAll exactOps (shortRMC ++ shortGGA)) ∧
    ((freshGPS.feedAll exactOps (shortRMC ++ shortGGA)).getGPSData = GPSData.empty exactOps ∨
      (freshGPS.feedAll exactOps (shortRMC ++ shortGGA)).getGPSData.hasBoth) ∧
    ¬ ((freshGPS.feedAll exactOps (shortRMC ++ shortGGA)).gpsData
        (freshGPS.feedAll exactOps (shortRMC ++ shortGGA)).inactiveGPSData).hasBoth :=
  ⟨GPS.reachable_feedAll exactOps _ _ (GPS.Reachable.new _ (by decide)),
   GPS.getGPSData_never_partial exactOps _
     (GPS.reachable_feedAll exactOps _ _ (GPS.Reachable.new _ (by decide)))⟩

/-- The parser just before the last byte of a fix-quality sentence that follows a
position sentence. -/
theorem publish_rule_witness :
    GPS.receivedDataIsComplete
      (((freshGPS.feedAll exactOps (shortRMC ++ shortGGA.dropLast)).store 10).receivedData)
      (((freshGPS.feedAll exactOps (shortRMC ++ shortGGA.dropLast)).store 10).receivedDataCount)
      = true ∧
    (((freshGPS.feedAll exactOps (shortRMC ++ shortGGA.dropLast)).feed exactOps 10).activeGPSData
        ≠ (freshGPS.feedAll exactOps (shortRMC ++ shortGGA.dropLast)).activeGPSData ↔
      (GPS.decoded exactOps (freshGPS.feedAll exactOps (shortRMC ++ shortGGA.dropLast))
        10).hasBoth) :=
  ⟨by decide,
   (GPS.publish_rule exactOps (freshGPS.feedAll exactOps (shortRMC ++ shortGGA.dropLast)) 10
     (by decide)).1⟩

/-- Claim C6 as stated fails: after a second fix is published, the superseded record
still holds the time 12:34:56 of the first fix. -/
theorem superseded_record_keeps_fields :
    ((freshGPS.feedAll exactOps
        (shortRMC ++ shortGGA ++ shortGGA ++ shortRMC.dropLast)).feed exactOps 10).activeGPSData
      ≠ (freshGPS.feedAll exactOps
        (shortRMC ++ shortGGA ++ shortGGA ++ shortRMC.dropLast)).activeGPSData ∧
    (((freshGPS.feedAll exactOps
        (shortRMC ++ shortGGA ++ shortGGA ++ shortRMC.dropLast)).feed exactOps 10).gpsData
      (freshGPS.feedAll exactOps
        (shortRMC ++ shortGGA ++ shortGGA ++ shortRMC.dropLast)).activeGPSData).hour = 12 ∧
    (((freshGPS.feedAll exactOps
        (shortRMC ++ shortGGA ++ shortGGA ++ shortRMC.dropLast)).feed exactOps 10).gpsData
      (freshGPS.feedAll exactOps
        (shortRMC ++ shortGGA ++ shortGGA ++ shortRMC.dropLast)).activeGPSData).minute = 34 := by
  decide

/-- Claim C6, amended, at the second publish: the superseded record is the old active
record with its flags cleared. -/
theorem superseded_record_flags_cleared_witness :
    ((freshGPS.feedAll exactOps
        (shortRMC ++ shortGGA ++ shortGGA ++ shortRMC.dropLast)).feed exactOps 10).activeGPSData
      ≠ (freshGPS.feedAll exactOps
        (shortRMC ++ shortGGA ++ shortGGA ++ shortRMC.dropLast)).activeGPSData ∧
    ((freshGPS.feedAll exactOps
        (shortRMC ++ shortGGA ++ shortGGA ++ shortRMC.dropLast)).feed exactOps 10).gpsData
      (freshGPS.feedAll exactOps
        (shortRMC ++ shortGGA ++ shortGGA ++ shortRMC.dropLast)).activeGPSData =
    { (freshGPS.feedAll exactOps
        (shortRMC ++ shortGGA ++ shortGGA ++ shortRMC.dropLast)).gpsData
        (freshGPS.feedAll exactOps
          (shortRMC ++ shortGGA ++ shortGGA ++ shortRMC.dropLast)).activeGPSData
      with validFlags := 0 } :=
  ⟨by decide,
   GPS.superseded_record_flags_cleared exactOps
     (freshGPS.feedAll exactOps (shortRMC ++ shortGGA ++ shortGGA ++ shortRMC.dropLast)) 10
     (by decide)⟩

/-- Claim C7 on the five bytes `*00\r\n`, a completed buffer too short to be valid,
arriving after a published fix. -/
theorem invalid_sentence_dropped_witness :
    GPS.Reachable exactOps (freshGPS.feedAll exactOps (shortRMC ++ shortGGA ++ [42, 48, 48, 13])) ∧
    GPS.receivedDataIsComplete
      ((freshGPS.feedAll exactOps (shortRMC ++ shortGGA ++ [42, 48, 48, 13])).store 10).receivedData
      ((freshGPS.feedAll exactOps
        (shortRMC ++ shortGGA ++ [42, 48, 48, 13])).store 10).receivedDataCount = true ∧
    GPS.receivedDataIsValid
      ((freshGPS.feedAll exactOps (shortRMC ++ shortGGA ++ [42, 48, 48, 13])).store 10).receivedData
      ((freshGPS.feedAll exactOps
        (shortRMC ++ shortGGA ++ [42, 48, 48, 13])).store 10).receivedDataCount = false ∧
    ((freshGPS.feedAll exactOps (shortRMC ++ shortGGA ++ [42, 48, 48, 13])).feed exactOps
        10).activeGPSData =
      (freshGPS.feedAll exactOps (shortRMC ++ shortGGA ++ [42, 48, 48, 13])).activeGPSData ∧
    ((freshGPS.feedAll exactOps (shortRMC ++ shortGGA ++ [42, 48, 48, 13])).feed exactOps
        10).receivedDataCount = 0 :=
  ⟨GPS.reachable_feedAll exactOps _ _ (GPS.Reachable.new _ (by decide)),
   by decide, by decide,
   ((GPS.invalid_sentence_dropped exactOps
      (freshGPS.feedAll exactOps (shortRMC ++ shortGGA ++ [42, 48, 48, 13])) 10
      (GPS.reachable_feedAll exactOps _ _ (GPS.Reachable.new _ (by decide)))
      (by decide)).2 (by decide)).2.2.1,
   ((GPS.invalid_sentence_dropped exactOps
      (freshGPS.feedAll exactOps (shortRMC ++ shortGGA ++ [42, 48, 48, 13])) 10
      (GPS.reachable_feedAll exactOps _ _ (GPS.Reachable.new _ (by decide)))
      (by decide)).2 (by decide)).2.2.2.1⟩

/-- Claim C8 on the bytes `$GP*00\r` fed after a published fix. -/
theorem no_newline_no_publish_witness :
    GPS.Reachable exactOps (freshGPS.feedAll exactOps (shortRMC ++ shortGGA)) ∧
    (∀ c ∈ [36, 71, 80, 42, 48, 48, 13], c ≠ 10) ∧
    ((freshGPS.feedAll exactOps (shortRMC ++ shortGGA)).feedAll exactOps
        [36, 71, 80, 42, 48, 48, 13]).activeGPSData =
      (freshGPS.feedAll exactOps (shortRMC ++ shortGGA)).activeGPSData :=
  ⟨GPS.reachable_feedAll exactOps _ _ (GPS.Reachable.new _ (by decide)),
   by decide,
   (GPS.no_newline_no_publish exactOps (freshGPS.feedAll exactOps (shortRMC ++ shortGGA))
     [36, 71, 80, 42, 48, 48, 13]
     (GPS.reachable_feedAll exactOps _ _ (GPS.Reachable.new _ (by decide)))
     (by decide)).2.2.1⟩

/-- Claim C9 as stated fails for one required hold: a single hold sampled twice after
`fastHoldDuration` writes the fast slot twice (32 byte writes instead of 16). -/
theorem single_hold_commits_twice :
    (sampleKeeper 1).numFastHoldsNeeded = 1 ∧
    (sampleKeeper 1).buttonWasPressed = false ∧
    (sampleKeeper 1).numFastHoldsMade = 0 ∧ (sampleKeeper 1).numSlowHoldsMade = 0 ∧
    holdTwice.isFast (sampleKeeper 1) ∧ holdTwice.sampledPastFast (sampleKeeper 1) ∧
    ((sampleKeeper 1).run (holdCalls (sampleKeeper 1).lastUpdateTime [holdTwice])).eeprom.writes
      ≠ (WaypointKeeper.setVal (WaypointKeeper.setVal (sampleKeeper 1).eeprom FASTLAT 11)
          FASTLON 22).writes ∧
    ((sampleKeeper 1).run
      (holdCalls (sampleKeeper 1).lastUpdateTime [holdTwice])).eeprom.writes.length = 32 := by
  refine ⟨rfl, rfl, rfl, rfl, ?_, ?_, by decide, by decide⟩
  · unfold Hold.isFast; decide
  · exact ⟨{ elapsed := 500, lat := 12, lon := 23 }, by decide, by decide⟩

/-- Claim C9, amended, on the example of the specification: two holds required,
`fastHoldDuration = 500`, a gap of 100 ticks inside `[50, 2000]`. -/
theorem fast_gesture_commits_once_witness :
    ((sampleKeeper 2).run (holdCalls (sampleKeeper 2).lastUpdateTime [holdA, holdB])).eeprom =
      WaypointKeeper.setVal (WaypointKeeper.setVal (sampleKeeper 2).eeprom FASTLAT 11)
        FASTLON 22 :=
  WaypointKeeper.fast_gesture_commits_once (sampleKeeper 2) holdA [holdB] holdB
    (by decide) (by decide) (by decide) rfl rfl rfl
    (by unfold Hold.isFast; decide) (by unfold Hold.gapOk; decide) rfl
    ⟨{ elapsed := 510, lat := 34, lon := 45 }, by decide, by decide⟩

/-- Claim C10 fails on the code. In `brokenSequence` the press at (33, 44) breaks the
previous sequence and starts the one that commits, yet the fast slot receives (11, 22),
the position of the abandoned sequence. In `afterGesture` the press at (77, 88) follows
a completed gesture, yet a second commit of (11, 22) is made after that single hold. -/
theorem commit_uses_stale_position :
    WaypointKeeper.getVal ((sampleKeeper 2).run brokenSequence).eeprom FASTLAT = 11 ∧
    WaypointKeeper.getVal ((sampleKeeper 2).run brokenSequence).eeprom FASTLON = 22 ∧
    ((sampleKeeper 2).run brokenSequence).eeprom.writes.length = 16 ∧
    ((sampleKeeper 2).run (holdCalls 0 [holdA, holdB])).eeprom.writes.length = 16 ∧
    ((sampleKeeper 2).run afterGesture).eeprom.writes.length = 32 ∧
    WaypointKeeper.getVal ((sampleKeeper 2).run afterGesture).eeprom FASTLAT = 11 ∧
    WaypointKeeper.getVal ((sampleKeeper 2).run afterGesture).eeprom FASTLON = 22 := by
  decide

/-- Claim C11 on the slow-latitude slot of an erased EEPROM, with the bit pattern of the
`double` 42.0. -/
theorem getVal_after_setVal_witness :
    (4631107791820423168 : Nat) < 2 ^ 64 ∧
    WaypointKeeper.getVal (WaypointKeeper.setVal erasedEEPROM SLOWLAT 4631107791820423168)
      SLOWLAT = 4631107791820423168 ∧
    ∀ i, i < DBL_SIZE →
      (WaypointKeeper.setVal erasedEEPROM SLOWLAT 4631107791820423168).read (SLOWLAT + i) =
        valueByte 4631107791820423168 i :=
  ⟨by norm_num,
   WaypointKeeper.getVal_after_setVal erasedEEPROM SLOWLAT 4631107791820423168 (by norm_num)⟩

/-- Claim C12 for a write to the fast-latitude slot, read back from the slow-longitude
slot. -/
theorem setVal_other_slots_witness :
    FASTLAT ∈ [FASTLAT, FASTLON, SLOWLAT, SLOWLON] ∧
    SLOWLON ∈ [FASTLAT, FASTLON, SLOWLAT, SLOWLON] ∧ FASTLAT ≠ SLOWLON ∧
    WaypointKeeper.getVal (WaypointKeeper.setVal erasedEEPROM FASTLAT 42) SLOWLON =
      WaypointKeeper.getVal erasedEEPROM SLOWLON :=
  ⟨by decide, by decide, by decide,
   (WaypointKeeper.setVal_other_slots erasedEEPROM 42 FASTLAT SLOWLON (by decide) (by decide)
     (by decide)).2.2⟩

/-- Claim C13 for 100000 seconds on the twelve-hour range, two turns back. -/
theorem normalize_add_multiple_witness :
    (0 : ℚ) < 43200 ∧
    ∃ N : Nat, ∀ fuel, N ≤ fuel →
      Display.normalize fuel ((100000 : ℚ) + ((-2 : Int) : ℚ) * 43200) 43200 =
        Display.normalize fuel (100000 : ℚ) 43200 ∧
      Display.normalize fuel (100000 : ℚ) 43200 =
        some (Display.dialPosition (100000 : ℚ) 43200) :=
  ⟨by norm_num, Display.normalize_add_multiple (100000 : ℚ) 43200 (-2) (by norm_num)⟩

/-- Claim C15 as stated fails. A fix, then a fix with a void position sentence, then
another fix with the same void sentence: the record published last comes from a sentence
with status `V`, yet its latitude and longitude are those of the first fix
(48 degrees 7.038 minutes north, 11 degrees 31 minutes east), not zero. -/
theorem void_fix_keeps_old_position :
    isRMCSentence voidRMC = true ∧ statusLetter (voidRMC.take 47) = 86 ∧
    (freshGPS.feedAll exactOps
      (fullRMC ++ fullGGA ++ (voidRMC ++ fullGGA) ++ (voidRMC ++ fullGGA))).getGPSData.hour
        = 12 ∧
    (freshGPS.feedAll exactOps
      (fullRMC ++ fullGGA ++ (voidRMC ++ fullGGA) ++ (voidRMC ++ fullGGA))).getGPSData.second
        = 19 ∧
    (freshGPS.feedAll exactOps
      (fullRMC ++ fullGGA ++ (voidRMC ++ fullGGA) ++ (voidRMC ++ fullGGA))).getGPSData.latitude
        = (48 + 7038 / 60000) * (17453292519943296 / 1000000000000000000) ∧
    (freshGPS.feedAll exactOps
      (fullRMC ++ fullGGA ++ (voidRMC ++ fullGGA) ++ (voidRMC ++ fullGGA))).getGPSData.longitude
        = (11 + 31 / 60) * (17453292519943296 / 1000000000000000000) ∧
    (freshGPS.feedAll exactOps
      (fullRMC ++ fullGGA ++ (voidRMC ++ fullGGA) ++ (voidRMC ++ fullGGA))).getGPSData.latitude
        ≠ exactOps.zero := by
  have e := GPS.feedAll_three_fixes exactOps (List.replicate MAXDATACHARS 0) fullRMC fullGGA
    voidRMC fullGGA voidRMC fullGGA (by decide) (by decide) (by decide) (by decide) (by decide)
    (by decide) (by decide)
  unfold freshGPS
  rw [e]
  decide!

/-- Claim C15, amended, on the void sentence decoded into a record that holds the
latitude 1/2 and the longitude 1/4: both stay. -/
theorem void_sentence_position_witness :
    statusLetter (voidRMC.take 47) ≠ 65 ∧
    (decodeRMC exactOps voidRMC
      { GPSData.empty exactOps with latitude := 1 / 2, longitude := 1 / 4 }).latitude = 1 / 2 ∧
    (decodeRMC exactOps voidRMC
      { GPSData.empty exactOps with latitude := 1 / 2, longitude := 1 / 4 }).longitude = 1 / 4 :=
  ⟨by decide,
   GPS.void_sentence_position exactOps (voidRMC.take 47) 13 10
     { GPSData.empty exactOps with latitude := 1 / 2, longitude := 1 / 4 } (by decide)⟩

/-- Claim C16 fails on the code for the date. The sentence `$GPRMC,123456*60` has no
field after the time, so `advancePastComma` yields `NULL` at every later field. Decoded
as the position sentence of a third fix, it leaves latitude, longitude, speed and track
at zero, but day, month and year keep the date 23/03/94 of the first fix, whose record
is reused: the block reading the date has no `else` branch, unlike the blocks of the
other fields. -/
theorem missing_date_keeps_old_date :
    isRMCSentence shortRMC = true ∧
    restAfter (shortRMC.take 16) [6, 1] = none ∧
    (∀ d : GPSData ℚ, (decodeRMC exactOps shortRMC d).day = d.day ∧
      (decodeRMC exactOps shortRMC d).month = d.month ∧
      (decodeRMC exactOps shortRMC d).yearSince2000 = d.yearSince2000) ∧
    (freshGPS.feedAll exactOps
      (fullRMC ++ fullGGA ++ (shortRMC ++ shortGGA) ++ (shortRMC ++ shortGGA))).getGPSData.day
        = 23 ∧
    (freshGPS.feedAll exactOps
      (fullRMC ++ fullGGA ++ (shortRMC ++ shortGGA) ++ (shortRMC ++ shortGGA))).getGPSData.month
        = 3 ∧
    (freshGPS.feedAll exactOps
      (fullRMC ++ fullGGA ++ (shortRMC ++ shortGGA) ++
        (shortRMC ++ shortGGA))).getGPSData.yearSince2000 = 94 ∧
    (freshGPS.feedAll exactOps
      (fullRMC ++ fullGGA ++ (shortRMC ++ shortGGA) ++
        (shortRMC ++ shortGGA))).getGPSData.latitude = 0 ∧
    (freshGPS.feedAll exactOps
      (fullRMC ++ fullGGA ++ (shortRMC ++ shortGGA) ++
        (shortRMC ++ shortGGA))).getGPSData.longitude = 0 ∧
    (freshGPS.feedAll exactOps
      (fullRMC ++ fullGGA ++ (shortRMC ++ shortGGA) ++
        (shortRMC ++ shortGGA))).getGPSData.groundSpeedKnots = 0 ∧
    (freshGPS.feedAll exactOps
      (fullRMC ++ fullGGA ++ (shortRMC ++ shortGGA) ++
        (shortRMC ++ shortGGA))).getGPSData.trackAngle = 0 := by
  have e := GPS.feedAll_three_fixes exactOps (List.replicate MAXDATACHARS 0) fullRMC fullGGA
    shortRMC shortGGA shortRMC shortGGA (by decide) (by decide) (by decide) (by decide)
    (by decide) (by decide) (by decide)
  unfold freshGPS
  rw [e]
  refine ⟨by decide, by decide,
    fun d => GPS.decodeRMC_date_missing exactOps (shortRMC.take 16) 13 10 d (by decide), ?_⟩
  decide!

/-- Claim C17 on the full position sentence: 48 degrees 7.038 minutes north,
11 degrees 31 minutes east. -/
theorem active_sentence_position_witness :
    (decodeRMC exactOps fullRMC (GPSData.empty exactOps)).latitude =
      exactOps.mul (exactOps.add (exactOps.ofNat (10 * 4 + 8))
        (exactOps.div (exactOps.atof [48, 55, 46, 48, 51, 56]) exactOps.sixty))
        exactOps.degToRad ∧
    (decodeRMC exactOps fullRMC (GPSData.empty exactOps)).longitude =
      exactOps.mul (exactOps.add (exactOps.ofNat (100 * 0 + 10 * 1 + 1))
        (exactOps.div (exactOps.atof [51, 49, 46, 48, 48, 48]) exactOps.sixty))
        exactOps.degToRad :=
  GPS.active_sentence_position exactOps (GPSData.empty exactOps) exactOps_atof_field
    [49, 50, 51, 52, 53, 54, 46, 48, 48, 48] [] [48, 55, 46, 48, 51, 56] [78]
    [51, 49, 46, 48, 48, 48] [69]
    [48, 50, 50, 46, 52, 44, 48, 56, 52, 46, 52, 44, 50, 51, 48, 51, 57, 52, 44, 44, 44, 65, 42, 54, 56]
    4 8 0 1 1 13 10 (by decide) (by decide) (by decide) (by decide) (by decide)
    (by unfold isField; decide) (by unfold isField; decide) (by unfold isField; decide)
    (by unfold isField; decide) (by unfold isField; decide) (by unfold isField; decide)

/-- Claim C18 on the full position sentence: 12:34:56 on 23/03/94. -/
theorem time_and_date_decoded_witness :
    (decodeRMC exactOps fullRMC (GPSData.empty exactOps)).hour = 10 * 1 + 2 ∧
    (decodeRMC exactOps fullRMC (GPSData.empty exactOps)).minute = 10 * 3 + 4 ∧
    (decodeRMC exactOps fullRMC (GPSData.empty exactOps)).second = 10 * 5 + 6 ∧
    (decodeRMC exactOps fullRMC (GPSData.empty exactOps)).day = 10 * 2 + 3 ∧
    (decodeRMC exactOps fullRMC (GPSData.empty exactOps)).month = 10 * 0 + 3 ∧
    (decodeRMC exactOps fullRMC (GPSData.empty exactOps)).yearSince2000 = 10 * 9 + 4 :=
  GPS.time_and_date_decoded exactOps (GPSData.empty exactOps)
    [46, 48, 48, 48] [65] [52, 56, 48, 55, 46, 48, 51, 56] [78]
    [48, 49, 49, 51, 49, 46, 48, 48, 48] [69] [48, 50, 50, 46, 52]
    [48, 56, 52, 46, 52] [44, 44, 44, 65, 42, 54, 56]
    1 2 3 4 5 6 2 3 0 3 9 4 13 10
    (by decide) (by decide) (by decide) (by decide) (by decide) (by decide)
    (by decide) (by decide) (by decide) (by decide) (by decide) (by decide)
    (by unfold isField; decide) (by unfold isField; decide) (by unfold isField; decide) (by unfold isField; decide)
    (by unfold isField; decide) (by unfold isField; decide) (by unfold isField; decide) (by unfold isField; decide)

/-- Claim C19 on the full fix-quality sentence, decoded into the record left by the
full position sentence: the altitude 545.4 with unit `M`. -/
theorem fix_quality_decoded_witness :
    decodeGGA exactOps fullGGA (decodeRMC exactOps fullRMC (GPSData.empty exactOps)) =
      { decodeRMC exactOps fullRMC (GPSData.empty exactOps) with
        altitudeMeters := exactOps.toFloat (exactOps.atof [53, 52, 53, 46, 52]),
        validFlags := 3 } :=
  (GPS.fix_quality_decoded exactOps (decodeRMC exactOps fullRMC (GPSData.empty exactOps))
    exactOps_atof_field
    [49, 50, 51, 52, 53, 54, 46, 48, 48, 48] [52, 56, 48, 55, 46, 48, 51, 56] [78]
    [48, 49, 49, 51, 49, 46, 48, 48, 48] [69] [49] [48, 56] [48, 46, 57]
    [53, 52, 53, 46, 52] [77, 44, 52, 54, 46, 57, 44, 77, 44, 44, 42, 53, 51] 13 10
    (by unfold isField; decide) (by unfold isField; decide) (by unfold isField; decide) (by unfold isField; decide)
    (by unfold isField; decide) (by unfold isField; decide) (by unfold isField; decide) (by unfold isField; decide)
    (by unfold isField; decide)).1

/-- Claim C22 as stated fails in the arithmetic of the source. With the square root
rounded to the nearest `double`, the Bezier piece at a converted speed of `1000.0f`
gives 13981013/2^25 and the medium hand 19. At 539.957275390625 knots, which converts
to 1000 + 2^-14 km/h, the source returns the medium hand 19, where the same computation
in exact arithmetic returns 20; at the `float` speed 2^-14 below, which converts to
1000 - 2^-14 km/h, the source returns 19 as well. The square root taken there, of
2025 - 2^-13, is the `double` within half a spacing, 2^-48, of the real root. -/
theorem knee_hand_nineteen :
    IEEE.sqrt 2025 = 45 ∧
    IEEE.sqrt (16588799 / 8192) = 3166593392551161 / 70368744177664 ∧
    (3166593392551161 / 70368744177664 - 1 / 2 ^ 48 : ℚ) ^ 2 < 16588799 / 8192 ∧
    (16588799 / 8192 : ℚ) < (3166593392551161 / 70368744177664 + 1 / 2 ^ 48) ^ 2 ∧
    Display.Binary.speedCurve IEEE.sqrt 1000 = 13981013 / 33554432 ∧
    (∀ n, Display.Binary.normalize (n + 2)
      (IEEE.float (Display.Binary.speedCurve IEEE.sqrt 1000 - IEEE.float (25 / 100))) 1 =
        some 19) ∧
    IEEE.float (aboveKnee.groundSpeedKnots * IEEE.float (18519984 / 10000000)) =
      1000 + 1 / 16384 ∧
    IEEE.float ((aboveKnee.groundSpeedKnots - 1 / 16384) * IEEE.float (18519984 / 10000000)) =
      1000 - 1 / 16384 ∧
    (∀ n, Display.Binary.calculateSpeed IEEE.sqrt (n + 2) aboveKnee = some 19) ∧
    (∀ n, Display.calculateSpeed coarseOps (n + 2) aboveKnee = some 20) ∧
    (∀ n, Display.Binary.calculateSpeed IEEE.sqrt (n + 2)
      { aboveKnee with groundSpeedKnots := aboveKnee.groundSpeedKnots - 1 / 16384 } =
        some 19) := by
  have hb := Display.Binary.speedCurve_knee_float IEEE.sqrt (by decide!)
  refine ⟨by decide!, by decide!, by norm_num, by norm_num, hb, fun n => ?_, by decide!,
    by decide!, fun n => ?_, fun n => ?_, fun n => ?_⟩
  · rw [hb, Display.Binary.normalize_ready (n + 1) _ _ (by decide!) (by decide!)]
    decide!
  · rw [Display.Binary.calculateSpeed_curve,
      Display.Binary.speedCurve_linear IEEE.sqrt _ (by decide!),
      Display.Binary.normalize_ready (n + 1) _ _ (by decide!) (by decide!)]
    decide!
  · rw [Display.calculateSpeed_eq]
    have hc : Display.speedCurve coarseOps
        (aboveKnee.groundSpeedKnots * (18519984 / 10000000)) - 25 / 100 =
        1228800005167 / 7372800000000 := by
      unfold Display.speedCurve
      norm_num [aboveKnee]
    rw [hc, Display.normalize_unit (n + 2) _ (by omega) (by norm_num) (by norm_num)]
    norm_num
    rfl
  · rw [Display.Binary.calculateSpeed_curve,
      Display.Binary.normalize_ready (n + 1) _ _ (by decide!) (by decide!)]
    decide!

/-- Claim C22 with the real square root over the reals and the square root rounded to
the nearest `double` in the arithmetic of the source. -/
theorem speed_knee_continuous_witness :
    ∃ ops : MathOps ℝ,
      (∀ x, ops.sqrt x = Real.sqrt x) ∧ IEEE.sqrt 2025 = 45 ∧
      Display.speedCurve ops 1000 = 5 / 12 ∧
      ContinuousAt (Display.speedCurve ops) 1000 ∧
      Display.Binary.speedCurve IEEE.sqrt 1000 = 13981013 / 33554432 ∧
      Display.Binary.speedCurve IEEE.sqrt (1000 + 1 / 16384) = 13981013 / 33554432 ∧
      Display.Binary.normalize 2
        (IEEE.float (Display.Binary.speedCurve IEEE.sqrt 1000 - IEEE.float (25 / 100))) 1 =
          some 19 := by
  let ops : MathOps ℝ :=
    { pi := Real.pi, sin := Real.sin, cos := Real.cos, sqrt := Real.sqrt,
      log10 := Real.logb 10, atan2 := fun y x => Complex.arg (x + y * Complex.I) }
  have h := Display.speed_knee_continuous ops IEEE.sqrt (fun _ => rfl) (by decide!)
  exact ⟨ops, fun _ => rfl, by decide!, h.1, h.2.2.2.1, h.2.2.2.2.2.1, h.2.2.2.2.2.2.1,
    h.2.2.2.2.2.2.2.2.2.2.1 0⟩

/-- Claim C23 with the real sine, square root, logarithm and argument, for a fast
waypoint stored at the current position. -/
theorem same_point_distance_hand_witness :
    ∃ (ops : MathOps ℝ) (data : SensorData ℝ),
      ops.sin = Real.sin ∧ ops.sqrt = Real.sqrt ∧ ops.log10 = Real.logb 10 ∧
      ops.atan2 0 1 = 0 ∧ 0 < ops.pi ∧
      Display.waypointTarget data 70 = (data.latitude, data.longitude) ∧
      Display.haversineA ops data 70 = 0 ∧ Display.haversineMeters ops data 70 = 0 ∧
      Display.metersToDistanceHand ops 3 0 = some 119 := by
  let ops : MathOps ℝ :=
    { pi := Real.pi, sin := Real.sin, cos := Real.cos, sqrt := Real.sqrt,
      log10 := Real.logb 10, atan2 := fun y x => Complex.arg (x + y * Complex.I) }
  let data : SensorData ℝ :=
    { selection := 2, heading := 0, compassX := 0, compassY := 0, compassZ := 0,
      yearSince2000 := 94, month := 3, day := 23, hour := 19, minute := 34, second := 56,
      latitude := 84 / 100, longitude := 20 / 100, groundSpeedKnots := 3,
      trackAngle := 0, altitudeMeters := 0, fastWaypointLatitude := 84 / 100,
      fastWaypointLongitude := 20 / 100, slowWaypointLatitude := 0,
      slowWaypointLongitude := 0 }
  have hatan : ops.atan2 0 1 = 0 := by
    show Complex.arg (((1 : ℝ) : ℂ) + ((0 : ℝ) : ℂ) * Complex.I) = 0
    simp
  have h := Display.same_point_distance_hand ops data 70 Real.sin_zero Real.sqrt_zero
    Real.sqrt_one hatan rfl Real.pi_pos rfl
  exact ⟨ops, data, rfl, rfl, rfl, hatan, Real.pi_pos, rfl, h.1, h.2.1,
    h.2.2.1 3 (le_refl 3)⟩

/-- Claim C26 on a sample snapshot at 5000 m. -/
theorem altitude_endpoints_witness :
    ({ sampleData with altitudeMeters := 5000 } : SensorData ℚ).altitudeMeters = 5000 ∧
    Display.calculateAltitude 2 { sampleData with altitudeMeters := 5000 } =
      some (if ({ sampleData with altitudeMeters := 5000 } : SensorData ℚ).altitudeMeters = 0
            then 40
            else if ({ sampleData with altitudeMeters := 5000 } :
              SensorData ℚ).altitudeMeters = 5000 then 0 else 60) :=
  ⟨rfl,
   Display.altitude_endpoints 2 { sampleData with altitudeMeters := 5000 } (le_refl 2)
     (Or.inr (Or.inl rfl))⟩

/-- Claim C27 on the sample snapshot, 19:34:56 UTC. -/
theorem clock_hands_witness :
    sampleData.hour ≤ 23 ∧ sampleData.minute ≤ 59 ∧ sampleData.second ≤ 59 ∧
    Display.calculateTimeOfDay 3 sampleData =
      some { bigHand := Int.toNat (((((sampleData.hour : Int) - 7) * 3600 +
                60 * (sampleData.minute : Int) + (sampleData.second : Int)) % 43200) / 360),
             mediumHand := (60 * sampleData.minute + sampleData.second) / 30,
             smallHand := 2 * sampleData.second } ∧
    Int.toNat (((((sampleData.hour : Int) - 7) * 3600 +
      60 * (sampleData.minute : Int) + (sampleData.second : Int)) % 43200) / 360) = 5 ∧
    (60 * sampleData.minute + sampleData.second) / 30 = 69 ∧ 2 * sampleData.second = 112 :=
  ⟨by decide, by decide, by decide,
   (Display.clock_hands 3 sampleData (le_refl 3) (by decide) (by decide) (by decide)).1,
   by decide, by decide, by decide⟩

/-- Claim C28 as stated fails between the distances 14 and 15: pixel 0 has the same
intensity 1 for a hand at position 14 and for a hand at position 15. -/
theorem intensity_equal_at_fourteen_fifteen :
    distance ((0 * NUMPOSITIONS / 16) % 256) 14 = 14 ∧
    distance ((0 * NUMPOSITIONS / 16) % 256) 15 = 15 ∧
    Display.calculatePixelColor 0 14 = 1 ∧ Display.calculatePixelColor 0 15 = 1 ∧
    ¬ Display.calculatePixelColor 0 15 < Display.calculatePixelColor 0 14 := by
  decide

/-- Claim C28, amended, between the distances 3 and 16. -/
theorem pixel_intensity_decreasing_witness :
    (3 : Nat) ≤ 16 ∧ Display.pixelIntensity 16 = 0 ∧
    Display.pixelIntensity 16 ≤ Display.pixelIntensity 3 ∧
    Display.pixelIntensity 16 < Display.pixelIntensity 3 :=
  ⟨by decide,
   (Display.pixel_intensity_decreasing 3 16 (by decide)).2.2.1 (le_refl 16),
   (Display.pixel_intensity_decreasing 3 16 (by decide)).2.2.2.1,
   (Display.pixel_intensity_decreasing 3 16 (by decide)).2.2.2.2.1 (by decide) (le_refl 16)
     (by decide)⟩

/-- Claim C29 on the example of the specification. Fast: the second hold of a sequence
of two, pressed at 1700, commits at 2200, is sampled again at 2250 and released at 2300.
Slow: a hold pressed at 1000 commits at 6000 and is released at 6100. -/
theorem release_after_commit_witness :
    heldSecondFast.buttonWasPressed = true ∧ ¬ heldSecondFast.slowCommitDue 2200 ∧
    heldSecondFast.fastCommitDue 2200 ∧
    (((heldSecondFast.process true 2200 33 44).run
        [{ pressed := true, time := 2250, lat := 33, lon := 44 }]).process false 2300 33
        44).numFastHoldsMade = 1 ∧
    (((heldSecondFast.process true 2200 33 44).run
        [{ pressed := true, time := 2250, lat := 33, lon := 44 }]).process false 2300 33
        44).numSlowHoldsMade = 0 ∧
    heldFirstSlow.buttonWasPressed = true ∧ heldFirstSlow.slowCommitDue 6000 ∧
    (((heldFirstSlow.process true 6000 11 22).run []).process false 6100 11
        22).numSlowHoldsMade = 1 ∧
    (((heldFirstSlow.process true 6000 11 22).run []).process false 6100 11
        22).numFastHoldsMade = 0 :=
  ⟨by decide, by decide, by decide,
   ((WaypointKeeper.release_after_commit heldSecondFast 2200 33 44
      [{ pressed := true, time := 2250, lat := 33, lon := 44 }] 2300 33 44
      (by decide) (by decide) (by decide)).2.1 (by decide) (by decide) (by decide)).1,
   ((WaypointKeeper.release_after_commit heldSecondFast 2200 33 44
      [{ pressed := true, time := 2250, lat := 33, lon := 44 }] 2300 33 44
      (by decide) (by decide) (by decide)).2.1 (by decide) (by decide) (by decide)).2,
   by decide, by decide,
   ((WaypointKeeper.release_after_commit heldFirstSlow 6000 11 22 [] 6100 11 22
      (by decide) (by decide) (by decide)).2.2 (by decide)).1,
   ((WaypointKeeper.release_after_commit heldFirstSlow 6000 11 22 [] 6100 11 22
      (by decide) (by decide) (by decide)).2.2 (by decide)).2⟩

/-- Claim C35 does not hold for all stray bytes: the stray bytes `$GPRMC,C` carry no
newline, and when the sentence `$GPGGA,*7A` follows them the buffer text
`$GPRMC,C$GPGGA,*7A` has a matching header and checksum, is decoded as an RMC sentence
and changes the inactive record (its RMC flag is set and its hour becomes 120). -/
theorem stray_header_decoded :
    (∀ c ∈ strayHeader, c ≠ 10) ∧ isGGASentence shortGGA = true ∧
    strayHeader.length + shortGGA.length ≤ MAXDATACHARS ∧
    (freshGPS.feedAll exactOps strayHeader).receivedDataCount = 8 ∧
    GPS.receivedDataIsValid (strayHeader ++ shortGGA) (strayHeader ++ shortGGA).length = true ∧
    ((freshGPS.feedAll exactOps strayHeader).feedAll exactOps shortGGA).gpsData1.validFlags = 1 ∧
    (freshGPS.feedAll exactOps strayHeader).gpsData1.validFlags = 0 ∧
    ((freshGPS.feedAll exactOps strayHeader).feedAll exactOps shortGGA).gpsData1.hour = 120 ∧
    (freshGPS.feedAll exactOps strayHeader).gpsData1.hour = 0 ∧
    ((freshGPS.feedAll exactOps strayHeader).feedAll exactOps shortGGA).gpsData1 ≠
      (freshGPS.feedAll exactOps strayHeader).gpsData1 := by
  decide!

/-- Claim C35 on the stray bytes `12,` followed by the sentence `$GPGGA,*7A`, which is
dropped, and on the stray bytes `$GPRMC,C`, which begin with a header. -/
theorem stray_bytes_drop_sentence_witness :
    GPS.Reachable exactOps freshGPS ∧ freshGPS.receivedDataCount = 0 ∧
    (∀ c ∈ strayTail, c ≠ 10) ∧ isSentence shortGGA = true ∧
    strayTail.head? ≠ some 36 ∧
    (((freshGPS.feedAll exactOps strayTail).feedAll exactOps shortGGA).gpsData0 =
        (freshGPS.feedAll exactOps strayTail).gpsData0 ∧
      ((freshGPS.feedAll exactOps strayTail).feedAll exactOps shortGGA).gpsData1 =
        (freshGPS.feedAll exactOps strayTail).gpsData1 ∧
      ((freshGPS.feedAll exactOps strayTail).feedAll exactOps shortGGA).activeGPSData =
        (freshGPS.feedAll exactOps strayTail).activeGPSData ∧
      ((freshGPS.feedAll exactOps strayTail).feedAll exactOps shortGGA).receivedDataCount =
        0) ∧
    (∀ c ∈ strayHeader, c ≠ 10) ∧
    GPS.receivedDataIsValid (strayHeader ++ shortGGA) (strayHeader ++ shortGGA).length = true ∧
    (strayHeader.take 7 = hdrRMC ∨ strayHeader.take 7 = hdrGGA) :=
  ⟨GPS.Reachable.new _ (by decide), by decide, by decide, by decide, by decide,
   (GPS.stray_bytes_drop_sentence exactOps freshGPS strayTail shortGGA
      (GPS.Reachable.new _ (by decide)) (by decide) (by decide) (by decide) (by decide)
      (by decide)).2.2.2.2.1
     ((GPS.stray_bytes_drop_sentence exactOps freshGPS strayTail shortGGA
      (GPS.Reachable.new _ (by decide)) (by decide) (by decide) (by decide) (by decide)
      (by decide)).2.2.2.2.2.1 (by decide)),
   by decide, by decide,
   ((GPS.stray_bytes_drop_sentence exactOps freshGPS strayHeader shortGGA
      (GPS.Reachable.new _ (by decide)) (by decide) (by decide) (by decide) (by decide)
      (by decide)).2.2.2.2.2.2 (by decide)).1⟩

/-- Claim C31 on three presses: a first press at tick 1000 at (11, 22) with both counts
0; after one fast hold released at 1600, a press at 10000 (outside the release window)
and a press at 1700 (inside it), both at (33, 44). -/
theorem rising_edge_cases_witness :
    (sampleKeeper 2).buttonWasPressed = false ∧
    (((sampleKeeper 2).process true 1000 11 22).storedLatitude = 11 ∧
      ((sampleKeeper 2).process true 1000 11 22).storedLongitude = 22 ∧
      ((sampleKeeper 2).process true 1000 11 22).numFastHoldsMade = 0 ∧
      ((sampleKeeper 2).process true 1000 11 22).numSlowHoldsMade = 0) ∧
    releasedAfterFast.buttonWasPressed = false ∧ releasedAfterFast.numFastHoldsMade = 1 ∧
    ((releasedAfterFast.process true 10000 33 44).numFastHoldsMade = 0 ∧
      (releasedAfterFast.process true 10000 33 44).numSlowHoldsMade = 0 ∧
      (releasedAfterFast.process true 10000 33 44).storedLatitude =
        releasedAfterFast.storedLatitude ∧
      (releasedAfterFast.process true 10000 33 44).storedLongitude =
        releasedAfterFast.storedLongitude) ∧
    ((releasedAfterFast.process true 1700 33 44).numFastHoldsMade =
        releasedAfterFast.numFastHoldsMade ∧
      (releasedAfterFast.process true 1700 33 44).numSlowHoldsMade =
        releasedAfterFast.numSlowHoldsMade ∧
      (releasedAfterFast.process true 1700 33 44).storedLatitude =
        releasedAfterFast.storedLatitude ∧
      (releasedAfterFast.process true 1700 33 44).storedLongitude =
        releasedAfterFast.storedLongitude) ∧
    (releasedAfterFast.process true 1700 33 44).lastUpdateTime = 1700 :=
  ⟨by decide,
   (WaypointKeeper.rising_edge_cases (sampleKeeper 2) 1000 11 22 (by decide)).1 (by decide),
   by decide, by decide,
   (WaypointKeeper.rising_edge_cases releasedAfterFast 10000 33 44 (by decide)).2.1
     (by decide) (by decide),
   (WaypointKeeper.rising_edge_cases releasedAfterFast 1700 33 44 (by decide)).2.2.1
     (by decide) (by decide),
   (WaypointKeeper.rising_edge_cases releasedAfterFast 1700 33 44 (by decide)).2.2.2.1⟩

/-- Claim C32 on three releases of a hold pressed at tick 1000 with both counts 0: at
6100 (a slow hold), at 1600 (a fast hold) and at 1100 (too short). -/
theorem falling_edge_cases_witness :
    heldFirstSlow.buttonWasPressed = true ∧ heldFirstSlow.numSlowHoldsMade = 0 ∧
    heldFirstSlow.numFastHoldsMade = 0 ∧
    ((heldFirstSlow.process false 6100 11 22).numSlowHoldsMade =
        heldFirstSlow.numSlowHoldsMade + 1 ∧
      (heldFirstSlow.process false 6100 11 22).numFastHoldsMade = 0) ∧
    ((heldFirstSlow.process false 1600 11 22).numFastHoldsMade =
        heldFirstSlow.numFastHoldsMade + 1 ∧
      (heldFirstSlow.process false 1600 11 22).numSlowHoldsMade = 0) ∧
    ((heldFirstSlow.process false 1100 11 22).numFastHoldsMade = 0 ∧
      (heldFirstSlow.process false 1100 11 22).numSlowHoldsMade = 0) ∧
    (heldFirstSlow.process false 1100 11 22).lastUpdateTime = 1100 :=
  ⟨by decide, by decide, by decide,
   ⟨((WaypointKeeper.falling_edge_cases heldFirstSlow 6100 11 22 (by decide)).1
      (by decide)).2.1 (by decide),
    ((WaypointKeeper.falling_edge_cases heldFirstSlow 6100 11 22 (by decide)).1
      (by decide)).2.2⟩,
   ⟨((WaypointKeeper.falling_edge_cases heldFirstSlow 1600 11 22 (by decide)).2.1
      (by decide) (by decide)).2.1 (by decide),
    ((WaypointKeeper.falling_edge_cases heldFirstSlow 1600 11 22 (by decide)).2.1
      (by decide) (by decide)).2.2⟩,
   (WaypointKeeper.falling_edge_cases heldFirstSlow 1100 11 22 (by decide)).2.2.1
     (by decide) (by decide),
   (WaypointKeeper.falling_edge_cases heldFirstSlow 1100 11 22 (by decide)).2.2.2.1⟩

/-- Claim C33 on three calls while held: a hold pressed at 1000 sampled at 6000 (slow
commit) and at 1100 (nothing due), and the second hold of a fast sequence, pressed at
1700, sampled at 2200 (fast commit). -/
theorem held_call_cases_witness :
    heldFirstSlow.buttonWasPressed = true ∧ heldFirstSlow.slowCommitDue 6000 ∧
    ((heldFirstSlow.process true 6000 55 66).eeprom =
        WaypointKeeper.setVal (WaypointKeeper.setVal heldFirstSlow.eeprom SLOWLAT
          heldFirstSlow.storedLatitude) SLOWLON heldFirstSlow.storedLongitude ∧
      (heldFirstSlow.process true 6000 55 66).numSlowHoldsMade = 0 ∧
      (heldFirstSlow.process true 6000 55 66).numFastHoldsMade =
        heldFirstSlow.numFastHoldsMade) ∧
    heldSecondFast.buttonWasPressed = true ∧ ¬ heldSecondFast.slowCommitDue 2200 ∧
    heldSecondFast.fastCommitDue 2200 ∧
    ((heldSecondFast.process true 2200 55 66).eeprom =
        WaypointKeeper.setVal (WaypointKeeper.setVal heldSecondFast.eeprom FASTLAT
          heldSecondFast.storedLatitude) FASTLON heldSecondFast.storedLongitude ∧
      (heldSecondFast.process true 2200 55 66).numFastHoldsMade = 0 ∧
      (heldSecondFast.process true 2200 55 66).numSlowHoldsMade =
        heldSecondFast.numSlowHoldsMade) ∧
    ((heldFirstSlow.process true 1100 55 66).eeprom = heldFirstSlow.eeprom ∧
      (heldFirstSlow.process true 1100 55 66).numFastHoldsMade =
        heldFirstSlow.numFastHoldsMade ∧
      (heldFirstSlow.process true 1100 55 66).numSlowHoldsMade =
        heldFirstSlow.numSlowHoldsMade) ∧
    (heldFirstSlow.process true 6000 55 66).lastUpdateTime = heldFirstSlow.lastUpdateTime ∧
    (heldFirstSlow.process true 6000 55 66).storedLatitude = heldFirstSlow.storedLatitude :=
  ⟨by decide, by decide,
   (WaypointKeeper.held_call_cases heldFirstSlow 6000 55 66 (by decide)).2.2.1 (by decide),
   by decide, by decide, by decide,
   (WaypointKeeper.held_call_cases heldSecondFast 2200 55 66 (by decide)).2.2.2.1
     (by decide) (by decide),
   (WaypointKeeper.held_call_cases heldFirstSlow 1100 55 66 (by decide)).2.2.2.2.1
     (by decide) (by decide),
   (WaypointKeeper.held_call_cases heldFirstSlow 6000 55 66 (by decide)).2.2.2.2.2.1,
   (WaypointKeeper.held_call_cases heldFirstSlow 6000 55 66 (by decide)).2.2.2.2.2.2.1⟩

/-- Claim C34 on the state after one fast hold and a second press: fastCount is 1 and
slowCount is 0. -/
theorem one_count_nonzero_witness :
    WaypointKeeper.Reachable heldSecondFast ∧ heldSecondFast.numFastHoldsMade = 1 ∧
    (heldSecondFast.numFastHoldsMade = 0 ∨ heldSecondFast.numSlowHoldsMade = 0) :=
  ⟨WaypointKeeper.reachable_run _ _
     (WaypointKeeper.Reachable.start _ 2 0 50 2000 500 5000 2 1 false
       (WaypointKeeper.Reachable.new erasedEEPROM)),
   by decide,
   WaypointKeeper.one_count_nonzero heldSecondFast
     (WaypointKeeper.reachable_run _ _
       (WaypointKeeper.Reachable.start _ 2 0 50 2000 500 5000 2 1 false
         (WaypointKeeper.Reachable.new erasedEEPROM)))⟩

/-- Claim C36 on hand position 64, four positions past pixel 8 at 60 and three before
pixel 9 at 67. -/
theorem ring_never_dark_witness :
    64 < NUMPOSITIONS ∧
    ∃ p, p < 16 ∧ 114 ≤ Display.calculatePixelColor p 64 ∧
      distance (p * NUMPOSITIONS / 16 % 256) 64 ≤ 4 :=
  ⟨by decide, (Display.ring_never_dark 64 (by decide)).1⟩

/-- Claim C37 on the positions 5 and 115, ten apart across the top of the dial. -/
theorem distance_circular_witness :
    5 < NUMPOSITIONS ∧ 115 < NUMPOSITIONS ∧ distance 5 115 = 10 ∧
    distance 5 115 = distance 115 5 ∧ distance 5 5 = 0 ∧
    distance 5 115 ≤ 60 :=
  ⟨by decide, by decide, by decide, (Display.distance_circular 5 115 (by decide) (by decide)).2⟩

end pocketwatch
